import Mathlib

/-! # TASMANIAN sparse grids: `GridGlobal` and `GridWavelet`

A shallow embedding of `SparseGrids/tsgGridGlobal.cpp` and
`SparseGrids/tsgGridWavelet.cpp`, followed by theorems about it.

Conventions of the embedding.

* `double` values live in a commutative ring `R` (exact arithmetic); rounding is
  not modelled.
* `int` levels, point indexes and counts are natural numbers; signed quantities
  (Smolyak weights, level limits) are integers.  Overflow of `int` is not modelled.
* A C array read `a[i]` is `a.getD i default`; a write `a[i] = v` is `a.set i v`.
* Classes whose code lives in other files (`MultiIndexSet`, `StorageSet`,
  `OneDimensionalWrapper`, `MultiIndexManipulations`, ...) are either modelled
  from the specification (marked so) or passed as parameters.
-/

namespace TasGrid

/-! ## Data model -/

/-- Modelled from the spec: `MultiIndexSet`, an ordered set of `d`-tuples of
non-negative integers.  The flat `std::vector<int>` of the class is kept as the list
of its tuples, so `getIndex(i)` is the `i`-th tuple. -/
structure MultiIndexSet where
  num_dimensions : Nat
  indexes : List (List Nat)
deriving DecidableEq, Repr

namespace MultiIndexSet

/-- The default constructor, `MultiIndexSet()`. -/
def mk0 : MultiIndexSet := ⟨0, []⟩

/-- The constructor `MultiIndexSet(num_dimensions)`: an empty set of `d`-tuples. -/
def ofDim (d : Nat) : MultiIndexSet := ⟨d, []⟩

def getNumDimensions (s : MultiIndexSet) : Nat := s.num_dimensions

def getNumIndexes (s : MultiIndexSet) : Nat := s.indexes.length

def empty (s : MultiIndexSet) : Bool := s.indexes.isEmpty

def getIndex (s : MultiIndexSet) (i : Nat) : List Nat := s.indexes.getD i []

def missing (s : MultiIndexSet) (p : List Nat) : Bool := !(s.indexes.contains p)

def setNumDimensions (s : MultiIndexSet) (d : Nat) : MultiIndexSet := { s with num_dimensions := d }

/-- Strict lexicographic order of two tuples, the order in which a set keeps its indexes. -/
def lexLt : List Nat → List Nat → Bool
  | [], [] => false
  | [], _ :: _ => true
  | _ :: _, [] => false
  | a :: as, b :: bs => if a < b then true else if b < a then false else lexLt as bs

/-- Insertion of a tuple at its place in an ordered index list; a tuple already present is
not repeated. -/
def insertIndex (p : List Nat) : List (List Nat) → List (List Nat)
  | [] => [p]
  | x :: xs =>
    if lexLt p x then p :: x :: xs
    else if lexLt x p then x :: insertIndex p xs
    else x :: xs

/-- The ordered union of two index lists: the tuples of the second list are inserted, one
after the other, into the first. -/
def mergeIndexes (a b : List (List Nat)) : List (List Nat) :=
  b.foldl (fun acc p => insertIndex p acc) a

/-- Modelled from the spec: `addMultiIndexSet`, the union of two sets. -/
def addMultiIndexSet (s addition : MultiIndexSet) : MultiIndexSet :=
  { s with indexes := mergeIndexes s.indexes addition.indexes }

/-- Modelled from the spec: `diffSets(substract, result)`, the set difference
`this \ substract`. -/
def diffSets (s substract : MultiIndexSet) : MultiIndexSet :=
  { s with indexes := s.indexes.filter (fun p => substract.missing p) }

/-- `*std::max_element(getVector()->begin(), getVector()->end())`: the largest entry of the
flat index vector. -/
def maxElement (s : MultiIndexSet) : Nat := (s.indexes.map (fun t => t.foldl max 0)).foldl max 0

end MultiIndexSet

/-- Modelled from the spec: `StorageSet`, the 2-D array of values indexed by
(point, output), stored point after point. -/
structure StorageSet (R : Type) where
  num_outputs : Nat
  num_values : Nat
  values : List R

namespace StorageSet

variable {R : Type}

/-- The default constructor `StorageSet()`. -/
def mk0 : StorageSet R := ⟨0, 0, []⟩

/-- `resize(num_outputs, num_values)`: sets the sizes and drops the stored values. -/
def resize (_s : StorageSet R) (cnum_outputs cnum_values : Nat) : StorageSet R :=
  ⟨cnum_outputs, cnum_values, []⟩

/-- `getValues(i)`: the values from the start of row `i` on. -/
def getValues (s : StorageSet R) (i : Nat) : List R := s.values.drop (i * s.num_outputs)

/-- `setValues(vals)`: copies `num_outputs * num_values` entries of `vals`. -/
def setValues (s : StorageSet R) (vals : List R) : StorageSet R :=
  { s with values := vals.take (s.num_outputs * s.num_values) }

/-- The value table after the row of a new point `p` is put at the place that
`MultiIndexSet.insertIndex` gives `p` among the points; `m` is the length of a row. -/
def insertRow (m : Nat) (p : List Nat) (row : List R) : List (List Nat) → List R → List R
  | [], vals => vals ++ row
  | x :: xs, vals =>
    if MultiIndexSet.lexLt p x then row ++ vals
    else if MultiIndexSet.lexLt x p then vals.take m ++ insertRow m p row xs (vals.drop m)
    else vals

/-- Modelled from the spec: `addValues(old_set, new_set, new_vals)`; the rows of the new
points are added to the table, which stays aligned with the union of the two point sets. -/
def addValues (s : StorageSet R) (old_set new_set : MultiIndexSet) (new_vals : List R) : StorageSet R :=
  { s with
    num_values := s.num_values + new_set.getNumIndexes
    values := ((List.range new_set.getNumIndexes).foldl
      (fun (acc : List (List Nat) × List R) i =>
        (MultiIndexSet.insertIndex (new_set.getIndex i) acc.1,
          insertRow s.num_outputs (new_set.getIndex i)
            ((new_vals.drop (i * s.num_outputs)).take s.num_outputs) acc.1 acc.2))
      (old_set.indexes, s.values)).2 }

end StorageSet

/-- Modelled from the spec: `OneDimensionalWrapper`, the cache of nodes, quadrature
weights and per-level point counts of the 1-D rule, together with the Lagrange basis
values that `CacheLagrange` computes from it (`getLagrange level k x`). -/
structure OneDimensionalWrapper (R : Type) where
  num_levels : Nat
  getNumPoints : Nat → Nat
  getWeight : Nat → Nat → R
  getNode : Nat → R
  getLagrange : Nat → Nat → R → R

/-- Modelled from the spec: the 1-D rules that the specification and the two source
files name. -/
inductive TypeOneDRule where
  | rule_clenshawcurtis
  | rule_gausspatterson
  | rule_chebyshev
  | rule_gausslegendre
  | rule_leja
  | rule_rleja
  | rule_customtabulated
  | rule_wavelet
deriving DecidableEq, Repr

/-- The depth types named in `tsgGridGlobal.cpp`. -/
inductive TypeDepth where
  | type_level
  | type_curved
  | type_hyperbolic
  | type_tensor
  | type_iptotal
  | type_ipcurved
  | type_iphyperbolic
  | type_iptensor
  | type_qptotal
  | type_qpcurved
  | type_qphyperbolic
  | type_qptensor
deriving DecidableEq, Repr

/-- Modelled from the spec: `CustomTabulated`, a tabulated rule with its own
exactness tables. -/
structure CustomTabulated where
  num_levels : Nat
  qexact : List Int
  iexact : List Int
deriving DecidableEq, Repr

/-- The default constructor `CustomTabulated()`. -/
def CustomTabulated.mk0 : CustomTabulated := ⟨0, [], []⟩

/-- The state of a `GridGlobal` object (the dynamic construction journal is kept
separately, see `GridGlobal.getCandidateConstructionPoints`). -/
structure GridGlobal (R : Type) where
  num_dimensions : Nat
  num_outputs : Nat
  alpha : R
  beta : R
  rule : TypeOneDRule
  custom : CustomTabulated
  wrapper : OneDimensionalWrapper R
  tensors : MultiIndexSet
  active_tensors : MultiIndexSet
  active_w : List Int
  points : MultiIndexSet
  needed : MultiIndexSet
  max_levels : List Nat
  values : StorageSet R
  updated_tensors : MultiIndexSet
  updated_active_tensors : MultiIndexSet
  updated_active_w : List Int
  tensor_refs : List (List Nat)

namespace GridGlobal

variable {R : Type}

def getNumLoaded (g : GridGlobal R) : Nat :=
  if g.num_outputs = 0 then 0 else g.points.getNumIndexes

def getNumNeeded (g : GridGlobal R) : Nat := g.needed.getNumIndexes

def getNumPoints (g : GridGlobal R) : Nat :=
  if g.points.empty then g.needed.getNumIndexes else g.points.getNumIndexes

end GridGlobal

/-! ## Quadrature and interpolation weights (`GridGlobal`) -/

section Weights

variable {R : Type} [CommRing R]

/-- The loop that fills `num_oned_points` and multiplies `num_tensor_points`:
`N_0 * N_1 * ... * N_{d-1}`, starting from `N_0`. -/
def numTensorPoints (N : Nat → Nat) (d : Nat) : Nat :=
  (List.range' 1 (d - 1)).foldl (fun acc j => acc * N j) (N 0)

/-- The innermost loop of the weight assembly, for `j = d-1` down to `0`:
`w *= f(j, t % N_j); t /= N_j`, from `t = i`, `w = 1`.  Returns the final `(t, w)`. -/
def unfoldTensorIndex (f : Nat → Nat → R) (N : Nat → Nat) (d i : Nat) : Nat × R :=
  (List.range d).reverse.foldl
    (fun tw j => (tw.1 / N j, tw.2 * f j (tw.1 % N j))) (i, 1)

/-- The loop over the points of one tensor:
`weights[tensor_refs[n][i]] += tensor_weight * w` for `i < num_tensor_points`. -/
def accumulateTensor (f : Nat → Nat → R) (N : Nat → Nat) (d : Nat) (tensor_weight : R)
    (refs : List Nat) (weights : List R) : List R :=
  (List.range (numTensorPoints N d)).foldl
    (fun ws i =>
      ws.set (refs.getD i 0) (ws.getD (refs.getD i 0) 0 + tensor_weight * (unfoldTensorIndex f N d i).2))
    weights

namespace GridGlobal

/-- The levels of active tensor `n`, `active_tensors.getIndex(n)[j]`. -/
def activeLevel (g : GridGlobal R) (n j : Nat) : Nat := (g.active_tensors.getIndex n).getD j 0

/-- The array `num_oned_points` for active tensor `n`. -/
def numOnedPoints (g : GridGlobal R) (n j : Nat) : Nat := g.wrapper.getNumPoints (g.activeLevel n j)

/-- The entry `tensor_refs[n][i]`. -/
def tensorRef (g : GridGlobal R) (n i : Nat) : Nat := (g.tensor_refs.getD n []).getD i 0

/-- `GridGlobal::getQuadratureWeights`. -/
def getQuadratureWeights (g : GridGlobal R) : List R :=
  (List.range g.active_tensors.getNumIndexes).foldl
    (fun ws n =>
      accumulateTensor (fun j k => g.wrapper.getWeight (g.activeLevel n j) k) (g.numOnedPoints n)
        g.num_dimensions ((g.active_w.getD n 0 : Int) : R) (g.tensor_refs.getD n []) ws)
    (List.replicate g.getNumPoints 0)

/-- `GridGlobal::getInterpolationWeights`; `lcache.getLagrange(j, level, k)` is the
Lagrange basis value of node `k` of `level` at `x[j]`. -/
def getInterpolationWeights (g : GridGlobal R) (x : List R) : List R :=
  (List.range g.active_tensors.getNumIndexes).foldl
    (fun ws n =>
      accumulateTensor (fun j k => g.wrapper.getLagrange (g.activeLevel n j) k (x.getD j 0))
        (g.numOnedPoints n) g.num_dimensions ((g.active_w.getD n 0 : Int) : R)
        (g.tensor_refs.getD n []) ws)
    (List.replicate g.getNumPoints 0)

end GridGlobal

/-- The mixed-radix digit `k_j` of `k` for radices `N_0 .. N_{d-1}`, last dimension
fastest: `k_j = (k / prod_{j < l < d} N_l) mod N_j`. -/
def mixedRadixDigit (N : Nat → Nat) (d k j : Nat) : Nat :=
  (k / ∏ l in Finset.Ioo j d, N l) % N j

end Weights

/-! ## Concrete grids used to instantiate the theorems -/

/-- A 1-D rule table over `ℤ`: level 0 has one point of weight 2 and level `l > 0` has
`2^l + 1` points of weights 1, 4, 1, 1, ... -/
def exampleWrapper : OneDimensionalWrapper Int where
  num_levels := 3
  getNumPoints := fun l => if l = 0 then 1 else 2 ^ l + 1
  getWeight := fun l k => if l = 0 then 2 else if k = 1 then 4 else 1
  getNode := fun k => (k : Int)
  getLagrange := fun l k x => if l = 0 then 1 else x + (k : Int)

/-- A two-dimensional grid with the active tensors `(1,0)`, `(0,1)`, `(0,0)` of weights
`1, 1, -1` over five points. -/
def exampleGrid : GridGlobal Int where
  num_dimensions := 2
  num_outputs := 1
  alpha := 0
  beta := 0
  rule := TypeOneDRule.rule_clenshawcurtis
  custom := CustomTabulated.mk0
  wrapper := exampleWrapper
  tensors := ⟨2, [[0, 0], [0, 1], [1, 0]]⟩
  active_tensors := ⟨2, [[0, 0], [0, 1], [1, 0]]⟩
  active_w := [-1, 1, 1]
  points := ⟨2, [[0, 0], [0, 1], [0, 2], [1, 0], [2, 0]]⟩
  needed := MultiIndexSet.mk0
  max_levels := [1, 1]
  values := ⟨1, 5, [10, 20, 30, 40, 50]⟩
  updated_tensors := MultiIndexSet.mk0
  updated_active_tensors := MultiIndexSet.mk0
  updated_active_w := []
  tensor_refs := [[0], [0, 1, 2], [0, 3, 4]]

/-! ## Evaluation (`GridGlobal`) -/

section Evaluate

variable {R : Type} [CommRing R]

/-- `Data2D::getStrip(i)` / `getCStrip(i)` of a flat array of the given stride. -/
def getStrip (stride : Nat) (x : List R) (i : Nat) : List R := (x.drop (i * stride)).take stride

namespace GridGlobal

/-- `GridGlobal::evaluate`: `y` is zeroed, then `y[k] += w[i] * values[i][k]` for every
loaded point `i` and output `k`. -/
def evaluate (g : GridGlobal R) (x : List R) : List R :=
  (List.range g.points.getNumIndexes).foldl
    (fun y i =>
      (List.range g.num_outputs).foldl
        (fun y k =>
          y.set k (y.getD k 0 + (g.getInterpolationWeights x).getD i 0 * (g.values.getValues i).getD k 0))
        y)
    (List.replicate g.num_outputs 0)

/-- `GridGlobal::evaluateBatch`: strip `i` of `y` (stride `num_outputs`) receives
`evaluate` of strip `i` of `x` (stride `num_dimensions`); the result is the filled `y`. -/
def evaluateBatch (g : GridGlobal R) (x : List R) (num_x : Nat) : List R :=
  (List.range num_x).flatMap (fun i => g.evaluate (getStrip g.num_dimensions x i))

end GridGlobal

end Evaluate

/-! ## Collaborators of `GridGlobal` -/

/-- The functions of `OneDimensionalMeta`, `OneDimensionalWrapper`, `MultiIndexManipulations`,
`GridSequence` and the math library that `tsgGridGlobal.cpp` calls and whose code is in
other files; they are parameters of the embedding. -/
structure Externals (R : Type) where
  /-- `wrapper.load(custom, max_level, rule, alpha, beta)` -/
  wrapperLoad : CustomTabulated → Nat → TypeOneDRule → R → R → OneDimensionalWrapper R
  /-- `OneDimensionalMeta::isNonNested(rule)` -/
  isNonNested : TypeOneDRule → Bool
  /-- `OneDimensionalMeta::isSequence(rule)` -/
  isSequence : TypeOneDRule → Bool
  /-- `OneDimensionalMeta::getQExact(level, rule)` -/
  getQExact : Nat → TypeOneDRule → Int
  /-- `OneDimensionalMeta::getIExact(level, rule)` -/
  getIExact : Nat → TypeOneDRule → Int
  /-- `MultiIndexManipulations::selectTensors(depth, type, exactness, weights, tset)` -/
  selectTensors : Int → TypeDepth → (Nat → Int) → List Int → MultiIndexSet → MultiIndexSet
  /-- `MultiIndexManipulations::generateNestedPoints(tensors, getNumPoints, points)` -/
  generateNestedPoints : MultiIndexSet → (Nat → Nat) → MultiIndexSet
  /-- `MultiIndexManipulations::generateNonNestedPoints(active_tensors, wrapper, points)` -/
  generateNonNestedPoints : MultiIndexSet → OneDimensionalWrapper R → MultiIndexSet
  /-- `MultiIndexManipulations::referencePoints<nested>(levels, wrapper, work, refs)` -/
  referencePoints : Bool → List Nat → OneDimensionalWrapper R → MultiIndexSet → List Nat
  /-- `MultiIndexManipulations::selectFlaggedChildren(points, flagged, level_limits, kids)` -/
  selectFlaggedChildren : MultiIndexSet → List Bool → List Int → MultiIndexSet
  /-- `MultiIndexManipulations::completeSetToLower(set)` -/
  completeSetToLower : MultiIndexSet → MultiIndexSet
  /-- `MultiIndexManipulations::addExclusiveChildren<limited>(tensors, exclude, level_limits,
  new_tensors)` -/
  addExclusiveChildren : Bool → MultiIndexSet → MultiIndexSet → List Int → MultiIndexSet
  /-- `MultiIndexManipulations::createPolynomialSpace(active_tensors, exactness, space)` -/
  createPolynomialSpace : MultiIndexSet → (Nat → Int) → MultiIndexSet
  /-- `MultiIndexManipulations::generateLowerMultiIndexSet(criteria, set)`, `criteria` telling
  which indexes to keep -/
  generateLowerMultiIndexSet : (List Nat → Bool) → MultiIndexSet → MultiIndexSet
  /-- the surpluses of a `GridSequence` set on the points with one output and loaded with the
  values: `setPoints`, `loadNeededPoints`, `getSurpluses` -/
  sequenceSurpluses : MultiIndexSet → TypeOneDRule → List R → List R
  /-- `TableGaussPatterson::getNumLevels()` -/
  gaussPattersonNumLevels : Nat
  /-- `sqrt` -/
  sqrt : R → R

/-- The default constructor `OneDimensionalWrapper()`: nothing is cached. -/
def OneDimensionalWrapper.mk0 {R : Type} [Zero R] : OneDimensionalWrapper R :=
  ⟨0, fun _ => 0, fun _ _ => 0, fun _ => 0, fun _ _ _ => 0⟩

def CustomTabulated.getQExact (c : CustomTabulated) (level : Nat) : Int := c.qexact.getD level 0

def CustomTabulated.getIExact (c : CustomTabulated) (level : Nat) : Int := c.iexact.getD level 0

namespace MultiIndexManipulations

/-- Modelled from the spec: `removeIndexesByLimit(level_limits, set)` deletes every `t` with
`t_j > level_limits[j]` for a limit `level_limits[j] >= 0`. -/
def removeIndexesByLimit (level_limits : List Int) (s : MultiIndexSet) : MultiIndexSet :=
  { s with indexes := s.indexes.filter (fun t =>
      (List.range s.num_dimensions).all (fun j =>
        !(decide (0 ≤ level_limits.getD j (-1)) && decide (level_limits.getD j (-1) < (t.getD j 0 : Int))))) }

/-- Modelled from the spec: `getMaxIndex(set, max_levels, max_level)`; `max_levels[j]` is the
largest `t[j]` over the tuples `t` of the set and `max_level` the largest entry overall. -/
def getMaxIndex (s : MultiIndexSet) : List Nat × Nat :=
  ((List.range s.num_dimensions).map (fun j => (s.indexes.map (fun t => t.getD j 0)).foldl max 0),
    ((List.range s.num_dimensions).map
      (fun j => (s.indexes.map (fun t => t.getD j 0)).foldl max 0)).foldl max 0)

/-- The tuples of `{0,1}^d`. -/
def unitCube : Nat → List (List Nat)
  | 0 => [[]]
  | d + 1 => (unitCube d).flatMap (fun s => [0 :: s, 1 :: s])

/-- Modelled from the spec: the Smolyak coefficient of `t` in a set `T`,
`w(t) = sum_{s in {0,1}^d} (-1)^|s| [t + s in T]`. -/
def tensorWeight (T : MultiIndexSet) (t : List Nat) : Int :=
  ((unitCube T.num_dimensions).map (fun s =>
    if T.indexes.contains (List.zipWith (· + ·) t s) then (-1 : Int) ^ s.sum else 0)).sum

/-- Modelled from the spec: `computeTensorWeights(set, weights)`, the Smolyak coefficients of
the tuples of the set, in the order of the set. -/
def computeTensorWeights (T : MultiIndexSet) : List Int := T.indexes.map (tensorWeight T)

/-- Modelled from the spec: `createActiveTensors(set, weights, active)`, the order-preserving
subsequence of the tuples with a non-zero weight. -/
def createActiveTensors (T : MultiIndexSet) (weights : List Int) : MultiIndexSet :=
  ⟨T.num_dimensions, (T.indexes.zip weights).filterMap (fun tw => if tw.2 ≠ 0 then some tw.1 else none)⟩

end MultiIndexManipulations

/-! ## Construction and refinement (`GridGlobal`) -/

namespace GridGlobal

variable {R : Type}

/-- `GridGlobal::GridGlobal()` -/
def mk0 [Zero R] : GridGlobal R where
  num_dimensions := 0
  num_outputs := 0
  alpha := 0
  beta := 0
  rule := TypeOneDRule.rule_clenshawcurtis
  custom := CustomTabulated.mk0
  wrapper := OneDimensionalWrapper.mk0
  tensors := MultiIndexSet.mk0
  active_tensors := MultiIndexSet.mk0
  active_w := []
  points := MultiIndexSet.mk0
  needed := MultiIndexSet.mk0
  max_levels := []
  values := StorageSet.mk0
  updated_tensors := MultiIndexSet.mk0
  updated_active_tensors := MultiIndexSet.mk0
  updated_active_w := []
  tensor_refs := []

/-- `GridGlobal::reset` -/
def reset [Zero R] (g : GridGlobal R) (includeCustom : Bool) : GridGlobal R :=
  { g with
    tensor_refs := []
    wrapper := OneDimensionalWrapper.mk0
    tensors := MultiIndexSet.mk0
    active_tensors := MultiIndexSet.mk0
    active_w := []
    points := MultiIndexSet.mk0
    needed := MultiIndexSet.mk0
    values := StorageSet.mk0
    updated_tensors := MultiIndexSet.mk0
    updated_active_tensors := MultiIndexSet.mk0
    updated_active_w := []
    custom := if includeCustom then CustomTabulated.mk0 else g.custom
    num_dimensions := 0
    num_outputs := 0 }

/-- `GridGlobal::clearRefinement` -/
def clearRefinement (g : GridGlobal R) : GridGlobal R :=
  { g with
    needed := MultiIndexSet.mk0
    updated_tensors := MultiIndexSet.mk0
    updated_active_tensors := MultiIndexSet.mk0
    updated_active_w := [] }

/-- The depth types for which `selectTensors` uses the quadrature exactness. -/
def isQuadratureType (type : TypeDepth) : Bool :=
  type = TypeDepth.type_qptotal || type = TypeDepth.type_qptensor
    || type = TypeDepth.type_qpcurved || type = TypeDepth.type_qphyperbolic

/-- `GridGlobal::selectTensors` -/
def selectTensors (E : Externals R) (g : GridGlobal R) (depth : Int) (type : TypeDepth)
    (anisotropic_weights : List Int) (crule : TypeOneDRule) (tset : MultiIndexSet) : MultiIndexSet :=
  if type = TypeDepth.type_level || type = TypeDepth.type_tensor || type = TypeDepth.type_hyperbolic then
    E.selectTensors depth type (fun l => (l : Int)) anisotropic_weights tset
  else if crule = TypeOneDRule.rule_customtabulated then
    if isQuadratureType type then
      E.selectTensors depth type (fun l => g.custom.getQExact l) anisotropic_weights tset
    else
      E.selectTensors depth type (fun l => g.custom.getIExact l) anisotropic_weights tset
  else
    if isQuadratureType type then
      E.selectTensors depth type (fun l => E.getQExact l crule) anisotropic_weights tset
    else
      E.selectTensors depth type (fun l => E.getIExact l crule) anisotropic_weights tset

/-- `GridGlobal::recomputeTensorRefs` -/
def recomputeTensorRefs (E : Externals R) (g : GridGlobal R) (work : MultiIndexSet) : GridGlobal R :=
  { g with tensor_refs := (List.range g.active_tensors.getNumIndexes).map (fun i =>
      E.referencePoints (!E.isNonNested g.rule) (g.active_tensors.getIndex i) g.wrapper work) }

end GridGlobal

namespace GridGlobal

variable {R : Type}

/-- `GridGlobal::setTensors` -/
def setTensors [Zero R] (E : Externals R) (g : GridGlobal R) (tset : MultiIndexSet)
    (cnum_outputs : Nat) (crule : TypeOneDRule) (calpha cbeta : R) : GridGlobal R :=
  let g : GridGlobal R := g.reset false
  let g : GridGlobal R := { g with
    num_dimensions := tset.getNumDimensions
    num_outputs := cnum_outputs
    rule := crule
    alpha := calpha
    beta := cbeta
    tensors := tset }
  let g : GridGlobal R := { g with
    max_levels := (MultiIndexManipulations.getMaxIndex g.tensors).1
    wrapper := E.wrapperLoad g.custom (MultiIndexManipulations.getMaxIndex g.tensors).2 g.rule g.alpha g.beta }
  let tensors_w := MultiIndexManipulations.computeTensorWeights g.tensors
  let g : GridGlobal R := { g with
    active_tensors := MultiIndexManipulations.createActiveTensors g.tensors tensors_w
    active_w := g.active_w ++ tensors_w.filter (fun w => w ≠ 0) }
  let g : GridGlobal R := { g with
    needed := if E.isNonNested g.rule then E.generateNonNestedPoints g.active_tensors g.wrapper
      else E.generateNestedPoints g.tensors g.wrapper.getNumPoints }
  let g : GridGlobal R := g.recomputeTensorRefs E g.needed
  if g.num_outputs = 0 then
    { g with points := g.needed, needed := MultiIndexSet.mk0 }
  else
    { g with values := g.values.resize g.num_outputs g.needed.getNumIndexes }

/-- `GridGlobal::makeGrid`; `custom_file` is the rule that `custom.read(custom_filename)`
reads. -/
def makeGrid [Zero R] (E : Externals R) (g : GridGlobal R) (cnum_dimensions cnum_outputs : Nat)
    (depth : Int) (type : TypeDepth) (crule : TypeOneDRule) (anisotropic_weights : List Int)
    (calpha cbeta : R) (custom_file : CustomTabulated) (level_limits : List Int) : GridGlobal R :=
  let g : GridGlobal R := if crule = TypeOneDRule.rule_customtabulated then { g with custom := custom_file } else g
  let tset := g.selectTensors E depth type anisotropic_weights crule (MultiIndexSet.ofDim cnum_dimensions)
  let tset := if !level_limits.isEmpty then MultiIndexManipulations.removeIndexesByLimit level_limits tset
    else tset
  g.setTensors E tset cnum_outputs crule calpha cbeta

/-- `GridGlobal::proposeUpdatedTensors` -/
def proposeUpdatedTensors (E : Externals R) (g : GridGlobal R) : GridGlobal R :=
  let g : GridGlobal R := { g with wrapper := E.wrapperLoad g.custom g.updated_tensors.maxElement g.rule g.alpha g.beta }
  let updates_tensor_w := MultiIndexManipulations.computeTensorWeights g.updated_tensors
  let g : GridGlobal R := { g with
    updated_active_tensors := MultiIndexManipulations.createActiveTensors g.updated_tensors updates_tensor_w
    updated_active_w := g.updated_active_w ++ updates_tensor_w.filter (fun w => w ≠ 0) }
  let new_points := if E.isNonNested g.rule then
      E.generateNonNestedPoints g.updated_active_tensors g.wrapper
    else E.generateNestedPoints g.updated_tensors g.wrapper.getNumPoints
  { g with needed := new_points.diffSets g.points }

/-- `GridGlobal::updateGrid` -/
def updateGrid [Zero R] (E : Externals R) (g : GridGlobal R) (depth : Int) (type : TypeDepth)
    (anisotropic_weights : List Int) (level_limits : List Int) : GridGlobal R :=
  if g.num_outputs == 0 || g.points.empty then
    g.makeGrid E g.num_dimensions g.num_outputs depth type g.rule anisotropic_weights g.alpha g.beta
      CustomTabulated.mk0 level_limits
  else
    let g : GridGlobal R := g.clearRefinement
    let g : GridGlobal R := { g with updated_tensors := g.updated_tensors.setNumDimensions g.num_dimensions }
    let g : GridGlobal R := { g with
      updated_tensors := g.selectTensors E depth type anisotropic_weights g.rule g.updated_tensors }
    let g : GridGlobal R := if !level_limits.isEmpty then
        { g with updated_tensors := MultiIndexManipulations.removeIndexesByLimit level_limits g.updated_tensors }
      else g
    let new_tensors := g.updated_tensors.diffSets g.tensors
    if !new_tensors.empty then
      let g : GridGlobal R := { g with updated_tensors := g.updated_tensors.addMultiIndexSet g.tensors }
      g.proposeUpdatedTensors E
    else g

/-- `GridGlobal::acceptUpdatedTensors` -/
def acceptUpdatedTensors (E : Externals R) (g : GridGlobal R) : GridGlobal R :=
  if g.points.empty then
    { g with points := g.needed, needed := MultiIndexSet.mk0 }
  else if !g.needed.empty then
    let g : GridGlobal R := { g with
      points := g.points.addMultiIndexSet g.needed
      needed := MultiIndexSet.mk0
      tensors := g.updated_tensors
      updated_tensors := MultiIndexSet.mk0
      active_tensors := g.updated_active_tensors
      updated_active_tensors := MultiIndexSet.mk0
      active_w := g.updated_active_w
      updated_active_w := [] }
    let g : GridGlobal R := { g with max_levels := (MultiIndexManipulations.getMaxIndex g.tensors).1 }
    g.recomputeTensorRefs E g.points
  else g

/-- `GridGlobal::loadNeededPoints` -/
def loadNeededPoints (E : Externals R) (g : GridGlobal R) (vals : List R) : GridGlobal R :=
  let g : GridGlobal R := if g.points.empty || g.needed.empty then { g with values := g.values.setValues vals }
    else { g with values := g.values.addValues g.points g.needed vals }
  g.acceptUpdatedTensors E

end GridGlobal

/-! ## A concrete instance of the collaborators -/

namespace SpecModel

/-- Modelled from the spec: the points of one tensor, the product of `[0 .. n(t_j) - 1]` over
the dimensions `j`, listed with the last dimension varying fastest. -/
def tensorPoints (n : Nat → Nat) : List Nat → List (List Nat)
  | [] => [[]]
  | l :: ls => (List.range (n l)).flatMap (fun k => (tensorPoints n ls).map (fun p => k :: p))

/-- Modelled from the spec: `generateNestedPoints`, the union of the point sets of the
tensors of a set for the point counts `n`, duplicates collapsed. -/
def generateNestedPoints (tensors : MultiIndexSet) (n : Nat → Nat) : MultiIndexSet :=
  ⟨tensors.num_dimensions,
    tensors.indexes.foldl (fun acc t => MultiIndexSet.mergeIndexes acc (tensorPoints n t)) []⟩

/-- Modelled from the spec: `referencePoints` for a nested rule, the position in the point
set `work` of every point of the tensor with the given levels. -/
def referencePoints (n : Nat → Nat) (levels : List Nat) (work : MultiIndexSet) : List Nat :=
  (tensorPoints n levels).map (fun p => work.indexes.indexOf p)

/-- All tuples of length `d` with entries at most `b`. -/
def boxIndexes (b : Nat) : Nat → List (List Nat)
  | 0 => [[]]
  | d + 1 => (List.range (b + 1)).flatMap (fun k => (boxIndexes b d).map (fun p => k :: p))

/-- Modelled from the spec: `selectTensors` for the contour `sum_j w_j * g(t_j) <= depth` of
the types `level`, `iptotal` and `qptotal`, where `g` is the exactness and an empty weight
vector stands for isotropic ones; the search is over the levels up to `depth`. -/
def selectTensors (depth : Int) (exactness : Nat → Int) (weights : List Int) (tset : MultiIndexSet) :
    MultiIndexSet :=
  { tset with indexes := (boxIndexes depth.toNat tset.num_dimensions).filter (fun t =>
      decide (((List.range tset.num_dimensions).map
        (fun j => weights.getD j 1 * exactness (t.getD j 0))).sum ≤ depth)) }

/-- Modelled from the spec: `addExclusiveChildren`, the exclusive children of the tensors of a
set: the tuples `t + e_j` that are neither in the set nor in `exclude`, whose parents
`t + e_j - e_i` are all in the set, and that respect the limit of dimension `j` when limits
are in use (`-1` is no limit). -/
def addExclusiveChildren (limited : Bool) (tensors exclude : MultiIndexSet) (level_limits : List Int) :
    MultiIndexSet :=
  ⟨tensors.num_dimensions,
    MultiIndexSet.mergeIndexes []
      (tensors.indexes.flatMap (fun t =>
        (List.range tensors.num_dimensions).filterMap (fun j =>
          let kid := t.set j (t.getD j 0 + 1)
          if exclude.missing kid && tensors.missing kid
              && (List.range tensors.num_dimensions).all (fun i =>
                    decide (kid.getD i 0 = 0) || !tensors.missing (kid.set i (kid.getD i 0 - 1)))
              && (!limited || decide (level_limits.getD j (-1) = -1)
                    || decide ((kid.getD j 0 : Int) ≤ level_limits.getD j (-1)))
          then some kid else none)))⟩

end SpecModel

/-- A concrete instance of the collaborators over `ℤ` for a nested rule: total-degree tensor
selection, nested point generation and point references as the specification describes
them, the 1-D tables of `exampleWrapper`, and no refinement candidates. -/
def exampleExternals : Externals Int where
  wrapperLoad := fun _ _ _ _ _ => exampleWrapper
  isNonNested := fun _ => false
  isSequence := fun _ => false
  getQExact := fun l _ => (l : Int)
  getIExact := fun l _ => (l : Int)
  selectTensors := fun depth _ exactness weights tset => SpecModel.selectTensors depth exactness weights tset
  generateNestedPoints := SpecModel.generateNestedPoints
  generateNonNestedPoints := fun tensors w => SpecModel.generateNestedPoints tensors w.getNumPoints
  referencePoints := fun _ levels w work => SpecModel.referencePoints w.getNumPoints levels work
  selectFlaggedChildren := fun points _ _ => MultiIndexSet.ofDim points.num_dimensions
  completeSetToLower := fun s => s
  addExclusiveChildren := SpecModel.addExclusiveChildren
  createPolynomialSpace := fun tensors _ => tensors
  generateLowerMultiIndexSet := fun _ s => s
  sequenceSurpluses := fun _ _ vals => vals
  gaussPattersonNumLevels := 9
  sqrt := fun x => x

/-- The one-dimensional grid `makeGrid(1, 1, depth = 1, type_level, clenshaw-curtis)` of the
example collaborators, loaded with the values 10, 20, 30. -/
def exampleLoadedGrid : GridGlobal Int :=
  (GridGlobal.mk0.makeGrid exampleExternals 1 1 1 TypeDepth.type_level
    TypeOneDRule.rule_clenshawcurtis [] 0 0 CustomTabulated.mk0 []).loadNeededPoints
    exampleExternals [10, 20, 30]

namespace GridGlobal

variable {R : Type}

/-- The tensor set that `updateGrid` reselects at the new depth: `selectTensors` into an
empty set of `num_dimensions`-tuples, then `removeIndexesByLimit` when limits are given. -/
def reselectTensors (E : Externals R) (g : GridGlobal R) (depth : Int) (type : TypeDepth)
    (anisotropic_weights : List Int) (level_limits : List Int) : MultiIndexSet :=
  if !level_limits.isEmpty then
    MultiIndexManipulations.removeIndexesByLimit level_limits
      (g.selectTensors E depth type anisotropic_weights g.rule (MultiIndexSet.ofDim g.num_dimensions))
  else g.selectTensors E depth type anisotropic_weights g.rule (MultiIndexSet.ofDim g.num_dimensions)

/-- The point set generated from the pending tensors `updated_tensors` /
`updated_active_tensors` with the cached 1-D levels. -/
def updatedPoints (E : Externals R) (g : GridGlobal R) : MultiIndexSet :=
  if E.isNonNested g.rule then E.generateNonNestedPoints g.updated_active_tensors g.wrapper
  else E.generateNestedPoints g.updated_tensors g.wrapper.getNumPoints

end GridGlobal

/-! ## Dynamic construction (`GridGlobal`) -/

/-- The operations of the journal `DynamicConstructorDataGlobal` that the grid calls; the
class is in another file, so the journal state `J` and its operations are parameters. -/
structure JournalOps (R J : Type) where
  /-- `clearTesnors()` -/
  clearTesnors : J → J
  /-- `getInitialTensors(init_tensors)` -/
  getInitialTensors : J → MultiIndexSet
  /-- `addTensor(tensor, getNumPoints, weight)` -/
  addTensor : J → List Nat → (Nat → Nat) → R → J
  /-- `getNodesIndexes(node_indexes)`, the flattened node-index list -/
  getNodesIndexes : J → List Nat

namespace GridGlobal

variable {R : Type}

/-- `GridGlobal::mapIndexesToNodes`: `x[i * d + j] = wrapper.getNode(p_i[j])` for the
`size / d` points of the flat index list. -/
def mapIndexesToNodes (g : GridGlobal R) (indexes : List Nat) : List R :=
  (indexes.take (indexes.length / g.num_dimensions * g.num_dimensions)).map g.wrapper.getNode

/-- `GridGlobal::getCandidateConstructionPoints(getTensorWeight, x, level_limits)`; returns the
grid, the journal and the node coordinates `x`. -/
def getCandidateConstructionPoints {J : Type} (E : Externals R) (ops : JournalOps R J)
    (g : GridGlobal R) (dynamic_values : J) (getTensorWeight : List Nat → R)
    (level_limits : List Int) : GridGlobal R × J × List R :=
  let dynamic_values : J := ops.clearTesnors dynamic_values
  let init_tensors := ops.getInitialTensors dynamic_values
  let new_tensors :=
    if level_limits.isEmpty then E.addExclusiveChildren false g.tensors init_tensors level_limits
    else E.addExclusiveChildren true g.tensors init_tensors level_limits
  let g : GridGlobal R :=
    if !new_tensors.empty then
      let g : GridGlobal R := { g with max_levels := (MultiIndexManipulations.getMaxIndex new_tensors).1 }
      if (MultiIndexManipulations.getMaxIndex new_tensors).2 + 1 > g.wrapper.num_levels then
        { g with wrapper :=
            E.wrapperLoad g.custom (MultiIndexManipulations.getMaxIndex new_tensors).2 g.rule g.alpha g.beta }
      else g
    else g
  let tweights := (List.range new_tensors.getNumIndexes).map (fun i =>
    getTensorWeight (new_tensors.getIndex i))
  let dynamic_values : J := (List.range new_tensors.getNumIndexes).zip tweights |>.foldl
    (fun dv it => ops.addTensor dv (new_tensors.getIndex it.1) g.wrapper.getNumPoints it.2)
    dynamic_values
  (g, dynamic_values, g.mapIndexesToNodes (ops.getNodesIndexes dynamic_values))

end GridGlobal

/-- Modelled from the spec: a journal that keeps the submitted tensors with their weights and
point lists, the initial tensors being those of negative weight; it returns the flattened
node indexes of its tensors. -/
def exampleJournalOps : JournalOps Int (List (List Nat × Int × List (List Nat))) where
  clearTesnors := fun dv => dv.filter (fun t => decide (t.2.1 < 0))
  getInitialTensors := fun dv =>
    ⟨0, MultiIndexSet.mergeIndexes [] ((dv.filter (fun t => decide (t.2.1 < 0))).map (fun t => t.1))⟩
  addTensor := fun dv t n w => dv ++ [(t, w, SpecModel.tensorPoints n t)]
  getNodesIndexes := fun dv => (dv.flatMap (fun t => t.2.2)).flatten

/-- The two-dimensional grid `makeGrid(2, 1, depth = 2, type_level, clenshaw-curtis)` with
anisotropic weights `(1, 3)`, whose tensors are `(0,0)`, `(1,0)`, `(2,0)`, loaded with
values. -/
def exampleAnisotropicGrid : GridGlobal Int :=
  (GridGlobal.mk0.makeGrid exampleExternals 2 1 2 TypeDepth.type_level
    TypeOneDRule.rule_clenshawcurtis [1, 3] 0 0 CustomTabulated.mk0 []).loadNeededPoints
    exampleExternals [1, 2, 3, 4, 5]

/-! ## Surpluses and surplus refinement (`GridGlobal`) -/

section Surplus

variable {R : Type} [LinearOrderedCommRing R] [Div R]

/-- `GridGlobal::legendre` -/
def GridGlobal.legendre (n : Nat) (x : R) : R :=
  if n = 0 then 1
  else if n = 1 then x
  else
    ((List.range' 2 (n - 1)).foldl
      (fun (lml : R × R) (i : Nat) =>
        (lml.2, (((2 * (i : R) - 1) * x * lml.2) / (i : R)) - ((((i : R) - 1) * lml.1) / (i : R))))
      ((1 : R), x)).2

namespace GridGlobal

/-- `GridGlobal::getPolynomialSpace(interpolation, polynomial_set)` -/
def getPolynomialSpace (E : Externals R) (g : GridGlobal R) (interpolation : Bool) : MultiIndexSet :=
  if interpolation then
    if g.rule = TypeOneDRule.rule_customtabulated then
      E.createPolynomialSpace g.active_tensors (fun l => g.custom.getIExact l)
    else E.createPolynomialSpace g.active_tensors (fun l => E.getIExact l g.rule)
  else
    if g.rule = TypeOneDRule.rule_customtabulated then
      E.createPolynomialSpace g.active_tensors (fun l => g.custom.getQExact l)
    else E.createPolynomialSpace g.active_tensors (fun l => E.getQExact l g.rule)

/-- `GridGlobal::getPoints`: the nodes of `points`, or of `needed` when `points` is empty. -/
def getPoints (g : GridGlobal R) : List R :=
  if g.points.empty then g.mapIndexesToNodes g.needed.indexes.flatten
  else g.mapIndexesToNodes g.points.indexes.flatten

/-- The criterion with which `computeSurpluses` builds the quadrature tensors: the image of
the index under `q_j -> 0 if q_j = 0 else 1 + qExact(q_j - 1, rule)` is missing from the
polynomial space. -/
def quadratureCriterion (E : Externals R) (polynomial_set : MultiIndexSet) (qrule : TypeOneDRule)
    (index : List Nat) : Bool :=
  polynomial_set.missing
    (index.map (fun i => if 0 < i then (1 + E.getQExact (i - 1) qrule).toNat else 0))

/-- `GridGlobal::computeSurpluses` -/
def computeSurpluses (E : Externals R) (g : GridGlobal R) (output : Nat) (normalize : Bool) : List R :=
  let num_points := g.points.getNumIndexes
  if E.isSequence g.rule then
    let surp := (List.range num_points).map (fun i => (g.values.getValues i).getD output 0)
    let max_surp := surp.foldl (fun m s => if |s| > m then |s| else m) 0
    let surp := (E.sequenceSurpluses g.points g.rule surp).take num_points
    if normalize then surp.map (fun s => s / max_surp) else surp
  else
    let polynomial_set := g.getPolynomialSpace E true
    let quadrature_tensors := E.generateLowerMultiIndexSet
      (quadratureCriterion E polynomial_set TypeOneDRule.rule_gausspatterson)
      (MultiIndexSet.ofDim g.num_dimensions)
    let getMaxQuadLevel := quadrature_tensors.maxElement
    let QuadGrid : GridGlobal R :=
      if getMaxQuadLevel + 1 < E.gaussPattersonNumLevels then
        GridGlobal.mk0.setTensors E quadrature_tensors 0 TypeOneDRule.rule_gausspatterson 0 0
      else
        GridGlobal.mk0.setTensors E
          (E.generateLowerMultiIndexSet
            (quadratureCriterion E polynomial_set TypeOneDRule.rule_clenshawcurtis) quadrature_tensors)
          0 TypeOneDRule.rule_clenshawcurtis 0 0
    let qn := QuadGrid.getNumPoints
    let x := QuadGrid.getPoints
    let y := g.evaluateBatch x qn
    let I := (List.range qn).map (fun k => y.getD (k * g.num_outputs + output) 0)
    (List.range num_points).map (fun i =>
      let p := g.points.getIndex i
      let c := (List.range qn).foldl
        (fun c k =>
          c + (List.range g.num_dimensions).foldl
                (fun v j => v * GridGlobal.legendre (p.getD j 0) (x.getD (k * g.num_dimensions + j) 0)) 1
              * I.getD k 0)
        0
      let nrm := (List.range' 1 (g.num_dimensions - 1)).foldl
        (fun nrm j => nrm * E.sqrt ((p.getD j 0 : R) + 1 / 2)) (E.sqrt ((p.getD 0 0 : R) + 1 / 2))
      c * nrm)

/-- `GridGlobal::setSurplusRefinement`, for a grid with loaded points.  On a grid whose
`points` are empty and whose rule is not a sequence, `computeSurpluses` evaluates the
interpolant with a weight buffer of `points.getNumIndexes() = 0` entries, into which
`getInterpolationWeights` writes through `tensor_refs`: the source is then outside its
defined behaviour and this definition, in which a write past the end of a list does
nothing, says nothing about it. -/
def setSurplusRefinement (E : Externals R) (g : GridGlobal R) (tolerance : R) (output : Nat)
    (level_limits : List Int) : GridGlobal R :=
  let g : GridGlobal R := g.clearRefinement
  let surp := g.computeSurpluses E output true
  let n := g.points.getNumIndexes
  let flagged := (List.range n).map (fun i => decide (|surp.getD i 0| > tolerance))
  let kids := E.selectFlaggedChildren g.points flagged level_limits
  if kids.getNumIndexes > 0 then
    let kids := E.completeSetToLower (kids.addMultiIndexSet g.points)
    let g : GridGlobal R := { g with updated_tensors := kids }
    g.proposeUpdatedTensors E
  else g

end GridGlobal

end Surplus

/-! ## `GridWavelet`: data model -/

/-- Modelled from the spec: `rule1D`, the one-dimensional wavelet rule.  The rule depends on
its order (set by `updateOrder`), so every table takes the order first: nodes, basis
functions `eval(point, x)`, basis integrals, parent (`-1` none, `-2` every point of level 0),
children (`-1` none), level of a point and number of points of a level. -/
structure RuleWavelet (R : Type) where
  getNode : Nat → Nat → R
  eval : Nat → Nat → R → R
  getWeight : Nat → Nat → R
  getParent : Nat → Nat → Int
  getChildren : Nat → Nat → Int × Int
  getLevel : Nat → Nat → Nat
  getNumPoints : Nat → Nat → Nat

/-- Modelled from the spec: `Data2D`, a dense array of `num_strips` strips of length `stride`
stored strip after strip. -/
structure Data2D (α : Type) where
  stride : Nat
  num_strips : Nat
  vec : List α

namespace Data2D

variable {α : Type}

/-- The state after `clear()` (and of a new object): no entries. -/
def mk0 : Data2D α := ⟨0, 0, []⟩

/-- `resize(stride, num_strips)`: the vector is resized, keeping its leading entries and
filling with zeros. -/
def resize [Zero α] (a : Data2D α) (new_stride new_num_strips : Nat) : Data2D α :=
  ⟨new_stride, new_num_strips,
    a.vec.take (new_stride * new_num_strips)
      ++ List.replicate (new_stride * new_num_strips - a.vec.length) 0⟩

def getTotalEntries (a : Data2D α) : Nat := a.vec.length

def getNumStrips (a : Data2D α) : Nat := a.num_strips

/-- `getStrip(i)[j]` / `getCStrip(i)[j]` -/
def get [Zero α] (a : Data2D α) (i j : Nat) : α := a.vec.getD (i * a.stride + j) 0

/-- `getStrip(i)[j] = v` -/
def set (a : Data2D α) (i j : Nat) (v : α) : Data2D α := { a with vec := a.vec.set (i * a.stride + j) v }

end Data2D

/-- Modelled from the spec: `TasSparse::SparseMatrix`, a sparse matrix in compressed-row
storage: row `i` holds the entries `pntr[i] .. pntr[i+1] - 1` of `indx` (columns) and `vals`. -/
structure SparseMatrix (R : Type) where
  num_rows : Nat
  pntr : List Nat
  indx : List Nat
  vals : List R

namespace SparseMatrix

variable {R : Type}

/-- The default constructor `SparseMatrix()`. -/
def mk0 : SparseMatrix R := ⟨0, [], [], []⟩

def getNumRows (M : SparseMatrix R) : Nat := M.num_rows

/-- Modelled from the spec: `load(pntr, indx, vals)` from the number of entries of every row
and the per-block lists of column indexes and values; the blocks are concatenated and the
row counts are accumulated into row offsets. -/
def load (lpntr : List Nat) (lindx : List (List Nat)) (lvals : List (List R)) : SparseMatrix R :=
  ⟨lpntr.length, (List.range (lpntr.length + 1)).map (fun i => (lpntr.take i).sum),
    lindx.flatten, lvals.flatten⟩

/-- The stored entries `(column, value)` of row `i`. -/
def row (M : SparseMatrix R) (i : Nat) : List (Nat × R) :=
  ((M.indx.zip M.vals).drop (M.pntr.getD i 0)).take (M.pntr.getD (i + 1) 0 - M.pntr.getD i 0)

/-- The entry `M[i][k]` of the matrix that the storage represents. -/
def entry [AddCommMonoid R] (M : SparseMatrix R) (i k : Nat) : R :=
  (((M.row i).filter (fun e => e.1 = k)).map (fun e => e.2)).sum

/-- Row `i` of the product `M * c`. -/
def rowDot [CommRing R] (M : SparseMatrix R) (i : Nat) (c : List R) : R :=
  ((M.row i).map (fun e => e.2 * c.getD e.1 0)).sum

end SparseMatrix

/-- The collaborators of `GridWavelet` whose code is in other files: the wavelet rule, the
sparse solver `inter_matrix.solve(b, x, transposed)`, tensor selection and nested point
generation of `MultiIndexManipulations`, and the jobs `(direction, points)` of
`SplitDirections`. -/
structure WaveletExternals (R : Type) where
  rule1D : RuleWavelet R
  solve : SparseMatrix R → List R → Bool → List R
  selectTensors : Int → TypeDepth → (Nat → Int) → List Int → MultiIndexSet → MultiIndexSet
  generateNestedPoints : MultiIndexSet → (Nat → Int) → MultiIndexSet
  splitDirections : MultiIndexSet → List (Nat × List Nat)

/-- The state of a `GridWavelet` object; `rule1D_order` is the order of the member `rule1D`. -/
structure GridWavelet (R : Type) where
  rule1D_order : Nat
  num_dimensions : Nat
  num_outputs : Nat
  order : Nat
  points : MultiIndexSet
  needed : MultiIndexSet
  values : StorageSet R
  coefficients : Data2D R
  inter_matrix : SparseMatrix R

/-- The value that a 32-bit `int` holds for the result `n` of an arithmetic operation: `n`
itself when it is in the range of the type, and `n` reduced modulo `2^32` into
`-2^31 .. 2^31 - 1` otherwise. -/
def wrapInt32 (n : Int) : Int := (n + 2147483648) % 4294967296 - 2147483648

/-- The `int` expression `(1 << s) + 1` of the point-count callables of
`GridWavelet::makeGrid`; the shift and the sum are 32-bit `int` operations (for a shift of
32 bits or more, which C++ leaves undefined, the wrapped value is taken). -/
def GridWavelet.shiftPlusOne (s : Nat) : Int :=
  wrapInt32 (wrapInt32 (((1 <<< s : Nat) : Int)) + 1)

/-! ## `GridWavelet`: collocation matrix, coefficients, evaluation -/

section Wavelet

variable {R : Type} [CommRing R] [DecidableEq R]

/-- The loop `v = 1; for j: { v *= f(j); if (v == 0) break; }` over the listed dimensions,
started from `v`. -/
def productWithBreak (f : Nat → R) : List Nat → R → R
  | [], v => v
  | j :: js, v => if v * f j = 0 then v * f j else productWithBreak f js (v * f j)

namespace GridWavelet

/-- `GridWavelet::GridWavelet()` -/
def mk0 : GridWavelet R := ⟨1, 0, 0, 1, MultiIndexSet.mk0, MultiIndexSet.mk0, StorageSet.mk0,
  Data2D.mk0, SparseMatrix.mk0⟩

/-- `GridWavelet::reset` -/
def reset (g : GridWavelet R) : GridWavelet R :=
  { g with
    points := MultiIndexSet.mk0
    needed := MultiIndexSet.mk0
    values := StorageSet.mk0
    inter_matrix := SparseMatrix.mk0
    coefficients := Data2D.mk0 }

def getNumLoaded (g : GridWavelet R) : Nat := if g.num_outputs = 0 then 0 else g.points.getNumIndexes

def getNumNeeded (g : GridWavelet R) : Nat := g.needed.getNumIndexes

def getNumPoints (g : GridWavelet R) : Nat :=
  if g.points.empty then g.needed.getNumIndexes else g.points.getNumIndexes

/-- `GridWavelet::evalBasis` -/
def evalBasis (E : WaveletExternals R) (g : GridWavelet R) (p : List Nat) (x : List R) : R :=
  productWithBreak (fun i => E.rule1D.eval g.rule1D_order (p.getD i 0) (x.getD i 0))
    (List.range g.num_dimensions) 1

/-- The set that `buildInterpolationMatrix` works on. -/
def work (g : GridWavelet R) : MultiIndexSet := if g.points.empty then g.needed else g.points

/-- The node `xi` of point `i` of the work set, for a rule of the given order in `d`
dimensions. -/
def workNode (E : WaveletExternals R) (order d : Nat) (work : MultiIndexSet) (i : Nat) : List R :=
  (List.range d).map (fun j => E.rule1D.getNode order ((work.getIndex i).getD j 0))

/-- The loop over the basis functions `wi` for row `i`: the pairs `(wi, v)` pushed to the
block's `indx` and `vals`, those with `v != 0`. -/
def matrixRow (E : WaveletExternals R) (order d : Nat) (work : MultiIndexSet) (i : Nat) :
    List (Nat × R) :=
  (List.range work.getNumIndexes).filterMap (fun wi =>
    let v := productWithBreak
      (fun j => E.rule1D.eval order ((work.getIndex wi).getD j 0) ((workNode E order d work i).getD j 0))
      (List.range d) 1
    if v ≠ 0 then some (wi, v) else none)

/-- The body of the loop over the blocks `b`: rows `b * 32 .. block_end - 1` append their
entries to `indx[b]`, `vals[b]` and set `pntr[i]`. -/
def matrixBlock (E : WaveletExternals R) (order d : Nat) (work : MultiIndexSet) (num_blocks b : Nat)
    (pntr : List Nat) : List Nat × List R × List Nat :=
  (List.range' (b * 32) ((if b + 1 < num_blocks then (b + 1) * 32 else work.getNumIndexes) - b * 32)).foldl
    (fun (acc : List Nat × List R × List Nat) i =>
      (acc.1 ++ (matrixRow E order d work i).map (fun e => e.1),
        acc.2.1 ++ (matrixRow E order d work i).map (fun e => e.2),
        acc.2.2.set i (matrixRow E order d work i).length))
    ([], [], pntr)

/-- The matrix that `buildInterpolationMatrix` assembles and loads for the set `work`. -/
def collocationMatrix (E : WaveletExternals R) (order d : Nat) (work : MultiIndexSet) : SparseMatrix R :=
  let num_points := work.getNumIndexes
  let num_blocks := num_points / 32 + (if num_points % 32 = 0 then 0 else 1)
  let built := (List.range num_blocks).foldl
    (fun (acc : List (List Nat) × List (List R) × List Nat) b =>
      let blk := matrixBlock E order d work num_blocks b acc.2.2
      (acc.1.set b blk.1, acc.2.1.set b blk.2.1, blk.2.2))
    (List.replicate num_blocks [], List.replicate num_blocks [], List.replicate num_points 0)
  SparseMatrix.load built.2.2 built.1 built.2.1

/-- `GridWavelet::buildInterpolationMatrix` -/
def buildInterpolationMatrix (E : WaveletExternals R) (g : GridWavelet R) : GridWavelet R :=
  { g with inter_matrix := collocationMatrix E g.rule1D_order g.num_dimensions g.work }

/-- `GridWavelet::recomputeCoefficients` -/
def recomputeCoefficients (E : WaveletExternals R) (g : GridWavelet R) : GridWavelet R :=
  let num_points := g.points.getNumIndexes
  let g : GridWavelet R := { g with coefficients := g.coefficients.resize g.num_outputs num_points }
  let g : GridWavelet R :=
    if g.inter_matrix.getNumRows ≠ num_points then g.buildInterpolationMatrix E else g
  (List.range g.num_outputs).foldl
    (fun (g : GridWavelet R) output =>
      let b := (List.range num_points).map (fun i => (g.values.getValues i).getD output 0)
      let x := E.solve g.inter_matrix b false
      (List.range num_points).foldl
        (fun (g : GridWavelet R) i => { g with coefficients := g.coefficients.set i output (x.getD i 0) })
        g)
    g

/-- `GridWavelet::loadNeededPoints` -/
def loadNeededPoints (E : WaveletExternals R) (g : GridWavelet R) (vals : List R) : GridWavelet R :=
  let g : GridWavelet R :=
    if g.points.empty then
      { g with values := g.values.setValues vals, points := g.needed, needed := MultiIndexSet.mk0 }
    else if g.needed.empty then
      { g with values := g.values.setValues vals }
    else
      GridWavelet.buildInterpolationMatrix E
        { g with
          values := g.values.addValues g.points g.needed vals
          points := g.points.addMultiIndexSet g.needed
          needed := MultiIndexSet.mk0 }
  g.recomputeCoefficients E

/-- `GridWavelet::evaluate` -/
def evaluate (E : WaveletExternals R) (g : GridWavelet R) (x : List R) : List R :=
  let num_points := g.points.getNumIndexes
  let basis_values := (List.range num_points).map (fun i => g.evalBasis E (g.points.getIndex i) x)
  (List.range g.num_outputs).map (fun j =>
    (List.range num_points).foldl
      (fun sum i => sum + basis_values.getD i 0 * g.coefficients.get i j) 0)

/-- `GridWavelet::evaluateBatch` -/
def evaluateBatch (E : WaveletExternals R) (g : GridWavelet R) (x : List R) (num_x : Nat) : List R :=
  (List.range num_x).flatMap (fun i => g.evaluate E (getStrip g.num_dimensions x i))

/-- `GridWavelet::makeGrid` -/
def makeGrid (E : WaveletExternals R) (g : GridWavelet R) (cnum_dimensions cnum_outputs : Nat)
    (depth : Int) (corder : Nat) (level_limits : List Int) : GridWavelet R :=
  let g : GridWavelet R := g.reset
  let g : GridWavelet R := { g with
    num_dimensions := cnum_dimensions, num_outputs := cnum_outputs, order := corder,
    rule1D_order := corder }
  let tensors := E.selectTensors depth TypeDepth.type_level (fun i => (i : Int)) []
    (MultiIndexSet.ofDim g.num_dimensions)
  let tensors := if !level_limits.isEmpty then
      MultiIndexManipulations.removeIndexesByLimit level_limits tensors
    else tensors
  let g : GridWavelet R :=
    if g.order = 1 then
      { g with needed := E.generateNestedPoints tensors (fun l => GridWavelet.shiftPlusOne (l + 1)) }
    else { g with needed := E.generateNestedPoints tensors (fun l => GridWavelet.shiftPlusOne (l + 2)) }
  let g : GridWavelet R :=
    if g.num_outputs = 0 then { g with points := g.needed, needed := MultiIndexSet.mk0 }
    else { g with values := g.values.resize g.num_outputs g.needed.getNumIndexes }
  g.buildInterpolationMatrix E

/-- `GridWavelet::setNodes` -/
def setNodes (E : WaveletExternals R) (g : GridWavelet R) (nodes : MultiIndexSet)
    (cnum_outputs corder : Nat) : GridWavelet R :=
  let g : GridWavelet R := g.reset
  let g : GridWavelet R := { g with
    num_dimensions := nodes.getNumDimensions, num_outputs := cnum_outputs, order := corder,
    rule1D_order := corder }
  let g : GridWavelet R :=
    if g.num_outputs = 0 then { g with points := nodes }
    else { g with needed := nodes, values := g.values.resize g.num_outputs nodes.getNumIndexes }
  g.buildInterpolationMatrix E

/-- `GridWavelet::clearRefinement` -/
def clearRefinement (g : GridWavelet R) : GridWavelet R := { g with needed := MultiIndexSet.mk0 }

end GridWavelet

end Wavelet

/-! ## `GridWavelet`: surplus refinement -/

/-- The refinement criteria named in `tsgGridWavelet.cpp`. -/
inductive TypeRefinement where
  | refine_classic
  | refine_parents_first
  | refine_direction_selective
  | refine_fds
deriving DecidableEq, Repr

section WaveletRefinement

variable {R : Type} [LinearOrderedCommRing R] [Div R]

namespace GridWavelet

/-- `GridWavelet::getNormalization` -/
def getNormalization (g : GridWavelet R) : List R :=
  (List.range g.points.getNumIndexes).foldl
    (fun norm i =>
      (List.range g.num_outputs).foldl
        (fun norm j =>
          if norm.getD j 0 < |(g.values.getValues i).getD j 0| then
            norm.set j |(g.values.getValues i).getD j 0|
          else norm)
        norm)
    (List.replicate g.num_outputs 0)

/-- The test of the classic criterion for point `i`: the final value of `small`. -/
def classicSmall (g : GridWavelet R) (tolerance : R) (output : Int) (norm : List R) (i : Nat) : Bool :=
  if output = -1 then
    (List.range g.num_outputs).foldl
      (fun small k =>
        if small && decide (|g.coefficients.get i k| / norm.getD k 0 > tolerance) then false else small)
      true
  else !decide (|g.coefficients.get i output.toNat| / norm.getD output.toNat 0 > tolerance)

/-- The body of the loop over the jobs of `SplitDirections` in `buildUpdateMap`: the map after
the job with direction `d` and points `pnts`. -/
def directionJob (E : WaveletExternals R) (g : GridWavelet R) (tolerance : R) (output : Int)
    (norm : List R) (pmap : Data2D Nat) (d : Nat) (pnts : List Nat) : Data2D Nat :=
  let nump := pnts.length
  let active_outputs := if output = -1 then g.num_outputs else 1
  let vals := (List.range nump).flatMap (fun i =>
    if output = -1 then (g.values.getValues (pnts.getD i 0)).take g.num_outputs
    else [(g.values.getValues (pnts.getD i 0)).getD output.toNat 0])
  let pointset : MultiIndexSet :=
    ⟨g.num_dimensions, (List.range nump).map (fun i => g.points.getIndex (pnts.getD i 0))⟩
  let direction_grid := (GridWavelet.mk0.setNodes E pointset active_outputs g.order).loadNeededPoints E vals
  (List.range nump).foldl
    (fun (pmap : Data2D Nat) i =>
      let small : Bool :=
        if output = -1 then
          (List.range g.num_outputs).foldl
            (fun small k =>
              if small && decide (|g.coefficients.get (pnts.getD i 0) k| / norm.getD k 0 > tolerance)
                  && decide (|direction_grid.coefficients.get i k| / norm.getD k 0 > tolerance)
              then false else small)
            true
        else
          if decide (|g.coefficients.get (pnts.getD i 0) output.toNat| / norm.getD output.toNat 0 > tolerance)
              && decide (|direction_grid.coefficients.get i 0| / norm.getD output.toNat 0 > tolerance)
          then false else true
      pmap.set (pnts.getD i 0) d (if small then 0 else 1))
    pmap

/-- `GridWavelet::buildUpdateMap` -/
def buildUpdateMap (E : WaveletExternals R) (g : GridWavelet R) (tolerance : R)
    (criteria : TypeRefinement) (output : Int) : Data2D Nat :=
  let num_points := g.points.getNumIndexes
  let pmap : Data2D Nat := (Data2D.mk0 : Data2D Nat).resize g.num_dimensions num_points
  if tolerance = 0 then
    { pmap with vec := pmap.vec.map (fun _ => 1) }
  else
    let pmap : Data2D Nat := { pmap with vec := pmap.vec.map (fun _ => 0) }
    let norm := g.getNormalization
    if criteria = TypeRefinement.refine_classic || criteria = TypeRefinement.refine_parents_first then
      (List.range num_points).foldl
        (fun (pmap : Data2D Nat) i =>
          if !g.classicSmall tolerance output norm i then
            (List.range g.num_dimensions).foldl (fun (pmap : Data2D Nat) j => pmap.set i j 1) pmap
          else pmap)
        pmap
    else
      (E.splitDirections g.points).foldl
        (fun (pmap : Data2D Nat) job => g.directionJob E tolerance output norm pmap job.1 job.2)
        pmap

/-- `GridWavelet::addParent`; returns `added` and the destination. -/
def addParent (E : WaveletExternals R) (g : GridWavelet R) (point : List Nat) (direction : Nat)
    (destination : List (List Nat)) : Bool × List (List Nat) :=
  let dad := E.rule1D.getParent g.rule1D_order (point.getD direction 0)
  if dad = -2 then
    (List.range (E.rule1D.getNumPoints g.rule1D_order 0)).foldl
      (fun (acc : Bool × List (List Nat)) c =>
        if g.points.missing (point.set direction c) then (true, acc.2 ++ [point.set direction c])
        else acc)
      (false, destination)
  else if 0 ≤ dad then
    if g.points.missing (point.set direction dad.toNat) then
      (true, destination ++ [point.set direction dad.toNat])
    else (false, destination)
  else (false, destination)

/-- `GridWavelet::addChild` -/
def addChild (E : WaveletExternals R) (g : GridWavelet R) (point : List Nat) (direction : Nat)
    (destination : List (List Nat)) : List (List Nat) :=
  let LR := E.rule1D.getChildren g.rule1D_order (point.getD direction 0)
  let destination :=
    if LR.1 ≠ -1 && g.points.missing (point.set direction LR.1.toNat) then
      destination ++ [point.set direction LR.1.toNat]
    else destination
  if LR.2 ≠ -1 && g.points.missing (point.set direction LR.2.toNat) then
    destination ++ [point.set direction LR.2.toNat]
  else destination

/-- `GridWavelet::addChildLimited` -/
def addChildLimited (E : WaveletExternals R) (g : GridWavelet R) (point : List Nat) (direction : Nat)
    (level_limits : List Int) (destination : List (List Nat)) : List (List Nat) :=
  let LR := E.rule1D.getChildren g.rule1D_order (point.getD direction 0)
  let destination :=
    if LR.1 ≠ -1
        && (decide (level_limits.getD direction 0 = -1)
          || decide ((E.rule1D.getLevel g.rule1D_order LR.1.toNat : Int) ≤ level_limits.getD direction 0))
        && g.points.missing (point.set direction LR.1.toNat) then
      destination ++ [point.set direction LR.1.toNat]
    else destination
  if LR.2 ≠ -1
      && (decide (level_limits.getD direction 0 = -1)
        || decide ((E.rule1D.getLevel g.rule1D_order LR.2.toNat : Int) ≤ level_limits.getD direction 0))
      && g.points.missing (point.set direction LR.2.toNat) then
    destination ++ [point.set direction LR.2.toNat]
  else destination

/-- `GridWavelet::setSurplusRefinement` -/
def setSurplusRefinement (E : WaveletExternals R) (g : GridWavelet R) (tolerance : R)
    (criteria : TypeRefinement) (output : Int) (level_limits : List Int) : GridWavelet R :=
  let g : GridWavelet R := g.clearRefinement
  let pmap := g.buildUpdateMap E tolerance criteria output
  let useParents : Bool :=
    criteria = TypeRefinement.refine_fds || criteria = TypeRefinement.refine_parents_first
  let num_points := g.points.getNumIndexes
  let refined : List (List Nat) :=
    (List.range num_points).foldl
      (fun refined i =>
        (List.range g.num_dimensions).foldl
          (fun refined j =>
            if pmap.get i j = 1 then
              if useParents && (g.addParent E (g.points.getIndex i) j refined).1 then
                (g.addParent E (g.points.getIndex i) j refined).2
              else if level_limits.isEmpty then
                g.addChild E (g.points.getIndex i) j
                  (if useParents then (g.addParent E (g.points.getIndex i) j refined).2 else refined)
              else
                g.addChildLimited E (g.points.getIndex i) j level_limits
                  (if useParents then (g.addParent E (g.points.getIndex i) j refined).2 else refined)
            else refined)
          refined)
      []
  if refined.length > 0 then
    { g with needed :=
        (g.needed.setNumDimensions g.num_dimensions).addMultiIndexSet ⟨g.num_dimensions, refined⟩ }
  else g

end GridWavelet

end WaveletRefinement

/-! ## `GridWavelet`: the notions of the collocation claims -/

section WaveletNotions

variable {R : Type} [CommRing R] [DecidableEq R]

namespace GridWavelet

/-- Column `k` of the value table, `values[:,k]` over the loaded points. -/
def valuesColumn (g : GridWavelet R) (k : Nat) : List R :=
  (List.range g.points.getNumIndexes).map (fun i => (g.values.getValues i).getD k 0)

/-- The node of loaded point `i`: `rule1D.getNode(p_i[j])` in every dimension `j`. -/
def pointNode (E : WaveletExternals R) (g : GridWavelet R) (i : Nat) : List R :=
  (List.range g.num_dimensions).map (fun j => E.rule1D.getNode g.rule1D_order ((g.points.getIndex i).getD j 0))

/-- The value at the node of point `i` of the basis function of point `k`,
`prod_j psi_{p_k,j}(node_i,j)`. -/
def basisAtNode (E : WaveletExternals R) (g : GridWavelet R) (i k : Nat) : R :=
  ∏ j in Finset.range g.num_dimensions,
    E.rule1D.eval g.rule1D_order ((g.points.getIndex k).getD j 0)
      (E.rule1D.getNode g.rule1D_order ((g.points.getIndex i).getD j 0))

/-- The stored `inter_matrix` is the one that `buildInterpolationMatrix` assembles for the
current work set. -/
def MatrixCurrent (E : WaveletExternals R) (g : GridWavelet R) : Prop :=
  g.inter_matrix = GridWavelet.collocationMatrix E g.rule1D_order g.num_dimensions g.work

end GridWavelet

/-- The sparse solver is exact on the matrix `M` with `n` rows: `M * solve(M, b) = b` for every
right-hand side `b`. -/
def SolverExact (E : WaveletExternals R) (M : SparseMatrix R) (n : Nat) : Prop :=
  ∀ (b : List R) (i : Nat), i < n → M.rowDot i (E.solve M b false) = b.getD i 0

end WaveletNotions

/-! ## A concrete wavelet grid -/

/-- A wavelet rule over `ℤ` whose basis function of point `p` is `1` at the node `p` and `0`
at every other point, with the nodes `0, 1, 2, ...`. -/
def exampleRuleWavelet : RuleWavelet Int where
  getNode := fun _ p => (p : Int)
  eval := fun _ p x => if x = (p : Int) then 1 else 0
  getWeight := fun _ _ => 1
  getParent := fun _ p => if p = 0 then -1 else (p : Int) - 1
  getChildren := fun _ p => ((p : Int) + 1, -1)
  getLevel := fun _ p => p
  getNumPoints := fun _ l => l + 1

/-- Collaborators of the wavelet grid over `ℤ`: the rule `exampleRuleWavelet`, total-degree
selection and nested points as in the specification, and a solver that returns the
right-hand side (exact for the identity matrix that this rule gives). -/
def exampleWaveletExternals : WaveletExternals Int where
  rule1D := exampleRuleWavelet
  solve := fun _ b _ => b
  selectTensors := fun depth _ exactness weights tset => SpecModel.selectTensors depth exactness weights tset
  generateNestedPoints := fun tensors n => SpecModel.generateNestedPoints tensors (fun l => (n l).toNat)
  splitDirections := fun _ => []

/-- The wavelet grid `makeGrid(1, 1, depth = 0, order = 1)` of the example collaborators: one
dimension, one output, the three points of level 0 awaiting values. -/
def exampleWaveletGrid : GridWavelet Int :=
  GridWavelet.mk0.makeGrid exampleWaveletExternals 1 1 0 1 []

/-! ## Persistence: streams and the external readers and writers -/

/-- An item of a stream.  In a text stream the items are the whitespace-separated numbers and
words; in a binary stream they are the fixed-width integers, the doubles and the flag bytes.
The last three constructors stand for the block that an external writer (`MultiIndexSet`,
`StorageSet`, `CustomTabulated`) may emit as a whole. -/
inductive Token (R : Type) where
  | int (n : Int)
  | real (x : R)
  | str (s : String)
  | chr (c : Char)
  | indexBlock (s : MultiIndexSet)
  | valueBlock (v : StorageSet R)
  | customBlock (c : CustomTabulated)

/-- An external writer with its reader: `write` gives the items the object is written as and
`read` consumes them from the front of a stream. -/
structure Codec (R α : Type) where
  write : α → List (Token R)
  read : List (Token R) → Option (α × List (Token R))

/-- The reader gives back what the writer wrote, up to the map `f` (the identity for an exact
format), and leaves the rest of the stream. -/
def Codec.RoundTrips {R α : Type} (c : Codec R α) (f : α → α) : Prop :=
  ∀ (a : α) (rest : List (Token R)), c.read (c.write a ++ rest) = some (f a, rest)

/-- The value table with every value replaced by its image under `f`. -/
def StorageSet.map {R : Type} (f : R → R) (v : StorageSet R) : StorageSet R :=
  { v with values := v.values.map f }

/-- The parts of the file formats that are outside the two source files: the value read back
from the text form of a double (`scientific`, precision 17), the names and numbers of the
rules (`OneDimensionalMeta::getIORuleString`, `getIORuleInt`), and the text and binary
writers and readers of `MultiIndexSet`, `StorageSet` and `CustomTabulated`. -/
structure IOModel (R : Type) where
  textDouble : R → R
  ruleString : TypeOneDRule → String
  ruleOfString : String → TypeOneDRule
  ruleInt : TypeOneDRule → Int
  ruleOfInt : Int → TypeOneDRule
  indexText : Codec R MultiIndexSet
  indexBinary : Codec R MultiIndexSet
  valuesText : Codec R (StorageSet R)
  valuesBinary : Codec R (StorageSet R)
  customText : Codec R CustomTabulated
  customBinary : Codec R CustomTabulated

/-- The assumptions on the external formats: sets, rule names and rule numbers are read back
exactly in both formats, doubles exactly in binary and as `textDouble` in text. -/
structure IOModel.Lawful {R : Type} (io : IOModel R) : Prop where
  ruleString_inv : ∀ r, io.ruleOfString (io.ruleString r) = r
  ruleInt_inv : ∀ r, io.ruleOfInt (io.ruleInt r) = r
  indexText_inv : io.indexText.RoundTrips id
  indexBinary_inv : io.indexBinary.RoundTrips id
  valuesText_inv : io.valuesText.RoundTrips (StorageSet.map io.textDouble)
  valuesBinary_inv : io.valuesBinary.RoundTrips id
  customText_inv : io.customText.RoundTrips id
  customBinary_inv : io.customBinary.RoundTrips id

namespace Stream

variable {R : Type}

/-- `ifs >> n` for an integer, or a raw integer read. -/
def readInt : List (Token R) → Option (Int × List (Token R))
  | Token.int n :: rest => some (n, rest)
  | _ => none

/-- A raw read of a flag byte. -/
def readChr : List (Token R) → Option (Char × List (Token R))
  | Token.chr c :: rest => some (c, rest)
  | _ => none

/-- `ifs >> T` for a word. -/
def readStr : List (Token R) → Option (String × List (Token R))
  | Token.str s :: rest => some (s, rest)
  | _ => none

/-- `ifs >> x` for a double (`f` is the reading of the written form), or a raw double read
(`f` the identity). -/
def readReal (f : R → R) : List (Token R) → Option (R × List (Token R))
  | Token.real x :: rest => some (f x, rest)
  | _ => none

/-- A loop of `n` double reads. -/
def readReals (f : R → R) : Nat → List (Token R) → Option (List R × List (Token R))
  | 0, s => some ([], s)
  | n + 1, s =>
    match readReal f s with
    | some (x, rest) =>
      match readReals f n rest with
      | some (xs, rest2) => some (x :: xs, rest2)
      | none => none
    | none => none

/-- A loop of `n` integer reads. -/
def readInts : Nat → List (Token R) → Option (List Int × List (Token R))
  | 0, s => some ([], s)
  | n + 1, s =>
    match readInt s with
    | some (x, rest) =>
      match readInts n rest with
      | some (xs, rest2) => some (x :: xs, rest2)
      | none => none
    | none => none

/-- The text pattern `ifs >> flag; if (flag == 1) set.read(ifs);` -/
def readFlaggedText (c : Codec R MultiIndexSet) (current : MultiIndexSet) (s : List (Token R)) :
    Option (MultiIndexSet × List (Token R)) :=
  match readInt s with
  | some (flag, rest) => if flag = 1 then c.read rest else some (current, rest)
  | none => none

/-- The binary pattern `ifs.read(&flag, 1); if (flag == 'y') set.readBinary(ifs);` -/
def readFlaggedBinary (c : Codec R MultiIndexSet) (current : MultiIndexSet) (s : List (Token R)) :
    Option (MultiIndexSet × List (Token R)) :=
  match readChr s with
  | some (flag, rest) => if flag = 'y' then c.read rest else some (current, rest)
  | none => none

/-- The text pattern `if (set.empty()) ofs << "0" << endl; else { ofs << "1 "; set.write(ofs); }` -/
def writeFlaggedText (c : Codec R MultiIndexSet) (set : MultiIndexSet) : List (Token R) :=
  if set.empty then [Token.int 0] else Token.int 1 :: c.write set

/-- The binary pattern `flag = 'n' / 'y'; ofs.write(&flag, 1); set.writeBinary(ofs);` -/
def writeFlaggedBinary (c : Codec R MultiIndexSet) (set : MultiIndexSet) : List (Token R) :=
  if set.empty then [Token.chr 'n'] else Token.chr 'y' :: c.write set

end Stream

/-! ## Persistence of `GridWavelet` -/

section WaveletIO

variable {R : Type} [CommRing R] [DecidableEq R]

namespace GridWavelet

/-- `GridWavelet::write` -/
def write (io : IOModel R) (g : GridWavelet R) : List (Token R) :=
  [Token.int g.num_dimensions, Token.int g.num_outputs, Token.int g.order]
  ++ (if g.num_dimensions > 0 then
        Stream.writeFlaggedText io.indexText g.points
        ++ (if g.coefficients.getTotalEntries = 0 then [Token.int 0]
            else Token.int 1 :: g.coefficients.vec.map Token.real)
        ++ Stream.writeFlaggedText io.indexText g.needed
        ++ (if g.num_outputs > 0 then io.valuesText.write g.values else [])
      else [])

/-- `GridWavelet::writeBinary` -/
def writeBinary (io : IOModel R) (g : GridWavelet R) : List (Token R) :=
  [Token.int g.num_dimensions, Token.int g.num_outputs, Token.int g.order]
  ++ (if g.num_dimensions > 0 then
        Stream.writeFlaggedBinary io.indexBinary g.points
        ++ Stream.writeFlaggedBinary io.indexBinary g.needed
        ++ (if g.coefficients.getTotalEntries = 0 then [Token.chr 'n']
            else Token.chr 'y' :: g.coefficients.vec.map Token.real)
        ++ (if g.num_outputs > 0 then io.valuesBinary.write g.values else [])
      else [])

/-- `GridWavelet::read`; returns the grid and the rest of the stream, or nothing when the
stream does not have the expected items. -/
def read (E : WaveletExternals R) (io : IOModel R) (g : GridWavelet R) (ifs : List (Token R)) :
    Option (GridWavelet R × List (Token R)) := do
  let g : GridWavelet R := g.reset
  let (d, ifs) ← Stream.readInt ifs
  let (m, ifs) ← Stream.readInt ifs
  let (o, ifs) ← Stream.readInt ifs
  let g : GridWavelet R := { g with num_dimensions := d.toNat, num_outputs := m.toNat, order := o.toNat }
  if g.num_dimensions > 0 then
    let g : GridWavelet R := { g with rule1D_order := g.order }
    let (points, ifs) ← Stream.readFlaggedText io.indexText g.points ifs
    let g : GridWavelet R := { g with points := points }
    let (flag, ifs) ← Stream.readInt ifs
    let (coefficients, ifs) ←
      if flag = 1 then
        (Stream.readReals io.textDouble (g.num_outputs * g.points.getNumIndexes) ifs).map
          (fun r => (({ stride := g.num_outputs, num_strips := g.points.getNumIndexes, vec := r.1 } :
            Data2D R), r.2))
      else some (g.coefficients, ifs)
    let g : GridWavelet R := { g with coefficients := coefficients }
    let (needed, ifs) ← Stream.readFlaggedText io.indexText g.needed ifs
    let g : GridWavelet R := { g with needed := needed }
    let (values, ifs) ← if g.num_outputs > 0 then io.valuesText.read ifs else some (g.values, ifs)
    let g : GridWavelet R := { g with values := values }
    pure (g.buildInterpolationMatrix E, ifs)
  else
    pure (g.buildInterpolationMatrix E, ifs)

/-- `GridWavelet::readBinary` -/
def readBinary (E : WaveletExternals R) (io : IOModel R) (g : GridWavelet R) (ifs : List (Token R)) :
    Option (GridWavelet R × List (Token R)) := do
  let g : GridWavelet R := g.reset
  let (d, ifs) ← Stream.readInt ifs
  let (m, ifs) ← Stream.readInt ifs
  let (o, ifs) ← Stream.readInt ifs
  let g : GridWavelet R := { g with num_dimensions := d.toNat, num_outputs := m.toNat, order := o.toNat }
  if g.num_dimensions > 0 then
    let g : GridWavelet R := { g with rule1D_order := g.order }
    let (points, ifs) ← Stream.readFlaggedBinary io.indexBinary g.points ifs
    let g : GridWavelet R := { g with points := points }
    let (needed, ifs) ← Stream.readFlaggedBinary io.indexBinary g.needed ifs
    let g : GridWavelet R := { g with needed := needed }
    let (flag, ifs) ← Stream.readChr ifs
    let (coefficients, ifs) ←
      if flag = 'y' then
        (Stream.readReals id (g.num_outputs * g.points.getNumIndexes) ifs).map
          (fun r => (({ stride := g.num_outputs, num_strips := g.points.getNumIndexes, vec := r.1 } :
            Data2D R), r.2))
      else some (g.coefficients, ifs)
    let g : GridWavelet R := { g with coefficients := coefficients }
    let (values, ifs) ← if g.num_outputs > 0 then io.valuesBinary.read ifs else some (g.values, ifs)
    let g : GridWavelet R := { g with values := values }
    pure (g.buildInterpolationMatrix E, ifs)
  else
    pure (g.buildInterpolationMatrix E, ifs)

end GridWavelet

end WaveletIO

/-- A concrete model of the formats over `ℤ`: doubles are read back as written, rules are
numbered 1 to 8 and named by these numbers, and every external writer emits its object as one
block of the stream. -/
def exampleIOModel : IOModel Int where
  textDouble := fun x => x
  ruleString := fun r => toString (match r with
    | .rule_clenshawcurtis => 1 | .rule_gausspatterson => 2 | .rule_chebyshev => 3
    | .rule_gausslegendre => 4 | .rule_leja => 5 | .rule_rleja => 6
    | .rule_customtabulated => 7 | .rule_wavelet => 8 : Nat)
  ruleOfString := fun s =>
    if s = "1" then .rule_clenshawcurtis else if s = "2" then .rule_gausspatterson
    else if s = "3" then .rule_chebyshev else if s = "4" then .rule_gausslegendre
    else if s = "5" then .rule_leja else if s = "6" then .rule_rleja
    else if s = "7" then .rule_customtabulated else .rule_wavelet
  ruleInt := fun r => match r with
    | .rule_clenshawcurtis => 1 | .rule_gausspatterson => 2 | .rule_chebyshev => 3
    | .rule_gausslegendre => 4 | .rule_leja => 5 | .rule_rleja => 6
    | .rule_customtabulated => 7 | .rule_wavelet => 8
  ruleOfInt := fun n =>
    if n = 1 then .rule_clenshawcurtis else if n = 2 then .rule_gausspatterson
    else if n = 3 then .rule_chebyshev else if n = 4 then .rule_gausslegendre
    else if n = 5 then .rule_leja else if n = 6 then .rule_rleja
    else if n = 7 then .rule_customtabulated else .rule_wavelet
  indexText := ⟨fun s => [Token.indexBlock s], fun s => match s with
    | Token.indexBlock a :: rest => some (a, rest) | _ => none⟩
  indexBinary := ⟨fun s => [Token.indexBlock s], fun s => match s with
    | Token.indexBlock a :: rest => some (a, rest) | _ => none⟩
  valuesText := ⟨fun v => [Token.valueBlock v], fun s => match s with
    | Token.valueBlock a :: rest => some (a, rest) | _ => none⟩
  valuesBinary := ⟨fun v => [Token.valueBlock v], fun s => match s with
    | Token.valueBlock a :: rest => some (a, rest) | _ => none⟩
  customText := ⟨fun c => [Token.customBlock c], fun s => match s with
    | Token.customBlock a :: rest => some (a, rest) | _ => none⟩
  customBinary := ⟨fun c => [Token.customBlock c], fun s => match s with
    | Token.customBlock a :: rest => some (a, rest) | _ => none⟩

/-! ## Persistence of `GridGlobal` -/

/-- The reads `a[0], a[1], ..., a[n-1]` of a loop that writes `a[0]` and then `a[i]` for
`1 <= i < n`: the first `max n 1` entries, or nothing when the vector is too short (a read
past the end). -/
def Stream.firstThenRest {α : Type} (a : List α) (n : Nat) : Option (List α) :=
  if max n 1 ≤ a.length then some (a.take (max n 1)) else none

/-- The raw write of `n` entries from `a.data()`: the first `n` entries, or nothing when the
vector is too short. -/
def Stream.rawPrefix {α : Type} (a : List α) (n : Nat) : Option (List α) :=
  if n ≤ a.length then some (a.take n) else none

section GlobalIO

variable {R : Type}

namespace GridGlobal

/-- The part of `write` / `writeBinary` from the tensors to the values: `tensors`,
`active_tensors`, `active_w`, the flagged `points` and `needed`, `max_levels` and the values;
`entries` is the way the integer vectors are read (`Stream.firstThenRest` in text,
`Stream.rawPrefix` in binary). -/
def writeBody (index : Codec R MultiIndexSet) (values : Codec R (StorageSet R))
    (flagged : MultiIndexSet → List (Token R)) (entries : List Int → Nat → Option (List Int))
    (levels : List Nat → Nat → Option (List Nat)) (g : GridGlobal R) : Option (List (Token R)) :=
  (if !g.active_w.isEmpty then entries g.active_w g.active_tensors.getNumIndexes else some []).bind
    fun active_w =>
  (levels g.max_levels g.num_dimensions).bind fun max_levels =>
  some (index.write g.tensors ++ index.write g.active_tensors ++ active_w.map Token.int
    ++ flagged g.points ++ flagged g.needed ++ max_levels.map (fun (l : Nat) => Token.int (l : Int))
    ++ (if g.num_outputs > 0 then values.write g.values else []))

/-- The last part of `write` / `writeBinary`: the flag of a pending refinement (`yes` / `no`)
and, when `updated_tensors` is not empty, `updated_tensors`, `updated_active_tensors` and
`updated_active_w`. -/
def writeUpdated (index : Codec R MultiIndexSet) (yes no : Token R)
    (entries : List Int → Nat → Option (List Int)) (g : GridGlobal R) : Option (List (Token R)) :=
  if !g.updated_tensors.empty then
    (entries g.updated_active_w g.updated_active_tensors.getNumIndexes).bind fun updated_active_w =>
    some (yes :: (index.write g.updated_tensors ++ index.write g.updated_active_tensors
      ++ updated_active_w.map Token.int))
  else some [no]

/-- `GridGlobal::write`; nothing when the function reads a vector past its end. -/
def write (io : IOModel R) (g : GridGlobal R) : Option (List (Token R)) :=
  if g.num_dimensions > 0 then
    (writeBody io.indexText io.valuesText (Stream.writeFlaggedText io.indexText)
      Stream.firstThenRest Stream.firstThenRest g).bind fun body =>
    (writeUpdated io.indexText (Token.int 1) (Token.int 0) Stream.firstThenRest g).bind fun updated =>
    some ([Token.int g.num_dimensions, Token.int g.num_outputs, Token.real g.alpha, Token.real g.beta,
        Token.str (io.ruleString g.rule)]
      ++ (if g.rule = TypeOneDRule.rule_customtabulated then io.customText.write g.custom else [])
      ++ body ++ updated)
  else
    some [Token.int g.num_dimensions, Token.int g.num_outputs, Token.real g.alpha, Token.real g.beta]

/-- `GridGlobal::writeBinary`; nothing when the function reads a vector past its end. -/
def writeBinary (io : IOModel R) (g : GridGlobal R) : Option (List (Token R)) :=
  if g.num_dimensions > 0 then
    (writeBody io.indexBinary io.valuesBinary (Stream.writeFlaggedBinary io.indexBinary)
      Stream.rawPrefix Stream.rawPrefix g).bind fun body =>
    (writeUpdated io.indexBinary (Token.chr 'y') (Token.chr 'n') Stream.rawPrefix g).bind fun updated =>
    some ([Token.int g.num_dimensions, Token.int g.num_outputs, Token.real g.alpha, Token.real g.beta,
        Token.int (io.ruleInt g.rule)]
      ++ (if g.rule = TypeOneDRule.rule_customtabulated then io.customBinary.write g.custom else [])
      ++ body ++ updated)
  else
    some [Token.int g.num_dimensions, Token.int g.num_outputs, Token.real g.alpha, Token.real g.beta]

/-- The header reads of `read` / `readBinary`: `num_dimensions`, `num_outputs`, `alpha`,
`beta`. -/
def readHeader (f : R → R) (g : GridGlobal R) (ifs : List (Token R)) :
    Option (GridGlobal R × List (Token R)) :=
  (Stream.readInt ifs).bind fun d =>
  (Stream.readInt d.2).bind fun m =>
  (Stream.readReal f m.2).bind fun alpha =>
  (Stream.readReal f alpha.2).bind fun beta =>
  some ({ g with num_dimensions := d.1.toNat, num_outputs := m.1.toNat, alpha := alpha.1, beta := beta.1 },
    beta.2)

/-- The reads of the custom rule, `tensors`, `active_tensors` and `active_w`. -/
def readTensors (index : Codec R MultiIndexSet) (custom : Codec R CustomTabulated)
    (g : GridGlobal R) (ifs : List (Token R)) : Option (GridGlobal R × List (Token R)) :=
  (if g.rule = TypeOneDRule.rule_customtabulated then custom.read ifs else some (g.custom, ifs)).bind
    fun c =>
  (index.read c.2).bind fun tensors =>
  (index.read tensors.2).bind fun active_tensors =>
  (Stream.readInts active_tensors.1.getNumIndexes active_tensors.2).bind fun active_w =>
  some ({ g with
    custom := c.1, tensors := tensors.1, active_tensors := active_tensors.1, active_w := active_w.1 },
    active_w.2)

/-- The reads of the flagged `points` and `needed`, of `max_levels` and of the values. -/
def readPoints (values : Codec R (StorageSet R))
    (flagged : MultiIndexSet → List (Token R) → Option (MultiIndexSet × List (Token R)))
    (g : GridGlobal R) (ifs : List (Token R)) : Option (GridGlobal R × List (Token R)) :=
  (flagged g.points ifs).bind fun points =>
  (flagged g.needed points.2).bind fun needed =>
  (Stream.readInts g.num_dimensions needed.2).bind fun max_levels =>
  (if g.num_outputs > 0 then values.read max_levels.2 else some (g.values, max_levels.2)).bind
    fun vals =>
  some ({ g with
    points := points.1, needed := needed.1, max_levels := max_levels.1.map Int.toNat, values := vals.1 },
    vals.2)

/-- The reads after the flag of a pending refinement, and the level `oned_max_level` up to
which the wrapper is loaded: with a pending refinement `updated_tensors`,
`updated_active_tensors`, `updated_active_w` and the largest entry of `updated_tensors`;
without one the largest entry of `max_levels`. -/
def readUpdated (index : Codec R MultiIndexSet) (pending : Bool) (g : GridGlobal R)
    (ifs : List (Token R)) : Option ((GridGlobal R × Nat) × List (Token R)) :=
  if pending then
    (index.read ifs).bind fun updated_tensors =>
    (index.read updated_tensors.2).bind fun updated_active_tensors =>
    (Stream.readInts updated_active_tensors.1.getNumIndexes updated_active_tensors.2).bind
      fun updated_active_w =>
    some (({ g with
      updated_tensors := updated_tensors.1
      updated_active_tensors := updated_active_tensors.1
      updated_active_w := updated_active_w.1 }, updated_tensors.1.maxElement), updated_active_w.2)
  else some ((g, g.max_levels.foldl max 0), ifs)

/-- The end of `read` / `readBinary`: `wrapper.load` and `recomputeTensorRefs`. -/
def finishRead (E : Externals R) (g : GridGlobal R) (oned_max_level : Nat) : GridGlobal R :=
  GridGlobal.recomputeTensorRefs E
    { g with wrapper := E.wrapperLoad g.custom oned_max_level g.rule g.alpha g.beta }
    (if g.points.empty then g.needed else g.points)

/-- `GridGlobal::read`; returns the grid and the rest of the stream, or nothing when the
stream does not have the expected items. -/
def read [Zero R] (E : Externals R) (io : IOModel R) (g : GridGlobal R) (ifs : List (Token R)) :
    Option (GridGlobal R × List (Token R)) :=
  (readHeader io.textDouble (g.reset true) ifs).bind fun h =>
  if h.1.num_dimensions > 0 then
    (Stream.readStr h.2).bind fun T =>
    (readTensors io.indexText io.customText { h.1 with rule := io.ruleOfString T.1 } T.2).bind fun t =>
    (readPoints io.valuesText (Stream.readFlaggedText io.indexText) t.1 t.2).bind fun p =>
    (Stream.readInt p.2).bind fun flag =>
    (readUpdated io.indexText (decide (flag.1 = 1)) p.1 flag.2).bind fun u =>
    some (finishRead E u.1.1 u.1.2, u.2)
  else some h

/-- `GridGlobal::readBinary` -/
def readBinary [Zero R] (E : Externals R) (io : IOModel R) (g : GridGlobal R) (ifs : List (Token R)) :
    Option (GridGlobal R × List (Token R)) :=
  (readHeader id (g.reset true) ifs).bind fun h =>
  if h.1.num_dimensions > 0 then
    (Stream.readInt h.2).bind fun T =>
    (readTensors io.indexBinary io.customBinary { h.1 with rule := io.ruleOfInt T.1 } T.2).bind fun t =>
    (readPoints io.valuesBinary (Stream.readFlaggedBinary io.indexBinary) t.1 t.2).bind fun p =>
    (Stream.readChr p.2).bind fun flag =>
    (readUpdated io.indexBinary (decide (flag.1 = 'y')) p.1 flag.2).bind fun u =>
    some (finishRead E u.1.1 u.1.2, u.2)
  else some h

end GridGlobal

end GlobalIO

/-- The state that `updateGrid` at depth 0 leaves on `exampleLoadedGrid`: the reselected set
`{0}` has no new tensor, so `updated_tensors = {0}` while `updated_active_tensors`,
`updated_active_w` and `needed` are empty. -/
def exampleStaleGrid : GridGlobal Int :=
  exampleLoadedGrid.updateGrid exampleExternals 0 TypeDepth.type_level [] []

section GlobalStorable

variable {R : Type}

/-- The grid-level invariants that the writers rely on: the weights are aligned with the
active tensors, `max_levels` has one entry per dimension, and a non-empty `updated_tensors`
comes with its active tensors and their (at least one) weights. -/
structure GridGlobal.Storable (g : GridGlobal R) : Prop where
  dims : 0 < g.num_dimensions
  active : g.active_w.length = g.active_tensors.getNumIndexes
  levels : g.max_levels.length = g.num_dimensions
  pending : g.updated_tensors.empty = false →
    g.updated_active_w ≠ [] ∧ g.updated_active_w.length = g.updated_active_tensors.getNumIndexes

end GlobalStorable

/-- A 1-D rule table over `ℤ` whose quadrature weights sum to 2 on every level: level 0 has
one point of weight 2 and level `l > 0` has `2^l + 1` points of weights `2 - 2^l, 1, 1, ...` -/
def exampleQuadratureWrapper : OneDimensionalWrapper Int where
  num_levels := 3
  getNumPoints := fun l => if l = 0 then 1 else 2 ^ l + 1
  getWeight := fun l k => if l = 0 then 2 else if k = 0 then 2 - 2 ^ l else 1
  getNode := fun k => (k : Int)
  getLagrange := fun l k x => if l = 0 then 1 else x + (k : Int)

/-- The collaborators of `exampleExternals` with the 1-D tables of
`exampleQuadratureWrapper`. -/
def exampleQuadratureExternals : Externals Int :=
  { exampleExternals with wrapperLoad := fun _ _ _ _ _ => exampleQuadratureWrapper }

/-- The two-dimensional grid that `setTensors` builds on the lower set
`(0,0)`, `(0,1)`, `(1,0)` with no outputs. -/
def exampleQuadratureGrid : GridGlobal Int :=
  GridGlobal.mk0.setTensors exampleQuadratureExternals ⟨2, [[0, 0], [0, 1], [1, 0]]⟩ 0
    TypeOneDRule.rule_clenshawcurtis 0 0

/-! ## Anisotropic coefficients and anisotropic refinement (`GridGlobal`) -/

/-- The numerical collaborators of `estimateAnisotropicCoefficients`, none of which is in the
two files: `log`, the conversion `(int) x`, the macro `TSG_NUM_TOL` and
`TasmanianDenseSolver::solveLeastSquares(n, m, A, b, reg, x)`. -/
structure NumericExternals (R : Type) where
  log : R → R
  toInt : R → Int
  numTol : R
  solveLeastSquares : Nat → Nat → List R → List R → R → List R

section Anisotropic

variable {R : Type} [LinearOrderedCommRing R] [Div R]

namespace GridGlobal

/-- The first scan of the post-processing of `estimateAnisotropicCoefficients`:
`min_weight = weights[0]; for j = 1 .. d-1: if (min_weight < weights[j]) min_weight = weights[j]`. -/
def scanLargestWeight (num_dimensions : Nat) (weights : List Int) : Int :=
  (List.range' 1 (num_dimensions - 1)).foldl
    (fun min_weight j => if min_weight < weights.getD j 0 then weights.getD j 0 else min_weight)
    (weights.getD 0 0)

/-- The second scan, from the value of the first:
`for j < d: if ((weights[j] > 0) && (weights[j] < min_weight)) min_weight = weights[j]`. -/
def scanSmallestPositive (num_dimensions : Nat) (weights : List Int) (min_weight : Int) : Int :=
  (List.range num_dimensions).foldl
    (fun min_weight j =>
      if weights.getD j 0 > 0 ∧ weights.getD j 0 < min_weight then weights.getD j 0 else min_weight)
    min_weight

/-- The body of the last loop for dimension `j`: a non-positive linear weight is replaced by
`min_weight` and, with a curved tail (`m = 2 d`), the curved weight of the same dimension is
then clamped to it. -/
def replaceWeight (num_dimensions m : Nat) (min_weight : Int) (weights : List Int) (j : Nat) :
    List Int :=
  if weights.getD j 0 ≤ 0 then
    let weights := weights.set j min_weight
    if m = 2 * num_dimensions then
      if |weights.getD (num_dimensions + j) 0| > weights.getD j 0 then
        weights.set (num_dimensions + j)
          (if weights.getD (num_dimensions + j) 0 > 0 then weights.getD j 0 else -weights.getD j 0)
      else weights
    else weights
  else weights

/-- The post-processing of the rounded weights at the end of
`estimateAnisotropicCoefficients`; `m` is the number of weights (`d`, or `2 d` with a curved
tail). -/
def postProcessWeights (num_dimensions m : Nat) (weights : List Int) : List Int :=
  let min_weight := scanLargestWeight num_dimensions weights
  if min_weight < 0 then
    let weights := (List.range num_dimensions).foldl (fun w j => w.set j 1) weights
    if m = 2 * num_dimensions then
      (List.range' num_dimensions num_dimensions).foldl (fun w j => w.set j 0) weights
    else weights
  else
    let min_weight := scanSmallestPositive num_dimensions weights min_weight
    (List.range num_dimensions).foldl (replaceWeight num_dimensions m min_weight) weights

/-- The types with a curved tail of weights. -/
def isCurvedType (type : TypeDepth) : Bool :=
  type = TypeDepth.type_curved || type = TypeDepth.type_ipcurved || type = TypeDepth.type_qpcurved

/-- `GridGlobal::estimateAnisotropicCoefficients`.  The matrix `A` is stored strip after
strip, strip `j` holding column `j` over the `n` points whose surplus exceeds the
tolerance. -/
def estimateAnisotropicCoefficients (E : Externals R) (N : NumericExternals R) (g : GridGlobal R)
    (type : TypeDepth) (output : Nat) : List Int :=
  let tol := 1000 * N.numTol
  let surp := (g.computeSurpluses E output false).map (fun s => |s|)
  let num_points := g.points.getNumIndexes
  let kept := (List.range num_points).filter (fun c => decide (surp.getD c 0 > tol))
  let n := kept.length
  let b := kept.map (fun c => -N.log (surp.getD c 0))
  let linear := (List.range g.num_dimensions).flatMap (fun j =>
    kept.map (fun c => (((g.points.getIndex c).getD j 0 : Nat) : R)))
  let curved := (List.range g.num_dimensions).flatMap (fun j =>
    kept.map (fun c => N.log ((((g.points.getIndex c).getD j 0 + 1 : Nat) : R))))
  let m := if isCurvedType type then 2 * g.num_dimensions + 1 else g.num_dimensions + 1
  let A := if isCurvedType type then linear ++ curved ++ kept.map (fun _ => (1 : R))
    else linear ++ kept.map (fun _ => (1 : R))
  let x := N.solveLeastSquares n m A b (1 / 100000)
  let m := m - 1
  let weights := (List.range m).map (fun j => N.toInt (x.getD j 0 * 1000 + 1 / 2))
  postProcessWeights g.num_dimensions m weights

/-- The loop of `setAnisotropicRefinement`,
`do { updateGrid(++level, ...); } while (getNumNeeded() < min_growth);`, run for at most
`fuel` passes: the grid after the pass that ends the loop, or nothing when `fuel` passes do
not end it. -/
def anisotropicRefinementLoop (E : Externals R) (type : TypeDepth) (min_growth : Int)
    (weights : List Int) (level_limits : List Int) : Nat → GridGlobal R → Nat → Option (GridGlobal R)
  | 0, _, _ => none
  | fuel + 1, g, level =>
    let g : GridGlobal R := g.updateGrid E ((level + 1 : Nat) : Int) type weights level_limits
    if (g.getNumNeeded : Int) < min_growth then
      anisotropicRefinementLoop E type min_growth weights level_limits fuel g (level + 1)
    else some g

/-- `GridGlobal::setAnisotropicRefinement`, with at most `fuel` passes of its loop. -/
def setAnisotropicRefinement (E : Externals R) (N : NumericExternals R) (fuel : Nat) (g : GridGlobal R)
    (type : TypeDepth) (min_growth : Int) (output : Nat) (level_limits : List Int) :
    Option (GridGlobal R) :=
  let g : GridGlobal R := g.clearRefinement
  let weights := g.estimateAnisotropicCoefficients E N type output
  anisotropicRefinementLoop E type min_growth weights level_limits fuel g 0

end GridGlobal

end Anisotropic

/-- The one-dimensional grid `makeGrid(1, 1, depth = 1, type_level, clenshaw-curtis)` of the
example collaborators before any value is loaded: `points` is empty and `needed` holds the
three points. -/
def exampleUnloadedGrid : GridGlobal Int :=
  GridGlobal.mk0.makeGrid exampleExternals 1 1 1 TypeDepth.type_level
    TypeOneDRule.rule_clenshawcurtis [] 0 0 CustomTabulated.mk0 []

/-- The loaded grid `exampleLoadedGrid` after `updateGrid` at depth 2: the refinement to the
tensors `{0, 1, 2}` is proposed and two points are needed. -/
def exampleProposedGrid : GridGlobal Int :=
  exampleLoadedGrid.updateGrid exampleExternals 2 TypeDepth.type_level [] []

/-- A 1-D table over `ℤ` for a sequence rule: level `l` has the `l + 1` points `0, ..., l`,
one new point per level. -/
def exampleSequenceWrapper : OneDimensionalWrapper Int where
  num_levels := 3
  getNumPoints := fun l => l + 1
  getWeight := fun l k => if l = 0 then 2 else if k = 0 then 2 - (l : Int) else 1
  getNode := fun k => (k : Int)
  getLagrange := fun l k x => if l = 0 then 1 else x + (k : Int)

/-- The collaborators of `exampleExternals` for a sequence rule, with the surpluses of the
sequence grid on the two nodes 0 and 1 (basis functions `1` and `x`): `s_0 = v_0` and
`s_1 = v_1 - v_0`, and the 1-D table `exampleSequenceWrapper`. -/
def exampleSequenceExternals : Externals Int :=
  { exampleExternals with
    wrapperLoad := fun _ _ _ _ _ => exampleSequenceWrapper
    isSequence := fun _ => true
    sequenceSurpluses := fun _ _ vals =>
      match vals with
      | [] => []
      | v0 :: rest => v0 :: rest.map (fun v => v - v0) }

/-- A loaded one-dimensional grid with a sequence rule and the two points 0 and 1, carrying
the values 1 and -1. -/
def exampleSequenceGrid : GridGlobal Int where
  num_dimensions := 1
  num_outputs := 1
  alpha := 0
  beta := 0
  rule := TypeOneDRule.rule_leja
  custom := CustomTabulated.mk0
  wrapper := exampleSequenceWrapper
  tensors := ⟨1, [[0], [1]]⟩
  active_tensors := ⟨1, [[1]]⟩
  active_w := [1]
  points := ⟨1, [[0], [1]]⟩
  needed := MultiIndexSet.mk0
  max_levels := [1]
  values := ⟨1, 2, [1, -1]⟩
  updated_tensors := MultiIndexSet.mk0
  updated_active_tensors := MultiIndexSet.mk0
  updated_active_w := []
  tensor_refs := [[0, 1]]

section AnisotropicLevels

variable {R : Type} [LinearOrderedCommRing R] [Div R]

/-- The grid after the first `k` passes of the loop of `setAnisotropicRefinement`, the calls
`updateGrid(1, ...)`, ..., `updateGrid(k, ...)` made one after the other on `g`. -/
def GridGlobal.afterUpdateLevels (E : Externals R) (type : TypeDepth) (weights : List Int)
    (level_limits : List Int) (g : GridGlobal R) (k : Nat) : GridGlobal R :=
  (List.range' 1 k).foldl (fun s l => s.updateGrid E ((l : Nat) : Int) type weights level_limits) g

end AnisotropicLevels

/-- Numerical collaborators over `ℤ` whose least-squares solution is `-1` in every
component, so that the estimated weights fall back to the isotropic ones. -/
def exampleNumericExternals : NumericExternals Int where
  log := fun x => x
  toInt := fun x => x
  numTol := 0
  solveLeastSquares := fun _ m _ _ _ => List.replicate m (-1)

/-! ## Lower sets and the collaborators of the surplus refinement -/

/-- A set is downward-closed (lower): with a tuple it has every tuple that is componentwise
below it. -/
def MultiIndexSet.IsLower (s : MultiIndexSet) : Prop :=
  ∀ t ∈ s.indexes, ∀ r, List.Forall₂ (fun a b => a ≤ b) r t → r ∈ s.indexes

/-- The set `h` is the smallest lower set containing `s`: it is lower, contains `s`, and is
inside every lower set that contains `s`. -/
def MultiIndexSet.IsLowerHullOf (h s : MultiIndexSet) : Prop :=
  h.IsLower ∧ (∀ t ∈ s.indexes, t ∈ h.indexes)
    ∧ ∀ l : MultiIndexSet, l.IsLower → (∀ t ∈ s.indexes, t ∈ l.indexes) →
        ∀ t ∈ h.indexes, t ∈ l.indexes

namespace SpecModel

/-- All tuples componentwise below `t`. -/
def lowerBox : List Nat → List (List Nat)
  | [] => [[]]
  | a :: t => (List.range (a + 1)).flatMap (fun k => (lowerBox t).map (fun r => k :: r))

/-- Modelled from the spec: `completeSetToLower`, the lower hull of a set, every tuple below
a tuple of the set. -/
def completeSetToLower (s : MultiIndexSet) : MultiIndexSet :=
  ⟨s.num_dimensions, MultiIndexSet.mergeIndexes [] (s.indexes.flatMap lowerBox)⟩

/-- Modelled from the spec: `selectFlaggedChildren`, the immediate children (the successor
index in one dimension) of the flagged points that are not already present and respect the
level limits (`-1` is no limit). -/
def selectFlaggedChildren (points : MultiIndexSet) (flagged : List Bool) (level_limits : List Int) :
    MultiIndexSet :=
  ⟨points.num_dimensions,
    MultiIndexSet.mergeIndexes []
      ((List.range points.getNumIndexes).flatMap (fun i =>
        if flagged.getD i false then
          (List.range points.num_dimensions).filterMap (fun j =>
            if points.missing ((points.getIndex i).set j ((points.getIndex i).getD j 0 + 1))
                && (level_limits.isEmpty || decide (level_limits.getD j (-1) = -1)
                  || decide ((((points.getIndex i).getD j 0 + 1 : Nat) : Int)
                      ≤ level_limits.getD j (-1))) then
              some ((points.getIndex i).set j ((points.getIndex i).getD j 0 + 1))
            else none)
        else []))⟩

end SpecModel

/-- The collaborators of `exampleSequenceExternals` with the child selection and the lower
hull of the specification. -/
def exampleRefinementExternals : Externals Int :=
  { exampleSequenceExternals with
    selectFlaggedChildren := SpecModel.selectFlaggedChildren
    completeSetToLower := SpecModel.completeSetToLower }

section SurplusFlags

variable {R : Type} [LinearOrderedCommRing R] [Div R]

/-- The vector `flagged` of `setSurplusRefinement`: `flagged[i] = (fabs(surp[i]) > tolerance)`
for the normalised surpluses of the output, computed after `clearRefinement`. -/
def GridGlobal.surplusFlags (E : Externals R) (g : GridGlobal R) (tolerance : R) (output : Nat) :
    List Bool :=
  (List.range g.points.getNumIndexes).map (fun i =>
    decide (|(g.clearRefinement.computeSurpluses E output true).getD i 0| > tolerance))

/-- The set `kids` of `setSurplusRefinement` as `selectFlaggedChildren` returns it. -/
def GridGlobal.flaggedChildren (E : Externals R) (g : GridGlobal R) (tolerance : R) (output : Nat)
    (level_limits : List Int) : MultiIndexSet :=
  E.selectFlaggedChildren g.points (g.surplusFlags E tolerance output) level_limits

end SurplusFlags

/-! ## Dynamic construction: the journal and the loading of constructed points -/

/-- Modelled from the spec: `StorageSet::setValues(std::vector<double>&)`, the table takes the
vector as its values, one row of `num_outputs` entries per point. -/
def StorageSet.setValuesVector {R : Type} (s : StorageSet R) (vals : List R) : StorageSet R :=
  { s with num_values := vals.length / s.num_outputs, values := vals }

/-- Modelled from the spec: `MultiIndexSet::addSortedInsexes(tensor)` for one tuple, the
insertion of the tuple at its place in the ordered set. -/
def MultiIndexSet.addSortedInsexes (s : MultiIndexSet) (t : List Nat) : MultiIndexSet :=
  { s with indexes := MultiIndexSet.insertIndex t s.indexes }

/-- Modelled from the spec: `DynamicConstructorDataGlobal`, the journal of the dynamic
construction.  It keeps the queued tensors, each with its weight and its product points,
and the nodes loaded so far with their values. -/
structure DynamicConstructorDataGlobal (R : Type) where
  num_dimensions : Nat
  num_outputs : Nat
  tensors : List (List Nat × R × List (List Nat))
  data : List (List Nat × List R)

namespace DynamicConstructorDataGlobal

variable {R : Type}

/-- Modelled from the spec: the constructor
`DynamicConstructorDataGlobal(num_dimensions, num_outputs)`, an empty journal. -/
def mk1 (num_dimensions num_outputs : Nat) : DynamicConstructorDataGlobal R :=
  ⟨num_dimensions, num_outputs, [], []⟩

/-- Modelled from the spec: `addTensor(tensor, getNumPoints, weight)` queues the tensor with
its weight and its product points. -/
def addTensor (dv : DynamicConstructorDataGlobal R) (tensor : List Nat) (getNumPoints : Nat → Nat)
    (weight : R) : DynamicConstructorDataGlobal R :=
  { dv with tensors := dv.tensors ++ [(tensor, weight, SpecModel.tensorPoints getNumPoints tensor)] }

/-- The node `q` has been loaded. -/
def hasNode (data : List (List Nat × List R)) (q : List Nat) : Bool :=
  data.any (fun nd => nd.1 == q)

/-- Every product point of the queued tensor is filled. -/
def isComplete (data : List (List Nat × List R)) (e : List Nat × R × List (List Nat)) : Bool :=
  e.2.2.all (fun q => hasNode data q)

/-- The values loaded for the node `q`. -/
def nodeValue (data : List (List Nat × List R)) (q : List Nat) : List R :=
  match data.find? (fun nd => nd.1 == q) with
  | some nd => nd.2
  | none => []

/-- Modelled from the spec: `addNewNode(point, value)`, the journal accumulates the value and
tells whether a queued tensor is complete with it. -/
def addNewNode (dv : DynamicConstructorDataGlobal R) (point : List Nat) (value : List R) :
    DynamicConstructorDataGlobal R × Bool :=
  ({ dv with data := dv.data ++ [(point, value)] },
    dv.tensors.any (fun e => e.2.2.contains point && isComplete (dv.data ++ [(point, value)]) e))

/-- Modelled from the spec: `ejectCompleteTensor(current_tensors, tensor, points, vals)`: when
every product point of a queued tensor is filled, the first such tensor leaves the queue and
is returned with its points and their values; otherwise nothing is returned. -/
def ejectCompleteTensor (dv : DynamicConstructorDataGlobal R) (_current_tensors : MultiIndexSet) :
    Option (DynamicConstructorDataGlobal R × List Nat × MultiIndexSet × List R) :=
  match dv.tensors.find? (fun e => isComplete dv.data e) with
  | none => none
  | some e =>
    some ({ dv with tensors := dv.tensors.eraseP (fun e => isComplete dv.data e) }, e.1,
      ⟨dv.num_dimensions, e.2.2⟩, e.2.2.flatMap (nodeValue dv.data))

end DynamicConstructorDataGlobal

section DynamicConstruction

variable {R : Type} [LinearOrderedCommRing R] [Div R]

namespace GridGlobal

/-- `GridGlobal::beginConstruction`; returns the grid and the new journal. -/
def beginConstruction (g : GridGlobal R) : GridGlobal R × DynamicConstructorDataGlobal R :=
  let dynamic_values : DynamicConstructorDataGlobal R :=
    DynamicConstructorDataGlobal.mk1 g.num_dimensions g.num_outputs
  if g.points.empty then
    let dynamic_values := (List.range g.tensors.getNumIndexes).foldl
      (fun (dv : DynamicConstructorDataGlobal R) i =>
        dv.addTensor (g.tensors.getIndex i) g.wrapper.getNumPoints
          (-1 / (1 + ((((g.tensors.getIndex i).take g.num_dimensions).sum : Nat) : R))))
      dynamic_values
    ({ g with
        tensors := MultiIndexSet.ofDim g.num_dimensions
        active_tensors := MultiIndexSet.mk0
        active_w := []
        needed := MultiIndexSet.mk0
        values := g.values.resize g.num_outputs 0 }, dynamic_values)
  else (g, dynamic_values)

/-- The body of the loop of `loadConstructedTensors` for one ejected tensor. -/
def absorbTensor (g : GridGlobal R) (tensor : List Nat) (new_points : MultiIndexSet)
    (new_values : List R) : GridGlobal R :=
  let g : GridGlobal R :=
    if g.points.empty then
      { g with values := g.values.setValuesVector new_values, points := new_points }
    else
      { g with
        values := g.values.addValues g.points new_points new_values
        points := g.points.addMultiIndexSet new_points }
  { g with tensors := g.tensors.addSortedInsexes tensor }

/-- The loop `while (dynamic_values->ejectCompleteTensor(...)) { ... }` of
`loadConstructedTensors` with the flag `added_any`; every pass takes a tensor from the queue,
so the number of queued tensors bounds the passes. -/
def ejectLoop : Nat → GridGlobal R × DynamicConstructorDataGlobal R × Bool →
    GridGlobal R × DynamicConstructorDataGlobal R × Bool
  | 0, s => s
  | fuel + 1, s =>
    match s.2.1.ejectCompleteTensor s.1.tensors with
    | none => s
    | some r => ejectLoop fuel (s.1.absorbTensor r.2.1 r.2.2.1 r.2.2.2, r.1, true)

/-- `GridGlobal::loadConstructedTensors` -/
def loadConstructedTensors (E : Externals R) (g : GridGlobal R)
    (dynamic_values : DynamicConstructorDataGlobal R) :
    GridGlobal R × DynamicConstructorDataGlobal R :=
  let s := ejectLoop dynamic_values.tensors.length (g, dynamic_values, false)
  if s.2.2 then
    let g : GridGlobal R := s.1
    let tensors_w := MultiIndexManipulations.computeTensorWeights g.tensors
    let g : GridGlobal R := { g with
      active_tensors := MultiIndexManipulations.createActiveTensors g.tensors tensors_w
      active_w := tensors_w.filter (fun w => w ≠ 0) }
    (g.recomputeTensorRefs E g.points, s.2.1)
  else (s.1, s.2.1)

/-- The search `i = 0; while (fabs(wrapper.getNode(i) - x) > TSG_NUM_TOL) i++;` of
`loadConstructedPoint`, from index `i` and for at most `fuel` tests; nothing when the tests
run out. -/
def findNode (getNode : Nat → R) (numTol x : R) : Nat → Nat → Option Nat
  | 0, _ => none
  | fuel + 1, i => if |getNode i - x| > numTol then findNode getNode numTol x fuel (i + 1) else some i

/-- `GridGlobal::loadConstructedPoint(x, y)`; `numTol` is the macro `TSG_NUM_TOL` and `fuel`
bounds each node search. -/
def loadConstructedPoint (E : Externals R) (numTol : R) (fuel : Nat) (g : GridGlobal R)
    (dynamic_values : DynamicConstructorDataGlobal R) (x y : List R) :
    Option (GridGlobal R × DynamicConstructorDataGlobal R) :=
  let found := (List.range g.num_dimensions).map (fun j =>
    findNode g.wrapper.getNode numTol (x.getD j 0) fuel 0)
  if found.all (fun i => i.isSome) then
    let p := found.map (fun i => i.getD 0)
    let r := dynamic_values.addNewNode p y
    if r.2 then some (g.loadConstructedTensors E r.1) else some (g, r.1)
  else none

end GridGlobal

end DynamicConstruction

/-- The two-dimensional grid `makeGrid(2, 1, depth = 1, type_level, clenshaw-curtis)` of the
example collaborators before any value is loaded: the tensors `(0,0)`, `(0,1)`, `(1,0)` and
five points pending. -/
def exampleUnloadedGrid2 : GridGlobal Int :=
  GridGlobal.mk0.makeGrid exampleExternals 2 1 1 TypeDepth.type_level
    TypeOneDRule.rule_clenshawcurtis [] 0 0 CustomTabulated.mk0 []

/-- The tuples of the set are listed in strictly increasing lexicographic order, the order in
which a `MultiIndexSet` keeps them. -/
def MultiIndexSet.Ordered (s : MultiIndexSet) : Prop :=
  s.indexes.Pairwise (fun a b => MultiIndexSet.lexLt a b = true)

instance (s : MultiIndexSet) : Decidable s.Ordered := by
  unfold MultiIndexSet.Ordered
  infer_instance

section ConstructedState

variable {R : Type}

end ConstructedState

section BuildingState

variable {R : Type}

end BuildingState

/-- The active tensors `A` and the weights `w` are aligned with the tensors `T`: `A` is the
order-preserving subsequence of the tuples of `T` with a non-zero Smolyak weight, `w` has the
length of `A`, and `w[i]` is the non-zero weight of `A[i]`. -/
def MultiIndexManipulations.ActiveAligned (T A : MultiIndexSet) (w : List Int) : Prop :=
  A.indexes = T.indexes.filter (fun t => MultiIndexManipulations.tensorWeight T t ≠ 0)
  ∧ w.length = A.getNumIndexes
  ∧ ∀ i, i < w.length →
      w.getD i 0 = MultiIndexManipulations.tensorWeight T (A.getIndex i) ∧ w.getD i 0 ≠ 0

section WaveletNormalization

variable {R : Type} [LinearOrderedCommRing R]

/-- The largest absolute value of output `k` over the loaded points, `max_p |values[p][k]|`
(zero when there is no point). -/
def GridWavelet.maxAbsValue (g : GridWavelet R) (k : Nat) : R :=
  ((List.range g.points.getNumIndexes).map (fun p => |(g.values.getValues p).getD k 0|)).foldl max 0

/-- The outputs that `buildUpdateMap` tests: every output when `output = -1`, else the output
`output`. -/
def GridWavelet.isActiveOutput (g : GridWavelet R) (output : Int) (k : Nat) : Prop :=
  if output = -1 then k < g.num_outputs else k = output.toNat

end WaveletNormalization

section WaveletRefinementSpec

variable {R : Type} [LinearOrderedCommRing R] [Div R]

namespace GridWavelet

/-- The parents of `point` in `direction` that are missing from `points`: the point with the
entry `direction` replaced by the parent that `getParent` returns, or, for the parent code
`-2`, by every node `c` of level 0, in the order of `c`. -/
def missingParents (E : WaveletExternals R) (g : GridWavelet R) (point : List Nat) (direction : Nat) :
    List (List Nat) :=
  if E.rule1D.getParent g.rule1D_order (point.getD direction 0) = -2 then
    ((List.range (E.rule1D.getNumPoints g.rule1D_order 0)).map (fun c => point.set direction c)).filter
      (fun q => g.points.missing q)
  else if 0 ≤ E.rule1D.getParent g.rule1D_order (point.getD direction 0) then
    [point.set direction (E.rule1D.getParent g.rule1D_order (point.getD direction 0)).toNat].filter
      (fun q => g.points.missing q)
  else []

/-- The child `c` of a point in `direction` is within the level limits: there are no limits,
or the limit of the direction is `-1`, or the level of the child is at most the limit. -/
def childAllowed (E : WaveletExternals R) (g : GridWavelet R) (direction : Nat)
    (level_limits : List Int) (c : Int) : Bool :=
  level_limits.isEmpty || decide (level_limits.getD direction 0 = -1)
    || decide ((E.rule1D.getLevel g.rule1D_order c.toNat : Int) ≤ level_limits.getD direction 0)

/-- The children of `point` in `direction` that the refinement adds: the point with the entry
`direction` replaced by the left and by the right child of `getChildren`, leaving out a child
`-1`, a child outside the level limits and a child that is in `points`. -/
def newChildren (E : WaveletExternals R) (g : GridWavelet R) (point : List Nat) (direction : Nat)
    (level_limits : List Int) : List (List Nat) :=
  ([(E.rule1D.getChildren g.rule1D_order (point.getD direction 0)).1,
      (E.rule1D.getChildren g.rule1D_order (point.getD direction 0)).2].filter
    (fun c => c ≠ -1 && g.childAllowed E direction level_limits c
      && g.points.missing (point.set direction c.toNat))).map
    (fun c => point.set direction c.toNat)

/-- What a flagged pair of a point and a direction adds to the refinement: with `useParents`
and a missing parent the missing parents and no child, otherwise the children. -/
def pairRefinement (E : WaveletExternals R) (g : GridWavelet R) (useParents : Bool)
    (level_limits : List Int) (point : List Nat) (direction : Nat) : List (List Nat) :=
  if useParents && !(g.missingParents E point direction).isEmpty then g.missingParents E point direction
  else g.newChildren E point direction level_limits

/-- The strips of `refined` in `setSurplusRefinement`: for the points `i` and the directions
`j` in the order of the loops, what the pair adds when the map flags it. -/
def refinementList (E : WaveletExternals R) (g : GridWavelet R) (pmap : Data2D Nat)
    (useParents : Bool) (level_limits : List Int) : List (List Nat) :=
  (List.range g.points.getNumIndexes).flatMap (fun i =>
    (List.range g.num_dimensions).flatMap (fun j =>
      if pmap.get i j = 1 then g.pairRefinement E useParents level_limits (g.points.getIndex i) j
      else []))

end GridWavelet

end WaveletRefinementSpec

/-! ## `GridWavelet`: the nodes of the points and the hierarchical coefficients -/

section WaveletCoefficients

variable {R : Type} [CommRing R] [DecidableEq R]

namespace GridWavelet

/-- `GridWavelet::getLoadedPoints`: `x[i * num_dimensions + j] = rule1D.getNode(p_i[j])` for the
points `p_i` of `points`. -/
def getLoadedPoints (E : WaveletExternals R) (g : GridWavelet R) : List R :=
  (List.range g.points.getNumIndexes).flatMap (fun i =>
    (List.range g.num_dimensions).map (fun j =>
      E.rule1D.getNode g.rule1D_order ((g.points.getIndex i).getD j 0)))

/-- `GridWavelet::getNeededPoints` -/
def getNeededPoints (E : WaveletExternals R) (g : GridWavelet R) : List R :=
  (List.range g.needed.getNumIndexes).flatMap (fun i =>
    (List.range g.num_dimensions).map (fun j =>
      E.rule1D.getNode g.rule1D_order ((g.needed.getIndex i).getD j 0)))

/-- `GridWavelet::getPoints` -/
def getPoints (E : WaveletExternals R) (g : GridWavelet R) : List R :=
  if g.points.empty then g.getNeededPoints E else g.getLoadedPoints E

/-- `GridWavelet::setHierarchicalCoefficients(c, acc)` for the acceleration `accel_none` (the
`default` label of the `switch`); `std::copy_n` writes the first `size_coeff` entries of `c`
into the resized coefficients, and `evaluateBatch` fills the resized value table. -/
def setHierarchicalCoefficients (E : WaveletExternals R) (g : GridWavelet R) (c : List R) :
    GridWavelet R :=
  let num_points := g.getNumPoints
  let size_coeff := num_points * g.num_outputs
  let g : GridWavelet R :=
    if !g.points.empty then g.clearRefinement
    else { g with points := g.needed, needed := MultiIndexSet.mk0 }
  let g : GridWavelet R := { g with coefficients := g.coefficients.resize g.num_outputs num_points }
  let g : GridWavelet R := { g with coefficients :=
    { g.coefficients with vec :=
        (List.range size_coeff).foldl (fun (v : List R) t => v.set t (c.getD t 0)) g.coefficients.vec } }
  let g : GridWavelet R := { g with values := g.values.resize g.num_outputs num_points }
  let x := g.getPoints E
  { g with values := { g.values with values := g.evaluateBatch E x g.points.getNumIndexes } }

end GridWavelet

end WaveletCoefficients

/-! ## The rounding of the anisotropic coefficients -/

section RoundedWeights

variable {R : Type} [LinearOrderedCommRing R] [Div R]

namespace GridGlobal

/-- The least-squares solution `x` that `estimateAnisotropicCoefficients` computes: the part
of the function up to the call of `TasmanianDenseSolver::solveLeastSquares`. -/
def leastSquaresSolution (E : Externals R) (N : NumericExternals R) (g : GridGlobal R)
    (type : TypeDepth) (output : Nat) : List R :=
  let tol := 1000 * N.numTol
  let surp := (g.computeSurpluses E output false).map (fun s => |s|)
  let num_points := g.points.getNumIndexes
  let kept := (List.range num_points).filter (fun c => decide (surp.getD c 0 > tol))
  let n := kept.length
  let b := kept.map (fun c => -N.log (surp.getD c 0))
  let linear := (List.range g.num_dimensions).flatMap (fun j =>
    kept.map (fun c => (((g.points.getIndex c).getD j 0 : Nat) : R)))
  let curved := (List.range g.num_dimensions).flatMap (fun j =>
    kept.map (fun c => N.log ((((g.points.getIndex c).getD j 0 + 1 : Nat) : R))))
  let m := if isCurvedType type then 2 * g.num_dimensions + 1 else g.num_dimensions + 1
  let A := if isCurvedType type then linear ++ curved ++ kept.map (fun _ => (1 : R))
    else linear ++ kept.map (fun _ => (1 : R))
  N.solveLeastSquares n m A b (1 / 100000)

/-- The weights of `estimateAnisotropicCoefficients` before the post-processing,
`weights.resize(--m); for j < m: weights[j] = (int) (x[j] * 1000.0 + 0.5);`. -/
def roundedWeights (E : Externals R) (N : NumericExternals R) (g : GridGlobal R)
    (type : TypeDepth) (output : Nat) : List Int :=
  let m := (if isCurvedType type then 2 * g.num_dimensions + 1 else g.num_dimensions + 1) - 1
  (List.range m).map (fun j =>
    N.toInt ((g.leastSquaresSolution E N type output).getD j 0 * 1000 + 1 / 2))

end GridGlobal

/-- The conversion `(int) y` of a double truncates toward zero: it is the floor of a
non-negative `y` and the ceiling of a negative one. -/
def NumericExternals.TruncatesTowardZero (N : NumericExternals R) : Prop :=
  ∀ y : R, (0 ≤ y → ((N.toInt y : Int) : R) ≤ y ∧ y < ((N.toInt y : Int) : R) + 1)
    ∧ (y < 0 → y ≤ ((N.toInt y : Int) : R) ∧ ((N.toInt y : Int) : R) - 1 < y)

/-- The integer `n` is a nearest integer of `v`: no integer is nearer to `v`. -/
def IsNearestInteger (v : R) (n : Int) : Prop :=
  ∀ k : Int, |((n : Int) : R) - v| ≤ |((k : Int) : R) - v|

end RoundedWeights

/-- Collaborators over `ℚ` for a nested rule, as `exampleExternals`, with a 1-D cache of four
levels whose level `l` has `2 l + 1` points, at the nodes `0, 1, 2, ...`. -/
def exampleRationalExternals : Externals ℚ where
  wrapperLoad := fun _ _ _ _ _ =>
    ⟨4, fun l => 2 * l + 1, fun _ _ => 1, fun i => (i : ℚ), fun _ _ _ => 1⟩
  isNonNested := fun _ => false
  isSequence := fun _ => false
  getQExact := fun l _ => (l : Int)
  getIExact := fun l _ => (l : Int)
  selectTensors := fun depth _ exactness weights tset => SpecModel.selectTensors depth exactness weights tset
  generateNestedPoints := SpecModel.generateNestedPoints
  generateNonNestedPoints := fun tensors w => SpecModel.generateNestedPoints tensors w.getNumPoints
  referencePoints := fun _ levels w work => SpecModel.referencePoints w.getNumPoints levels work
  selectFlaggedChildren := fun points _ _ => MultiIndexSet.ofDim points.num_dimensions
  completeSetToLower := fun s => s
  addExclusiveChildren := SpecModel.addExclusiveChildren
  createPolynomialSpace := fun tensors _ => tensors
  generateLowerMultiIndexSet := fun _ s => s
  sequenceSurpluses := fun _ _ vals => vals
  gaussPattersonNumLevels := 9
  sqrt := fun x => x

/-- Numerical collaborators over `ℚ`: `(int) y` truncates toward zero, and the least-squares
solver returns `x = (-0.003, 0.0028, 0)`. -/
def exampleRationalNumerics : NumericExternals ℚ where
  log := fun x => x
  toInt := fun y => if 0 ≤ y then ⌊y⌋ else ⌈y⌉
  numTol := 0
  solveLeastSquares := fun _ _ _ _ _ => [-3 / 1000, 28 / 10000, 0]

/-- The two-dimensional grid `makeGrid(2, 1, depth = 1, type_level, clenshaw-curtis)` of the
collaborators over `ℚ`, loaded with values. -/
def exampleRationalGrid : GridGlobal ℚ :=
  (GridGlobal.mk0.makeGrid exampleRationalExternals 2 1 1 TypeDepth.type_level
    TypeOneDRule.rule_clenshawcurtis [] 0 0 CustomTabulated.mk0 []).loadNeededPoints
    exampleRationalExternals [1, 2, 3, 4, 5]

/-! ## The contour of the candidate tensors (`GridGlobal::getCandidateConstructionPoints`) -/

section CandidateContour

variable {R : Type} [LinearOrderedCommRing R] [Div R]

namespace GridGlobal

/-- `GridGlobal::getCandidateConstructionPoints(getTensorWeight, x, level_limits)` for a
callable that captures the grid by reference: it reads the members of the grid as they are
when it is called, after the update of `max_levels` and `wrapper`. -/
def getCandidateConstructionPointsBy {J : Type} (E : Externals R) (ops : JournalOps R J)
    (g : GridGlobal R) (dynamic_values : J) (getTensorWeight : GridGlobal R → List Nat → R)
    (level_limits : List Int) : GridGlobal R × J × List R :=
  let dynamic_values : J := ops.clearTesnors dynamic_values
  let init_tensors := ops.getInitialTensors dynamic_values
  let new_tensors :=
    if level_limits.isEmpty then E.addExclusiveChildren false g.tensors init_tensors level_limits
    else E.addExclusiveChildren true g.tensors init_tensors level_limits
  let g : GridGlobal R :=
    if !new_tensors.empty then
      let g : GridGlobal R := { g with max_levels := (MultiIndexManipulations.getMaxIndex new_tensors).1 }
      if (MultiIndexManipulations.getMaxIndex new_tensors).2 + 1 > g.wrapper.num_levels then
        { g with wrapper :=
            E.wrapperLoad g.custom (MultiIndexManipulations.getMaxIndex new_tensors).2 g.rule g.alpha g.beta }
      else g
    else g
  let tweights := (List.range new_tensors.getNumIndexes).map (fun i =>
    getTensorWeight g (new_tensors.getIndex i))
  let dynamic_values : J := (List.range new_tensors.getNumIndexes).zip tweights |>.foldl
    (fun dv it => ops.addTensor dv (new_tensors.getIndex it.1) g.wrapper.getNumPoints it.2)
    dynamic_values
  (g, dynamic_values, g.mapIndexesToNodes (ops.getNodesIndexes dynamic_values))

end GridGlobal

end CandidateContour

section WaveletBlocks

variable {R : Type} [CommRing R] [DecidableEq R]

namespace GridWavelet

/-- The rows of block `b` in `buildInterpolationMatrix`: `b * 32 .. block_end - 1` with
`block_end = (b < num_blocks - 1) ? (b + 1) * 32 : num_points`. -/
def blockRows (num_points num_blocks b : Nat) : List Nat :=
  List.range' (b * 32) ((if b + 1 < num_blocks then (b + 1) * 32 else num_points) - b * 32)

/-- The vectors `indx`, `vals` (one list per block) and `pntr` of `buildInterpolationMatrix`
after the loop over the blocks, as they are handed to `inter_matrix.load`. -/
def assembledBlocks (E : WaveletExternals R) (order d : Nat) (work : MultiIndexSet) :
    List (List Nat) × List (List R) × List Nat :=
  let num_points := work.getNumIndexes
  let num_blocks := num_points / 32 + (if num_points % 32 = 0 then 0 else 1)
  (List.range num_blocks).foldl
    (fun (acc : List (List Nat) × List (List R) × List Nat) b =>
      let blk := matrixBlock E order d work num_blocks b acc.2.2
      (acc.1.set b blk.1, acc.2.1.set b blk.2.1, blk.2.2))
    (List.replicate num_blocks [], List.replicate num_blocks [], List.replicate num_points 0)

/-- The value at the node of point `i` of the work set of the basis function of point `k`,
`prod_j psi_{p_k,j}(node_i,j)`. -/
def workBasis (E : WaveletExternals R) (order d : Nat) (work : MultiIndexSet) (i k : Nat) : R :=
  ∏ j in Finset.range d,
    E.rule1D.eval order ((work.getIndex k).getD j 0)
      (E.rule1D.getNode order ((work.getIndex i).getD j 0))

end GridWavelet

end WaveletBlocks

/-! ## `GridWavelet`: quadrature -/

section WaveletQuadrature

variable {R : Type} [CommRing R] [DecidableEq R]

namespace GridWavelet

/-- `GridWavelet::evalIntegral` -/
def evalIntegral (E : WaveletExternals R) (g : GridWavelet R) (p : List Nat) : R :=
  productWithBreak (fun i => E.rule1D.getWeight g.rule1D_order (p.getD i 0))
    (List.range g.num_dimensions) 1

/-- `GridWavelet::solveTransposed`: the first `inter_matrix.getNumRows()` entries of `w` are
copied to `y` and overwritten by the solution of the transposed system. -/
def solveTransposed (E : WaveletExternals R) (g : GridWavelet R) (w : List R) : List R :=
  let num_points := g.inter_matrix.getNumRows
  let y := w.take num_points
  let x := E.solve g.inter_matrix y true
  (List.range w.length).map (fun i => if i < num_points then x.getD i 0 else w.getD i 0)

/-- `GridWavelet::getQuadratureWeights` -/
def getQuadratureWeights (E : WaveletExternals R) (g : GridWavelet R) : List R :=
  let work := g.work
  let num_points := work.getNumIndexes
  let weights := (List.range num_points).map (fun i => g.evalIntegral E (work.getIndex i))
  g.solveTransposed E weights

/-- `GridWavelet::integrate`; `conformal_correction` is `none` for the null pointer. -/
def integrate (E : WaveletExternals R) (g : GridWavelet R) (conformal_correction : Option (List R)) :
    List R :=
  let num_points := g.points.getNumIndexes
  match conformal_correction with
  | none =>
    let basis_integrals := (List.range num_points).map (fun i => g.evalIntegral E (g.points.getIndex i))
    (List.range g.num_outputs).map (fun j =>
      (List.range num_points).foldl
        (fun sum i => sum + basis_integrals.getD i 0 * g.coefficients.get i j) 0)
  | some cc =>
    let w := g.getQuadratureWeights E
    (List.range num_points).foldl
      (fun q i => (List.range g.num_outputs).foldl
        (fun q k => q.set k (q.getD k 0 + w.getD i 0 * cc.getD i 0 * (g.values.getValues i).getD k 0)) q)
      (List.replicate g.num_outputs 0)

end GridWavelet

/-- The sparse solver is exact on the transposed system of the matrix `M` with `n` rows:
`M^T * solve(M, b, transposed) = b` for every right-hand side `b`. -/
def TransposedSolverExact (E : WaveletExternals R) (M : SparseMatrix R) (n : Nat) : Prop :=
  ∀ (b : List R) (p : Nat), p < n →
    ∑ i in Finset.range n, M.entry i p * (E.solve M b true).getD i 0 = b.getD p 0

end WaveletQuadrature

/-! ## `mergeRefinement` -/

section MergeRefinement

/-- `GridGlobal::mergeRefinement` -/
def GridGlobal.mergeRefinement {R : Type} [Zero R] (E : Externals R) (g : GridGlobal R) :
    GridGlobal R :=
  if g.needed.empty then g
  else
    let num_all_points := g.getNumLoaded + g.getNumNeeded
    let vals : List R := List.replicate (num_all_points * g.num_outputs) 0
    let g : GridGlobal R := { g with values := g.values.setValuesVector vals }
    g.acceptUpdatedTensors E

/-- `GridWavelet::mergeRefinement` -/
def GridWavelet.mergeRefinement {R : Type} [CommRing R] [DecidableEq R] (E : WaveletExternals R)
    (g : GridWavelet R) : GridWavelet R :=
  if g.needed.empty then g
  else
    let num_all_points := g.getNumLoaded + g.getNumNeeded
    let vals : List R := List.replicate (num_all_points * g.num_outputs) 0
    let g : GridWavelet R := { g with values := g.values.setValuesVector vals }
    let g : GridWavelet R :=
      if g.points.empty then { g with points := g.needed }
      else GridWavelet.buildInterpolationMatrix E { g with points := g.points.addMultiIndexSet g.needed }
    let g : GridWavelet R := { g with needed := MultiIndexSet.mk0 }
    let g : GridWavelet R := { g with coefficients := g.coefficients.resize g.num_outputs num_all_points }
    { g with coefficients := { g.coefficients with vec := g.coefficients.vec.map (fun _ => 0) } }

end MergeRefinement

/-! # Theorems -/

section WeightLemmas

variable {R : Type} [CommRing R]

omit [CommRing R] in
theorem length_foldl_set {α : Type} (ref : α → Nat) (val : List R → α → R) (L : List α) (ws : List R) :
    (L.foldl (fun ws a => ws.set (ref a) (val ws a)) ws).length = ws.length := by
  induction L generalizing ws with
  | nil => rfl
  | cons a L ih => simp [List.foldl_cons, ih]

theorem getD_set_add (ws : List R) (m r : Nat) (x : R) (hr : r < ws.length) :
    (ws.set m (ws.getD m 0 + x)).getD r 0 = ws.getD r 0 + (if m = r then x else 0) := by
  have hr2 : r < (ws.set m (ws.getD m 0 + x)).length := by simpa using hr
  rw [List.getD_eq_getElem _ _ hr2, List.getElem_set, List.getD_eq_getElem _ _ hr]
  by_cases h : m = r
  · subst h
    simp [List.getElem?_eq_getElem hr]
  · simp [h]

/-- A loop of scattered additions `ws[ref a] += val a` adds, at position `r`, the sum of the
values scattered to `r`. -/
theorem getD_foldl_set_add {α : Type} (ref : α → Nat) (val : α → R) (L : List α) (ws : List R)
    (r : Nat) (hr : r < ws.length) :
    (L.foldl (fun ws a => ws.set (ref a) (ws.getD (ref a) 0 + val a)) ws).getD r 0
      = ws.getD r 0 + (L.map (fun a => if ref a = r then val a else 0)).sum := by
  induction L generalizing ws with
  | nil => simp
  | cons a L ih =>
    rw [List.foldl_cons, ih _ (by simpa using hr), getD_set_add _ _ _ _ hr]
    simp [add_assoc]

theorem sum_map_range_eq (f : Nat → R) (n : Nat) :
    ((List.range n).map f).sum = ∑ i in Finset.range n, f i := by
  induction n with
  | zero => simp
  | succ n ih => rw [List.sum_range_succ, Finset.sum_range_succ, ih]

theorem numTensorPoints_eq (N : Nat → Nat) (d : Nat) (hd : 0 < d) :
    numTensorPoints N d = ∏ j in Finset.range d, N j := by
  obtain ⟨e, rfl⟩ : ∃ e, d = e + 1 := ⟨d - 1, by omega⟩
  unfold numTensorPoints
  simp only [Nat.add_sub_cancel]
  induction e with
  | zero => simp
  | succ e ih =>
    rw [List.range'_1_concat, List.foldl_append, ih (by omega), Finset.prod_range_succ _ (e + 1)]
    simp [Nat.add_comm]

theorem unfoldTensorIndex_aux (f : Nat → Nat → R) (N : Nat → Nat) (d : Nat) (t : Nat) (w : R) :
    (List.range d).reverse.foldl (fun tw j => (tw.1 / N j, tw.2 * f j (tw.1 % N j))) (t, w)
      = (t / ∏ l in Finset.range d, N l,
         w * ∏ j in Finset.range d, f j (mixedRadixDigit N d t j)) := by
  induction d generalizing t w with
  | zero => simp
  | succ d ih =>
    rw [List.range_succ, List.reverse_append, List.reverse_singleton, List.singleton_append,
      List.foldl_cons, ih]
    simp only
    rw [Nat.div_div_eq_div_mul, Finset.prod_range_succ, Finset.prod_range_succ, mul_comm (N d)]
    congr 1
    have hdig : ∀ j ∈ Finset.range d,
        f j (mixedRadixDigit N d (t / N d) j) = f j (mixedRadixDigit N (d + 1) t j) := by
      intro j hj
      have hjd : j < d := Finset.mem_range.mp hj
      unfold mixedRadixDigit
      have : Finset.Ioo j (d + 1) = insert d (Finset.Ioo j d) := by
        ext x; simp only [Finset.mem_Ioo, Finset.mem_insert]; omega
      rw [this, Finset.prod_insert (by simp), Nat.div_div_eq_div_mul]
    rw [Finset.prod_congr rfl hdig]
    have hlast : mixedRadixDigit N (d + 1) t d = t % N d := by
      unfold mixedRadixDigit
      have : Finset.Ioo d (d + 1) = ∅ := by
        ext x; simp only [Finset.mem_Ioo, Finset.not_mem_empty, iff_false]; omega
      simp [this]
    rw [hlast]
    ring

theorem unfoldTensorIndex_snd (f : Nat → Nat → R) (N : Nat → Nat) (d i : Nat) :
    (unfoldTensorIndex f N d i).2 = ∏ j in Finset.range d, f j (mixedRadixDigit N d i j) := by
  unfold unfoldTensorIndex
  rw [unfoldTensorIndex_aux]
  simp

theorem getD_accumulateTensor (f : Nat → Nat → R) (N : Nat → Nat) (d : Nat) (hd : 0 < d) (tw : R)
    (refs : List Nat) (ws : List R) (r : Nat) (hr : r < ws.length) :
    (accumulateTensor f N d tw refs ws).getD r 0
      = ws.getD r 0 + ∑ k in Finset.range (∏ j in Finset.range d, N j),
          if refs.getD k 0 = r then tw * ∏ j in Finset.range d, f j (mixedRadixDigit N d k j)
          else 0 := by
  unfold accumulateTensor
  rw [getD_foldl_set_add (fun i => refs.getD i 0)
    (fun i => tw * (unfoldTensorIndex f N d i).2) _ ws r hr, sum_map_range_eq,
    numTensorPoints_eq N d hd]
  simp only [unfoldTensorIndex_snd]

theorem length_accumulateTensor_eq (f : Nat → Nat → R) (N : Nat → Nat) (d : Nat) (tw : R)
    (refs : List Nat) (ws : List R) :
    (accumulateTensor f N d tw refs ws).length = ws.length := by
  unfold accumulateTensor
  exact length_foldl_set (fun i => refs.getD i 0)
    (fun ws i => ws.getD (refs.getD i 0) 0 + tw * (unfoldTensorIndex f N d i).2) _ ws

/-- The Smolyak assembly loop over the active tensors, position by position. -/
theorem getD_foldl_accumulateTensor (f : Nat → Nat → Nat → R) (N : Nat → Nat → Nat) (d : Nat)
    (hd : 0 < d) (tw : Nat → R) (refs : Nat → List Nat) (L : List Nat) (ws : List R) (r : Nat)
    (hr : r < ws.length) :
    (L.foldl (fun ws n => accumulateTensor (f n) (N n) d (tw n) (refs n) ws) ws).getD r 0
      = ws.getD r 0 + (L.map (fun n => ∑ k in Finset.range (∏ j in Finset.range d, N n j),
          if (refs n).getD k 0 = r then
            tw n * ∏ j in Finset.range d, f n j (mixedRadixDigit (N n) d k j)
          else 0)).sum := by
  induction L generalizing ws with
  | nil => simp
  | cons n L ih =>
    rw [List.foldl_cons, ih _ (by rw [length_accumulateTensor_eq]; exact hr),
      getD_accumulateTensor _ _ _ hd _ _ _ _ hr]
    simp [add_assoc]

theorem length_foldl_accumulateTensor (f : Nat → Nat → Nat → R) (N : Nat → Nat → Nat) (d : Nat)
    (tw : Nat → R) (refs : Nat → List Nat) (L : List Nat) (ws : List R) :
    (L.foldl (fun ws n => accumulateTensor (f n) (N n) d (tw n) (refs n) ws) ws).length
      = ws.length := by
  induction L generalizing ws with
  | nil => rfl
  | cons n L ih => rw [List.foldl_cons, ih, length_accumulateTensor_eq]

theorem prod_Ioo_succ (N : Nat → Nat) (j d : Nat) (hj : j < d) :
    ∏ l in Finset.Ioo j (d + 1), N l = (∏ l in Finset.Ioo j d, N l) * N d := by
  have : Finset.Ioo j (d + 1) = insert d (Finset.Ioo j d) := by
    ext x; simp only [Finset.mem_Ioo, Finset.mem_insert]; omega
  rw [this, Finset.prod_insert (by simp), mul_comm]

theorem mixedRadixDigit_succ (N : Nat → Nat) (d k j : Nat) (hj : j < d) :
    mixedRadixDigit N (d + 1) k j = mixedRadixDigit N d (k / N d) j := by
  unfold mixedRadixDigit
  rw [prod_Ioo_succ N j d hj, Nat.div_div_eq_div_mul, mul_comm]

theorem mixedRadixDigit_last (N : Nat → Nat) (d k : Nat) :
    mixedRadixDigit N (d + 1) k d = k % N d := by
  unfold mixedRadixDigit
  have : Finset.Ioo d (d + 1) = ∅ := by
    ext x; simp only [Finset.mem_Ioo, Finset.not_mem_empty, iff_false]; omega
  simp [this]

/-- The digits of `mixedRadixDigit` are the mixed-radix representation of `k`. -/
theorem mixedRadix_repr (N : Nat → Nat) (d k : Nat) (hk : k < ∏ j in Finset.range d, N j) :
    (∑ j in Finset.range d, mixedRadixDigit N d k j * ∏ l in Finset.Ioo j d, N l) = k
      ∧ ∀ j, j < d → mixedRadixDigit N d k j < N j := by
  induction d generalizing k with
  | zero => simp at hk; simp [hk]
  | succ d ih =>
    rw [Finset.prod_range_succ] at hk
    have hNd : 0 < N d := by
      rcases Nat.eq_zero_or_pos (N d) with h | h
      · rw [h] at hk; simp at hk
      · exact h
    have hq : k / N d < ∏ j in Finset.range d, N j := by
      rw [Nat.div_lt_iff_lt_mul hNd]; exact hk
    obtain ⟨ihs, ihb⟩ := ih (k / N d) hq
    constructor
    · rw [Finset.sum_range_succ, mixedRadixDigit_last]
      have hterm : ∀ j ∈ Finset.range d,
          mixedRadixDigit N (d + 1) k j * ∏ l in Finset.Ioo j (d + 1), N l
            = (mixedRadixDigit N d (k / N d) j * ∏ l in Finset.Ioo j d, N l) * N d := by
        intro j hj
        have hjd : j < d := Finset.mem_range.mp hj
        rw [mixedRadixDigit_succ N d k j hjd, prod_Ioo_succ N j d hjd, mul_assoc]
      rw [Finset.sum_congr rfl hterm, ← Finset.sum_mul, ihs]
      have : Finset.Ioo d (d + 1) = ∅ := by
        ext x; simp only [Finset.mem_Ioo, Finset.not_mem_empty, iff_false]; omega
      rw [this, Finset.prod_empty, mul_one]
      exact Nat.div_add_mod' k (N d)
    · intro j hj
      rcases Nat.lt_succ_iff_lt_or_eq.mp hj with h | h
      · rw [mixedRadixDigit_succ N d k j h]; exact ihb j h
      · subst h; rw [mixedRadixDigit_last]; exact Nat.mod_lt _ hNd

end WeightLemmas

/-! ## C1: quadrature weights -/

section QuadratureWeights

variable {R : Type} [CommRing R]

theorem GridGlobal.length_getQuadratureWeights (g : GridGlobal R) :
    g.getQuadratureWeights.length = g.getNumPoints := by
  unfold GridGlobal.getQuadratureWeights
  rw [length_foldl_accumulateTensor
    (fun n j k => g.wrapper.getWeight (g.activeLevel n j) k) g.numOnedPoints g.num_dimensions
    (fun n => ((g.active_w.getD n 0 : Int) : R)) (fun n => g.tensor_refs.getD n [])]
  simp

/-- C1. `GridGlobal::getQuadratureWeights`: in a grid of dimension `d > 0`, for every position
`r` of the current point set, `weights[r]` is the sum over the active tensors `i` and the
tensor-local indexes `k < prod_j N_j` with `tensor_refs[i][k] = r` of
`active_w[i] * prod_j wrapper.weight(L_j, k_j)`, where `k_j` are the mixed-radix digits of `k`
with the last dimension fastest (`k = sum_j k_j * prod_{l > j} N_l`, `k_j < N_j`); a position
that no tensor references gets `0`; the result has one entry per point. -/
theorem GridGlobal.getQuadratureWeights_spec (g : GridGlobal R) (hd : 0 < g.num_dimensions)
    (r : Nat) (hr : r < g.getNumPoints) :
    (g.getQuadratureWeights.getD r 0
      = ∑ i in Finset.range g.active_tensors.getNumIndexes,
          ∑ k in Finset.range (∏ j in Finset.range g.num_dimensions, g.numOnedPoints i j),
            if g.tensorRef i k = r then
              ((g.active_w.getD i 0 : Int) : R) * ∏ j in Finset.range g.num_dimensions,
                g.wrapper.getWeight (g.activeLevel i j)
                  (mixedRadixDigit (g.numOnedPoints i) g.num_dimensions k j)
            else 0)
    ∧ (∀ i k, k < ∏ j in Finset.range g.num_dimensions, g.numOnedPoints i j →
        (∑ j in Finset.range g.num_dimensions,
            mixedRadixDigit (g.numOnedPoints i) g.num_dimensions k j
              * ∏ l in Finset.Ioo j g.num_dimensions, g.numOnedPoints i l) = k
        ∧ ∀ j, j < g.num_dimensions →
            mixedRadixDigit (g.numOnedPoints i) g.num_dimensions k j < g.numOnedPoints i j)
    ∧ ((∀ i, i < g.active_tensors.getNumIndexes →
          ∀ k, k < ∏ j in Finset.range g.num_dimensions, g.numOnedPoints i j →
            g.tensorRef i k ≠ r) → g.getQuadratureWeights.getD r 0 = 0)
    ∧ g.getQuadratureWeights.length = g.getNumPoints := by
  have hmain : g.getQuadratureWeights.getD r 0
      = ∑ i in Finset.range g.active_tensors.getNumIndexes,
          ∑ k in Finset.range (∏ j in Finset.range g.num_dimensions, g.numOnedPoints i j),
            if g.tensorRef i k = r then
              ((g.active_w.getD i 0 : Int) : R) * ∏ j in Finset.range g.num_dimensions,
                g.wrapper.getWeight (g.activeLevel i j)
                  (mixedRadixDigit (g.numOnedPoints i) g.num_dimensions k j)
            else 0 := by
    unfold GridGlobal.getQuadratureWeights
    rw [getD_foldl_accumulateTensor
      (fun n j k => g.wrapper.getWeight (g.activeLevel n j) k) g.numOnedPoints g.num_dimensions hd
      (fun n => ((g.active_w.getD n 0 : Int) : R)) (fun n => g.tensor_refs.getD n []) _ _ r
      (by simpa using hr), sum_map_range_eq]
    have h0 : (List.replicate g.getNumPoints (0 : R)).getD r 0 = 0 := by
      simp [List.getD_eq_getElem?_getD, List.getElem?_replicate, hr]
    rw [h0, zero_add]
    rfl
  refine ⟨hmain, fun i k hk => mixedRadix_repr _ _ _ hk, ?_, g.length_getQuadratureWeights⟩
  intro hno
  rw [hmain]
  apply Finset.sum_eq_zero
  intro i hi
  apply Finset.sum_eq_zero
  intro k hk
  rw [if_neg (hno i (Finset.mem_range.mp hi) k (Finset.mem_range.mp hk))]

/-- The statement of C1 at the grid `exampleGrid`, position 3. -/
theorem GridGlobal.getQuadratureWeights_spec_witness :
    0 < exampleGrid.num_dimensions ∧ 3 < exampleGrid.getNumPoints
    ∧ exampleGrid.getQuadratureWeights.getD 3 0
      = ∑ i in Finset.range exampleGrid.active_tensors.getNumIndexes,
          ∑ k in Finset.range
              (∏ j in Finset.range exampleGrid.num_dimensions, exampleGrid.numOnedPoints i j),
            if exampleGrid.tensorRef i k = 3 then
              ((exampleGrid.active_w.getD i 0 : Int) : Int)
                * ∏ j in Finset.range exampleGrid.num_dimensions,
                  exampleGrid.wrapper.getWeight (exampleGrid.activeLevel i j)
                    (mixedRadixDigit (exampleGrid.numOnedPoints i) exampleGrid.num_dimensions k j)
            else 0 :=
  ⟨by decide, by decide,
    (GridGlobal.getQuadratureWeights_spec exampleGrid (by decide) 3 (by decide)).1⟩

end QuadratureWeights

/-! ## C2: evaluation -/

section EvaluateTheorems

variable {R : Type} [CommRing R]

theorem getD_foldl_set_self_add (val : Nat → R) (m : Nat) (y : List R) (k : Nat)
    (hk : k < y.length) :
    ((List.range m).foldl (fun y k => y.set k (y.getD k 0 + val k)) y).getD k 0
      = y.getD k 0 + if k < m then val k else 0 := by
  rw [getD_foldl_set_add (fun k => k) val _ y k hk, sum_map_range_eq]
  congr 1
  by_cases h : k < m
  · rw [if_pos h, Finset.sum_eq_single k]
    · simp
    · intro b _ hb; simp [hb]
    · intro hk; exact absurd (Finset.mem_range.mpr h) hk
  · rw [if_neg h]
    apply Finset.sum_eq_zero
    intro b hb
    have : b ≠ k := by
      intro hbk; subst hbk; exact h (Finset.mem_range.mp hb)
    simp [this]

theorem getD_foldl_rows (val : Nat → Nat → R) (m : Nat) (L : List Nat) (y : List R) (k : Nat)
    (hk : k < y.length) (hkm : k < m) :
    (L.foldl (fun y i => (List.range m).foldl (fun y k => y.set k (y.getD k 0 + val i k)) y) y).getD k 0
      = y.getD k 0 + (L.map (fun i => val i k)).sum
    ∧ (L.foldl (fun y i => (List.range m).foldl (fun y k => y.set k (y.getD k 0 + val i k)) y) y).length
      = y.length := by
  induction L generalizing y with
  | nil => simp
  | cons i L ih =>
    have hlen : ((List.range m).foldl (fun y k => y.set k (y.getD k 0 + val i k)) y).length
        = y.length :=
      length_foldl_set (fun k => k) (fun y k => y.getD k 0 + val i k) _ y
    rw [List.foldl_cons]
    obtain ⟨h1, h2⟩ := ih ((List.range m).foldl (fun y k => y.set k (y.getD k 0 + val i k)) y)
      (by rw [hlen]; exact hk)
    refine ⟨?_, by rw [h2, hlen]⟩
    rw [h1, getD_foldl_set_self_add (val i) m y k hk, if_pos hkm]
    simp [add_assoc]

theorem GridGlobal.length_evaluate (g : GridGlobal R) (x : List R) :
    (g.evaluate x).length = g.num_outputs := by
  unfold GridGlobal.evaluate
  have : ∀ (L : List Nat) (y : List R),
      (L.foldl (fun y i => (List.range g.num_outputs).foldl
        (fun y k => y.set k (y.getD k 0
          + (g.getInterpolationWeights x).getD i 0 * (g.values.getValues i).getD k 0)) y) y).length
        = y.length := by
    intro L
    induction L with
    | nil => intro y; rfl
    | cons i L ih =>
      intro y
      rw [List.foldl_cons, ih]
      exact length_foldl_set (fun k => k) (fun y k => y.getD k 0
          + (g.getInterpolationWeights x).getD i 0 * (g.values.getValues i).getD k 0) _ y
  rw [this]
  simp

theorem getD_flatMap_range {α : Type} (f : Nat → List α) (m : Nat) (hf : ∀ i, (f i).length = m)
    (dflt : α) (n i k : Nat) (hi : i < n) (hk : k < m) :
    ((List.range n).flatMap f).getD (i * m + k) dflt = (f i).getD k dflt := by
  have hlen : ∀ n, ((List.range n).flatMap f).length = n * m := by
    intro n
    induction n with
    | zero => simp
    | succ n ih =>
      rw [List.range_succ, List.flatMap_append, List.length_append, ih, List.flatMap_singleton, hf]
      ring
  induction n with
  | zero => omega
  | succ n ih =>
    rw [List.range_succ, List.flatMap_append, List.flatMap_singleton]
    rcases Nat.lt_succ_iff_lt_or_eq.mp hi with h | h
    · rw [List.getD_append _ _ _ _ (by
        rw [hlen]
        calc i * m + k < i * m + m := by omega
          _ = (i + 1) * m := by ring
          _ ≤ n * m := Nat.mul_le_mul_right m h)]
      exact ih h
    · subst h
      rw [List.getD_append_right _ _ _ _ (by rw [hlen]; omega), hlen]
      congr 1
      omega

/-- C2. `GridGlobal::evaluate` / `evaluateBatch`: output `k` of row `i` of `evaluateBatch` is
output `k` of `evaluate` on query point `i` (strip `i` of `x`), and `evaluate(x)[k]` is
`sum_p getInterpolationWeights(x)[p] * values[p][k]` over the loaded points `p`. -/
theorem GridGlobal.evaluateBatch_spec (g : GridGlobal R) (x : List R) (num_x i k : Nat)
    (hi : i < num_x) (hk : k < g.num_outputs) :
    (g.evaluateBatch x num_x).getD (i * g.num_outputs + k) 0
      = (g.evaluate (getStrip g.num_dimensions x i)).getD k 0
    ∧ ∀ xi : List R, (g.evaluate xi).getD k 0
      = ∑ p in Finset.range g.points.getNumIndexes,
          (g.getInterpolationWeights xi).getD p 0 * (g.values.getValues p).getD k 0 := by
  constructor
  · unfold GridGlobal.evaluateBatch
    exact getD_flatMap_range _ g.num_outputs (fun i => g.length_evaluate _) 0 num_x i k hi hk
  · intro xi
    unfold GridGlobal.evaluate
    rw [(getD_foldl_rows
      (fun i k => (g.getInterpolationWeights xi).getD i 0 * (g.values.getValues i).getD k 0)
      g.num_outputs _ _ k (by simpa using hk) hk).1, sum_map_range_eq]
    simp [List.getD_eq_getElem?_getD, List.getElem?_replicate, hk]

/-- The statement of C2 at `exampleGrid`, for a batch of two query points. -/
theorem GridGlobal.evaluateBatch_spec_witness :
    1 < 2 ∧ 0 < exampleGrid.num_outputs
    ∧ (exampleGrid.evaluateBatch [5, 7, 1, 2] 2).getD (1 * exampleGrid.num_outputs + 0) 0
      = (exampleGrid.evaluate (getStrip exampleGrid.num_dimensions [5, 7, 1, 2] 1)).getD 0 0 :=
  ⟨by decide, by decide,
    (GridGlobal.evaluateBatch_spec exampleGrid [5, 7, 1, 2] 2 1 0 (by decide) (by decide)).1⟩

end EvaluateTheorems

/-! ## C9: `updateGrid` on a loaded grid -/

section UpdateGrid

variable {R : Type} [Zero R]

/-- `updateGrid` on a loaded grid, in terms of the reselected tensor set. -/
theorem GridGlobal.updateGrid_eq (E : Externals R) (g : GridGlobal R) (depth : Int)
    (type : TypeDepth) (w limits : List Int) (hout : g.num_outputs ≠ 0)
    (hpts : g.points.empty = false) :
    g.updateGrid E depth type w limits =
      if !((g.reselectTensors E depth type w limits).diffSets g.tensors).empty then
        GridGlobal.proposeUpdatedTensors E { g.clearRefinement with
          updated_tensors := (g.reselectTensors E depth type w limits).addMultiIndexSet g.tensors }
      else { g.clearRefinement with updated_tensors := g.reselectTensors E depth type w limits } := by
  have h1 : (g.num_outputs == 0 || g.points.empty) = false := by
    simp [hpts, hout]
  unfold GridGlobal.updateGrid
  rw [h1]
  simp only [Bool.false_eq_true, if_false]
  unfold GridGlobal.reselectTensors
  by_cases hl : limits.isEmpty = true
  · simp [hl, GridGlobal.clearRefinement, MultiIndexSet.setNumDimensions, MultiIndexSet.mk0,
      MultiIndexSet.ofDim, GridGlobal.selectTensors]
  · simp [hl, GridGlobal.clearRefinement, MultiIndexSet.setNumDimensions, MultiIndexSet.mk0,
      MultiIndexSet.ofDim, GridGlobal.selectTensors]

/-- C9 (amended). `GridGlobal::updateGrid` on a grid with loaded values (`num_outputs > 0`,
`points` non-empty): when the tensor set reselected at the new depth (after level-limit
removal) has a tensor that is not in `tensors`, afterwards `updated_tensors` is the union of
the reselected set with `tensors` and `needed` is the point set generated from the updated
tensors minus `points`; when it has no new tensor, no refinement is proposed: `needed`,
`updated_active_tensors` and `updated_active_w` are empty. -/
theorem GridGlobal.updateGrid_loaded (E : Externals R) (g : GridGlobal R) (depth : Int)
    (type : TypeDepth) (w limits : List Int) (hout : g.num_outputs ≠ 0)
    (hpts : g.points.empty = false) :
    (((g.reselectTensors E depth type w limits).diffSets g.tensors).empty = false →
      (g.updateGrid E depth type w limits).updated_tensors
          = (g.reselectTensors E depth type w limits).addMultiIndexSet g.tensors
        ∧ (g.updateGrid E depth type w limits).needed
          = ((g.updateGrid E depth type w limits).updatedPoints E).diffSets g.points)
    ∧ (((g.reselectTensors E depth type w limits).diffSets g.tensors).empty = true →
      (g.updateGrid E depth type w limits).needed = MultiIndexSet.mk0
        ∧ (g.updateGrid E depth type w limits).updated_active_tensors = MultiIndexSet.mk0
        ∧ (g.updateGrid E depth type w limits).updated_active_w = []) := by
  rw [GridGlobal.updateGrid_eq E g depth type w limits hout hpts]
  constructor
  · intro hnew
    rw [hnew]
    simp [GridGlobal.proposeUpdatedTensors, GridGlobal.updatedPoints, GridGlobal.clearRefinement]
  · intro hnew
    rw [hnew]
    simp [GridGlobal.clearRefinement]

/-- The statement of C9 (amended) at `exampleLoadedGrid`, reselected at depth 2. -/
theorem GridGlobal.updateGrid_loaded_witness :
    exampleLoadedGrid.num_outputs ≠ 0 ∧ exampleLoadedGrid.points.empty = false
    ∧ ((exampleLoadedGrid.reselectTensors exampleExternals 2 TypeDepth.type_level [] []).diffSets
        exampleLoadedGrid.tensors).empty = false
    ∧ (exampleLoadedGrid.updateGrid exampleExternals 2 TypeDepth.type_level [] []).updated_tensors
        = (exampleLoadedGrid.reselectTensors exampleExternals 2 TypeDepth.type_level [] []).addMultiIndexSet
            exampleLoadedGrid.tensors
    ∧ (exampleLoadedGrid.updateGrid exampleExternals 2 TypeDepth.type_level [] []).needed
        = ((exampleLoadedGrid.updateGrid exampleExternals 2 TypeDepth.type_level [] []).updatedPoints
            exampleExternals).diffSets exampleLoadedGrid.points :=
  ⟨by decide, by decide, by decide,
    (GridGlobal.updateGrid_loaded exampleExternals exampleLoadedGrid 2 TypeDepth.type_level [] []
      (by decide) (by decide)).1 (by decide)⟩

/-- C9 as stated fails: on the loaded one-dimensional grid with tensors `{0, 1}`, `updateGrid`
at depth 0 reselects `{0}`, finds no new tensor and leaves `updated_tensors = {0}`, which is
not the union `{0, 1}` of the reselected set with the existing tensors. -/
theorem GridGlobal.updateGrid_union_counterexample :
    exampleLoadedGrid.num_outputs ≠ 0 ∧ exampleLoadedGrid.points.empty = false
    ∧ (exampleLoadedGrid.updateGrid exampleExternals 0 TypeDepth.type_level [] []).updated_tensors
        = ⟨1, [[0]]⟩
    ∧ (exampleLoadedGrid.reselectTensors exampleExternals 0 TypeDepth.type_level [] []).addMultiIndexSet
          exampleLoadedGrid.tensors = ⟨1, [[0], [1]]⟩
    ∧ ¬ ((exampleLoadedGrid.updateGrid exampleExternals 0 TypeDepth.type_level [] []).updated_tensors
        = (exampleLoadedGrid.reselectTensors exampleExternals 0 TypeDepth.type_level [] []).addMultiIndexSet
            exampleLoadedGrid.tensors) := by
  decide

end UpdateGrid

/-! ## C10: the invariant `max_levels[j] = max over tensors of t[j]` -/

section MaxLevels

variable {R : Type}

theorem le_foldl_max (l : List Nat) (a x : Nat) (hx : x = a ∨ x ∈ l) : x ≤ l.foldl max a := by
  induction l generalizing a with
  | nil =>
    rcases hx with h | h
    · exact le_of_eq h
    · simp at h
  | cons y l ih =>
    rw [List.foldl_cons]
    have hmono : ∀ (l : List Nat) (a b : Nat), a ≤ b → l.foldl max a ≤ l.foldl max b := by
      intro l
      induction l with
      | nil => intro a b h; exact h
      | cons z l ihl => intro a b h; exact ihl _ _ (max_le_max h le_rfl)
    rcases hx with h | h
    · subst h
      exact le_trans (ih x (Or.inl rfl)) (hmono l x (max x y) (le_max_left _ _))
    · rcases List.mem_cons.mp h with h | h
      · subst h
        exact le_trans (ih x (Or.inl rfl)) (hmono l x (max a x) (le_max_right _ _))
      · exact ih _ (Or.inr h)

theorem foldl_max_mem (l : List Nat) (a : Nat) : l.foldl max a = a ∨ l.foldl max a ∈ l := by
  induction l generalizing a with
  | nil => exact Or.inl rfl
  | cons y l ih =>
    rw [List.foldl_cons]
    rcases ih (max a y) with h | h
    · rw [h]
      rcases max_choice a y with h2 | h2
      · exact Or.inl h2
      · exact Or.inr (by rw [h2]; exact List.mem_cons_self _ _)
    · exact Or.inr (List.mem_cons_of_mem _ h)

/-- `getMaxIndex` returns, in every dimension `j`, the largest `t[j]` over the tuples of the
set (`0` for the empty set). -/
theorem MultiIndexManipulations.getMaxIndex_spec (s : MultiIndexSet) (j : Nat)
    (hj : j < s.num_dimensions) :
    (∀ t ∈ s.indexes, t.getD j 0 ≤ (MultiIndexManipulations.getMaxIndex s).1.getD j 0)
    ∧ (s.indexes ≠ [] →
        ∃ t ∈ s.indexes, t.getD j 0 = (MultiIndexManipulations.getMaxIndex s).1.getD j 0) := by
  have hval : (MultiIndexManipulations.getMaxIndex s).1.getD j 0
      = (s.indexes.map (fun t => t.getD j 0)).foldl max 0 := by
    unfold MultiIndexManipulations.getMaxIndex
    simp only
    rw [List.getD_eq_getElem _ _ (by simpa using hj)]
    simp
  rw [hval]
  constructor
  · intro t ht
    exact le_foldl_max _ 0 _ (Or.inr (List.mem_map.mpr ⟨t, ht, rfl⟩))
  · intro hne
    rcases foldl_max_mem (s.indexes.map (fun t => t.getD j 0)) 0 with h | h
    · obtain ⟨t, ht⟩ := List.exists_mem_of_ne_nil _ hne
      refine ⟨t, ht, ?_⟩
      have := le_foldl_max (s.indexes.map (fun t => t.getD j 0)) 0 (t.getD j 0)
        (Or.inr (List.mem_map.mpr ⟨t, ht, rfl⟩))
      omega
    · obtain ⟨t, ht, hte⟩ := List.mem_map.mp h
      exact ⟨t, ht, hte⟩

/-- `setTensors` (hence `makeGrid`) establishes the invariant. -/
theorem GridGlobal.setTensors_max_levels [Zero R] (E : Externals R) (g : GridGlobal R)
    (tset : MultiIndexSet) (m : Nat) (crule : TypeOneDRule) (a b : R) :
    (g.setTensors E tset m crule a b).max_levels
      = (MultiIndexManipulations.getMaxIndex (g.setTensors E tset m crule a b).tensors).1 := by
  unfold GridGlobal.setTensors
  by_cases h : m = 0 <;> simp [h, GridGlobal.recomputeTensorRefs, GridGlobal.reset]

/-- `loadNeededPoints` accepting a refinement re-establishes the invariant for the new
tensors. -/
theorem GridGlobal.loadNeededPoints_max_levels (E : Externals R) (g : GridGlobal R) (vals : List R)
    (hp : g.points.empty = false) (hn : g.needed.empty = false) :
    (g.loadNeededPoints E vals).tensors = g.updated_tensors
    ∧ (g.loadNeededPoints E vals).max_levels
      = (MultiIndexManipulations.getMaxIndex (g.loadNeededPoints E vals).tensors).1 := by
  unfold GridGlobal.loadNeededPoints GridGlobal.acceptUpdatedTensors
  simp [hp, hn, GridGlobal.recomputeTensorRefs]

/-- `getCandidateConstructionPoints` leaves `tensors` alone and, when there are candidate
tensors, overwrites `max_levels` with the maxima of the candidates. -/
theorem GridGlobal.getCandidateConstructionPoints_max_levels {J : Type} (E : Externals R)
    (ops : JournalOps R J) (g : GridGlobal R) (dv : J) (tw : List Nat → R) (limits : List Int)
    (hnew : (E.addExclusiveChildren (!limits.isEmpty) g.tensors
      (ops.getInitialTensors (ops.clearTesnors dv)) limits).empty = false) :
    (g.getCandidateConstructionPoints E ops dv tw limits).1.tensors = g.tensors
    ∧ (g.getCandidateConstructionPoints E ops dv tw limits).1.max_levels
      = (MultiIndexManipulations.getMaxIndex (E.addExclusiveChildren (!limits.isEmpty) g.tensors
          (ops.getInitialTensors (ops.clearTesnors dv)) limits)).1 := by
  unfold GridGlobal.getCandidateConstructionPoints
  by_cases hl : limits.isEmpty = true
  · simp only [hl, if_true, Bool.not_true] at hnew ⊢
    simp only [hnew, Bool.not_false, if_true]
    split <;> exact ⟨rfl, rfl⟩
  · simp only [Bool.not_eq_true] at hl
    simp only [hl, Bool.false_eq_true, if_false, Bool.not_false] at hnew ⊢
    simp only [hnew, Bool.not_false, if_true]
    split <;> exact ⟨rfl, rfl⟩

/-- C10 fails in dynamic construction. On the loaded two-dimensional grid with tensors
`(0,0)`, `(1,0)`, `(2,0)` the invariant holds (`max_levels = [2, 0]`); after
`getCandidateConstructionPoints` with `level_limits = [2, -1]` the only candidate is `(0,1)`,
the tensors are unchanged, and `max_levels` is `[0, 1]`: it is no longer the maximum over
`tensors`, and is below level 2 of the active tensor `(2,0)` in dimension 0. -/
theorem GridGlobal.getCandidateConstructionPoints_breaks_max_levels :
    exampleAnisotropicGrid.tensors = ⟨2, [[0, 0], [1, 0], [2, 0]]⟩
    ∧ exampleAnisotropicGrid.active_tensors = ⟨2, [[2, 0]]⟩
    ∧ exampleAnisotropicGrid.max_levels
        = (MultiIndexManipulations.getMaxIndex exampleAnisotropicGrid.tensors).1
    ∧ (exampleAnisotropicGrid.getCandidateConstructionPoints exampleExternals exampleJournalOps []
        (fun t => (t.sum : Int)) [2, -1]).1.tensors = exampleAnisotropicGrid.tensors
    ∧ (exampleAnisotropicGrid.getCandidateConstructionPoints exampleExternals exampleJournalOps []
        (fun t => (t.sum : Int)) [2, -1]).1.max_levels = [0, 1]
    ∧ (MultiIndexManipulations.getMaxIndex
        (exampleAnisotropicGrid.getCandidateConstructionPoints exampleExternals exampleJournalOps []
          (fun t => (t.sum : Int)) [2, -1]).1.tensors).1 = [2, 0] := by
  decide

end MaxLevels

/-! ## C8: refinement monotonicity -/

section Monotone

theorem foldl_preserves {σ α β : Type} (proj : σ → β) (f : σ → α → σ)
    (h : ∀ s a, proj (f s a) = proj s) (l : List α) (s : σ) : proj (l.foldl f s) = proj s := by
  induction l generalizing s with
  | nil => rfl
  | cons a l ih => rw [List.foldl_cons, ih, h]

theorem MultiIndexSet.mem_insertIndex_of_mem (p q : List Nat) (xs : List (List Nat)) (h : q ∈ xs) :
    q ∈ MultiIndexSet.insertIndex p xs := by
  induction xs with
  | nil => simp at h
  | cons x xs ih =>
    unfold MultiIndexSet.insertIndex
    split
    · exact List.mem_cons_of_mem _ h
    · split
      · rcases List.mem_cons.mp h with h1 | h1
        · rw [h1]; exact List.mem_cons_self _ _
        · exact List.mem_cons_of_mem _ (ih h1)
      · exact h

theorem MultiIndexSet.length_le_insertIndex (p : List Nat) (xs : List (List Nat)) :
    xs.length ≤ (MultiIndexSet.insertIndex p xs).length := by
  induction xs with
  | nil => simp [MultiIndexSet.insertIndex]
  | cons x xs ih =>
    unfold MultiIndexSet.insertIndex
    split
    · simp
    · split
      · simpa using ih
      · exact le_rfl

theorem MultiIndexSet.mem_mergeIndexes_of_mem (q : List Nat) (a b : List (List Nat)) (h : q ∈ a) :
    q ∈ MultiIndexSet.mergeIndexes a b := by
  unfold MultiIndexSet.mergeIndexes
  induction b generalizing a with
  | nil => exact h
  | cons p b ih => exact ih _ (MultiIndexSet.mem_insertIndex_of_mem p q a h)

theorem MultiIndexSet.length_le_mergeIndexes (a b : List (List Nat)) :
    a.length ≤ (MultiIndexSet.mergeIndexes a b).length := by
  unfold MultiIndexSet.mergeIndexes
  induction b generalizing a with
  | nil => exact le_rfl
  | cons p b ih => exact le_trans (MultiIndexSet.length_le_insertIndex p a) (ih _)

variable {R : Type} [LinearOrderedCommRing R] [Div R]

theorem GridGlobal.setSurplusRefinement_points (E : Externals R) (g : GridGlobal R) (tol : R)
    (output : Nat) (limits : List Int) :
    (g.setSurplusRefinement E tol output limits).points = g.points := by
  unfold GridGlobal.setSurplusRefinement
  simp only
  split <;> rfl

omit [LinearOrderedCommRing R] [Div R] in
theorem GridGlobal.loadNeededPoints_points (E : Externals R) (g : GridGlobal R) (vals : List R) :
    (∀ p ∈ g.points.indexes, p ∈ (g.loadNeededPoints E vals).points.indexes)
    ∧ g.points.getNumIndexes ≤ (g.loadNeededPoints E vals).points.getNumIndexes := by
  unfold GridGlobal.loadNeededPoints GridGlobal.acceptUpdatedTensors
  by_cases hp : g.points.empty = true
  · have hnil : g.points.indexes = [] := by
      simpa [MultiIndexSet.empty, List.isEmpty_iff] using hp
    simp [hp, hnil, MultiIndexSet.getNumIndexes]
  · simp only [Bool.not_eq_true] at hp
    by_cases hn : g.needed.empty = true
    · simp [hp, hn]
    · simp only [Bool.not_eq_true] at hn
      simp only [hp, hn, Bool.false_eq_true, if_false, Bool.or_self, Bool.not_false, if_true,
        GridGlobal.recomputeTensorRefs, MultiIndexSet.addMultiIndexSet, MultiIndexSet.getNumIndexes]
      exact ⟨fun p hp => MultiIndexSet.mem_mergeIndexes_of_mem p _ _ hp,
        MultiIndexSet.length_le_mergeIndexes _ _⟩

theorem GridWavelet.wavelet_setSurplusRefinement_points (E : WaveletExternals R) (g : GridWavelet R)
    (tol : R) (criteria : TypeRefinement) (output : Int) (limits : List Int) :
    (g.setSurplusRefinement E tol criteria output limits).points = g.points := by
  have hite : ∀ (c : Prop) [Decidable c] (a b : GridWavelet R),
      a.points = g.points → b.points = g.points → (if c then a else b).points = g.points := by
    intro c _ a b ha hb
    split <;> assumption
  unfold GridWavelet.setSurplusRefinement
  exact hite _ _ _ rfl rfl

theorem GridWavelet.wavelet_buildInterpolationMatrix_points {R : Type} [CommRing R] [DecidableEq R]
    (E : WaveletExternals R) (g : GridWavelet R) :
    (g.buildInterpolationMatrix E).points = g.points := rfl

theorem GridWavelet.wavelet_recomputeCoefficients_points {R : Type} [CommRing R] [DecidableEq R]
    (E : WaveletExternals R) (g : GridWavelet R) :
    (g.recomputeCoefficients E).points = g.points := by
  unfold GridWavelet.recomputeCoefficients
  simp only
  rw [foldl_preserves (fun g : GridWavelet R => g.points)]
  · split <;> rfl
  · intro s a
    apply foldl_preserves (fun g : GridWavelet R => g.points)
    intro s i
    rfl

theorem GridWavelet.wavelet_loadNeededPoints_points {R : Type} [CommRing R] [DecidableEq R]
    (E : WaveletExternals R) (g : GridWavelet R) (vals : List R) :
    (∀ p ∈ g.points.indexes, p ∈ (g.loadNeededPoints E vals).points.indexes)
    ∧ g.points.getNumIndexes ≤ (g.loadNeededPoints E vals).points.getNumIndexes := by
  unfold GridWavelet.loadNeededPoints
  simp only
  rw [GridWavelet.wavelet_recomputeCoefficients_points]
  by_cases hp : g.points.empty = true
  · have hnil : g.points.indexes = [] := by
      simpa [MultiIndexSet.empty, List.isEmpty_iff] using hp
    simp [hp, hnil, MultiIndexSet.getNumIndexes]
  · simp only [Bool.not_eq_true] at hp
    by_cases hn : g.needed.empty = true
    · simp [hp, hn]
    · simp only [Bool.not_eq_true] at hn
      simp only [hp, hn, Bool.false_eq_true, if_false, GridWavelet.wavelet_buildInterpolationMatrix_points,
        MultiIndexSet.addMultiIndexSet, MultiIndexSet.getNumIndexes]
      exact ⟨fun p hp => MultiIndexSet.mem_mergeIndexes_of_mem p _ _ hp,
        MultiIndexSet.length_le_mergeIndexes _ _⟩

/-- C8. Refinement monotonicity: for every `GridGlobal` and every `GridWavelet`, every
tolerance, output, criteria and level limits, `setSurplusRefinement` followed by
`loadNeededPoints` never removes a point: every multi-index of `points` before the two calls is
in `points` afterwards, and the number of points does not decrease. -/
theorem surplusRefinement_then_load_monotone (E : Externals R) (EW : WaveletExternals R)
    (g : GridGlobal R) (gw : GridWavelet R) (tol tolw : R) (output : Nat) (outputw : Int)
    (criteria : TypeRefinement) (limits limitsw : List Int) (vals valsw : List R) :
    ((∀ p ∈ g.points.indexes,
        p ∈ ((g.setSurplusRefinement E tol output limits).loadNeededPoints E vals).points.indexes)
      ∧ g.points.getNumIndexes
        ≤ ((g.setSurplusRefinement E tol output limits).loadNeededPoints E vals).points.getNumIndexes)
    ∧ ((∀ p ∈ gw.points.indexes,
        p ∈ ((gw.setSurplusRefinement EW tolw criteria outputw limitsw).loadNeededPoints EW
              valsw).points.indexes)
      ∧ gw.points.getNumIndexes
        ≤ ((gw.setSurplusRefinement EW tolw criteria outputw limitsw).loadNeededPoints EW
              valsw).points.getNumIndexes) := by
  constructor
  · have h := GridGlobal.loadNeededPoints_points E (g.setSurplusRefinement E tol output limits) vals
    rw [GridGlobal.setSurplusRefinement_points] at h
    exact h
  · have h := GridWavelet.wavelet_loadNeededPoints_points EW
      (gw.setSurplusRefinement EW tolw criteria outputw limitsw) valsw
    rw [GridWavelet.wavelet_setSurplusRefinement_points] at h
    exact h

end Monotone

/-! ## The collocation matrix of `GridWavelet` -/

section Collocation

variable {R : Type} [CommRing R] [DecidableEq R]

theorem productWithBreak_eq (f : Nat → R) (L : List Nat) (v : R) :
    productWithBreak f L v = v * (L.map f).prod := by
  induction L generalizing v with
  | nil => simp [productWithBreak]
  | cons j js ih =>
    unfold productWithBreak
    split
    · rename_i h
      rw [List.map_cons, List.prod_cons, ← mul_assoc, h, zero_mul]
    · rw [ih, List.map_cons, List.prod_cons, mul_assoc]

omit [CommRing R] [DecidableEq R] in
theorem foldl_block_rows (rows : Nat → List (Nat × R)) (L : List Nat) (ix : List Nat) (vs : List R)
    (pn : List Nat) :
    L.foldl (fun (acc : List Nat × List R × List Nat) i =>
        (acc.1 ++ (rows i).map (fun e => e.1), acc.2.1 ++ (rows i).map (fun e => e.2),
          acc.2.2.set i (rows i).length)) (ix, vs, pn)
      = (ix ++ (L.flatMap rows).map (fun e => e.1), vs ++ (L.flatMap rows).map (fun e => e.2),
          L.foldl (fun pn i => pn.set i (rows i).length) pn) := by
  induction L generalizing ix vs pn with
  | nil => simp
  | cons i L ih =>
    rw [List.foldl_cons, ih]
    simp [List.flatMap_cons, List.append_assoc]

theorem foldl_set_range {α : Type} (F : Nat → α) (n : Nat) (init : List α) (h : init.length = n) :
    (List.range n).foldl (fun l b => l.set b (F b)) init = (List.range n).map F := by
  have key : ∀ K, K ≤ n →
      (List.range K).foldl (fun l b => l.set b (F b)) init = (List.range K).map F ++ init.drop K := by
    intro K
    induction K with
    | zero => intro _; simp
    | succ K ih =>
      intro hK
      rw [List.range_succ, List.foldl_append, ih (by omega), List.foldl_cons, List.foldl_nil,
        List.set_append_right _ _ (by simp), List.map_append, List.map_singleton]
      simp only [List.length_map, List.length_range, Nat.sub_self]
      have hlt : K < init.length := by omega
      rw [List.drop_eq_getElem_cons hlt, List.set_cons_zero, List.append_assoc]
      rfl
  rw [key n le_rfl, List.drop_eq_nil_of_le (by omega), List.append_nil]

theorem foldl_flatMap_eq {α β σ : Type} (f : σ → β → σ) (B : α → List β) (L : List α) (s : σ) :
    (L.flatMap B).foldl f s = L.foldl (fun s a => (B a).foldl f s) s := by
  induction L generalizing s with
  | nil => rfl
  | cons a L ih => rw [List.flatMap_cons, List.foldl_append, ih, List.foldl_cons]

/-- The blocks of 32 rows partition the rows `0 .. n - 1` in increasing order. -/
theorem blocks_cover (n : Nat) :
    (List.range (n / 32 + (if n % 32 = 0 then 0 else 1))).flatMap (fun b =>
        List.range' (b * 32)
          ((if b + 1 < n / 32 + (if n % 32 = 0 then 0 else 1) then (b + 1) * 32 else n) - b * 32))
      = List.range n := by
  have hfull : ∀ K, (List.range K).flatMap (fun b => List.range' (b * 32) 32) = List.range (K * 32) := by
    intro K
    induction K with
    | zero => simp
    | succ K ih =>
      rw [List.range_succ, List.flatMap_append, ih, List.flatMap_singleton, List.range_eq_range',
        List.range_eq_range']
      have h2 : List.range' (K * 32) 32 = List.range' (0 + K * 32) 32 := by simp
      rw [h2, List.range'_append_1]
      congr 1
      ring
  rcases Nat.eq_zero_or_pos n with h0 | hpos
  · subst h0; simp
  · set nb := n / 32 + (if n % 32 = 0 then 0 else 1) with hnb
    have hnb1 : 1 ≤ nb := by
      rw [hnb]; split <;> omega
    have hlow : (nb - 1) * 32 < n := by
      rw [hnb]; split <;> omega
    have hup : n ≤ nb * 32 := by
      rw [hnb]; split <;> omega
    obtain ⟨K, hK⟩ : ∃ K, nb = K + 1 := ⟨nb - 1, by omega⟩
    rw [hK, List.range_succ, List.flatMap_append, List.flatMap_singleton]
    have hfirst : (List.range K).flatMap (fun b =>
        List.range' (b * 32) ((if b + 1 < K + 1 then (b + 1) * 32 else n) - b * 32))
        = (List.range K).flatMap (fun b => List.range' (b * 32) 32) := by
      apply List.flatMap_congr
      intro b hb
      have hb' : b < K := List.mem_range.mp hb
      rw [if_pos (by omega)]
      congr 1
      omega
    rw [hfirst, hfull, if_neg (by omega), List.range_eq_range', List.range_eq_range']
    have h2 : List.range' (K * 32) (n - K * 32) = List.range' (0 + K * 32) (n - K * 32) := by simp
    rw [h2, List.range'_append_1]
    congr 1
    have : K = nb - 1 := by omega
    subst this
    omega

omit [CommRing R] [DecidableEq R] in
theorem foldl_blocks (A : Nat → List Nat) (Bv : Nat → List R) (G : Nat → List Nat → List Nat)
    (L : List Nat) (init : List (List Nat) × List (List R) × List Nat) :
    L.foldl (fun (acc : List (List Nat) × List (List R) × List Nat) b =>
        (acc.1.set b (A b), acc.2.1.set b (Bv b), G b acc.2.2)) init
      = (L.foldl (fun l b => l.set b (A b)) init.1, L.foldl (fun l b => l.set b (Bv b)) init.2.1,
          L.foldl (fun pn b => G b pn) init.2.2) := by
  induction L generalizing init with
  | nil => rfl
  | cons b L ih => rw [List.foldl_cons, ih]; rfl

omit [CommRing R] [DecidableEq R] in
theorem zip_map_fst_map_snd {α β : Type} (l : List (α × β)) :
    (l.map (fun e => e.1)).zip (l.map (fun e => e.2)) = l := by
  induction l with
  | nil => rfl
  | cons a l ih => simp [ih]

omit [CommRing R] [DecidableEq R] in
theorem flatten_drop_take {α : Type} (ls : List (List α)) (i : Nat) (hi : i < ls.length) :
    (ls.flatten.drop ((ls.take i).map List.length).sum).take (ls.getD i []).length = ls.getD i [] := by
  induction ls generalizing i with
  | nil => simp at hi
  | cons l ls ih =>
    cases i with
    | zero => simp
    | succ i =>
      have hi' : i < ls.length := by simpa using hi
      simp only [List.take_succ_cons, List.map_cons, List.sum_cons, List.flatten_cons,
        List.drop_append, List.getD_cons_succ]
      exact ih i hi'

/-- The matrix assembled by `buildInterpolationMatrix`, as the compressed-row storage of the
rows `matrixRow`. -/
theorem GridWavelet.collocationMatrix_eq (E : WaveletExternals R) (order d : Nat)
    (work : MultiIndexSet) :
    GridWavelet.collocationMatrix E order d work
      = ⟨work.getNumIndexes,
          (List.range (work.getNumIndexes + 1)).map (fun i =>
            (((List.range work.getNumIndexes).map
              (fun i => (GridWavelet.matrixRow E order d work i).length)).take i).sum),
          ((List.range work.getNumIndexes).flatMap (GridWavelet.matrixRow E order d work)).map
            (fun e => e.1),
          ((List.range work.getNumIndexes).flatMap (GridWavelet.matrixRow E order d work)).map
            (fun e => e.2)⟩ := by
  unfold GridWavelet.collocationMatrix
  simp only [GridWavelet.matrixBlock, foldl_block_rows, List.nil_append]
  rw [foldl_blocks
    (fun b => ((List.range' (b * 32)
      ((if b + 1 < work.getNumIndexes / 32 + (if work.getNumIndexes % 32 = 0 then 0 else 1)
        then (b + 1) * 32 else work.getNumIndexes) - b * 32)).flatMap
        (GridWavelet.matrixRow E order d work)).map (fun e => e.1))
    (fun b => ((List.range' (b * 32)
      ((if b + 1 < work.getNumIndexes / 32 + (if work.getNumIndexes % 32 = 0 then 0 else 1)
        then (b + 1) * 32 else work.getNumIndexes) - b * 32)).flatMap
        (GridWavelet.matrixRow E order d work)).map (fun e => e.2))
    (fun b pn => (List.range' (b * 32)
      ((if b + 1 < work.getNumIndexes / 32 + (if work.getNumIndexes % 32 = 0 then 0 else 1)
        then (b + 1) * 32 else work.getNumIndexes) - b * 32)).foldl
        (fun pn i => pn.set i (GridWavelet.matrixRow E order d work i).length) pn)]
  simp only
  have hp := foldl_flatMap_eq (fun (pn : List Nat) i => pn.set i (GridWavelet.matrixRow E order d work i).length)
      (fun b => List.range' (b * 32)
        ((if b + 1 < work.getNumIndexes / 32 + (if work.getNumIndexes % 32 = 0 then 0 else 1)
          then (b + 1) * 32 else work.getNumIndexes) - b * 32))
      (List.range (work.getNumIndexes / 32 + (if work.getNumIndexes % 32 = 0 then 0 else 1)))
      (List.replicate work.getNumIndexes 0)
  rw [blocks_cover, foldl_set_range _ _ _ (by simp)] at hp
  rw [foldl_set_range _ _ _ (by simp), foldl_set_range _ _ _ (by simp), ← hp]
  unfold SparseMatrix.load
  simp only [List.length_map, List.length_range]
  congr 1
  · rw [← List.flatMap_def, ← List.map_flatMap, ← List.flatMap_assoc, blocks_cover]
  · rw [← List.flatMap_def, ← List.map_flatMap, ← List.flatMap_assoc, blocks_cover]

theorem GridWavelet.collocationMatrix_row (E : WaveletExternals R) (order d : Nat)
    (work : MultiIndexSet) (i : Nat) (hi : i < work.getNumIndexes) :
    (GridWavelet.collocationMatrix E order d work).row i = GridWavelet.matrixRow E order d work i := by
  rw [GridWavelet.collocationMatrix_eq]
  unfold SparseMatrix.row
  simp only
  rw [zip_map_fst_map_snd]
  have h1 : ∀ k, k ≤ work.getNumIndexes →
      ((List.range (work.getNumIndexes + 1)).map (fun i =>
        (((List.range work.getNumIndexes).map
          (fun i => (GridWavelet.matrixRow E order d work i).length)).take i).sum)).getD k 0
      = (((List.range work.getNumIndexes).map
          (fun i => (GridWavelet.matrixRow E order d work i).length)).take k).sum := by
    intro k hk
    rw [List.getD_eq_getElem _ _ (by simp; omega)]
    simp
  rw [h1 i (by omega), h1 (i + 1) (by omega)]
  have h2 : (((List.range work.getNumIndexes).map
        (fun i => (GridWavelet.matrixRow E order d work i).length)).take (i + 1)).sum
      - (((List.range work.getNumIndexes).map
        (fun i => (GridWavelet.matrixRow E order d work i).length)).take i).sum
      = (GridWavelet.matrixRow E order d work i).length := by
    rw [List.take_succ]
    simp [List.getElem?_range, hi]
  rw [h2, List.flatMap_def]
  have h3 := flatten_drop_take ((List.range work.getNumIndexes).map (GridWavelet.matrixRow E order d work))
    i (by simpa using hi)
  have h4 : ((List.range work.getNumIndexes).map (GridWavelet.matrixRow E order d work)).getD i []
      = GridWavelet.matrixRow E order d work i := by
    rw [List.getD_eq_getElem _ _ (by simpa using hi)]
    simp
  rw [h4] at h3
  have h5 : (((List.range work.getNumIndexes).map (GridWavelet.matrixRow E order d work)).take i).map
        List.length
      = ((List.range work.getNumIndexes).map
          (fun i => (GridWavelet.matrixRow E order d work i).length)).take i := by
    rw [← List.map_take, List.map_map, ← List.map_take]
    rfl
  rw [h5] at h3
  exact h3

omit [DecidableEq R] in
theorem prod_map_range_eq (f : Nat → R) (n : Nat) :
    ((List.range n).map f).prod = ∏ i in Finset.range n, f i := by
  induction n with
  | zero => simp
  | succ n ih => rw [List.prod_range_succ, Finset.prod_range_succ, ih]

/-- The value pushed for column `wi` of row `i` is the product of the 1-D basis values. -/
theorem GridWavelet.basis_product_eq (E : WaveletExternals R) (order d : Nat) (work : MultiIndexSet)
    (i wi : Nat) :
    productWithBreak
      (fun j => E.rule1D.eval order ((work.getIndex wi).getD j 0)
        ((GridWavelet.workNode E order d work i).getD j 0))
      (List.range d) 1
    = ∏ j in Finset.range d, E.rule1D.eval order ((work.getIndex wi).getD j 0)
        (E.rule1D.getNode order ((work.getIndex i).getD j 0)) := by
  rw [productWithBreak_eq, one_mul, prod_map_range_eq]
  apply Finset.prod_congr rfl
  intro j hj
  have hjd : j < d := Finset.mem_range.mp hj
  have hnode : (GridWavelet.workNode E order d work i).getD j 0
      = E.rule1D.getNode order ((work.getIndex i).getD j 0) := by
    unfold GridWavelet.workNode
    rw [List.getD_eq_getElem?_getD, List.getElem?_map, List.getElem?_range hjd]
    rfl
  rw [hnode]

theorem sum_filterMap_nonzero (v : Nat → R) (F : Nat → R → R) (hF : ∀ w, F w 0 = 0)
    (L : List Nat) :
    ((L.filterMap (fun w => if v w ≠ 0 then some (w, v w) else none)).map (fun e => F e.1 e.2)).sum
      = (L.map (fun w => F w (v w))).sum := by
  induction L with
  | nil => rfl
  | cons w L ih =>
    simp only [ne_eq, ite_not] at ih ⊢
    by_cases h : v w = 0
    · simp [List.filterMap_cons, h, hF, ih]
    · simp [List.filterMap_cons, h, ih]

/-- Row `i` of the assembled matrix times a vector is the full sum over the basis functions. -/
theorem GridWavelet.collocationMatrix_rowDot (E : WaveletExternals R) (order d : Nat)
    (work : MultiIndexSet) (i : Nat) (hi : i < work.getNumIndexes) (c : List R) :
    (GridWavelet.collocationMatrix E order d work).rowDot i c
      = ∑ k in Finset.range work.getNumIndexes,
          (∏ j in Finset.range d, E.rule1D.eval order ((work.getIndex k).getD j 0)
            (E.rule1D.getNode order ((work.getIndex i).getD j 0))) * c.getD k 0 := by
  unfold SparseMatrix.rowDot
  rw [GridWavelet.collocationMatrix_row E order d work i hi]
  unfold GridWavelet.matrixRow
  simp only [GridWavelet.basis_product_eq]
  rw [sum_filterMap_nonzero _ (fun w x => x * c.getD w 0) (fun w => zero_mul _), sum_map_range_eq]

/-- The entries of the assembled matrix are the basis values at the nodes. -/
theorem GridWavelet.collocationMatrix_entry (E : WaveletExternals R) (order d : Nat)
    (work : MultiIndexSet) (i k : Nat) (hi : i < work.getNumIndexes) (hk : k < work.getNumIndexes) :
    (GridWavelet.collocationMatrix E order d work).entry i k
      = ∏ j in Finset.range d, E.rule1D.eval order ((work.getIndex k).getD j 0)
          (E.rule1D.getNode order ((work.getIndex i).getD j 0)) := by
  unfold SparseMatrix.entry
  rw [GridWavelet.collocationMatrix_row E order d work i hi]
  unfold GridWavelet.matrixRow
  simp only [GridWavelet.basis_product_eq]
  have h1 : ∀ (L : List (Nat × R)),
      ((L.filter (fun e => decide (e.1 = k))).map (fun e => e.2)).sum
        = (L.map (fun e => if e.1 = k then e.2 else 0)).sum := by
    intro L
    induction L with
    | nil => rfl
    | cons e L ih =>
      by_cases h : e.1 = k
      · simp [List.filter_cons, h, ih]
      · simp [List.filter_cons, h, ih]
  rw [h1, sum_filterMap_nonzero _ (fun w x => if w = k then x else 0) (fun w => by simp),
    sum_map_range_eq, Finset.sum_eq_single k]
  · simp
  · intro b _ hb; simp [hb]
  · intro hk'; exact absurd (Finset.mem_range.mpr hk) hk'

theorem GridWavelet.collocationMatrix_num_rows (E : WaveletExternals R) (order d : Nat)
    (work : MultiIndexSet) :
    (GridWavelet.collocationMatrix E order d work).getNumRows = work.getNumIndexes := by
  rw [GridWavelet.collocationMatrix_eq]
  rfl

/-- The assembled matrix depends on the work set only through its list of points. -/
theorem GridWavelet.collocationMatrix_congr (E : WaveletExternals R) (order d : Nat)
    (work work2 : MultiIndexSet) (h : work.indexes = work2.indexes) :
    GridWavelet.collocationMatrix E order d work = GridWavelet.collocationMatrix E order d work2 := by
  simp only [GridWavelet.collocationMatrix, GridWavelet.matrixBlock, GridWavelet.matrixRow,
    GridWavelet.workNode, MultiIndexSet.getIndex, MultiIndexSet.getNumIndexes, h]

end Collocation

/-! ## C5 and C4: wavelet collocation and the interpolation identity -/

section WaveletCoefficients

variable {R : Type} [CommRing R] [DecidableEq R]

omit [CommRing R] [DecidableEq R] in
theorem Data2D.foldl_set_vec {α : Type} (I K : α → Nat) (v : α → R) (L : List α) (C : Data2D R) :
    L.foldl (fun C a => C.set (I a) (K a) (v a)) C
      = { C with vec := L.foldl (fun ws a => ws.set (I a * C.stride + K a) (v a)) C.vec } := by
  induction L generalizing C with
  | nil => rfl
  | cons a L ih => rw [List.foldl_cons, ih]; rfl

omit [CommRing R] [DecidableEq R] in
theorem GridWavelet.foldl_coefficients {α : Type} (F : Data2D R → α → Data2D R) (L : List α)
    (s : GridWavelet R) :
    L.foldl (fun (g : GridWavelet R) a => { g with coefficients := F g.coefficients a }) s
      = { s with coefficients := L.foldl F s.coefficients } := by
  induction L generalizing s with
  | nil => rfl
  | cons a L ih => rw [List.foldl_cons, ih]; rfl

omit [CommRing R] [DecidableEq R] in
theorem GridWavelet.foldl_coefficients_dep {α : Type}
    (G : SparseMatrix R → StorageSet R → α → Data2D R → Data2D R) (L : List α) (s : GridWavelet R) :
    L.foldl (fun (g : GridWavelet R) a =>
        { g with coefficients := G g.inter_matrix g.values a g.coefficients }) s
      = { s with coefficients := L.foldl (fun C a => G s.inter_matrix s.values a C) s.coefficients } := by
  induction L generalizing s with
  | nil => rfl
  | cons a L ih => rw [List.foldl_cons, ih]; rfl

omit [CommRing R] [DecidableEq R] in
theorem getD_foldl_set_keep {α : Type} [Zero R] (pos : α → Nat) (val : α → R) (L : List α) (ws : List R)
    (p : Nat) (v : R) (hv : ws.getD p 0 = v) (hL : ∀ c ∈ L, pos c = p → val c = v) :
    (L.foldl (fun ws a => ws.set (pos a) (val a)) ws).getD p 0 = v := by
  induction L generalizing ws with
  | nil => exact hv
  | cons a L ih =>
    rw [List.foldl_cons]
    apply ih
    · by_cases hpa : pos a = p
      · by_cases hlt : p < ws.length
        · rw [List.getD_eq_getElem _ _ (by simpa using hlt), List.getElem_set, if_pos hpa]
          exact hL a (List.mem_cons_self _ _) hpa
        · rw [← hv]
          simp only [List.getD_eq_getElem?_getD]
          rw [List.getElem?_eq_none (by simpa using hlt), List.getElem?_eq_none (by omega)]
      · simp only [List.getD_eq_getElem?_getD] at hv ⊢
        rw [List.getElem?_set_ne hpa]
        exact hv
    · intro c hc
      exact hL c (List.mem_cons_of_mem _ hc)

omit [CommRing R] [DecidableEq R] in
/-- A loop of writes `ws[pos a] = val a` in which two writes to one position carry the same
value leaves `val a` at `pos a`. -/
theorem getD_foldl_set_written {α : Type} [Zero R] (pos : α → Nat) (val : α → R) (L : List α)
    (ws : List R) (hinj : ∀ a ∈ L, ∀ b ∈ L, pos a = pos b → val a = val b) (a : α) (ha : a ∈ L)
    (hlt : pos a < ws.length) :
    (L.foldl (fun ws a => ws.set (pos a) (val a)) ws).getD (pos a) 0 = val a := by
  induction L generalizing ws with
  | nil => simp at ha
  | cons b L ih =>
    rw [List.foldl_cons]
    by_cases hmem : a ∈ L
    · exact ih _ (fun x hx y hy => hinj x (List.mem_cons_of_mem _ hx) y (List.mem_cons_of_mem _ hy))
        hmem (by simpa using hlt)
    · have hab : a = b := by
        rcases List.mem_cons.mp ha with h | h
        · exact h
        · exact absurd h hmem
      subst hab
      apply getD_foldl_set_keep
      · rw [List.getD_eq_getElem _ _ (by simpa using hlt), List.getElem_set, if_pos rfl]
      · intro c hc hpc
        exact hinj c (List.mem_cons_of_mem _ hc) a (List.mem_cons_self _ _) hpc

omit [DecidableEq R] in
theorem GridWavelet.recompute_fold (E : WaveletExternals R) (n : Nat) (L : List Nat)
    (s : GridWavelet R) :
    L.foldl (fun (g : GridWavelet R) output =>
        (List.range n).foldl
          (fun (g' : GridWavelet R) i =>
            { g' with coefficients := (g'.coefficients.set i output
                ((E.solve g.inter_matrix
                  ((List.range n).map (fun i => (g.values.getValues i).getD output 0)) false).getD i 0)) })
          g) s
      = { s with coefficients := (L.foldl (fun (C : Data2D R) output =>
            (List.range n).foldl
              (fun (C : Data2D R) i => C.set i output
                ((E.solve s.inter_matrix
                  ((List.range n).map (fun i => (s.values.getValues i).getD output 0)) false).getD i 0))
              C) s.coefficients) } := by
  induction L generalizing s with
  | nil => rfl
  | cons k L ih =>
    rw [List.foldl_cons]
    have hin := GridWavelet.foldl_coefficients
      (fun (C : Data2D R) i => C.set i k
        ((E.solve s.inter_matrix
          ((List.range n).map (fun i => (s.values.getValues i).getD k 0)) false).getD i 0))
      (List.range n) s
    rw [hin, ih]
    rfl

omit [CommRing R] [DecidableEq R] in
theorem Data2D.coeff_fold_vec (X : Nat → Nat → R) (n : Nat) (L : List Nat) (C : Data2D R) :
    L.foldl (fun (C : Data2D R) k => (List.range n).foldl (fun (C : Data2D R) i => C.set i k (X k i)) C) C
      = { C with vec := ((L.flatMap (fun k => (List.range n).map (fun i => (k, i)))).foldl
            (fun ws (a : Nat × Nat) => ws.set (a.2 * C.stride + a.1) (X a.1 a.2)) C.vec) } := by
  induction L generalizing C with
  | nil => rfl
  | cons k L ih =>
    rw [List.foldl_cons]
    have hin := Data2D.foldl_set_vec (fun i : Nat => i) (fun _ : Nat => k) (X k) (List.range n) C
    rw [hin, ih, List.flatMap_cons, List.foldl_append, List.foldl_map]

omit [DecidableEq R] in
theorem Data2D.get_coeff_fold (X : Nat → Nat → R) (n m : Nat) (C : Data2D R) (hs : C.stride = m)
    (hlen : C.vec.length = m * n) (i k : Nat) (hi : i < n) (hk : k < m) :
    ((List.range m).foldl
      (fun (C : Data2D R) k => (List.range n).foldl (fun (C : Data2D R) i => C.set i k (X k i)) C) C).get i k
      = X k i := by
  rw [Data2D.coeff_fold_vec]
  unfold Data2D.get
  simp only [hs]
  have hmem : (k, i) ∈ (List.range m).flatMap (fun k => (List.range n).map (fun i => (k, i))) := by
    simp only [List.mem_flatMap, List.mem_map, List.mem_range]
    exact ⟨k, hk, i, hi, rfl⟩
  have hpos : i * m + k < C.vec.length := by
    rw [hlen]
    calc i * m + k < i * m + m := by omega
      _ = m * (i + 1) := by ring
      _ ≤ m * n := Nat.mul_le_mul_left m hi
  exact getD_foldl_set_written (fun a : Nat × Nat => a.2 * m + a.1) (fun a => X a.1 a.2)
    ((List.range m).flatMap (fun k => (List.range n).map (fun i => (k, i)))) C.vec
    (by
      intro a ha b hb hab
      simp only [List.mem_flatMap, List.mem_map, List.mem_range] at ha hb
      obtain ⟨ka, hka, ia, _, rfl⟩ := ha
      obtain ⟨kb, hkb, ib, _, rfl⟩ := hb
      simp only at hab ⊢
      have h1 : (ia * m + ka) % m = (ib * m + kb) % m := by rw [hab]
      have h2 : (ia * m + ka) / m = (ib * m + kb) / m := by rw [hab]
      rw [Nat.mul_add_mod_of_lt hka, Nat.mul_add_mod_of_lt hkb] at h1
      have hm : 0 < m := by omega
      rw [Nat.mul_comm ia m, Nat.mul_comm ib m, Nat.mul_add_div hm, Nat.mul_add_div hm,
        Nat.div_eq_of_lt hka, Nat.div_eq_of_lt hkb] at h2
      simp only [Nat.add_zero] at h2
      rw [h1, h2])
    (k, i) hmem hpos

omit [CommRing R] [DecidableEq R] in
theorem Data2D.length_resize [Zero R] (C : Data2D R) (m n : Nat) :
    (C.resize m n).vec.length = m * n := by
  unfold Data2D.resize
  simp only [List.length_append, List.length_take, List.length_replicate]
  omega

/-- `recomputeCoefficients`: the matrix is rebuilt only when its row count is wrong, and column
`k` of the coefficient table is what the solver returns for column `k` of the values. -/
theorem GridWavelet.recomputeCoefficients_spec (E : WaveletExternals R) (g : GridWavelet R) :
    (g.recomputeCoefficients E).inter_matrix
        = (if g.inter_matrix.getNumRows ≠ g.points.getNumIndexes then
            GridWavelet.collocationMatrix E g.rule1D_order g.num_dimensions g.work
          else g.inter_matrix)
    ∧ (g.recomputeCoefficients E).values = g.values
    ∧ (g.recomputeCoefficients E).points = g.points
    ∧ (g.recomputeCoefficients E).needed = g.needed
    ∧ (g.recomputeCoefficients E).num_outputs = g.num_outputs
    ∧ (g.recomputeCoefficients E).num_dimensions = g.num_dimensions
    ∧ (g.recomputeCoefficients E).rule1D_order = g.rule1D_order
    ∧ (g.recomputeCoefficients E).order = g.order
    ∧ ∀ i k, i < g.points.getNumIndexes → k < g.num_outputs →
        (g.recomputeCoefficients E).coefficients.get i k
          = (E.solve (g.recomputeCoefficients E).inter_matrix
              ((List.range g.points.getNumIndexes).map (fun i => (g.values.getValues i).getD k 0))
              false).getD i 0 := by
  have hform : g.recomputeCoefficients E
      = (List.range g.num_outputs).foldl (fun (s : GridWavelet R) output =>
          (List.range g.points.getNumIndexes).foldl
            (fun (g' : GridWavelet R) i =>
              { g' with coefficients := (g'.coefficients.set i output
                  ((E.solve s.inter_matrix
                    ((List.range g.points.getNumIndexes).map
                      (fun i => (s.values.getValues i).getD output 0)) false).getD i 0)) })
            s)
          (if g.inter_matrix.getNumRows ≠ g.points.getNumIndexes then
            GridWavelet.buildInterpolationMatrix E
              { g with coefficients := g.coefficients.resize g.num_outputs g.points.getNumIndexes }
          else { g with coefficients := g.coefficients.resize g.num_outputs g.points.getNumIndexes }) := by
    unfold GridWavelet.recomputeCoefficients
    simp only
    split <;> rfl
  rw [hform, GridWavelet.recompute_fold]
  refine ⟨by split <;> rfl, by split <;> rfl, by split <;> rfl, by split <;> rfl, by split <;> rfl,
    by split <;> rfl, by split <;> rfl, by split <;> rfl, ?_⟩
  intro i k hi hk
  by_cases hrows : g.inter_matrix.getNumRows ≠ g.points.getNumIndexes
  · simp only [if_pos hrows]
    exact Data2D.get_coeff_fold _ _ _ _ rfl (Data2D.length_resize _ _ _) i k hi hk
  · simp only [if_neg hrows]
    exact Data2D.get_coeff_fold _ _ _ _ rfl (Data2D.length_resize _ _ _) i k hi hk

end WaveletCoefficients

/-! ## C5 and C4: the main statements -/

section WaveletCollocation

variable {R : Type} [CommRing R] [DecidableEq R]

omit [CommRing R] [DecidableEq R] in
theorem MultiIndexSet.empty_iff (s : MultiIndexSet) : s.empty = true ↔ s.indexes = [] := by
  unfold MultiIndexSet.empty
  exact List.isEmpty_iff

omit [CommRing R] [DecidableEq R] in
theorem MultiIndexSet.addMultiIndexSet_not_empty (a b : MultiIndexSet) (h : a.empty = false) :
    (a.addMultiIndexSet b).empty = false := by
  have h1 : a.indexes ≠ [] := by
    intro hnil
    rw [(MultiIndexSet.empty_iff a).mpr hnil] at h
    exact Bool.noConfusion h
  have h2 : (a.addMultiIndexSet b).indexes ≠ [] := by
    intro hnil
    have hlen := MultiIndexSet.length_le_mergeIndexes a.indexes b.indexes
    unfold MultiIndexSet.addMultiIndexSet at hnil
    simp only at hnil
    rw [hnil] at hlen
    have : a.indexes.length = 0 := by simpa using hlen
    exact h1 (List.length_eq_zero.mp this)
  cases hb : (a.addMultiIndexSet b).empty with
  | false => rfl
  | true => exact absurd ((MultiIndexSet.empty_iff _).mp hb) h2

/-- The state of `loadNeededPoints` right before `recomputeCoefficients` holds the collocation
matrix of its `points`, provided the matrix was current before the call. -/
theorem GridWavelet.loadNeededPoints_eq (E : WaveletExternals R) (g : GridWavelet R) (vals : List R)
    (hinv : g.MatrixCurrent E) :
    ∃ g1 : GridWavelet R, g.loadNeededPoints E vals = g1.recomputeCoefficients E
      ∧ g1.inter_matrix = GridWavelet.collocationMatrix E g1.rule1D_order g1.num_dimensions g1.points
      ∧ g1.points = (if g.points.empty then g.needed
          else if g.needed.empty then g.points else g.points.addMultiIndexSet g.needed)
      ∧ (g1.points.empty = true → g1.needed.indexes = [])
      ∧ g1.needed.empty = true := by
  unfold GridWavelet.MatrixCurrent GridWavelet.work at hinv
  unfold GridWavelet.loadNeededPoints
  by_cases hp : g.points.empty = true
  · rw [if_pos hp] at hinv
    refine ⟨{ g with values := g.values.setValues vals, points := g.needed, needed := MultiIndexSet.mk0 },
      ?_, hinv, ?_, fun _ => rfl, rfl⟩
    · simp only [hp, if_true]
    · simp only [hp, if_true]
  · rw [if_neg hp] at hinv
    by_cases hn : g.needed.empty = true
    · refine ⟨{ g with values := g.values.setValues vals }, ?_, hinv, ?_, ?_, hn⟩
      · simp only [hp, hn, if_true, Bool.false_eq_true, if_false]
      · simp only [hp, hn, if_true, Bool.false_eq_true, if_false]
      · intro h; exact absurd h hp
    · have hne : (g.points.addMultiIndexSet g.needed).empty = false :=
        MultiIndexSet.addMultiIndexSet_not_empty _ _ (by simpa using hp)
      refine ⟨GridWavelet.buildInterpolationMatrix E
          { g with
            values := g.values.addValues g.points g.needed vals
            points := g.points.addMultiIndexSet g.needed
            needed := MultiIndexSet.mk0 }, ?_, ?_, ?_, ?_, rfl⟩
      · simp only [hp, hn, Bool.false_eq_true, if_false]
      · unfold GridWavelet.buildInterpolationMatrix GridWavelet.work
        simp only [hne, Bool.false_eq_true, if_false]
      · unfold GridWavelet.buildInterpolationMatrix
        simp only [hp, hn, Bool.false_eq_true, if_false]
      · intro h
        unfold GridWavelet.buildInterpolationMatrix at h
        simp only at h
        rw [hne] at h
        exact Bool.noConfusion h

omit [DecidableEq R] in
theorem foldl_add_eq_sum (f : Nat → R) (L : List Nat) (a : R) :
    L.foldl (fun s p => s + f p) a = a + (L.map f).sum := by
  induction L generalizing a with
  | nil => simp
  | cons p L ih => rw [List.foldl_cons, ih, List.map_cons, List.sum_cons, add_assoc]

/-- `GridWavelet::evaluate` is the sum over the loaded points of basis value times
coefficient. -/
theorem GridWavelet.wavelet_evaluate_eq_sum (E : WaveletExternals R) (g : GridWavelet R) (x : List R)
    (k : Nat) (hk : k < g.num_outputs) :
    (g.evaluate E x).getD k 0
      = ∑ p in Finset.range g.points.getNumIndexes,
          g.evalBasis E (g.points.getIndex p) x * g.coefficients.get p k := by
  unfold GridWavelet.evaluate
  simp only
  rw [List.getD_eq_getElem?_getD, List.getElem?_map, List.getElem?_range hk]
  simp only [Option.map_some', Option.getD_some]
  rw [foldl_add_eq_sum, zero_add, sum_map_range_eq]
  apply Finset.sum_congr rfl
  intro p hp
  have hpn : p < g.points.getNumIndexes := Finset.mem_range.mp hp
  rw [List.getD_eq_getElem?_getD, List.getElem?_map, List.getElem?_range hpn]
  rfl

theorem GridWavelet.evalBasis_pointNode (E : WaveletExternals R) (g : GridWavelet R) (i p : Nat) :
    g.evalBasis E (g.points.getIndex p) (g.pointNode E i) = g.basisAtNode E i p := by
  unfold GridWavelet.evalBasis GridWavelet.pointNode GridWavelet.basisAtNode
  exact GridWavelet.basis_product_eq E g.rule1D_order g.num_dimensions g.points i p

/-- With an exact solver, the collocation matrix times the coefficients is the value table. -/
theorem GridWavelet.collocation_times_coefficients (E : WaveletExternals R) (g : GridWavelet R)
    (hM : g.inter_matrix = GridWavelet.collocationMatrix E g.rule1D_order g.num_dimensions g.points)
    (hc : ∀ i k, i < g.points.getNumIndexes → k < g.num_outputs →
      g.coefficients.get i k = (E.solve g.inter_matrix (g.valuesColumn k) false).getD i 0)
    (hexact : SolverExact E g.inter_matrix g.points.getNumIndexes)
    (i k : Nat) (hi : i < g.points.getNumIndexes) (hk : k < g.num_outputs) :
    ∑ p in Finset.range g.points.getNumIndexes, g.basisAtNode E i p * g.coefficients.get p k
      = (g.values.getValues i).getD k 0 := by
  have h1 := hexact (g.valuesColumn k) i hi
  have h2 : g.inter_matrix.rowDot i (E.solve g.inter_matrix (g.valuesColumn k) false)
      = ∑ p in Finset.range g.points.getNumIndexes,
          g.basisAtNode E i p * (E.solve g.inter_matrix (g.valuesColumn k) false).getD p 0 := by
    conv_lhs => rw [hM]
    rw [GridWavelet.collocationMatrix_rowDot E _ _ _ i hi]
    rw [← hM]
    rfl
  rw [h2] at h1
  have h3 : (g.valuesColumn k).getD i 0 = (g.values.getValues i).getD k 0 := by
    unfold GridWavelet.valuesColumn
    rw [List.getD_eq_getElem?_getD, List.getElem?_map, List.getElem?_range hi]
    rfl
  rw [← h3, ← h1]
  apply Finset.sum_congr rfl
  intro p hp
  rw [hc p k (Finset.mem_range.mp hp) hk]

/-- After `recomputeCoefficients` on a state whose matrix is the collocation matrix of its
points: nothing is rebuilt and the coefficient columns are the solver's answers. -/
theorem GridWavelet.recomputeCoefficients_current (E : WaveletExternals R) (g1 : GridWavelet R)
    (hM1 : g1.inter_matrix
      = GridWavelet.collocationMatrix E g1.rule1D_order g1.num_dimensions g1.points) :
    (g1.recomputeCoefficients E).inter_matrix = g1.inter_matrix
    ∧ (g1.recomputeCoefficients E).values = g1.values
    ∧ (g1.recomputeCoefficients E).points = g1.points
    ∧ (g1.recomputeCoefficients E).needed = g1.needed
    ∧ (g1.recomputeCoefficients E).num_outputs = g1.num_outputs
    ∧ (g1.recomputeCoefficients E).num_dimensions = g1.num_dimensions
    ∧ (g1.recomputeCoefficients E).rule1D_order = g1.rule1D_order
    ∧ ∀ i k, i < g1.points.getNumIndexes → k < g1.num_outputs →
        (g1.recomputeCoefficients E).coefficients.get i k
          = (E.solve g1.inter_matrix
              ((List.range g1.points.getNumIndexes).map (fun i => (g1.values.getValues i).getD k 0))
              false).getD i 0 := by
  obtain ⟨h1, h2, h3, h4, h5, h6, h7, _, h9⟩ := GridWavelet.recomputeCoefficients_spec E g1
  have hrows : g1.inter_matrix.getNumRows = g1.points.getNumIndexes := by
    rw [hM1, GridWavelet.collocationMatrix_num_rows]
  rw [if_neg (by simpa using hrows)] at h1
  refine ⟨h1, h2, h3, h4, h5, h6, h7, ?_⟩
  intro i k hi hk
  rw [h9 i k hi hk, h1]

/-- After `loadNeededPoints` on a grid whose matrix was current: the matrix is the collocation
matrix of the loaded points and the coefficient columns are the solver's answers. -/
theorem GridWavelet.loadNeededPoints_solved (E : WaveletExternals R) (g : GridWavelet R)
    (vals : List R) (hinv : g.MatrixCurrent E) :
    (g.loadNeededPoints E vals).inter_matrix
        = GridWavelet.collocationMatrix E (g.loadNeededPoints E vals).rule1D_order
            (g.loadNeededPoints E vals).num_dimensions (g.loadNeededPoints E vals).points
    ∧ (∀ i k, i < (g.loadNeededPoints E vals).points.getNumIndexes →
        k < (g.loadNeededPoints E vals).num_outputs →
        (g.loadNeededPoints E vals).coefficients.get i k
          = (E.solve (g.loadNeededPoints E vals).inter_matrix
              ((g.loadNeededPoints E vals).valuesColumn k) false).getD i 0)
    ∧ (g.loadNeededPoints E vals).points
        = (if g.points.empty then g.needed
          else if g.needed.empty then g.points else g.points.addMultiIndexSet g.needed)
    ∧ (g.loadNeededPoints E vals).needed.empty = true
    ∧ ((g.loadNeededPoints E vals).points.empty = true →
        (g.loadNeededPoints E vals).needed.indexes = []) := by
  obtain ⟨g1, heq, hM1, hpts, hne, hneeded⟩ := GridWavelet.loadNeededPoints_eq E g vals hinv
  obtain ⟨r1, r2, r3, r4, r5, r6, r7, r8⟩ := GridWavelet.recomputeCoefficients_current E g1 hM1
  rw [heq]
  refine ⟨by rw [r1, r7, r6, r3]; exact hM1, ?_, by rw [r3]; exact hpts, by rw [r4]; exact hneeded,
    by rw [r3, r4]; exact hne⟩
  intro i k hi hk
  rw [r3] at hi
  rw [r5] at hk
  rw [r8 i k hi hk, r1]
  unfold GridWavelet.valuesColumn
  rw [r3, r2]

/-- C5. Wavelet collocation: if the stored matrix is current before the call, then after
`GridWavelet::loadNeededPoints`, in each of its three cases (first load, reload with no needed
points, load of a refinement), `points` is the loaded set, `needed` is empty, the stored
`inter_matrix` is the collocation matrix of the current points (one row per point,
`M[i][k] = prod_j psi_{p_k,j}(node_i,j)`), for every output `k` the column `coefficients[:,k]`
is what the solver returned for `M c = values[:,k]`, and hence `M * coefficients = values` when
the solver is exact. -/
theorem GridWavelet.loadNeededPoints_collocation (E : WaveletExternals R) (g : GridWavelet R)
    (vals : List R) (hinv : g.MatrixCurrent E) :
    (g.loadNeededPoints E vals).points
        = (if g.points.empty then g.needed
          else if g.needed.empty then g.points else g.points.addMultiIndexSet g.needed)
    ∧ (g.loadNeededPoints E vals).needed.empty = true
    ∧ (g.loadNeededPoints E vals).MatrixCurrent E
    ∧ (g.loadNeededPoints E vals).inter_matrix.getNumRows
        = (g.loadNeededPoints E vals).points.getNumIndexes
    ∧ (∀ i k, i < (g.loadNeededPoints E vals).points.getNumIndexes →
        k < (g.loadNeededPoints E vals).points.getNumIndexes →
        (g.loadNeededPoints E vals).inter_matrix.entry i k
          = (g.loadNeededPoints E vals).basisAtNode E i k)
    ∧ (∀ i k, i < (g.loadNeededPoints E vals).points.getNumIndexes →
        k < (g.loadNeededPoints E vals).num_outputs →
        (g.loadNeededPoints E vals).coefficients.get i k
          = (E.solve (g.loadNeededPoints E vals).inter_matrix
              ((g.loadNeededPoints E vals).valuesColumn k) false).getD i 0)
    ∧ (SolverExact E (g.loadNeededPoints E vals).inter_matrix
          (g.loadNeededPoints E vals).points.getNumIndexes →
        ∀ i k, i < (g.loadNeededPoints E vals).points.getNumIndexes →
          k < (g.loadNeededPoints E vals).num_outputs →
          ∑ p in Finset.range (g.loadNeededPoints E vals).points.getNumIndexes,
              (g.loadNeededPoints E vals).inter_matrix.entry i p
                * (g.loadNeededPoints E vals).coefficients.get p k
            = ((g.loadNeededPoints E vals).values.getValues i).getD k 0) := by
  obtain ⟨hMpts, hcoef, hpts, hneeded, hne⟩ := GridWavelet.loadNeededPoints_solved E g vals hinv
  have hentry : ∀ i k, i < (g.loadNeededPoints E vals).points.getNumIndexes →
      k < (g.loadNeededPoints E vals).points.getNumIndexes →
      (g.loadNeededPoints E vals).inter_matrix.entry i k
        = (g.loadNeededPoints E vals).basisAtNode E i k := by
    intro i k hi hk
    rw [hMpts, GridWavelet.collocationMatrix_entry E _ _ _ i k hi hk]
    rfl
  refine ⟨hpts, hneeded, ?_, ?_, hentry, hcoef, ?_⟩
  · unfold GridWavelet.MatrixCurrent GridWavelet.work
    rw [hMpts]
    by_cases hp : (g.loadNeededPoints E vals).points.empty = true
    · rw [if_pos hp]
      apply GridWavelet.collocationMatrix_congr
      rw [hne hp]
      exact (MultiIndexSet.empty_iff _).mp hp
    · rw [if_neg hp]
  · rw [hMpts, GridWavelet.collocationMatrix_num_rows]
  · intro hexact i k hi hk
    rw [← GridWavelet.collocation_times_coefficients E (g.loadNeededPoints E vals) hMpts hcoef hexact
      i k hi hk]
    apply Finset.sum_congr rfl
    intro p hp
    rw [hentry i p hi (Finset.mem_range.mp hp)]

/-- C4. Wavelet interpolation identity: if the stored matrix is current before
`loadNeededPoints` and the sparse solver is exact on the collocation matrix (`M c = v`), then
`evaluate` at the node of every loaded point `i` returns exactly `values[i][k]` for every
output `k`. -/
theorem GridWavelet.evaluate_at_loaded_node (E : WaveletExternals R) (g : GridWavelet R)
    (vals : List R) (hinv : g.MatrixCurrent E)
    (hexact : SolverExact E (g.loadNeededPoints E vals).inter_matrix
      (g.loadNeededPoints E vals).points.getNumIndexes)
    (i k : Nat) (hi : i < (g.loadNeededPoints E vals).points.getNumIndexes)
    (hk : k < (g.loadNeededPoints E vals).num_outputs) :
    ((g.loadNeededPoints E vals).evaluate E ((g.loadNeededPoints E vals).pointNode E i)).getD k 0
      = ((g.loadNeededPoints E vals).values.getValues i).getD k 0 := by
  obtain ⟨hMpts, hcoef, _, _, _⟩ := GridWavelet.loadNeededPoints_solved E g vals hinv
  rw [GridWavelet.wavelet_evaluate_eq_sum E _ _ k hk,
    ← GridWavelet.collocation_times_coefficients E (g.loadNeededPoints E vals) hMpts hcoef hexact
      i k hi hk]
  apply Finset.sum_congr rfl
  intro p _
  rw [GridWavelet.evalBasis_pointNode]

/-- `makeGrid` leaves the matrix current. -/
theorem GridWavelet.makeGrid_matrixCurrent (E : WaveletExternals R) (g : GridWavelet R)
    (d m : Nat) (depth : Int) (order : Nat) (limits : List Int) :
    (g.makeGrid E d m depth order limits).MatrixCurrent E := by
  unfold GridWavelet.MatrixCurrent GridWavelet.makeGrid
  rfl

/-- `setNodes` leaves the matrix current. -/
theorem GridWavelet.setNodes_matrixCurrent (E : WaveletExternals R) (g : GridWavelet R)
    (nodes : MultiIndexSet) (m order : Nat) :
    (g.setNodes E nodes m order).MatrixCurrent E := by
  unfold GridWavelet.MatrixCurrent GridWavelet.setNodes
  rfl

end WaveletCollocation

/-- The example wavelet grid holds the collocation matrix of its three points. -/
theorem exampleWaveletGrid_matrixCurrent : exampleWaveletGrid.MatrixCurrent exampleWaveletExternals :=
  GridWavelet.makeGrid_matrixCurrent exampleWaveletExternals GridWavelet.mk0 1 1 0 1 []

/-- The solver of the example collaborators is exact on the matrix of the loaded example
grid, which is the identity. -/
theorem exampleWaveletGrid_solverExact :
    SolverExact exampleWaveletExternals
      (exampleWaveletGrid.loadNeededPoints exampleWaveletExternals [7, 8, 9]).inter_matrix
      (exampleWaveletGrid.loadNeededPoints exampleWaveletExternals [7, 8, 9]).points.getNumIndexes := by
  intro b i hi
  have h3 : (exampleWaveletGrid.loadNeededPoints exampleWaveletExternals [7, 8, 9]).points.getNumIndexes
      = 3 := by decide
  rw [h3] at hi
  have hr0 : (exampleWaveletGrid.loadNeededPoints exampleWaveletExternals [7, 8, 9]).inter_matrix.row 0
      = [(0, 1)] := by decide
  have hr1 : (exampleWaveletGrid.loadNeededPoints exampleWaveletExternals [7, 8, 9]).inter_matrix.row 1
      = [(1, 1)] := by decide
  have hr2 : (exampleWaveletGrid.loadNeededPoints exampleWaveletExternals [7, 8, 9]).inter_matrix.row 2
      = [(2, 1)] := by decide
  have hsolve : ∀ M : SparseMatrix Int, exampleWaveletExternals.solve M b false = b := fun _ => rfl
  unfold SparseMatrix.rowDot
  rw [hsolve]
  interval_cases i
  · rw [hr0]; simp
  · rw [hr1]; simp
  · rw [hr2]; simp

/-- The statement of C5 at the example wavelet grid loaded with the values 7, 8, 9. -/
theorem GridWavelet.loadNeededPoints_collocation_witness :
    exampleWaveletGrid.MatrixCurrent exampleWaveletExternals
    ∧ (exampleWaveletGrid.loadNeededPoints exampleWaveletExternals [7, 8, 9]).MatrixCurrent
        exampleWaveletExternals :=
  ⟨exampleWaveletGrid_matrixCurrent,
    (GridWavelet.loadNeededPoints_collocation exampleWaveletExternals exampleWaveletGrid [7, 8, 9]
      exampleWaveletGrid_matrixCurrent).2.2.1⟩

/-- The statement of C4 at the example wavelet grid loaded with the values 7, 8, 9, for the
point of index 1. -/
theorem GridWavelet.evaluate_at_loaded_node_witness :
    exampleWaveletGrid.MatrixCurrent exampleWaveletExternals
    ∧ SolverExact exampleWaveletExternals
        (exampleWaveletGrid.loadNeededPoints exampleWaveletExternals [7, 8, 9]).inter_matrix
        (exampleWaveletGrid.loadNeededPoints exampleWaveletExternals [7, 8, 9]).points.getNumIndexes
    ∧ 1 < (exampleWaveletGrid.loadNeededPoints exampleWaveletExternals [7, 8, 9]).points.getNumIndexes
    ∧ 0 < (exampleWaveletGrid.loadNeededPoints exampleWaveletExternals [7, 8, 9]).num_outputs
    ∧ ((exampleWaveletGrid.loadNeededPoints exampleWaveletExternals [7, 8, 9]).evaluate
          exampleWaveletExternals
          ((exampleWaveletGrid.loadNeededPoints exampleWaveletExternals [7, 8, 9]).pointNode
            exampleWaveletExternals 1)).getD 0 0
        = ((exampleWaveletGrid.loadNeededPoints exampleWaveletExternals [7, 8, 9]).values.getValues
            1).getD 0 0 :=
  ⟨exampleWaveletGrid_matrixCurrent, exampleWaveletGrid_solverExact, by decide, by decide,
    GridWavelet.evaluate_at_loaded_node exampleWaveletExternals exampleWaveletGrid [7, 8, 9]
      exampleWaveletGrid_matrixCurrent exampleWaveletGrid_solverExact 1 0 (by decide) (by decide)⟩

/-! ## C7: wavelet round trip -/

section WaveletRoundTrip

variable {R : Type} [CommRing R] [DecidableEq R]

omit [CommRing R] [DecidableEq R] in
theorem Stream.readReals_map (f : R → R) (xs : List R) (rest : List (Token R)) :
    Stream.readReals f xs.length (xs.map Token.real ++ rest) = some (xs.map f, rest) := by
  induction xs with
  | nil => rfl
  | cons x xs ih =>
    simp only [List.length_cons, List.map_cons, List.cons_append, Stream.readReals, Stream.readReal, ih]

omit [CommRing R] [DecidableEq R] in
theorem Stream.readInts_map (xs : List Int) (rest : List (Token R)) :
    Stream.readInts xs.length (xs.map Token.int ++ rest) = some (xs, rest) := by
  induction xs with
  | nil => rfl
  | cons x xs ih =>
    simp only [List.length_cons, List.map_cons, List.cons_append, Stream.readInts, Stream.readInt, ih]

omit [CommRing R] [DecidableEq R] in
theorem Stream.readFlaggedText_write (c : Codec R MultiIndexSet) (hc : c.RoundTrips id)
    (current set : MultiIndexSet) (rest : List (Token R)) :
    Stream.readFlaggedText c current (Stream.writeFlaggedText c set ++ rest)
      = some (if set.empty then current else set, rest) := by
  unfold Stream.readFlaggedText Stream.writeFlaggedText
  by_cases h : set.empty = true
  · simp [h, Stream.readInt]
  · simp only [h, Bool.false_eq_true, if_false, List.cons_append, Stream.readInt, if_true]
    rw [hc set rest]
    rfl

omit [CommRing R] [DecidableEq R] in
theorem Stream.readFlaggedBinary_write (c : Codec R MultiIndexSet) (hc : c.RoundTrips id)
    (current set : MultiIndexSet) (rest : List (Token R)) :
    Stream.readFlaggedBinary c current (Stream.writeFlaggedBinary c set ++ rest)
      = some (if set.empty then current else set, rest) := by
  unfold Stream.readFlaggedBinary Stream.writeFlaggedBinary
  by_cases h : set.empty = true
  · simp [h, Stream.readChr]
  · simp only [h, Bool.false_eq_true, if_false, List.cons_append, Stream.readChr, if_true]
    rw [hc set rest]
    rfl

omit [CommRing R] [DecidableEq R] in
/-- What a flagged set block restores: the set itself when it is non-empty, the empty default
set otherwise. -/
theorem MultiIndexSet.restored_flagged (set : MultiIndexSet) :
    (if set.empty then MultiIndexSet.mk0 else set).indexes = set.indexes
    ∧ (set.empty = false → (if set.empty then MultiIndexSet.mk0 else set) = set) := by
  by_cases h : set.empty = true
  · rw [if_pos h]
    exact ⟨((MultiIndexSet.empty_iff set).mp h).symm, fun hf => by rw [h] at hf; exact Bool.noConfusion hf⟩
  · rw [if_neg h]
    exact ⟨rfl, fun _ => rfl⟩

/-- `read` applied to what `write` emits, followed by any rest of the stream. -/
theorem GridWavelet.read_write_eq (E : WaveletExternals R) (io : IOModel R) (hio : io.Lawful)
    (g0 g : GridWavelet R) (rest : List (Token R)) (hd : 0 < g.num_dimensions)
    (hcoef : g.coefficients.vec ≠ [] →
      g.coefficients.vec.length = g.num_outputs * g.points.getNumIndexes) :
    g0.read E io (g.write io ++ rest)
      = some (GridWavelet.buildInterpolationMatrix E
          { rule1D_order := g.order
            num_dimensions := g.num_dimensions
            num_outputs := g.num_outputs
            order := g.order
            points := if g.points.empty then MultiIndexSet.mk0 else g.points
            needed := if g.needed.empty then MultiIndexSet.mk0 else g.needed
            values := if 0 < g.num_outputs then g.values.map io.textDouble else StorageSet.mk0
            coefficients := if g.coefficients.vec = [] then Data2D.mk0
              else ⟨g.num_outputs, g.points.getNumIndexes, g.coefficients.vec.map io.textDouble⟩
            inter_matrix := SparseMatrix.mk0 }, rest) := by
  have hpn : (if g.points.empty then MultiIndexSet.mk0 else g.points).getNumIndexes
      = g.points.getNumIndexes := by
    unfold MultiIndexSet.getNumIndexes
    rw [(MultiIndexSet.restored_flagged g.points).1]
  unfold GridWavelet.read GridWavelet.write
  simp only [List.cons_append, List.nil_append, List.append_assoc, Stream.readInt, hd, if_true,
    Option.bind_eq_bind, Option.some_bind, Option.pure_def, Int.toNat_ofNat, GridWavelet.reset,
    Stream.readFlaggedText_write io.indexText hio.indexText_inv]
  by_cases hc : g.coefficients.vec = []
  · have hz : g.coefficients.getTotalEntries = 0 := by
      unfold Data2D.getTotalEntries; rw [hc]; rfl
    simp only [hz, if_true, hc, List.cons_append, List.nil_append, Stream.readInt,
      Option.some_bind, Int.reduceEq, if_false, zero_ne_one,
      Stream.readFlaggedText_write io.indexText hio.indexText_inv]
    by_cases hm : 0 < g.num_outputs
    · simp only [hm, if_true, hio.valuesText_inv g.values rest, Option.some_bind]
    · simp only [hm, if_false, List.nil_append, Option.some_bind]
  · have hz : ¬ g.coefficients.getTotalEntries = 0 := by
      unfold Data2D.getTotalEntries
      intro h0
      exact hc (List.length_eq_zero.mp h0)
    simp only [hz, if_false, hc, List.cons_append, Stream.readInt, Option.some_bind, if_true, hpn,
      ← hcoef hc, List.append_assoc, Stream.readReals_map, Option.map_some',
      Stream.readFlaggedText_write io.indexText hio.indexText_inv]
    by_cases hm : 0 < g.num_outputs
    · simp only [hm, if_true, hio.valuesText_inv g.values rest, Option.some_bind]
    · simp only [hm, if_false, List.nil_append, Option.some_bind]

/-- `readBinary` applied to what `writeBinary` emits, followed by any rest of the stream. -/
theorem GridWavelet.readBinary_writeBinary_eq (E : WaveletExternals R) (io : IOModel R)
    (hio : io.Lawful) (g0 g : GridWavelet R) (rest : List (Token R)) (hd : 0 < g.num_dimensions)
    (hcoef : g.coefficients.vec ≠ [] →
      g.coefficients.vec.length = g.num_outputs * g.points.getNumIndexes) :
    g0.readBinary E io (g.writeBinary io ++ rest)
      = some (GridWavelet.buildInterpolationMatrix E
          { rule1D_order := g.order
            num_dimensions := g.num_dimensions
            num_outputs := g.num_outputs
            order := g.order
            points := if g.points.empty then MultiIndexSet.mk0 else g.points
            needed := if g.needed.empty then MultiIndexSet.mk0 else g.needed
            values := if 0 < g.num_outputs then g.values else StorageSet.mk0
            coefficients := if g.coefficients.vec = [] then Data2D.mk0
              else ⟨g.num_outputs, g.points.getNumIndexes, g.coefficients.vec⟩
            inter_matrix := SparseMatrix.mk0 }, rest) := by
  have hpn : (if g.points.empty then MultiIndexSet.mk0 else g.points).getNumIndexes
      = g.points.getNumIndexes := by
    unfold MultiIndexSet.getNumIndexes
    rw [(MultiIndexSet.restored_flagged g.points).1]
  unfold GridWavelet.readBinary GridWavelet.writeBinary
  simp only [List.cons_append, List.nil_append, List.append_assoc, Stream.readInt, hd, if_true,
    Option.bind_eq_bind, Option.some_bind, Option.pure_def, Int.toNat_ofNat, GridWavelet.reset,
    Stream.readFlaggedBinary_write io.indexBinary hio.indexBinary_inv]
  by_cases hc : g.coefficients.vec = []
  · have hz : g.coefficients.getTotalEntries = 0 := by
      unfold Data2D.getTotalEntries; rw [hc]; rfl
    simp only [hz, if_true, hc, List.cons_append, List.nil_append, Stream.readChr,
      Option.some_bind, Char.reduceEq, if_false]
    by_cases hm : 0 < g.num_outputs
    · simp only [hm, if_true, hio.valuesBinary_inv g.values rest, Option.some_bind, id]
    · simp only [hm, if_false, List.nil_append, Option.some_bind]
  · have hz : ¬ g.coefficients.getTotalEntries = 0 := by
      unfold Data2D.getTotalEntries
      intro h0
      exact hc (List.length_eq_zero.mp h0)
    have hmap : g.coefficients.vec.map (id : R → R) = g.coefficients.vec := List.map_id _
    simp only [hz, if_false, hc, List.cons_append, Stream.readChr, Option.some_bind, if_true, hpn,
      ← hcoef hc, List.append_assoc, Stream.readReals_map, Option.map_some', hmap]
    by_cases hm : 0 < g.num_outputs
    · simp only [hm, if_true, hio.valuesBinary_inv g.values rest, Option.some_bind, id]
    · simp only [hm, if_false, List.nil_append, Option.some_bind]

/-- C7. `GridWavelet` round trip: for every wavelet grid of dimension `d > 0` whose coefficient
table is empty or holds `num_outputs * |points|` entries (every state reached through
`makeGrid`, `loadNeededPoints`, `setSurplusRefinement` and `mergeRefinement`), with external
set and value formats that read back what they write, `read(write(g))` and
`readBinary(writeBinary(g))` succeed, consume exactly what was written, and restore
`num_dimensions`, `num_outputs`, `order`, `points`, `needed`, all coefficients in the same
order and the values (integers and sets exactly in both formats, doubles exactly in binary and
as read back from their text form in text), and rebuild `inter_matrix` for the restored point
set. -/
theorem GridWavelet.read_write_roundtrip (E : WaveletExternals R) (io : IOModel R) (hio : io.Lawful)
    (g0 g : GridWavelet R) (rest : List (Token R)) (hd : 0 < g.num_dimensions)
    (hcoef : g.coefficients.vec ≠ [] →
      g.coefficients.vec.length = g.num_outputs * g.points.getNumIndexes) :
    ∃ gt gb : GridWavelet R,
      g0.read E io (g.write io ++ rest) = some (gt, rest)
      ∧ g0.readBinary E io (g.writeBinary io ++ rest) = some (gb, rest)
      ∧ (gt.num_dimensions = g.num_dimensions ∧ gt.num_outputs = g.num_outputs ∧ gt.order = g.order
        ∧ gt.points.indexes = g.points.indexes ∧ (g.points.empty = false → gt.points = g.points)
        ∧ gt.needed.indexes = g.needed.indexes ∧ (g.needed.empty = false → gt.needed = g.needed)
        ∧ gt.coefficients.vec = g.coefficients.vec.map io.textDouble
        ∧ (0 < g.num_outputs → gt.values = g.values.map io.textDouble)
        ∧ gt.MatrixCurrent E)
      ∧ (gb.num_dimensions = g.num_dimensions ∧ gb.num_outputs = g.num_outputs ∧ gb.order = g.order
        ∧ gb.points.indexes = g.points.indexes ∧ (g.points.empty = false → gb.points = g.points)
        ∧ gb.needed.indexes = g.needed.indexes ∧ (g.needed.empty = false → gb.needed = g.needed)
        ∧ gb.coefficients.vec = g.coefficients.vec
        ∧ (0 < g.num_outputs → gb.values = g.values)
        ∧ gb.MatrixCurrent E) := by
  refine ⟨_, _, GridWavelet.read_write_eq E io hio g0 g rest hd hcoef,
    GridWavelet.readBinary_writeBinary_eq E io hio g0 g rest hd hcoef, ?_, ?_⟩
  · refine ⟨rfl, rfl, rfl, (MultiIndexSet.restored_flagged g.points).1,
      (MultiIndexSet.restored_flagged g.points).2, (MultiIndexSet.restored_flagged g.needed).1,
      (MultiIndexSet.restored_flagged g.needed).2, ?_, ?_, rfl⟩
    · by_cases hc : g.coefficients.vec = []
      · simp [GridWavelet.buildInterpolationMatrix, hc, Data2D.mk0]
      · simp [GridWavelet.buildInterpolationMatrix, hc]
    · intro hm
      simp [GridWavelet.buildInterpolationMatrix, hm]
  · refine ⟨rfl, rfl, rfl, (MultiIndexSet.restored_flagged g.points).1,
      (MultiIndexSet.restored_flagged g.points).2, (MultiIndexSet.restored_flagged g.needed).1,
      (MultiIndexSet.restored_flagged g.needed).2, ?_, ?_, rfl⟩
    · by_cases hc : g.coefficients.vec = []
      · simp [GridWavelet.buildInterpolationMatrix, hc, Data2D.mk0]
      · simp [GridWavelet.buildInterpolationMatrix, hc]
    · intro hm
      simp [GridWavelet.buildInterpolationMatrix, hm]

end WaveletRoundTrip

/-- The example formats read back what they write. -/
theorem exampleIOModel_lawful : exampleIOModel.Lawful where
  ruleString_inv := fun r => by cases r <;> decide
  ruleInt_inv := fun r => by cases r <;> rfl
  indexText_inv := fun _ _ => rfl
  indexBinary_inv := fun _ _ => rfl
  valuesText_inv := fun v rest => by
    have hv : StorageSet.map exampleIOModel.textDouble v = v := by
      cases v
      simp [StorageSet.map, exampleIOModel]
    rw [hv]
    rfl
  valuesBinary_inv := fun _ _ => rfl
  customText_inv := fun _ _ => rfl
  customBinary_inv := fun _ _ => rfl

/-- The statement of C7 at the example wavelet grid loaded with the values 7, 8, 9. -/
theorem GridWavelet.read_write_roundtrip_witness :
    exampleIOModel.Lawful
    ∧ 0 < (exampleWaveletGrid.loadNeededPoints exampleWaveletExternals [7, 8, 9]).num_dimensions
    ∧ ((exampleWaveletGrid.loadNeededPoints exampleWaveletExternals [7, 8, 9]).coefficients.vec ≠ [] →
        (exampleWaveletGrid.loadNeededPoints exampleWaveletExternals [7, 8, 9]).coefficients.vec.length
          = (exampleWaveletGrid.loadNeededPoints exampleWaveletExternals [7, 8, 9]).num_outputs
            * (exampleWaveletGrid.loadNeededPoints exampleWaveletExternals
                [7, 8, 9]).points.getNumIndexes)
    ∧ ∃ gt gb : GridWavelet Int,
      GridWavelet.mk0.read exampleWaveletExternals exampleIOModel
          ((exampleWaveletGrid.loadNeededPoints exampleWaveletExternals [7, 8, 9]).write exampleIOModel
            ++ []) = some (gt, [])
      ∧ GridWavelet.mk0.readBinary exampleWaveletExternals exampleIOModel
          ((exampleWaveletGrid.loadNeededPoints exampleWaveletExternals [7, 8, 9]).writeBinary
            exampleIOModel ++ []) = some (gb, [])
      ∧ gt.coefficients.vec = [7, 8, 9] ∧ gb.coefficients.vec = [7, 8, 9] := by
  refine ⟨exampleIOModel_lawful, by decide, by decide, ?_⟩
  obtain ⟨gt, gb, h1, h2, ht, hb⟩ := GridWavelet.read_write_roundtrip exampleWaveletExternals
    exampleIOModel exampleIOModel_lawful GridWavelet.mk0
    (exampleWaveletGrid.loadNeededPoints exampleWaveletExternals [7, 8, 9]) [] (by decide) (by decide)
  refine ⟨gt, gb, h1, h2, ?_, ?_⟩
  · rw [ht.2.2.2.2.2.2.2.1]; decide
  · rw [hb.2.2.2.2.2.2.2.1]; decide

/-! ## C6: `GridGlobal` round trip -/

section GlobalRoundTrip

variable {R : Type}

theorem Stream.firstThenRest_full {α : Type} (a : List α) (h : a ≠ []) :
    Stream.firstThenRest a a.length = some a := by
  unfold Stream.firstThenRest
  have hlen : 0 < a.length := List.length_pos.mpr h
  have hmax : max a.length 1 = a.length := by omega
  rw [hmax, if_pos le_rfl, List.take_length]

theorem Stream.rawPrefix_full {α : Type} (a : List α) : Stream.rawPrefix a a.length = some a := by
  unfold Stream.rawPrefix
  rw [if_pos le_rfl, List.take_length]

/-- The text writer reads `updated_active_w[0]` whenever `updated_tensors` is not empty: with
an empty `updated_active_w` the read is past the end of the vector. -/
theorem GridGlobal.write_none_of_stale (io : IOModel R) (g : GridGlobal R)
    (hd : 0 < g.num_dimensions) (hu : g.updated_tensors.empty = false)
    (hw : g.updated_active_w = []) : g.write io = none := by
  have hup : GridGlobal.writeUpdated io.indexText (Token.int 1) (Token.int 0)
      Stream.firstThenRest g = none := by
    unfold GridGlobal.writeUpdated Stream.firstThenRest
    simp [hu, hw]
  unfold GridGlobal.write
  rw [if_pos hd, hup]
  cases GridGlobal.writeBody io.indexText io.valuesText (Stream.writeFlaggedText io.indexText)
    Stream.firstThenRest Stream.firstThenRest g <;> rfl

/-- C6 fails for the text format. `exampleStaleGrid` is reached by `makeGrid`,
`loadNeededPoints` and `updateGrid` at depth 0: it has loaded points, `updated_tensors = {0}`
and an empty `updated_active_w`.  The text writer reads `updated_active_w[0]` past the end of
the vector (the model gives no stream), so nothing can be read back; the binary writer, which
copies `updated_active_tensors.getNumIndexes() = 0` integers, succeeds. -/
theorem GridGlobal.write_stale_state_fails :
    exampleStaleGrid.num_dimensions = 1
    ∧ exampleStaleGrid.points = ⟨1, [[0], [1], [2]]⟩
    ∧ exampleStaleGrid.updated_tensors = ⟨1, [[0]]⟩
    ∧ exampleStaleGrid.updated_active_w = []
    ∧ (exampleStaleGrid.write exampleIOModel).isNone = true
    ∧ (exampleStaleGrid.writeBinary exampleIOModel).isSome = true := by
  decide

theorem GridGlobal.readHeader_eq (f : R → R) (g : GridGlobal R) (d m : Nat) (a b : R)
    (rest : List (Token R)) :
    GridGlobal.readHeader f g (Token.int d :: Token.int m :: Token.real a :: Token.real b :: rest)
      = some ({ g with num_dimensions := d, num_outputs := m, alpha := f a, beta := f b }, rest) := by
  simp [GridGlobal.readHeader, Stream.readInt, Stream.readReal]

theorem GridGlobal.readTensors_eq (index : Codec R MultiIndexSet) (custom : Codec R CustomTabulated)
    (hindex : index.RoundTrips id) (hcustom : custom.RoundTrips id) (g : GridGlobal R)
    (c : CustomTabulated) (T A : MultiIndexSet) (w : List Int) (hw : w.length = A.getNumIndexes)
    (rest : List (Token R)) :
    GridGlobal.readTensors index custom g
        ((if g.rule = TypeOneDRule.rule_customtabulated then custom.write c else [])
          ++ (index.write T ++ (index.write A ++ (w.map Token.int ++ rest))))
      = some ({ g with
          custom := if g.rule = TypeOneDRule.rule_customtabulated then c else g.custom
          tensors := T, active_tensors := A, active_w := w }, rest) := by
  unfold GridGlobal.readTensors
  by_cases hr : g.rule = TypeOneDRule.rule_customtabulated
  · simp only [hr, if_true, hcustom c _, Option.some_bind, hindex T _, hindex A _, id, ← hw,
      Stream.readInts_map]
  · simp only [hr, if_false, List.nil_append, Option.some_bind, hindex T _, hindex A _, id, ← hw,
      Stream.readInts_map]

theorem GridGlobal.readPoints_eq (values : Codec R (StorageSet R))
    (f : R → R) (hvalues : values.RoundTrips (StorageSet.map f))
    (wflag : MultiIndexSet → List (Token R))
    (rflag : MultiIndexSet → List (Token R) → Option (MultiIndexSet × List (Token R)))
    (hflag : ∀ cur set rest, rflag cur (wflag set ++ rest) = some (if set.empty then cur else set, rest))
    (g : GridGlobal R) (d m : Nat) (P N : MultiIndexSet) (ml : List Nat) (V : StorageSet R)
    (rest : List (Token R)) (hml : ml.length = d) (hgd : g.num_dimensions = d)
    (hgm : g.num_outputs = m) :
    GridGlobal.readPoints values rflag g
        (wflag P ++ (wflag N ++ (ml.map (fun (l : Nat) => Token.int (l : Int))
          ++ ((if m > 0 then values.write V else []) ++ rest))))
      = some ({ g with
          points := if P.empty then g.points else P
          needed := if N.empty then g.needed else N
          max_levels := ml
          values := if m > 0 then V.map f else g.values }, rest) := by
  have hints : ml.map (fun (l : Nat) => (Token.int (l : Int) : Token R))
      = (ml.map (fun (l : Nat) => (l : Int))).map Token.int := by
    rw [List.map_map]; rfl
  have hlen : (ml.map (fun (l : Nat) => (l : Int))).length = g.num_dimensions := by
    rw [List.length_map, hml, hgd]
  have hback : (ml.map (fun (l : Nat) => (l : Int))).map Int.toNat = ml := by
    rw [List.map_map]
    conv_rhs => rw [← List.map_id ml]
    apply List.map_congr_left
    intro l _
    simp
  subst hgm
  unfold GridGlobal.readPoints
  by_cases hm : g.num_outputs > 0
  · simp only [hflag, Option.some_bind, hints, ← hlen, Stream.readInts_map, hm, if_true,
      hvalues V rest, hback]
  · simp only [hflag, Option.some_bind, hints, ← hlen, Stream.readInts_map, hm, if_false,
      List.nil_append, hback]

theorem GridGlobal.readUpdated_pending (index : Codec R MultiIndexSet) (hindex : index.RoundTrips id)
    (g : GridGlobal R) (U A : MultiIndexSet) (w : List Int) (hw : w.length = A.getNumIndexes)
    (rest : List (Token R)) :
    GridGlobal.readUpdated index true g (index.write U ++ (index.write A ++ (w.map Token.int ++ rest)))
      = some (({ g with updated_tensors := U, updated_active_tensors := A, updated_active_w := w },
          U.maxElement), rest) := by
  unfold GridGlobal.readUpdated
  simp only [if_true, hindex U _, Option.some_bind, hindex A _, id, ← hw, Stream.readInts_map]

theorem GridGlobal.writeBody_text (io : IOModel R) (g : GridGlobal R) (hg : g.Storable) :
    GridGlobal.writeBody io.indexText io.valuesText (Stream.writeFlaggedText io.indexText)
        Stream.firstThenRest Stream.firstThenRest g
      = some (io.indexText.write g.tensors ++ io.indexText.write g.active_tensors
          ++ g.active_w.map Token.int ++ Stream.writeFlaggedText io.indexText g.points
          ++ Stream.writeFlaggedText io.indexText g.needed
          ++ g.max_levels.map (fun (l : Nat) => Token.int (l : Int))
          ++ (if g.num_outputs > 0 then io.valuesText.write g.values else [])) := by
  have hml : g.max_levels ≠ [] := by
    intro h
    have := hg.levels
    rw [h] at this
    have hd := hg.dims
    simp at this
    omega
  unfold GridGlobal.writeBody
  rw [← hg.levels, Stream.firstThenRest_full _ hml]
  by_cases ha : g.active_w = []
  · simp [ha]
  · have hne : (!g.active_w.isEmpty) = true := by
      simp [List.isEmpty_iff, ha]
    rw [if_pos hne, ← hg.active, Stream.firstThenRest_full _ ha]
    rfl

theorem GridGlobal.writeBody_binary (io : IOModel R) (g : GridGlobal R) (hg : g.Storable) :
    GridGlobal.writeBody io.indexBinary io.valuesBinary (Stream.writeFlaggedBinary io.indexBinary)
        Stream.rawPrefix Stream.rawPrefix g
      = some (io.indexBinary.write g.tensors ++ io.indexBinary.write g.active_tensors
          ++ g.active_w.map Token.int ++ Stream.writeFlaggedBinary io.indexBinary g.points
          ++ Stream.writeFlaggedBinary io.indexBinary g.needed
          ++ g.max_levels.map (fun (l : Nat) => Token.int (l : Int))
          ++ (if g.num_outputs > 0 then io.valuesBinary.write g.values else [])) := by
  unfold GridGlobal.writeBody
  rw [← hg.levels, Stream.rawPrefix_full]
  by_cases ha : g.active_w = []
  · simp [ha]
  · have hne : (!g.active_w.isEmpty) = true := by
      simp [List.isEmpty_iff, ha]
    rw [if_pos hne, ← hg.active, Stream.rawPrefix_full]
    rfl

theorem GridGlobal.writeUpdated_eq (index : Codec R MultiIndexSet) (yes no : Token R)
    (entries : List Int → Nat → Option (List Int)) (g : GridGlobal R)
    (hent : g.updated_tensors.empty = false →
      entries g.updated_active_w g.updated_active_tensors.getNumIndexes = some g.updated_active_w) :
    GridGlobal.writeUpdated index yes no entries g
      = some (if g.updated_tensors.empty then [no]
          else yes :: (index.write g.updated_tensors ++ index.write g.updated_active_tensors
            ++ g.updated_active_w.map Token.int)) := by
  unfold GridGlobal.writeUpdated
  by_cases hu : g.updated_tensors.empty = true
  · simp [hu]
  · have hu' : g.updated_tensors.empty = false := by simpa using hu
    simp [hu', hent hu']

theorem StorageSet.map_id (v : StorageSet R) : StorageSet.map id v = v := by
  cases v
  simp [StorageSet.map]

/-- The grid that `read` / `readBinary` rebuild from the stream of a storable grid `g`: the
stored fields of `g` (doubles mapped by `f`, the reading of their written form), an empty
default for every block that is flagged absent, and the wrapper and tensor references
recomputed. -/
theorem GridGlobal.read_write_text [Zero R] (E : Externals R) (io : IOModel R) (hio : io.Lawful)
    (g0 g : GridGlobal R) (hg : g.Storable) (rest : List (Token R)) :
    ∃ s gt, g.write io = some s ∧ g0.read E io (s ++ rest) = some (gt, rest)
      ∧ gt.num_dimensions = g.num_dimensions ∧ gt.num_outputs = g.num_outputs
      ∧ gt.alpha = io.textDouble g.alpha ∧ gt.beta = io.textDouble g.beta ∧ gt.rule = g.rule
      ∧ gt.tensors = g.tensors ∧ gt.active_tensors = g.active_tensors ∧ gt.active_w = g.active_w
      ∧ gt.points = (if g.points.empty then MultiIndexSet.mk0 else g.points)
      ∧ gt.needed = (if g.needed.empty then MultiIndexSet.mk0 else g.needed)
      ∧ gt.max_levels = g.max_levels
      ∧ (0 < g.num_outputs → gt.values = g.values.map io.textDouble)
      ∧ (g.updated_tensors.empty = false →
          gt.updated_tensors = g.updated_tensors
          ∧ gt.updated_active_tensors = g.updated_active_tensors
          ∧ gt.updated_active_w = g.updated_active_w)
      ∧ (g.updated_tensors.empty = true →
          gt.updated_tensors = MultiIndexSet.mk0 ∧ gt.updated_active_tensors = MultiIndexSet.mk0
          ∧ gt.updated_active_w = []) := by
  have hent : g.updated_tensors.empty = false →
      Stream.firstThenRest g.updated_active_w g.updated_active_tensors.getNumIndexes
        = some g.updated_active_w := by
    intro hu
    rw [← (hg.pending hu).2, Stream.firstThenRest_full _ (hg.pending hu).1]
  have hd := hg.dims
  have hwrite : g.write io = some
      ([Token.int g.num_dimensions, Token.int g.num_outputs, Token.real g.alpha, Token.real g.beta,
          Token.str (io.ruleString g.rule)]
        ++ (if g.rule = TypeOneDRule.rule_customtabulated then io.customText.write g.custom else [])
        ++ (io.indexText.write g.tensors ++ io.indexText.write g.active_tensors
          ++ g.active_w.map Token.int ++ Stream.writeFlaggedText io.indexText g.points
          ++ Stream.writeFlaggedText io.indexText g.needed
          ++ g.max_levels.map (fun (l : Nat) => Token.int (l : Int))
          ++ (if g.num_outputs > 0 then io.valuesText.write g.values else []))
        ++ (if g.updated_tensors.empty then [Token.int 0]
          else Token.int 1 :: (io.indexText.write g.updated_tensors
            ++ io.indexText.write g.updated_active_tensors
            ++ g.updated_active_w.map Token.int))) := by
    unfold GridGlobal.write
    rw [if_pos hd, GridGlobal.writeBody_text io g hg,
      GridGlobal.writeUpdated_eq io.indexText _ _ _ g hent]
    rfl
  have hhead : ∃ h5, g0.read E io (([Token.int g.num_dimensions, Token.int g.num_outputs,
        Token.real g.alpha, Token.real g.beta, Token.str (io.ruleString g.rule)]
        ++ (if g.rule = TypeOneDRule.rule_customtabulated then io.customText.write g.custom else [])
        ++ (io.indexText.write g.tensors ++ io.indexText.write g.active_tensors
          ++ g.active_w.map Token.int ++ Stream.writeFlaggedText io.indexText g.points
          ++ Stream.writeFlaggedText io.indexText g.needed
          ++ g.max_levels.map (fun (l : Nat) => Token.int (l : Int))
          ++ (if g.num_outputs > 0 then io.valuesText.write g.values else []))
        ++ (if g.updated_tensors.empty then [Token.int 0]
          else Token.int 1 :: (io.indexText.write g.updated_tensors
            ++ io.indexText.write g.updated_active_tensors
            ++ g.updated_active_w.map Token.int))) ++ rest)
      = ((Stream.readInt ((if g.updated_tensors.empty then [Token.int 0]
          else Token.int 1 :: (io.indexText.write g.updated_tensors
            ++ io.indexText.write g.updated_active_tensors
            ++ g.updated_active_w.map Token.int)) ++ rest)).bind fun flag =>
        (GridGlobal.readUpdated io.indexText (decide (flag.1 = 1)) h5 flag.2).bind fun u =>
        some (GridGlobal.finishRead E u.1.1 u.1.2, u.2))
      ∧ h5.num_dimensions = g.num_dimensions ∧ h5.num_outputs = g.num_outputs
      ∧ h5.alpha = io.textDouble g.alpha ∧ h5.beta = io.textDouble g.beta ∧ h5.rule = g.rule
      ∧ h5.tensors = g.tensors ∧ h5.active_tensors = g.active_tensors ∧ h5.active_w = g.active_w
      ∧ h5.points = (if g.points.empty then MultiIndexSet.mk0 else g.points)
      ∧ h5.needed = (if g.needed.empty then MultiIndexSet.mk0 else g.needed)
      ∧ h5.max_levels = g.max_levels
      ∧ (0 < g.num_outputs → h5.values = g.values.map io.textDouble)
      ∧ h5.updated_tensors = MultiIndexSet.mk0 ∧ h5.updated_active_tensors = MultiIndexSet.mk0
      ∧ h5.updated_active_w = [] := by
    refine ⟨?_, ?_⟩
    rotate_left
    constructor
    · unfold GridGlobal.read
      simp only [List.cons_append, List.nil_append, List.append_assoc, GridGlobal.readHeader_eq,
        Option.some_bind, hd, if_true, Stream.readStr, hio.ruleString_inv]
      rw [GridGlobal.readTensors_eq io.indexText io.customText hio.indexText_inv hio.customText_inv
        _ g.custom g.tensors g.active_tensors g.active_w hg.active]
      simp only [Option.some_bind]
      rw [GridGlobal.readPoints_eq io.valuesText io.textDouble hio.valuesText_inv
        (Stream.writeFlaggedText io.indexText) (Stream.readFlaggedText io.indexText)
        (fun cur set rest => Stream.readFlaggedText_write io.indexText hio.indexText_inv cur set rest)
        _ g.num_dimensions g.num_outputs g.points g.needed g.max_levels g.values _ hg.levels]
      rotate_left
      · rfl
      · rfl
      simp only [Option.some_bind]
      exact rfl
    · refine ⟨rfl, rfl, rfl, rfl, rfl, rfl, rfl, rfl, rfl, rfl, rfl, ?_, rfl, rfl, rfl⟩
      intro hm
      exact if_pos hm
  obtain ⟨h5, hread, h1, h2, h3, h4, h5r, h6, h7, h8, h9, h10, h11, h12, h13, h14, h15⟩ := hhead
  by_cases hu : g.updated_tensors.empty = true
  · refine ⟨_, GridGlobal.finishRead E h5 (h5.max_levels.foldl max 0), hwrite, ?_, ?_⟩
    · rw [hread]
      simp only [hu, if_true, List.cons_append, List.nil_append, Stream.readInt, Option.some_bind,
        Int.reduceEq, zero_ne_one, decide_False, GridGlobal.readUpdated, Bool.false_eq_true, if_false]
    · refine ⟨h1, h2, h3, h4, h5r, h6, h7, h8, h9, h10, h11, h12, ?_, fun _ => ⟨h13, h14, h15⟩⟩
      intro hu'
      rw [hu] at hu'
      cases hu'
  · have hu' : g.updated_tensors.empty = false := by simpa using hu
    refine ⟨_, GridGlobal.finishRead E
      { h5 with
        updated_tensors := g.updated_tensors
        updated_active_tensors := g.updated_active_tensors
        updated_active_w := g.updated_active_w }
      g.updated_tensors.maxElement, hwrite, ?_, ?_⟩
    · rw [hread]
      simp only [hu', Bool.false_eq_true, if_false, List.cons_append, List.append_assoc,
        Stream.readInt, Option.some_bind, decide_True]
      rw [GridGlobal.readUpdated_pending io.indexText hio.indexText_inv _ g.updated_tensors
        g.updated_active_tensors g.updated_active_w (hg.pending hu').2]
      simp only [Option.some_bind]
    · refine ⟨h1, h2, h3, h4, h5r, h6, h7, h8, h9, h10, h11, h12, fun _ => ⟨rfl, rfl, rfl⟩, ?_⟩
      intro hu2
      rw [hu'] at hu2
      cases hu2

/-- The binary counterpart: `readBinary` after `writeBinary` restores the stored fields of a
storable grid exactly. -/
theorem GridGlobal.readBinary_writeBinary [Zero R] (E : Externals R) (io : IOModel R) (hio : io.Lawful)
    (g0 g : GridGlobal R) (hg : g.Storable) (rest : List (Token R)) :
    ∃ s gt, g.writeBinary io = some s ∧ g0.readBinary E io (s ++ rest) = some (gt, rest)
      ∧ gt.num_dimensions = g.num_dimensions ∧ gt.num_outputs = g.num_outputs
      ∧ gt.alpha = g.alpha ∧ gt.beta = g.beta ∧ gt.rule = g.rule
      ∧ gt.tensors = g.tensors ∧ gt.active_tensors = g.active_tensors ∧ gt.active_w = g.active_w
      ∧ gt.points = (if g.points.empty then MultiIndexSet.mk0 else g.points)
      ∧ gt.needed = (if g.needed.empty then MultiIndexSet.mk0 else g.needed)
      ∧ gt.max_levels = g.max_levels
      ∧ (0 < g.num_outputs → gt.values = g.values)
      ∧ (g.updated_tensors.empty = false →
          gt.updated_tensors = g.updated_tensors
          ∧ gt.updated_active_tensors = g.updated_active_tensors
          ∧ gt.updated_active_w = g.updated_active_w)
      ∧ (g.updated_tensors.empty = true →
          gt.updated_tensors = MultiIndexSet.mk0 ∧ gt.updated_active_tensors = MultiIndexSet.mk0
          ∧ gt.updated_active_w = []) := by
  have hent : g.updated_tensors.empty = false →
      Stream.rawPrefix g.updated_active_w g.updated_active_tensors.getNumIndexes
        = some g.updated_active_w := by
    intro hu
    rw [← (hg.pending hu).2, Stream.rawPrefix_full]
  have hd := hg.dims
  have hmapid : io.valuesBinary.RoundTrips (StorageSet.map id) := by
    have h : (StorageSet.map id : StorageSet R → StorageSet R) = id := funext StorageSet.map_id
    rw [h]
    exact hio.valuesBinary_inv
  have hwrite : g.writeBinary io = some
      ([Token.int g.num_dimensions, Token.int g.num_outputs, Token.real g.alpha, Token.real g.beta,
          Token.int (io.ruleInt g.rule)]
        ++ (if g.rule = TypeOneDRule.rule_customtabulated then io.customBinary.write g.custom else [])
        ++ (io.indexBinary.write g.tensors ++ io.indexBinary.write g.active_tensors
          ++ g.active_w.map Token.int ++ Stream.writeFlaggedBinary io.indexBinary g.points
          ++ Stream.writeFlaggedBinary io.indexBinary g.needed
          ++ g.max_levels.map (fun (l : Nat) => Token.int (l : Int))
          ++ (if g.num_outputs > 0 then io.valuesBinary.write g.values else []))
        ++ (if g.updated_tensors.empty then [Token.chr 'n']
          else Token.chr 'y' :: (io.indexBinary.write g.updated_tensors
            ++ io.indexBinary.write g.updated_active_tensors
            ++ g.updated_active_w.map Token.int))) := by
    unfold GridGlobal.writeBinary
    rw [if_pos hd, GridGlobal.writeBody_binary io g hg,
      GridGlobal.writeUpdated_eq io.indexBinary _ _ _ g hent]
    rfl
  have hhead : ∃ h5, g0.readBinary E io (([Token.int g.num_dimensions, Token.int g.num_outputs,
        Token.real g.alpha, Token.real g.beta, Token.int (io.ruleInt g.rule)]
        ++ (if g.rule = TypeOneDRule.rule_customtabulated then io.customBinary.write g.custom else [])
        ++ (io.indexBinary.write g.tensors ++ io.indexBinary.write g.active_tensors
          ++ g.active_w.map Token.int ++ Stream.writeFlaggedBinary io.indexBinary g.points
          ++ Stream.writeFlaggedBinary io.indexBinary g.needed
          ++ g.max_levels.map (fun (l : Nat) => Token.int (l : Int))
          ++ (if g.num_outputs > 0 then io.valuesBinary.write g.values else []))
        ++ (if g.updated_tensors.empty then [Token.chr 'n']
          else Token.chr 'y' :: (io.indexBinary.write g.updated_tensors
            ++ io.indexBinary.write g.updated_active_tensors
            ++ g.updated_active_w.map Token.int))) ++ rest)
      = ((Stream.readChr ((if g.updated_tensors.empty then [Token.chr 'n']
          else Token.chr 'y' :: (io.indexBinary.write g.updated_tensors
            ++ io.indexBinary.write g.updated_active_tensors
            ++ g.updated_active_w.map Token.int)) ++ rest)).bind fun flag =>
        (GridGlobal.readUpdated io.indexBinary (decide (flag.1 = 'y')) h5 flag.2).bind fun u =>
        some (GridGlobal.finishRead E u.1.1 u.1.2, u.2))
      ∧ h5.num_dimensions = g.num_dimensions ∧ h5.num_outputs = g.num_outputs
      ∧ h5.alpha = g.alpha ∧ h5.beta = g.beta ∧ h5.rule = g.rule
      ∧ h5.tensors = g.tensors ∧ h5.active_tensors = g.active_tensors ∧ h5.active_w = g.active_w
      ∧ h5.points = (if g.points.empty then MultiIndexSet.mk0 else g.points)
      ∧ h5.needed = (if g.needed.empty then MultiIndexSet.mk0 else g.needed)
      ∧ h5.max_levels = g.max_levels
      ∧ (0 < g.num_outputs → h5.values = g.values)
      ∧ h5.updated_tensors = MultiIndexSet.mk0 ∧ h5.updated_active_tensors = MultiIndexSet.mk0
      ∧ h5.updated_active_w = [] := by
    refine ⟨?_, ?_⟩
    rotate_left
    constructor
    · unfold GridGlobal.readBinary
      simp only [List.cons_append, List.nil_append, List.append_assoc, GridGlobal.readHeader_eq,
        Option.some_bind, hd, if_true, Stream.readInt, hio.ruleInt_inv]
      rw [GridGlobal.readTensors_eq io.indexBinary io.customBinary hio.indexBinary_inv hio.customBinary_inv
        _ g.custom g.tensors g.active_tensors g.active_w hg.active]
      simp only [Option.some_bind]
      rw [GridGlobal.readPoints_eq io.valuesBinary id hmapid
        (Stream.writeFlaggedBinary io.indexBinary) (Stream.readFlaggedBinary io.indexBinary)
        (fun cur set rest => Stream.readFlaggedBinary_write io.indexBinary hio.indexBinary_inv cur set rest)
        _ g.num_dimensions g.num_outputs g.points g.needed g.max_levels g.values _ hg.levels]
      rotate_left
      · rfl
      · rfl
      simp only [Option.some_bind]
      exact rfl
    · refine ⟨rfl, rfl, rfl, rfl, rfl, rfl, rfl, rfl, rfl, rfl, rfl, ?_, rfl, rfl, rfl⟩
      intro hm
      exact (if_pos hm).trans (StorageSet.map_id g.values)
  obtain ⟨h5, hread, h1, h2, h3, h4, h5r, h6, h7, h8, h9, h10, h11, h12, h13, h14, h15⟩ := hhead
  by_cases hu : g.updated_tensors.empty = true
  · refine ⟨_, GridGlobal.finishRead E h5 (h5.max_levels.foldl max 0), hwrite, ?_, ?_⟩
    · rw [hread]
      simp only [hu, if_true, List.cons_append, List.nil_append, Stream.readChr, Option.some_bind,
        Char.reduceEq, decide_False, GridGlobal.readUpdated, Bool.false_eq_true, if_false]
    · refine ⟨h1, h2, h3, h4, h5r, h6, h7, h8, h9, h10, h11, h12, ?_, fun _ => ⟨h13, h14, h15⟩⟩
      intro hu'
      rw [hu] at hu'
      cases hu'
  · have hu' : g.updated_tensors.empty = false := by simpa using hu
    refine ⟨_, GridGlobal.finishRead E
      { h5 with
        updated_tensors := g.updated_tensors
        updated_active_tensors := g.updated_active_tensors
        updated_active_w := g.updated_active_w }
      g.updated_tensors.maxElement, hwrite, ?_, ?_⟩
    · rw [hread]
      simp only [hu', Bool.false_eq_true, if_false, List.cons_append, List.append_assoc,
        Stream.readChr, Option.some_bind, decide_True]
      rw [GridGlobal.readUpdated_pending io.indexBinary hio.indexBinary_inv _ g.updated_tensors
        g.updated_active_tensors g.updated_active_w (hg.pending hu').2]
      simp only [Option.some_bind]
    · refine ⟨h1, h2, h3, h4, h5r, h6, h7, h8, h9, h10, h11, h12, fun _ => ⟨rfl, rfl, rfl⟩, ?_⟩
      intro hu2
      rw [hu'] at hu2
      cases hu2

end GlobalRoundTrip

theorem exampleLoadedGrid_storable : exampleLoadedGrid.Storable :=
  ⟨by decide, by decide, by decide, by decide⟩

theorem exampleStaleGrid_not_storable : ¬ exampleStaleGrid.Storable := by
  intro h
  exact absurd (h.pending (by decide)).1 (by decide)

/-! ## C3: the integral of the constant 1 -/

section WeightSums

variable {R : Type} [CommRing R]

theorem sum_set_add (ws : List R) (m : Nat) (x : R) (hm : m < ws.length) :
    (ws.set m (ws.getD m 0 + x)).sum = ws.sum + x := by
  induction ws generalizing m with
  | nil => simp at hm
  | cons a ws ih =>
    cases m with
    | zero => simp [add_right_comm]
    | succ m =>
      have hm2 : m < ws.length := by simpa using hm
      have h := ih m hm2
      simp only [List.set_cons_succ, List.sum_cons, List.getD_cons_succ, h, add_assoc]

theorem sum_foldl_set_add {α : Type} (ref : α → Nat) (val : α → R) (L : List α) (ws : List R)
    (h : ∀ a ∈ L, ref a < ws.length) :
    (L.foldl (fun ws a => ws.set (ref a) (ws.getD (ref a) 0 + val a)) ws).sum
      = ws.sum + (L.map val).sum := by
  induction L generalizing ws with
  | nil => simp
  | cons a L ih =>
    rw [List.foldl_cons, ih, sum_set_add _ _ _ (h a (List.mem_cons_self _ _))]
    · simp [add_assoc]
    · intro b hb
      rw [List.length_set]
      exact h b (List.mem_cons_of_mem _ hb)

theorem sum_range_mul_div_mod (P N : Nat) (g h : Nat → R) :
    ∑ i in Finset.range (P * N), g (i / N) * h (i % N)
      = (∑ q in Finset.range P, g q) * ∑ r in Finset.range N, h r := by
  induction P with
  | zero => simp
  | succ P ih =>
    rw [Nat.succ_mul, Finset.sum_range_add, ih, Finset.sum_range_succ, add_mul]
    congr 1
    rw [Finset.mul_sum]
    apply Finset.sum_congr rfl
    intro r hr
    have hr2 : r < N := Finset.mem_range.mp hr
    have hN : 0 < N := by omega
    have h1 : (P * N + r) / N = P := by
      rw [Nat.add_comm, Nat.add_mul_div_right _ _ hN, Nat.div_eq_of_lt hr2, zero_add]
    have h2 : (P * N + r) % N = r := by
      rw [Nat.add_comm, Nat.add_mul_mod_self_right, Nat.mod_eq_of_lt hr2]
    rw [h1, h2]

/-- The sum over the points of a tensor of the products of the 1-D factors is the product of
the 1-D sums. -/
theorem sum_prod_mixedRadix (f : Nat → Nat → R) (N : Nat → Nat) (d : Nat) :
    ∑ i in Finset.range (∏ j in Finset.range d, N j),
        ∏ j in Finset.range d, f j (mixedRadixDigit N d i j)
      = ∏ j in Finset.range d, ∑ k in Finset.range (N j), f j k := by
  induction d with
  | zero => simp
  | succ d ih =>
    rw [Finset.prod_range_succ, Finset.prod_range_succ, ← ih,
      ← sum_range_mul_div_mod _ _ (fun q => ∏ j in Finset.range d, f j (mixedRadixDigit N d q j))
        (fun r => f d r)]
    apply Finset.sum_congr rfl
    intro i _
    rw [Finset.prod_range_succ, mixedRadixDigit_last]
    congr 1
    apply Finset.prod_congr rfl
    intro j hj
    rw [mixedRadixDigit_succ N d i j (Finset.mem_range.mp hj)]

theorem sum_accumulateTensor (f : Nat → Nat → R) (N : Nat → Nat) (d : Nat) (hd : 0 < d) (tw : R)
    (refs : List Nat) (ws : List R)
    (href : ∀ k, k < ∏ j in Finset.range d, N j → refs.getD k 0 < ws.length) :
    (accumulateTensor f N d tw refs ws).sum
      = ws.sum + tw * ∏ j in Finset.range d, ∑ k in Finset.range (N j), f j k := by
  unfold accumulateTensor
  rw [sum_foldl_set_add (fun i => refs.getD i 0) (fun i => tw * (unfoldTensorIndex f N d i).2),
    sum_map_range_eq, numTensorPoints_eq N d hd, ← Finset.mul_sum, ← sum_prod_mixedRadix]
  · simp only [unfoldTensorIndex_snd]
  · intro i hi
    rw [numTensorPoints_eq N d hd] at hi
    exact href i (List.mem_range.mp hi)

theorem sum_foldl_accumulateTensor (f : Nat → Nat → Nat → R) (N : Nat → Nat → Nat) (d : Nat)
    (hd : 0 < d) (tw : Nat → R) (refs : Nat → List Nat) (L : List Nat) (ws : List R)
    (href : ∀ n ∈ L, ∀ k, k < ∏ j in Finset.range d, N n j → (refs n).getD k 0 < ws.length) :
    (L.foldl (fun ws n => accumulateTensor (f n) (N n) d (tw n) (refs n) ws) ws).sum
      = ws.sum + (L.map (fun n => tw n * ∏ j in Finset.range d,
          ∑ k in Finset.range (N n j), f n j k)).sum := by
  induction L generalizing ws with
  | nil => simp
  | cons n L ih =>
    rw [List.foldl_cons, ih, sum_accumulateTensor _ _ _ hd _ _ _ (href n (List.mem_cons_self _ _))]
    · simp [add_assoc]
    · intro n2 hn2 k hk
      rw [length_accumulateTensor_eq]
      exact href n2 (List.mem_cons_of_mem _ hn2) k hk

/-- The sum of the quadrature weights over the points, tensor by tensor: every tensor adds
its Smolyak coefficient times the product of its 1-D weight sums. -/
theorem GridGlobal.sum_getQuadratureWeights (g : GridGlobal R) (hd : 0 < g.num_dimensions)
    (href : ∀ n, n < g.active_tensors.getNumIndexes →
      ∀ k, k < ∏ j in Finset.range g.num_dimensions, g.numOnedPoints n j →
        g.tensorRef n k < g.getNumPoints) :
    g.getQuadratureWeights.sum
      = ((List.range g.active_tensors.getNumIndexes).map (fun n =>
          ((g.active_w.getD n 0 : Int) : R) * ∏ j in Finset.range g.num_dimensions,
            ∑ k in Finset.range (g.numOnedPoints n j), g.wrapper.getWeight (g.activeLevel n j) k)).sum := by
  unfold GridGlobal.getQuadratureWeights
  rw [sum_foldl_accumulateTensor
    (fun n j k => g.wrapper.getWeight (g.activeLevel n j) k) g.numOnedPoints g.num_dimensions hd
    (fun n => ((g.active_w.getD n 0 : Int) : R)) (fun n => g.tensor_refs.getD n [])]
  · simp
  · intro n hn k hk
    rw [List.length_replicate]
    exact href n (List.mem_range.mp hn) k hk

end WeightSums

section SmolyakSum

open MultiIndexManipulations

theorem unitCube_length (d : Nat) (s : List Nat) (hs : s ∈ unitCube d) : s.length = d := by
  induction d generalizing s with
  | zero =>
    simp only [unitCube, List.mem_singleton] at hs
    rw [hs]; rfl
  | succ d ih =>
    simp only [unitCube, List.mem_flatMap, List.mem_cons, List.mem_singleton, List.not_mem_nil,
      or_false] at hs
    obtain ⟨s2, hs2, h | h⟩ := hs
    · rw [h, List.length_cons, ih s2 hs2]
    · rw [h, List.length_cons, ih s2 hs2]

theorem sum_map_flatMap_pair {α : Type} (L : List α) (a b : α → List Nat) (f : List Nat → Int) :
    ((L.flatMap (fun s => [a s, b s])).map f).sum = (L.map (fun s => f (a s) + f (b s))).sum := by
  induction L with
  | nil => rfl
  | cons x L ih =>
    simp only [List.flatMap_cons, List.map_append, List.sum_append, List.map_cons, List.map_nil,
      List.sum_cons, List.sum_nil, add_zero, ih]

/-- The alternating sum over the corners of the unit cube below `u` vanishes unless `u` is
the origin. -/
theorem sum_unitCube_le (d : Nat) (u : List Nat) (hu : u.length = d) :
    ((unitCube d).map (fun s =>
        if List.Forall₂ (fun a b => a ≤ b) s u then (-1 : Int) ^ s.sum else 0)).sum
      = if u = List.replicate d 0 then 1 else 0 := by
  induction d generalizing u with
  | zero =>
    have : u = [] := List.length_eq_zero.mp hu
    subst this
    simp [unitCube]
  | succ d ih =>
    obtain ⟨a, u2, rfl⟩ : ∃ a u2, u = a :: u2 := by
      cases u with
      | nil => simp at hu
      | cons a u2 => exact ⟨a, u2, rfl⟩
    have hu2 : u2.length = d := by simpa using hu
    rw [unitCube, sum_map_flatMap_pair]
    have hterm : ∀ s : List Nat,
        ((if List.Forall₂ (fun a b => a ≤ b) (0 :: s) (a :: u2) then (-1 : Int) ^ (0 :: s).sum else 0)
          + (if List.Forall₂ (fun a b => a ≤ b) (1 :: s) (a :: u2) then (-1 : Int) ^ (1 :: s).sum else 0))
        = (if a = 0 then 1 else 0)
          * (if List.Forall₂ (fun a b => a ≤ b) s u2 then (-1 : Int) ^ s.sum else 0) := by
      intro s
      simp only [List.forall₂_cons, Nat.zero_le, true_and, List.sum_cons, zero_add]
      by_cases hs : List.Forall₂ (fun a b => a ≤ b) s u2
      · by_cases ha : a = 0
        · subst ha
          simp [hs]
        · have ha1 : 1 ≤ a := Nat.one_le_iff_ne_zero.mpr ha
          simp [hs, ha, ha1, pow_add]
      · simp [hs]
    simp only [hterm]
    rw [List.sum_map_mul_left, ih u2 hu2, List.replicate_succ]
    by_cases ha : a = 0
    · by_cases hz : u2 = List.replicate d 0
      · simp [ha, hz]
      · simp [ha, hz]
    · simp [ha]

theorem forall₂_le_zipWith_sub (u s : List Nat) (h : u.length = s.length) :
    List.Forall₂ (fun a b => a ≤ b) (List.zipWith (fun a b => a - b) u s) u := by
  induction u generalizing s with
  | nil => simp
  | cons a u ih =>
    cases s with
    | nil => simp at h
    | cons b s =>
      simp only [List.zipWith_cons_cons, List.forall₂_cons]
      exact ⟨Nat.sub_le a b, ih s (by simpa using h)⟩

theorem forall₂_replicate_zero_le (t : List Nat) :
    List.Forall₂ (fun a b => a ≤ b) (List.replicate t.length 0) t := by
  induction t with
  | nil => simp
  | cons a t ih =>
    simp only [List.length_cons, List.replicate_succ, List.forall₂_cons]
    exact ⟨Nat.zero_le a, ih⟩

theorem zipWith_add_eq_iff (t s u : List Nat) (ht : t.length = s.length) (hu : u.length = s.length) :
    u = List.zipWith (fun a b => a + b) t s
      ↔ t = List.zipWith (fun a b => a - b) u s ∧ List.Forall₂ (fun a b => a ≤ b) s u := by
  induction s generalizing t u with
  | nil =>
    have h1 : t = [] := List.length_eq_zero.mp ht
    have h2 : u = [] := List.length_eq_zero.mp hu
    subst h1; subst h2
    simp
  | cons c s ih =>
    cases t with
    | nil => simp at ht
    | cons a t =>
      cases u with
      | nil => simp at hu
      | cons b u =>
        simp only [List.zipWith_cons_cons, List.cons.injEq, List.forall₂_cons]
        rw [ih t u (by simpa using ht) (by simpa using hu)]
        constructor
        · rintro ⟨h1, h2, h3⟩
          exact ⟨⟨by omega, h2⟩, by omega, h3⟩
        · rintro ⟨⟨h1, h2⟩, h3, h4⟩
          exact ⟨by omega, h2, h4⟩

theorem sum_map_finset_sum_comm {α β : Type} (F : Finset α) (L : List β) (f : α → β → Int) :
    ∑ t in F, (L.map (f t)).sum = (L.map (fun s => ∑ t in F, f t s)).sum := by
  induction L with
  | nil => simp
  | cons x L ih =>
    simp only [List.map_cons, List.sum_cons, Finset.sum_add_distrib, ih]

/-- The Smolyak coefficients of a non-empty finite lower set sum to 1. -/
theorem MultiIndexManipulations.sum_computeTensorWeights (T : MultiIndexSet)
    (hne : T.indexes ≠ []) (hnodup : T.indexes.Nodup)
    (hlen : ∀ t ∈ T.indexes, t.length = T.num_dimensions)
    (hlower : ∀ t ∈ T.indexes, ∀ s, List.Forall₂ (fun a b => a ≤ b) s t → s ∈ T.indexes) :
    (computeTensorWeights T).sum = 1 := by
  have hzero : List.replicate T.num_dimensions 0 ∈ T.indexes := by
    obtain ⟨t, ht⟩ := List.exists_mem_of_ne_nil _ hne
    have h := hlower t ht _ (forall₂_replicate_zero_le t)
    rwa [hlen t ht] at h
  have hinner : ∀ s ∈ unitCube T.num_dimensions,
      (∑ t in T.indexes.toFinset,
          if T.indexes.contains (List.zipWith (· + ·) t s) then (-1 : Int) ^ s.sum else 0)
        = ∑ u in T.indexes.toFinset,
          if List.Forall₂ (fun a b => a ≤ b) s u then (-1 : Int) ^ s.sum else 0 := by
    intro s hs
    have hsl := unitCube_length _ s hs
    have h1 : ∀ t ∈ T.indexes.toFinset,
        (if T.indexes.contains (List.zipWith (· + ·) t s) then (-1 : Int) ^ s.sum else 0)
          = ∑ u in T.indexes.toFinset,
              if u = List.zipWith (· + ·) t s then (-1 : Int) ^ s.sum else 0 := by
      intro t _
      rw [Finset.sum_ite_eq']
      simp
    rw [Finset.sum_congr rfl h1, Finset.sum_comm]
    apply Finset.sum_congr rfl
    intro u hu
    have hu2 : u ∈ T.indexes := List.mem_toFinset.mp hu
    have h2 : ∀ t ∈ T.indexes.toFinset,
        (if u = List.zipWith (· + ·) t s then (-1 : Int) ^ s.sum else 0)
          = if t = List.zipWith (fun a b => a - b) u s then
              (if List.Forall₂ (fun a b => a ≤ b) s u then (-1 : Int) ^ s.sum else 0) else 0 := by
      intro t ht
      have ht2 : t ∈ T.indexes := List.mem_toFinset.mp ht
      have hiff := zipWith_add_eq_iff t s u (by rw [hlen t ht2, hsl]) (by rw [hlen u hu2, hsl])
      by_cases hc : u = List.zipWith (fun a b => a + b) t s
      · have hc2 := hiff.mp hc
        rw [if_pos hc, if_pos hc2.1, if_pos hc2.2]
      · rw [if_neg hc]
        by_cases hc3 : t = List.zipWith (fun a b => a - b) u s
        · rw [if_pos hc3]
          by_cases hc4 : List.Forall₂ (fun a b => a ≤ b) s u
          · exact absurd (hiff.mpr ⟨hc3, hc4⟩) hc
          · rw [if_neg hc4]
        · rw [if_neg hc3]
    rw [Finset.sum_congr rfl h2, Finset.sum_ite_eq']
    have hmem : List.zipWith (fun a b => a - b) u s ∈ T.indexes.toFinset :=
      List.mem_toFinset.mpr (hlower u hu2 _ (forall₂_le_zipWith_sub u s (by rw [hlen u hu2, hsl])))
    rw [if_pos hmem]
  have hsum : ∀ u ∈ T.indexes.toFinset,
      ((unitCube T.num_dimensions).map (fun s =>
          if List.Forall₂ (fun a b => a ≤ b) s u then (-1 : Int) ^ s.sum else 0)).sum
        = if u = List.replicate T.num_dimensions 0 then 1 else 0 := by
    intro u hu
    exact sum_unitCube_le _ u (hlen u (List.mem_toFinset.mp hu))
  unfold computeTensorWeights
  rw [← List.sum_toFinset _ hnodup]
  unfold tensorWeight
  rw [sum_map_finset_sum_comm, List.map_congr_left hinner, ← sum_map_finset_sum_comm,
    Finset.sum_congr rfl hsum, Finset.sum_ite_eq', if_pos (List.mem_toFinset.mpr hzero)]

end SmolyakSum

section IntegralOfOne

variable {R : Type} [CommRing R]

open MultiIndexManipulations

omit [CommRing R] in
theorem map_getD_range {α : Type} (L : List α) (a : α) :
    (List.range L.length).map (fun n => L.getD n a) = L := by
  apply List.ext_getElem
  · simp
  · intro n h1 h2
    simp [List.getElem?_eq_getElem h2]

theorem sum_filter_ne_zero (W : List Int) : (W.filter (fun w => w ≠ 0)).sum = W.sum := by
  induction W with
  | nil => rfl
  | cons w W ih =>
    by_cases h : w = 0
    · rw [List.filter_cons_of_neg, ih, h]
      · simp
      · simp [h]
    · rw [List.filter_cons_of_pos, List.sum_cons, ih, List.sum_cons]
      simp [h]

theorem MultiIndexManipulations.length_createActiveTensors (T : MultiIndexSet) (W : List Int)
    (h : W.length = T.indexes.length) :
    (createActiveTensors T W).getNumIndexes = (W.filter (fun w => w ≠ 0)).length := by
  unfold createActiveTensors MultiIndexSet.getNumIndexes
  simp only
  generalize T.indexes = L at h
  induction L generalizing W with
  | nil =>
    have : W = [] := List.length_eq_zero.mp h
    subst this
    rfl
  | cons t L ih =>
    cases W with
    | nil => simp at h
    | cons w W =>
      have h2 : W.length = L.length := by simpa using h
      rw [List.zip_cons_cons]
      by_cases hw : w = 0
      · rw [List.filterMap_cons_none, List.filter_cons_of_neg, ih W h2]
        · simp [hw]
        · simp [hw]
      · have hf : List.filterMap (fun tw : List Nat × Int => if tw.2 ≠ 0 then some tw.1 else none)
              ((t, w) :: L.zip W)
            = t :: List.filterMap (fun tw : List Nat × Int => if tw.2 ≠ 0 then some tw.1 else none)
              (L.zip W) := by
          rw [List.filterMap_cons]
          simp only [ne_eq, hw, not_false_eq_true, if_true]
        rw [hf, List.filter_cons_of_pos, List.length_cons, List.length_cons, ih W h2]
        simp [hw]

theorem MultiIndexManipulations.mem_createActiveTensors (T : MultiIndexSet) (W : List Int)
    (t : List Nat) (h : t ∈ (createActiveTensors T W).indexes) : t ∈ T.indexes := by
  unfold createActiveTensors at h
  simp only [List.mem_filterMap] at h
  obtain ⟨tw, htw, h2⟩ := h
  by_cases hw : tw.2 ≠ 0
  · rw [if_pos hw] at h2
    have h3 : tw.1 = t := Option.some.inj h2
    rw [← h3]
    exact (List.of_mem_zip htw).1
  · rw [if_neg hw] at h2
    cases h2

theorem MultiIndexManipulations.le_getMaxIndex (s : MultiIndexSet) (t : List Nat)
    (ht : t ∈ s.indexes) (j : Nat) (hj : j < s.num_dimensions) :
    t.getD j 0 ≤ (getMaxIndex s).2 := by
  have h1 : t.getD j 0 ≤ (s.indexes.map (fun t => t.getD j 0)).foldl max 0 :=
    le_foldl_max _ _ _ (Or.inr (List.mem_map.mpr ⟨t, ht, rfl⟩))
  have h2 : (s.indexes.map (fun t => t.getD j 0)).foldl max 0 ≤ (getMaxIndex s).2 := by
    unfold getMaxIndex
    exact le_foldl_max _ _ _ (Or.inr (List.mem_map.mpr ⟨j, List.mem_range.mpr hj, rfl⟩))
  exact le_trans h1 h2

theorem GridGlobal.setTensors_fields (E : Externals R) (g0 : GridGlobal R) (tset : MultiIndexSet)
    (m : Nat) (crule : TypeOneDRule) (a b : R) :
    (g0.setTensors E tset m crule a b).num_dimensions = tset.num_dimensions
    ∧ (g0.setTensors E tset m crule a b).active_tensors
        = createActiveTensors tset (computeTensorWeights tset)
    ∧ (g0.setTensors E tset m crule a b).active_w
        = (computeTensorWeights tset).filter (fun w => w ≠ 0) := by
  unfold GridGlobal.setTensors
  by_cases h : m = 0 <;>
    simp [h, GridGlobal.recomputeTensorRefs, GridGlobal.reset, MultiIndexSet.getNumDimensions]

/-- C3. Integral of the constant 1: for the grid that `setTensors` builds on a non-empty
downward-closed tensor set in `d > 0` dimensions (the tensor weights being the Smolyak
coefficients `w(t) = sum_{s in {0,1}^d} (-1)^|s| [t+s in T]`), if the quadrature weights of
every cached 1-D level (the levels up to the largest index of the set) sum to 2 and every
`tensor_refs[i]` maps the `prod_j N_j` points of tensor `i` into the point set, then
`active_w` sums to 1 and the weights of `getQuadratureWeights` sum to
`2^d * (sum_i active_w[i]) = 2^d`. -/
theorem GridGlobal.quadrature_weights_sum (E : Externals R) (g0 : GridGlobal R)
    (tset : MultiIndexSet) (m : Nat) (crule : TypeOneDRule) (a b : R)
    (hd : 0 < tset.num_dimensions) (hne : tset.indexes ≠ []) (hnodup : tset.indexes.Nodup)
    (hlen : ∀ t ∈ tset.indexes, t.length = tset.num_dimensions)
    (hlower : ∀ t ∈ tset.indexes, ∀ s, List.Forall₂ (fun a b => a ≤ b) s t → s ∈ tset.indexes)
    (hw : ∀ l, l ≤ (getMaxIndex tset).2 →
      ∑ k in Finset.range ((g0.setTensors E tset m crule a b).wrapper.getNumPoints l),
        (g0.setTensors E tset m crule a b).wrapper.getWeight l k = 2)
    (href : ∀ n, n < (g0.setTensors E tset m crule a b).active_tensors.getNumIndexes →
      ∀ k, k < ∏ j in Finset.range tset.num_dimensions,
          (g0.setTensors E tset m crule a b).numOnedPoints n j →
        (g0.setTensors E tset m crule a b).tensorRef n k
          < (g0.setTensors E tset m crule a b).getNumPoints) :
    (g0.setTensors E tset m crule a b).active_w.sum = 1
    ∧ (g0.setTensors E tset m crule a b).getQuadratureWeights.sum
        = 2 ^ tset.num_dimensions * (((g0.setTensors E tset m crule a b).active_w.sum : Int) : R)
    ∧ (g0.setTensors E tset m crule a b).getQuadratureWeights.sum = 2 ^ tset.num_dimensions := by
  obtain ⟨hdim, hat, haw⟩ := GridGlobal.setTensors_fields E g0 tset m crule a b
  generalize g0.setTensors E tset m crule a b = g at hdim hat haw hw href ⊢
  have hsum1 : g.active_w.sum = 1 := by
    rw [haw, sum_filter_ne_zero, sum_computeTensorWeights tset hne hnodup hlen hlower]
  have hnum : g.active_tensors.getNumIndexes = g.active_w.length := by
    rw [hat, haw, length_createActiveTensors]
    simp [computeTensorWeights]
  have hprod : ∀ n ∈ List.range g.active_tensors.getNumIndexes,
      ((g.active_w.getD n 0 : Int) : R) * ∏ j in Finset.range g.num_dimensions,
          ∑ k in Finset.range (g.numOnedPoints n j), g.wrapper.getWeight (g.activeLevel n j) k
        = ((g.active_w.getD n 0 : Int) : R) * 2 ^ tset.num_dimensions := by
    intro n hn
    have hn2 : n < g.active_tensors.indexes.length := List.mem_range.mp hn
    have hmem : g.active_tensors.getIndex n ∈ tset.indexes := by
      apply mem_createActiveTensors tset (computeTensorWeights tset)
      rw [← hat]
      unfold MultiIndexSet.getIndex
      rw [List.getD_eq_getElem _ _ hn2]
      exact List.getElem_mem _
    congr 1
    rw [hdim, ← Finset.card_range tset.num_dimensions, ← Finset.prod_const]
    rw [Finset.card_range]
    apply Finset.prod_congr rfl
    intro j hj
    exact hw _ (le_getMaxIndex tset _ hmem j (Finset.mem_range.mp hj))
  have hall : g.getQuadratureWeights.sum
      = 2 ^ tset.num_dimensions * ((g.active_w.sum : Int) : R) := by
    rw [GridGlobal.sum_getQuadratureWeights g (by rw [hdim]; exact hd)
      (by rw [hdim]; exact href), List.map_congr_left hprod, List.sum_map_mul_right, hnum,
      mul_comm, Int.cast_list_sum]
    congr 2
    conv_rhs => rw [← map_getD_range g.active_w 0]
    rw [List.map_map]
    rfl
  refine ⟨hsum1, hall, ?_⟩
  rw [hall, hsum1]
  simp

end IntegralOfOne
theorem GridGlobal.quadrature_weights_sum_witness :
    exampleQuadratureGrid.active_w.sum = 1
    ∧ exampleQuadratureGrid.getQuadratureWeights.sum = 4 :=
  have h := GridGlobal.quadrature_weights_sum exampleQuadratureExternals GridGlobal.mk0
    ⟨2, [[0, 0], [0, 1], [1, 0]]⟩ 0 TypeOneDRule.rule_clenshawcurtis 0 0
    (by decide) (by decide) (by decide) (by decide)
    (by
      intro t ht s hs
      simp only [List.mem_cons, List.mem_singleton, List.not_mem_nil, or_false] at ht
      rcases ht with rfl | rfl | rfl
      all_goals
        rcases hs with _ | ⟨h1, hs2⟩
        rcases hs2 with _ | ⟨h3, hs3⟩
        cases hs3
        simp only [List.mem_cons, List.cons.injEq, and_true, List.mem_singleton,
          List.not_mem_nil, or_false]
        omega)
    (by decide) (by decide)
  ⟨h.1, h.2.2⟩

/-! ## C11 - C13: post-processing of the anisotropic weights -/

section PostProcess

theorem getD_set_int (l : List Int) (k i : Nat) (v : Int) :
    (l.set k v).getD i 0 = if k = i ∧ k < l.length then v else l.getD i 0 := by
  rw [List.getD_eq_getElem?_getD, List.getD_eq_getElem?_getD, List.getElem?_set]
  by_cases h : k = i
  · subst h
    by_cases h2 : k < l.length
    · simp [h2]
    · have h3 : l.length ≤ k := by omega
      simp [h2, List.getElem?_eq_none h3]
  · simp [h]

theorem getD_foldl_set_const (L : List Nat) (v : Int) (w : List Int) (i : Nat) :
    (L.foldl (fun w j => w.set j v) w).getD i 0
      = if i ∈ L ∧ i < w.length then v else w.getD i 0 := by
  induction L generalizing w with
  | nil => simp
  | cons j L ih =>
    rw [List.foldl_cons, ih, List.length_set, getD_set_int]
    by_cases h1 : i ∈ L
    · by_cases h2 : i < w.length
      · simp [h1, h2]
      · have h3 : w.getD i 0 = 0 := by
          rw [List.getD_eq_default]; omega
        simp [h1, h2, h3]
        intro h4 h5
        omega
    · by_cases h4 : j = i
      · by_cases h2 : i < w.length
        · simp [h1, h2, h4]
        · simp [h1, h2, h4]
      · have h5 : ¬ i = j := fun h => h4 h.symm
        simp [h1, h4, h5]

theorem length_foldl_set_const (L : List Nat) (v : Int) (w : List Int) :
    (L.foldl (fun w j => w.set j v) w).length = w.length := by
  induction L generalizing w with
  | nil => rfl
  | cons j L ih => rw [List.foldl_cons, ih, List.length_set]

/-- The first scan finds the largest of the `d` linear weights. -/
theorem GridGlobal.scanLargestWeight_spec (d : Nat) (hd : 0 < d) (w : List Int) :
    (∀ j, j < d → w.getD j 0 ≤ GridGlobal.scanLargestWeight d w)
    ∧ ∃ j, j < d ∧ w.getD j 0 = GridGlobal.scanLargestWeight d w := by
  obtain ⟨e, rfl⟩ : ∃ e, d = e + 1 := ⟨d - 1, by omega⟩
  unfold GridGlobal.scanLargestWeight
  simp only [Nat.add_sub_cancel]
  induction e with
  | zero =>
    refine ⟨?_, 0, by omega, by simp⟩
    intro j hj
    have : j = 0 := by omega
    subst this
    simp
  | succ e ih =>
    obtain ⟨h1, k, hk, h2⟩ := ih (by omega)
    rw [List.range'_1_concat, List.foldl_append]
    simp only [List.foldl_cons, List.foldl_nil]
    rw [Nat.add_comm 1 e]
    by_cases hlt : (List.range' 1 e).foldl
        (fun min_weight j => if min_weight < w.getD j 0 then w.getD j 0 else min_weight)
        (w.getD 0 0) < w.getD (e + 1) 0
    · rw [if_pos hlt]
      refine ⟨?_, e + 1, by omega, rfl⟩
      intro j hj
      by_cases hj2 : j < e + 1
      · exact le_trans (h1 j hj2) (le_of_lt hlt)
      · have : j = e + 1 := by omega
        rw [this]
    · rw [if_neg hlt]
      refine ⟨?_, k, by omega, h2⟩
      intro j hj
      by_cases hj2 : j < e + 1
      · exact h1 j hj2
      · have : j = e + 1 := by omega
        rw [this]
        exact not_lt.mp hlt

/-- The second scan lowers `M` to the smallest positive linear weight below it. -/
theorem GridGlobal.scanSmallestPositive_spec (d : Nat) (w : List Int) (M : Int) :
    GridGlobal.scanSmallestPositive d w M ≤ M
    ∧ (GridGlobal.scanSmallestPositive d w M = M
        ∨ ∃ j, j < d ∧ 0 < w.getD j 0 ∧ w.getD j 0 = GridGlobal.scanSmallestPositive d w M)
    ∧ ∀ j, j < d → 0 < w.getD j 0 → GridGlobal.scanSmallestPositive d w M ≤ w.getD j 0 := by
  unfold GridGlobal.scanSmallestPositive
  induction d with
  | zero => simp
  | succ d ih =>
    obtain ⟨h1, h2, h3⟩ := ih
    rw [List.range_succ, List.foldl_append]
    simp only [List.foldl_cons, List.foldl_nil]
    by_cases hc : w.getD d 0 > 0 ∧ w.getD d 0 < (List.range d).foldl
        (fun min_weight j =>
          if w.getD j 0 > 0 ∧ w.getD j 0 < min_weight then w.getD j 0 else min_weight) M
    · rw [if_pos hc]
      refine ⟨le_trans (le_of_lt hc.2) h1, Or.inr ⟨d, by omega, hc.1, rfl⟩, ?_⟩
      intro j hj hpos
      by_cases hj2 : j < d
      · exact le_trans (le_of_lt hc.2) (h3 j hj2 hpos)
      · have : j = d := by omega
        rw [this]
    · rw [if_neg hc]
      refine ⟨h1, ?_, ?_⟩
      · rcases h2 with h2 | ⟨j, hj, hp, he⟩
        · exact Or.inl h2
        · exact Or.inr ⟨j, by omega, hp, he⟩
      · intro j hj hpos
        by_cases hj2 : j < d
        · exact h3 j hj2 hpos
        · have : j = d := by omega
          subst this
          by_contra hcon
          exact hc ⟨hpos, not_le.mp hcon⟩

end PostProcess
section PostProcessFold

/-- The last loop of the post-processing after its first `n` passes, position by
position. -/
theorem GridGlobal.foldl_replaceWeight (d m : Nat) (mw : Int) (w : List Int) (hlen : d ≤ w.length)
    (hcurved : m = 2 * d → w.length = 2 * d) (n : Nat) (hn : n ≤ d) :
    ((List.range n).foldl (GridGlobal.replaceWeight d m mw) w).length = w.length
    ∧ ∀ i, ((List.range n).foldl (GridGlobal.replaceWeight d m mw) w).getD i 0
        = if i < n then (if w.getD i 0 ≤ 0 then mw else w.getD i 0)
          else if m = 2 * d ∧ d ≤ i ∧ i < d + n ∧ w.getD (i - d) 0 ≤ 0 ∧ |w.getD i 0| > mw then
            (if w.getD i 0 > 0 then mw else -mw)
          else w.getD i 0 := by
  induction n with
  | zero =>
    refine ⟨rfl, ?_⟩
    intro i
    have h : ¬ (m = 2 * d ∧ d ≤ i ∧ i < d + 0 ∧ w.getD (i - d) 0 ≤ 0 ∧ |w.getD i 0| > mw) := by
      intro h
      omega
    simp only [List.range_zero, List.foldl_nil, Nat.not_lt_zero, if_false, if_neg h]
  | succ n ih =>
    obtain ⟨hl, hg⟩ := ih (by omega)
    rw [List.range_succ, List.foldl_append]
    simp only [List.foldl_cons, List.foldl_nil]
    generalize (List.range n).foldl (GridGlobal.replaceWeight d m mw) w = S at hl hg
    have hSn : S.getD n 0 = w.getD n 0 := by
      rw [hg n, if_neg (by omega), if_neg]
      intro h
      omega
    have hSdn : S.getD (d + n) 0 = w.getD (d + n) 0 := by
      rw [hg (d + n), if_neg (by omega), if_neg]
      intro h
      omega
    have hset1 : (S.set n mw).getD (d + n) 0 = w.getD (d + n) 0 := by
      rw [getD_set_int, if_neg, hSdn]
      intro h
      omega
    have hset2 : (S.set n mw).getD n 0 = mw := by
      rw [getD_set_int, if_pos]
      exact ⟨rfl, by omega⟩
    have hstep : GridGlobal.replaceWeight d m mw S n
        = if w.getD n 0 ≤ 0 then
            (if m = 2 * d then
              (if |w.getD (d + n) 0| > mw then
                (S.set n mw).set (d + n) (if w.getD (d + n) 0 > 0 then mw else -mw)
              else S.set n mw)
            else S.set n mw)
          else S := by
      unfold GridGlobal.replaceWeight
      dsimp only
      rw [hSn, hset1, hset2]
    have hlen2 : ((GridGlobal.replaceWeight d m mw S n).length = w.length) := by
      rw [hstep]
      split_ifs <;> simp [hl]
    have hpoint : ∀ i, (GridGlobal.replaceWeight d m mw S n).getD i 0
        = if i = n then (if w.getD n 0 ≤ 0 then mw else w.getD n 0)
          else if i = d + n then
            (if m = 2 * d ∧ w.getD n 0 ≤ 0 ∧ |w.getD (d + n) 0| > mw then
              (if w.getD (d + n) 0 > 0 then mw else -mw)
            else w.getD (d + n) 0)
          else S.getD i 0 := by
      intro i
      have hdn : d + n ≠ n := by omega
      rw [hstep]
      by_cases hle : w.getD n 0 ≤ 0
      · by_cases hm : m = 2 * d
        · have hlw := hcurved hm
          have hin : d + n < (S.set n mw).length := by
            rw [List.length_set, hl]; omega
          by_cases hab : |w.getD (d + n) 0| > mw
          · rw [if_pos hle, if_pos hm, if_pos hab, getD_set_int]
            by_cases h2 : i = d + n
            · subst h2
              have hc1 : d + n = d + n ∧ d + n < (S.set n mw).length := ⟨rfl, hin⟩
              have hc2 : m = 2 * d ∧ w.getD n 0 ≤ 0 ∧ |w.getD (d + n) 0| > mw := ⟨hm, hle, hab⟩
              rw [if_pos hc1, if_neg hdn, if_pos (rfl : d + n = d + n), if_pos hc2]
            · have h2b : ¬ (d + n = i ∧ d + n < (S.set n mw).length) := fun h => h2 h.1.symm
              rw [if_neg h2b, getD_set_int, if_neg h2]
              by_cases h1 : i = n
              · subst h1
                have hc1 : i = i ∧ i < S.length := ⟨rfl, by omega⟩
                rw [if_pos hc1, if_pos (rfl : i = i), if_pos hle]
              · have h1b : ¬ (n = i ∧ n < S.length) := fun h => h1 h.1.symm
                rw [if_neg h1b, if_neg h1]
          · have hc : ¬ (m = 2 * d ∧ w.getD n 0 ≤ 0 ∧ |w.getD (d + n) 0| > mw) := fun h => hab h.2.2
            rw [if_pos hle, if_pos hm, if_neg hab, getD_set_int, if_neg hc]
            by_cases h1 : i = n
            · subst h1
              have hc1 : i = i ∧ i < S.length := ⟨rfl, by omega⟩
              rw [if_pos hc1, if_pos (rfl : i = i), if_pos hle]
            · have h1b : ¬ (n = i ∧ n < S.length) := fun h => h1 h.1.symm
              rw [if_neg h1b, if_neg h1]
              by_cases h2 : i = d + n
              · rw [if_pos h2, h2, hSdn]
              · rw [if_neg h2]
        · have hc : ¬ (m = 2 * d ∧ w.getD n 0 ≤ 0 ∧ |w.getD (d + n) 0| > mw) := fun h => hm h.1
          rw [if_pos hle, if_neg hm, getD_set_int, if_neg hc]
          by_cases h1 : i = n
          · subst h1
            have hc1 : i = i ∧ i < S.length := ⟨rfl, by omega⟩
            rw [if_pos hc1, if_pos (rfl : i = i), if_pos hle]
          · have h1b : ¬ (n = i ∧ n < S.length) := fun h => h1 h.1.symm
            rw [if_neg h1b, if_neg h1]
            by_cases h2 : i = d + n
            · rw [if_pos h2, h2, hSdn]
            · rw [if_neg h2]
      · have hc : ¬ (m = 2 * d ∧ w.getD n 0 ≤ 0 ∧ |w.getD (d + n) 0| > mw) := fun h => hle h.2.1
        rw [if_neg hle, if_neg hc]
        by_cases h1 : i = n
        · rw [if_pos h1, h1, hSn, if_neg hle]
        · rw [if_neg h1]
          by_cases h2 : i = d + n
          · rw [if_pos h2, h2, hSdn]
          · rw [if_neg h2]
    refine ⟨hlen2, ?_⟩
    intro i
    rw [hpoint i, hg i]
    by_cases h1 : i = n
    · subst h1
      have ha : i < i + 1 := by omega
      rw [if_pos (rfl : i = i), if_pos ha]
    · rw [if_neg h1]
      by_cases h2 : i = d + n
      · subst h2
        have ha : ¬ (d + n < n + 1) := by omega
        rw [if_pos (rfl : d + n = d + n), if_neg ha, Nat.add_sub_cancel_left]
        by_cases hc : m = 2 * d ∧ w.getD n 0 ≤ 0 ∧ |w.getD (d + n) 0| > mw
        · have hc2 : m = 2 * d ∧ d ≤ d + n ∧ d + n < d + (n + 1) ∧ w.getD n 0 ≤ 0
              ∧ |w.getD (d + n) 0| > mw := ⟨hc.1, by omega, by omega, hc.2.1, hc.2.2⟩
          rw [if_pos hc, if_pos hc2]
        · have hc2 : ¬ (m = 2 * d ∧ d ≤ d + n ∧ d + n < d + (n + 1) ∧ w.getD n 0 ≤ 0
              ∧ |w.getD (d + n) 0| > mw) := fun h => hc ⟨h.1, h.2.2.2.1, h.2.2.2.2⟩
          rw [if_neg hc, if_neg hc2]
      · rw [if_neg h2]
        by_cases h3 : i < n
        · have ha : i < n + 1 := by omega
          rw [if_pos h3, if_pos ha]
        · have ha : ¬ (i < n + 1) := by omega
          rw [if_neg h3, if_neg ha]
          by_cases hc : m = 2 * d ∧ d ≤ i ∧ i < d + n ∧ w.getD (i - d) 0 ≤ 0 ∧ |w.getD i 0| > mw
          · have hc2 : m = 2 * d ∧ d ≤ i ∧ i < d + (n + 1) ∧ w.getD (i - d) 0 ≤ 0 ∧ |w.getD i 0| > mw :=
              ⟨hc.1, hc.2.1, by omega, hc.2.2.2⟩
            rw [if_pos hc, if_pos hc2]
          · have hc2 : ¬ (m = 2 * d ∧ d ≤ i ∧ i < d + (n + 1) ∧ w.getD (i - d) 0 ≤ 0
                ∧ |w.getD i 0| > mw) := fun h => hc ⟨h.1, h.2.1, by omega, h.2.2.2⟩
            rw [if_neg hc, if_neg hc2]

end PostProcessFold
section PostProcessClaims

/-- With a positive linear weight the post-processing takes its second branch: position by
position, for the smallest positive linear weight `mw`. -/
theorem GridGlobal.postProcessWeights_of_positive (d m : Nat) (w : List Int) (hd : 0 < d)
    (hlen : w.length = m) (hm : m = d ∨ m = 2 * d) (hpos : ∃ j, j < d ∧ 0 < w.getD j 0) :
    ∃ mw : Int, 0 < mw ∧ (∃ k, k < d ∧ w.getD k 0 = mw)
      ∧ (∀ j, j < d → 0 < w.getD j 0 → mw ≤ w.getD j 0)
      ∧ ∀ i, (GridGlobal.postProcessWeights d m w).getD i 0
          = if i < d then (if w.getD i 0 ≤ 0 then mw else w.getD i 0)
            else if m = 2 * d ∧ d ≤ i ∧ i < d + d ∧ w.getD (i - d) 0 ≤ 0 ∧ |w.getD i 0| > mw then
              (if w.getD i 0 > 0 then mw else -mw)
            else w.getD i 0 := by
  obtain ⟨j0, hj0, hw0⟩ := hpos
  obtain ⟨hmax, k, hk, hkM⟩ := GridGlobal.scanLargestWeight_spec d hd w
  have hM : 0 < GridGlobal.scanLargestWeight d w := lt_of_lt_of_le hw0 (hmax j0 hj0)
  obtain ⟨h1, h2, h3⟩ := GridGlobal.scanSmallestPositive_spec d w (GridGlobal.scanLargestWeight d w)
  refine ⟨GridGlobal.scanSmallestPositive d w (GridGlobal.scanLargestWeight d w), ?_, ?_, h3, ?_⟩
  · rcases h2 with h2 | ⟨j, _, hp, he⟩
    · rw [h2]; exact hM
    · rw [← he]; exact hp
  · rcases h2 with h2 | ⟨j, hj, _, he⟩
    · exact ⟨k, hk, by rw [h2]; exact hkM⟩
    · exact ⟨j, hj, he⟩
  · intro i
    have hbranch : GridGlobal.postProcessWeights d m w
        = (List.range d).foldl (GridGlobal.replaceWeight d m
            (GridGlobal.scanSmallestPositive d w (GridGlobal.scanLargestWeight d w))) w := by
      unfold GridGlobal.postProcessWeights
      simp only
      rw [if_neg (not_lt.mpr (le_of_lt hM))]
    rw [hbranch]
    have hlen2 : d ≤ w.length := by omega
    have hcur : m = 2 * d → w.length = 2 * d := by omega
    exact (GridGlobal.foldl_replaceWeight d m _ w hlen2 hcur d le_rfl).2 i

/-- C13. Post-processing of `estimateAnisotropicCoefficients`, positive case: for every
rounded weight vector (`d` linear weights, or `2 d` with a curved tail) with at least one
strictly positive linear weight, every non-positive linear weight is replaced by the
smallest strictly positive linear weight `mw` of the input, every positive linear weight is
returned unchanged, and all returned linear weights are strictly positive. -/
theorem GridGlobal.postProcessWeights_positive (d m : Nat) (w : List Int) (hd : 0 < d)
    (hlen : w.length = m) (hm : m = d ∨ m = 2 * d) (hpos : ∃ j, j < d ∧ 0 < w.getD j 0) :
    ∃ mw : Int, 0 < mw ∧ (∃ k, k < d ∧ w.getD k 0 = mw)
      ∧ (∀ j, j < d → 0 < w.getD j 0 → mw ≤ w.getD j 0)
      ∧ ∀ j, j < d →
          (w.getD j 0 ≤ 0 → (GridGlobal.postProcessWeights d m w).getD j 0 = mw)
          ∧ (0 < w.getD j 0 → (GridGlobal.postProcessWeights d m w).getD j 0 = w.getD j 0)
          ∧ 0 < (GridGlobal.postProcessWeights d m w).getD j 0 := by
  obtain ⟨mw, hmw, hk, hmin, hres⟩ := GridGlobal.postProcessWeights_of_positive d m w hd hlen hm hpos
  refine ⟨mw, hmw, hk, hmin, ?_⟩
  intro j hj
  rw [hres j, if_pos hj]
  refine ⟨fun h => if_pos h, fun h => if_neg (not_le.mpr h), ?_⟩
  by_cases h : w.getD j 0 ≤ 0
  · rw [if_pos h]; exact hmw
  · rw [if_neg h]; exact not_le.mp h

theorem GridGlobal.postProcessWeights_positive_witness :
    ∃ mw : Int, 0 < mw ∧ (∃ k, k < 3 ∧ [4, -3, 2].getD k 0 = mw)
      ∧ (∀ j, j < 3 → 0 < [4, -3, 2].getD j 0 → mw ≤ [4, -3, 2].getD j 0)
      ∧ ∀ j, j < 3 →
          ([4, -3, 2].getD j 0 ≤ 0 → (GridGlobal.postProcessWeights 3 3 [4, -3, 2]).getD j 0 = mw)
          ∧ (0 < [4, -3, 2].getD j 0 →
              (GridGlobal.postProcessWeights 3 3 [4, -3, 2]).getD j 0 = [4, -3, 2].getD j 0)
          ∧ 0 < (GridGlobal.postProcessWeights 3 3 [4, -3, 2]).getD j 0 :=
  GridGlobal.postProcessWeights_positive 3 3 [4, -3, 2] (by decide) (by decide) (by decide)
    ⟨0, by decide, by decide⟩

/-- The isotropic fallback is taken when every linear weight is negative: the linear weights
become 1 and the curved weights 0. -/
theorem GridGlobal.postProcessWeights_negative (d m : Nat) (w : List Int) (hd : 0 < d)
    (hlen : w.length = m) (hm : m = d ∨ m = 2 * d) (hneg : ∀ j, j < d → w.getD j 0 < 0) :
    (∀ j, j < d → (GridGlobal.postProcessWeights d m w).getD j 0 = 1)
    ∧ (m = 2 * d → ∀ j, j < d → (GridGlobal.postProcessWeights d m w).getD (d + j) 0 = 0) := by
  obtain ⟨_, k, hk, hkM⟩ := GridGlobal.scanLargestWeight_spec d hd w
  have hM : GridGlobal.scanLargestWeight d w < 0 := by
    rw [← hkM]; exact hneg k hk
  have hbranch : GridGlobal.postProcessWeights d m w
      = if m = 2 * d then
          (List.range' d d).foldl (fun w j => w.set j 0)
            ((List.range d).foldl (fun w j => w.set j 1) w)
        else (List.range d).foldl (fun w j => w.set j 1) w := by
    unfold GridGlobal.postProcessWeights
    simp only
    rw [if_pos hM]
  rw [hbranch]
  constructor
  · intro j hj
    have h1 : ((List.range d).foldl (fun w j => w.set j 1) w).getD j 0 = 1 := by
      rw [getD_foldl_set_const, if_pos ⟨List.mem_range.mpr hj, by omega⟩]
    by_cases h2 : m = 2 * d
    · rw [if_pos h2, getD_foldl_set_const, if_neg, h1]
      intro h
      have := (List.mem_range'_1.mp h.1).1
      omega
    · rw [if_neg h2, h1]
  · intro h2 j hj
    rw [if_pos h2, getD_foldl_set_const, if_pos]
    refine ⟨List.mem_range'_1.mpr ⟨by omega, by omega⟩, ?_⟩
    rw [length_foldl_set_const]
    omega

/-- C11 fails when the largest linear weight is 0. With the rounded weights `(0, -3)` every
linear weight is `<= 0`, but the test `min_weight < 0` on the largest weight fails, the
"smallest positive weight" stays 0 and the weights are returned as `(0, 0)`, not `(1, 1)`;
with a curved tail `(0, -3, 7, -7)` gives `(0, 0, 0, 0)`. -/
theorem GridGlobal.postProcessWeights_zero_fails :
    (∀ j, j < 2 → ([0, -3] : List Int).getD j 0 ≤ 0)
    ∧ GridGlobal.postProcessWeights 2 2 [0, -3] = [0, 0]
    ∧ GridGlobal.postProcessWeights 2 4 [0, -3, 7, -7] = [0, 0, 0, 0] := by
  decide

end PostProcessClaims
section EstimateLink

variable {R : Type} [LinearOrderedCommRing R] [Div R]

/-- The weights returned by `estimateAnisotropicCoefficients` are the post-processing of a
rounded vector of `m` weights, `m = 2 d` for the curved types and `m = d` otherwise. -/
theorem GridGlobal.estimateAnisotropicCoefficients_eq (E : Externals R) (N : NumericExternals R)
    (g : GridGlobal R) (type : TypeDepth) (output : Nat) :
    ∃ w : List Int,
      w.length = (if GridGlobal.isCurvedType type then 2 * g.num_dimensions else g.num_dimensions)
      ∧ g.estimateAnisotropicCoefficients E N type output
        = GridGlobal.postProcessWeights g.num_dimensions
            (if GridGlobal.isCurvedType type then 2 * g.num_dimensions else g.num_dimensions) w := by
  unfold GridGlobal.estimateAnisotropicCoefficients
  by_cases h : GridGlobal.isCurvedType type = true
  · simp only [h, if_true, Nat.add_sub_cancel]
    exact ⟨_, by simp, rfl⟩
  · simp only [h, if_false, Nat.add_sub_cancel]
    exact ⟨_, by simp, rfl⟩

end EstimateLink

/-! ## C16, C19: accepting a refinement, falling back to `makeGrid` -/

section UnionMembership

theorem MultiIndexSet.lexLt_total (a b : List Nat) (h1 : MultiIndexSet.lexLt a b = false)
    (h2 : MultiIndexSet.lexLt b a = false) : a = b := by
  induction a generalizing b with
  | nil =>
    cases b with
    | nil => rfl
    | cons y b => simp [MultiIndexSet.lexLt] at h1
  | cons x a ih =>
    cases b with
    | nil => simp [MultiIndexSet.lexLt] at h2
    | cons y b =>
      unfold MultiIndexSet.lexLt at h1 h2
      by_cases hxy : x < y
      · simp [hxy] at h1
      · by_cases hyx : y < x
        · simp [hyx] at h2
        · simp only [hxy, hyx, if_false] at h1 h2
          have hxe : x = y := by omega
          rw [hxe, ih b h1 h2]

theorem MultiIndexSet.mem_insertIndex (p q : List Nat) (xs : List (List Nat)) :
    q ∈ MultiIndexSet.insertIndex p xs ↔ q = p ∨ q ∈ xs := by
  induction xs with
  | nil => simp [MultiIndexSet.insertIndex]
  | cons x xs ih =>
    unfold MultiIndexSet.insertIndex
    by_cases h1 : MultiIndexSet.lexLt p x = true
    · rw [if_pos h1]
      simp only [List.mem_cons]
    · rw [if_neg h1]
      by_cases h2 : MultiIndexSet.lexLt x p = true
      · rw [if_pos h2]
        simp only [List.mem_cons, ih]
        tauto
      · rw [if_neg h2]
        have hpx : p = x :=
          MultiIndexSet.lexLt_total p x (by simpa using h1) (by simpa using h2)
        simp only [List.mem_cons, hpx]
        tauto

theorem MultiIndexSet.mem_mergeIndexes (q : List Nat) (a b : List (List Nat)) :
    q ∈ MultiIndexSet.mergeIndexes a b ↔ q ∈ a ∨ q ∈ b := by
  unfold MultiIndexSet.mergeIndexes
  induction b generalizing a with
  | nil => simp
  | cons p b ih =>
    rw [List.foldl_cons, ih, MultiIndexSet.mem_insertIndex, List.mem_cons]
    constructor
    · rintro ((h | h) | h)
      · exact Or.inr (Or.inl h)
      · exact Or.inl h
      · exact Or.inr (Or.inr h)
    · rintro (h | h | h)
      · exact Or.inl (Or.inr h)
      · exact Or.inl (Or.inl h)
      · exact Or.inr h

/-- The union of two sets has the tuples of both. -/
theorem MultiIndexSet.mem_addMultiIndexSet (q : List Nat) (a b : MultiIndexSet) :
    q ∈ (a.addMultiIndexSet b).indexes ↔ q ∈ a.indexes ∨ q ∈ b.indexes := by
  unfold MultiIndexSet.addMultiIndexSet
  exact MultiIndexSet.mem_mergeIndexes q a.indexes b.indexes

end UnionMembership

section AcceptAndFallback

variable {R : Type}

/-- C16. `GridGlobal::loadNeededPoints` with a proposed refinement (`points` and `needed`
both non-empty): afterwards `points` is the union of the old `points` and the old `needed`,
`needed` is empty, `tensors`, `active_tensors` and `active_w` are the former
`updated_tensors`, `updated_active_tensors` and `updated_active_w`, the `updated_*` fields
are empty, `max_levels` is recomputed from the new tensors and every `tensor_refs[i]` is
recomputed from the new active tensor `i` against the new points. -/
theorem GridGlobal.loadNeededPoints_accepts (E : Externals R) (g : GridGlobal R) (vals : List R)
    (hp : g.points.empty = false) (hn : g.needed.empty = false) :
    (g.loadNeededPoints E vals).points = g.points.addMultiIndexSet g.needed
    ∧ (∀ p, p ∈ (g.loadNeededPoints E vals).points.indexes
        ↔ p ∈ g.points.indexes ∨ p ∈ g.needed.indexes)
    ∧ (g.loadNeededPoints E vals).needed.empty = true
    ∧ (g.loadNeededPoints E vals).tensors = g.updated_tensors
    ∧ (g.loadNeededPoints E vals).active_tensors = g.updated_active_tensors
    ∧ (g.loadNeededPoints E vals).active_w = g.updated_active_w
    ∧ (g.loadNeededPoints E vals).updated_tensors.empty = true
    ∧ (g.loadNeededPoints E vals).updated_active_tensors.empty = true
    ∧ (g.loadNeededPoints E vals).updated_active_w = []
    ∧ (g.loadNeededPoints E vals).max_levels
        = (MultiIndexManipulations.getMaxIndex g.updated_tensors).1
    ∧ (g.loadNeededPoints E vals).tensor_refs
        = (List.range g.updated_active_tensors.getNumIndexes).map (fun i =>
            E.referencePoints (!E.isNonNested g.rule) (g.updated_active_tensors.getIndex i)
              g.wrapper (g.points.addMultiIndexSet g.needed)) := by
  have hpts : (g.loadNeededPoints E vals).points = g.points.addMultiIndexSet g.needed := by
    unfold GridGlobal.loadNeededPoints GridGlobal.acceptUpdatedTensors
    simp [hp, hn, GridGlobal.recomputeTensorRefs]
  refine ⟨hpts, ?_, ?_⟩
  · intro p
    rw [hpts]
    exact MultiIndexSet.mem_addMultiIndexSet p g.points g.needed
  · have hempty : MultiIndexSet.mk0.empty = true := rfl
    unfold GridGlobal.loadNeededPoints GridGlobal.acceptUpdatedTensors
    simp [hp, hn, GridGlobal.recomputeTensorRefs, hempty]

theorem GridGlobal.loadNeededPoints_accepts_witness :
    (exampleProposedGrid.loadNeededPoints exampleExternals [40, 50]).points
      = exampleProposedGrid.points.addMultiIndexSet exampleProposedGrid.needed
    ∧ (exampleProposedGrid.loadNeededPoints exampleExternals [40, 50]).points.indexes
      = [[0], [1], [2], [3], [4]]
    ∧ (exampleProposedGrid.loadNeededPoints exampleExternals [40, 50]).tensors
      = exampleProposedGrid.updated_tensors :=
  have h := GridGlobal.loadNeededPoints_accepts exampleExternals exampleProposedGrid [40, 50]
    (by decide) (by decide)
  ⟨h.1, by decide, h.2.2.2.1⟩

/-- C19. Fallback to `makeGrid`: for every grid with a rule other than the custom-tabulated
one that has `num_outputs = 0` or no loaded points, `updateGrid(depth, type, weights,
level_limits)` gives exactly the state of `makeGrid(num_dimensions, num_outputs, depth,
type, rule, weights, alpha, beta, custom_filename, level_limits)`, whatever the custom
file. -/
theorem GridGlobal.updateGrid_fallback [Zero R] (E : Externals R) (g : GridGlobal R) (depth : Int)
    (type : TypeDepth) (w limits : List Int) (custom_file : CustomTabulated)
    (hrule : g.rule ≠ TypeOneDRule.rule_customtabulated)
    (h : g.num_outputs = 0 ∨ g.points.empty = true) :
    g.updateGrid E depth type w limits
      = g.makeGrid E g.num_dimensions g.num_outputs depth type g.rule w g.alpha g.beta
          custom_file limits := by
  have h1 : (g.num_outputs == 0 || g.points.empty) = true := by
    rcases h with h | h
    · simp [h]
    · simp [h]
  unfold GridGlobal.updateGrid
  rw [if_pos h1]
  unfold GridGlobal.makeGrid
  simp only [hrule, if_false]

theorem GridGlobal.updateGrid_fallback_witness :
    exampleUnloadedGrid.updateGrid exampleExternals 2 TypeDepth.type_level [] []
      = exampleUnloadedGrid.makeGrid exampleExternals exampleUnloadedGrid.num_dimensions
          exampleUnloadedGrid.num_outputs 2 TypeDepth.type_level exampleUnloadedGrid.rule []
          exampleUnloadedGrid.alpha exampleUnloadedGrid.beta ⟨1, [0], [0]⟩ [] :=
  GridGlobal.updateGrid_fallback exampleExternals exampleUnloadedGrid 2 TypeDepth.type_level [] []
    ⟨1, [0], [0]⟩ (by decide) (Or.inr (by decide))

end AcceptAndFallback

/-! ## C14, C15: normalised surpluses, surplus refinement without values -/

section Normalize

variable {R : Type} [LinearOrderedCommRing R] [Div R]

omit [Div R] in
theorem foldl_maxAbs_spec (L : List R) (a : R) :
    a ≤ L.foldl (fun m s => if |s| > m then |s| else m) a
    ∧ (∀ s ∈ L, |s| ≤ L.foldl (fun m s => if |s| > m then |s| else m) a)
    ∧ (L.foldl (fun m s => if |s| > m then |s| else m) a = a
        ∨ ∃ s ∈ L, |s| = L.foldl (fun m s => if |s| > m then |s| else m) a) := by
  induction L generalizing a with
  | nil => simp
  | cons x L ih =>
    rw [List.foldl_cons]
    obtain ⟨h1, h2, h3⟩ := ih (if |x| > a then |x| else a)
    have hxa : a ≤ (if |x| > a then |x| else a) ∧ |x| ≤ (if |x| > a then |x| else a) := by
      by_cases h : |x| > a
      · rw [if_pos h]; exact ⟨le_of_lt h, le_rfl⟩
      · rw [if_neg h]; exact ⟨le_rfl, not_lt.mp h⟩
    refine ⟨le_trans hxa.1 h1, ?_, ?_⟩
    · intro s hs
      rcases List.mem_cons.mp hs with rfl | hs
      · exact le_trans hxa.2 h1
      · exact h2 s hs
    · rcases h3 with h3 | ⟨s, hs, he⟩
      · by_cases h : |x| > a
        · rw [if_pos h] at h3 ⊢
          exact Or.inr ⟨x, List.mem_cons_self _ _, h3.symm⟩
        · rw [if_neg h] at h3 ⊢
          exact Or.inl h3
      · exact Or.inr ⟨s, List.mem_cons_of_mem _ hs, he⟩

/-- C14 (amended). `GridGlobal::computeSurpluses` with `normalize = true` on a grid with a
sequence rule: the returned surpluses are the hierarchical surpluses (those of the sequence
grid on the points, which is what `normalize = false` returns) divided by `M = max_p |v_p|`,
the largest magnitude of the loaded values `v_p` of the output. -/
theorem GridGlobal.computeSurpluses_sequence (E : Externals R) (g : GridGlobal R) (output : Nat)
    (hseq : E.isSequence g.rule = true) :
    ∃ M : R,
      (∀ p, p < g.points.getNumIndexes → |(g.values.getValues p).getD output 0| ≤ M)
      ∧ (0 < g.points.getNumIndexes →
          ∃ p, p < g.points.getNumIndexes ∧ |(g.values.getValues p).getD output 0| = M)
      ∧ g.computeSurpluses E output false
          = (E.sequenceSurpluses g.points g.rule
              ((List.range g.points.getNumIndexes).map
                (fun p => (g.values.getValues p).getD output 0))).take g.points.getNumIndexes
      ∧ g.computeSurpluses E output true
          = (g.computeSurpluses E output false).map (fun s => s / M) := by
  obtain ⟨h1, h2, h3⟩ := foldl_maxAbs_spec
    ((List.range g.points.getNumIndexes).map (fun p => (g.values.getValues p).getD output 0)) 0
  refine ⟨((List.range g.points.getNumIndexes).map
    (fun p => (g.values.getValues p).getD output 0)).foldl
      (fun m s => if |s| > m then |s| else m) 0, ?_, ?_, ?_, ?_⟩
  rotate_left 2
  · unfold GridGlobal.computeSurpluses
    simp only [hseq, if_true, Bool.false_eq_true, if_false]
  · unfold GridGlobal.computeSurpluses
    simp only [hseq, if_true, Bool.false_eq_true, if_false]
  · intro p hp
    exact h2 _ (List.mem_map.mpr ⟨p, List.mem_range.mpr hp, rfl⟩)
  · intro hn
    rcases h3 with h3 | ⟨s, hs, he⟩
    · refine ⟨0, hn, ?_⟩
      have hle := h2 _ (List.mem_map.mpr ⟨0, List.mem_range.mpr hn, rfl⟩)
      rw [h3] at hle ⊢
      exact le_antisymm hle (abs_nonneg _)
    · obtain ⟨p, hp, rfl⟩ := List.mem_map.mp hs
      exact ⟨p, List.mem_range.mp hp, he⟩

theorem GridGlobal.computeSurpluses_sequence_witness :
    ∃ M : Int,
      (∀ p, p < exampleSequenceGrid.points.getNumIndexes →
        |(exampleSequenceGrid.values.getValues p).getD 0 0| ≤ M)
      ∧ (0 < exampleSequenceGrid.points.getNumIndexes →
          ∃ p, p < exampleSequenceGrid.points.getNumIndexes
            ∧ |(exampleSequenceGrid.values.getValues p).getD 0 0| = M)
      ∧ exampleSequenceGrid.computeSurpluses exampleSequenceExternals 0 false
          = (exampleSequenceExternals.sequenceSurpluses exampleSequenceGrid.points
              exampleSequenceGrid.rule
              ((List.range exampleSequenceGrid.points.getNumIndexes).map
                (fun p => (exampleSequenceGrid.values.getValues p).getD 0 0))).take
              exampleSequenceGrid.points.getNumIndexes
      ∧ exampleSequenceGrid.computeSurpluses exampleSequenceExternals 0 true
          = (exampleSequenceGrid.computeSurpluses exampleSequenceExternals 0 false).map
              (fun s => s / M) :=
  GridGlobal.computeSurpluses_sequence exampleSequenceExternals exampleSequenceGrid 0 (by decide)

/-- C14 as stated fails: on the sequence grid with the points 0, 1 and the values 1, -1 the
hierarchical surpluses are 1, -2 and the largest value magnitude is 1, so
`computeSurpluses` with `normalize = true` returns 1, -2: the largest returned magnitude is
2, not 1, and the surpluses are not divided by `max_p |s_p| = 2`. -/
theorem GridGlobal.computeSurpluses_normalize_counterexample :
    exampleSequenceGrid.computeSurpluses exampleSequenceExternals 0 false = [1, -2]
    ∧ exampleSequenceGrid.computeSurpluses exampleSequenceExternals 0 true = [1, -2]
    ∧ ((exampleSequenceGrid.computeSurpluses exampleSequenceExternals 0 true).map
        (fun s => |s|)).foldl max 0 = 2
    ∧ exampleSequenceGrid.computeSurpluses exampleSequenceExternals 0 true
      ≠ (exampleSequenceGrid.computeSurpluses exampleSequenceExternals 0 false).map
          (fun s => s / 2) := by
  decide

/-- For a rule that is not a sequence rule `computeSurpluses` never reads `normalize`. -/
theorem GridGlobal.computeSurpluses_normalize_ignored (E : Externals R) (g : GridGlobal R)
    (output : Nat) (hseq : E.isSequence g.rule = false) :
    g.computeSurpluses E output true = g.computeSurpluses E output false := by
  unfold GridGlobal.computeSurpluses
  simp only [hseq, Bool.false_eq_true, if_false]

end Normalize
section RefineWithoutValues

variable {R : Type} [LinearOrderedCommRing R] [Div R]

/-- Without points the wavelet refinement finds nothing to add: the grid is left as
`clearRefinement` leaves it. -/
theorem GridWavelet.wavelet_setSurplusRefinement_of_empty (EW : WaveletExternals R) (gw : GridWavelet R)
    (tolerance : R) (criteria : TypeRefinement) (output : Int) (level_limits : List Int)
    (hp : gw.points.empty = true) :
    gw.setSurplusRefinement EW tolerance criteria output level_limits = gw.clearRefinement := by
  have hn : gw.clearRefinement.points.getNumIndexes = 0 := by
    have h : gw.points.indexes = [] := by
      simpa [MultiIndexSet.empty] using hp
    simp [GridWavelet.clearRefinement, MultiIndexSet.getNumIndexes, h]
  unfold GridWavelet.setSurplusRefinement
  simp only [hn, List.range_zero, List.foldl_nil, List.length_nil, lt_self_iff_false, if_false]

/-- C15 (amended). Surplus refinement without values: `GridWavelet::setSurplusRefinement` has
no failure to report; it starts with `clearRefinement`, so on a `GridWavelet` with no loaded
values (`points` empty, `needed` pending) the pending `needed` set is discarded: the grid is
left as `clearRefinement` leaves it, with `needed` empty and every other field unchanged. -/
theorem setSurplusRefinement_without_values (EW : WaveletExternals R) (gw : GridWavelet R)
    (tolw : R) (outputw : Int) (criteria : TypeRefinement) (limitsw : List Int)
    (hpw : gw.points.empty = true) :
    gw.setSurplusRefinement EW tolw criteria outputw limitsw = gw.clearRefinement
    ∧ gw.setSurplusRefinement EW tolw criteria outputw limitsw
        = { gw with needed := MultiIndexSet.mk0 }
    ∧ (gw.setSurplusRefinement EW tolw criteria outputw limitsw).needed.empty = true
    ∧ (gw.setSurplusRefinement EW tolw criteria outputw limitsw).points = gw.points
    ∧ (gw.setSurplusRefinement EW tolw criteria outputw limitsw).values = gw.values := by
  rw [GridWavelet.wavelet_setSurplusRefinement_of_empty EW gw tolw criteria outputw limitsw hpw]
  exact ⟨rfl, rfl, rfl, rfl, rfl⟩

/-- The statement of C15 (amended) at the example wavelet grid, which has no loaded values
and three points pending. -/
theorem setSurplusRefinement_without_values_witness :
    exampleWaveletGrid.points.empty = true
    ∧ exampleWaveletGrid.needed.indexes = [[0], [1], [2]]
    ∧ exampleWaveletGrid.setSurplusRefinement exampleWaveletExternals 0
          TypeRefinement.refine_classic 0 [] = exampleWaveletGrid.clearRefinement
    ∧ (exampleWaveletGrid.setSurplusRefinement exampleWaveletExternals 0
          TypeRefinement.refine_classic 0 []).needed.empty = true
    ∧ (exampleWaveletGrid.setSurplusRefinement exampleWaveletExternals 0
          TypeRefinement.refine_classic 0 []).points = exampleWaveletGrid.points
    ∧ (exampleWaveletGrid.setSurplusRefinement exampleWaveletExternals 0
          TypeRefinement.refine_classic 0 []).values = exampleWaveletGrid.values :=
  have h := setSurplusRefinement_without_values exampleWaveletExternals exampleWaveletGrid 0 0
    TypeRefinement.refine_classic [] (by decide)
  ⟨by decide, by decide, h.1, h.2.2.1, h.2.2.2.1, h.2.2.2.2⟩

/-- C15 as stated fails: the wavelet grid of the examples has no loaded values and three
points pending in `needed`; `setSurplusRefinement` returns a grid, with no failure, and the
pending set is gone from it. -/
theorem setSurplusRefinement_discards_needed :
    exampleWaveletGrid.points.empty = true
    ∧ exampleWaveletGrid.needed.indexes = [[0], [1], [2]]
    ∧ (exampleWaveletGrid.setSurplusRefinement exampleWaveletExternals 0
        TypeRefinement.refine_classic 0 []).needed.indexes = [] := by
  decide

end RefineWithoutValues

/-! ## C18: anisotropic refinement -/

section AnisotropicLoop

variable {R : Type} [LinearOrderedCommRing R] [Div R]

omit [Div R] in
/-- The loop from level `level` on: when the pass number `k` is the first after which
`getNumNeeded() >= min_growth`, `k` or more passes of fuel return the grid after pass `k`. -/
theorem GridGlobal.anisotropicRefinementLoop_eq (E : Externals R) (type : TypeDepth)
    (min_growth : Int) (weights limits : List Int) (k : Nat) :
    ∀ (fuel : Nat) (g : GridGlobal R) (level : Nat), k + 1 ≤ fuel →
      (∀ i, i < k →
        ((((List.range' (level + 1) (i + 1)).foldl
          (fun s l => s.updateGrid E ((l : Nat) : Int) type weights limits) g).getNumNeeded : Nat) : Int)
          < min_growth) →
      min_growth ≤ ((((List.range' (level + 1) (k + 1)).foldl
          (fun s l => s.updateGrid E ((l : Nat) : Int) type weights limits) g).getNumNeeded : Nat) : Int) →
      GridGlobal.anisotropicRefinementLoop E type min_growth weights limits fuel g level
        = some ((List.range' (level + 1) (k + 1)).foldl
          (fun s l => s.updateGrid E ((l : Nat) : Int) type weights limits) g) := by
  induction k with
  | zero =>
    intro fuel g level hfuel _ hat
    obtain ⟨f, rfl⟩ : ∃ f, fuel = f + 1 := ⟨fuel - 1, by omega⟩
    simp only [List.range', List.foldl_cons, List.foldl_nil] at hat ⊢
    unfold GridGlobal.anisotropicRefinementLoop
    simp only
    rw [if_neg (not_lt.mpr hat)]
  | succ k ih =>
    intro fuel g level hfuel hbefore hat
    obtain ⟨f, rfl⟩ : ∃ f, fuel = f + 1 := ⟨fuel - 1, by omega⟩
    have h0 := hbefore 0 (by omega)
    simp only [List.range', List.foldl_cons, List.foldl_nil] at h0
    unfold GridGlobal.anisotropicRefinementLoop
    simp only
    rw [if_pos h0]
    rw [ih f _ (level + 1) (by omega)]
    · rfl
    · intro i hi
      have h := hbefore (i + 1) (by omega)
      exact h
    · exact hat

/-- C18. `GridGlobal::setAnisotropicRefinement`: after `clearRefinement` and the estimate of
the weights it calls `updateGrid` with these weights at level 1, 2, 3, ...; when `L >= 1` is
the first level after whose call `getNumNeeded() >= min_growth`, the loop stops there (`L`
or more passes suffice) and returns the grid after the call at level `L`, in which `needed`
has at least `min_growth` points. -/
theorem GridGlobal.setAnisotropicRefinement_spec (E : Externals R) (N : NumericExternals R)
    (g : GridGlobal R) (type : TypeDepth) (min_growth : Int) (output : Nat) (limits : List Int)
    (L fuel : Nat) (hL : 1 ≤ L) (hfuel : L ≤ fuel)
    (hbefore : ∀ k, 1 ≤ k → k < L →
      (((GridGlobal.afterUpdateLevels E type
        (g.clearRefinement.estimateAnisotropicCoefficients E N type output) limits
        g.clearRefinement k).getNumNeeded : Nat) : Int) < min_growth)
    (hat : min_growth ≤ (((GridGlobal.afterUpdateLevels E type
        (g.clearRefinement.estimateAnisotropicCoefficients E N type output) limits
        g.clearRefinement L).getNumNeeded : Nat) : Int)) :
    g.setAnisotropicRefinement E N fuel type min_growth output limits
      = some (GridGlobal.afterUpdateLevels E type
          (g.clearRefinement.estimateAnisotropicCoefficients E N type output) limits
          g.clearRefinement L)
    ∧ min_growth ≤ (((GridGlobal.afterUpdateLevels E type
        (g.clearRefinement.estimateAnisotropicCoefficients E N type output) limits
        g.clearRefinement L).needed.getNumIndexes : Nat) : Int) := by
  obtain ⟨k, rfl⟩ : ∃ k, L = k + 1 := ⟨L - 1, by omega⟩
  refine ⟨?_, hat⟩
  unfold GridGlobal.setAnisotropicRefinement
  simp only
  exact GridGlobal.anisotropicRefinementLoop_eq E type min_growth _ limits k fuel g.clearRefinement 0
    hfuel (fun i hi => hbefore (i + 1) (by omega) (by omega)) hat

theorem GridGlobal.setAnisotropicRefinement_spec_witness :
    exampleLoadedGrid.setAnisotropicRefinement exampleExternals exampleNumericExternals 5
        TypeDepth.type_level 2 0 []
      = some (GridGlobal.afterUpdateLevels exampleExternals TypeDepth.type_level
          (exampleLoadedGrid.clearRefinement.estimateAnisotropicCoefficients exampleExternals
            exampleNumericExternals TypeDepth.type_level 0) []
          exampleLoadedGrid.clearRefinement 2)
    ∧ (2 : Int) ≤ (((GridGlobal.afterUpdateLevels exampleExternals TypeDepth.type_level
        (exampleLoadedGrid.clearRefinement.estimateAnisotropicCoefficients exampleExternals
          exampleNumericExternals TypeDepth.type_level 0) []
        exampleLoadedGrid.clearRefinement 2).needed.getNumIndexes : Nat) : Int) :=
  GridGlobal.setAnisotropicRefinement_spec exampleExternals exampleNumericExternals
    exampleLoadedGrid TypeDepth.type_level 2 0 [] 2 5 (by decide) (by decide)
    (by
      intro k h1 h2
      have hk : k = 1 := by omega
      subst hk
      decide)
    (by decide)

end AnisotropicLoop

/-! ## C17: surplus refinement of `GridGlobal` -/

section LowerHull

theorem SpecModel.mem_lowerBox (t r : List Nat) :
    r ∈ SpecModel.lowerBox t ↔ List.Forall₂ (fun a b => a ≤ b) r t := by
  induction t generalizing r with
  | nil =>
    simp [SpecModel.lowerBox]
  | cons a t ih =>
    cases r with
    | nil => simp [SpecModel.lowerBox]
    | cons b r =>
      simp only [SpecModel.lowerBox, List.mem_flatMap, List.mem_range, List.mem_map,
        List.cons.injEq, List.forall₂_cons]
      constructor
      · rintro ⟨k, hk, q, hq, rfl, rfl⟩
        exact ⟨by omega, (ih q).mp hq⟩
      · rintro ⟨hb, hr⟩
        exact ⟨b, by omega, r, (ih r).mpr hr, rfl, rfl⟩

theorem forall₂_le_refl (t : List Nat) : List.Forall₂ (fun a b => a ≤ b) t t := by
  induction t with
  | nil => exact List.Forall₂.nil
  | cons a t ih => exact List.Forall₂.cons le_rfl ih

theorem forall₂_le_trans (r s t : List Nat) (h1 : List.Forall₂ (fun a b => a ≤ b) r s)
    (h2 : List.Forall₂ (fun a b => a ≤ b) s t) : List.Forall₂ (fun a b => a ≤ b) r t := by
  induction h1 generalizing t with
  | nil =>
    cases h2
    exact List.Forall₂.nil
  | cons hab _ ih =>
    cases h2 with
    | cons hbc h3 => exact List.Forall₂.cons (le_trans hab hbc) (ih _ h3)

theorem SpecModel.mem_completeSetToLower (s : MultiIndexSet) (r : List Nat) :
    r ∈ (SpecModel.completeSetToLower s).indexes
      ↔ ∃ t ∈ s.indexes, List.Forall₂ (fun a b => a ≤ b) r t := by
  unfold SpecModel.completeSetToLower
  simp only [MultiIndexSet.mem_mergeIndexes, List.not_mem_nil, false_or, List.mem_flatMap,
    SpecModel.mem_lowerBox]

/-- The lower hull of the specification is the smallest lower set containing its argument. -/
theorem SpecModel.completeSetToLower_isLowerHullOf (s : MultiIndexSet) :
    (SpecModel.completeSetToLower s).IsLowerHullOf s := by
  refine ⟨?_, ?_, ?_⟩
  · intro t ht r hr
    obtain ⟨u, hu, htu⟩ := (SpecModel.mem_completeSetToLower s t).mp ht
    exact (SpecModel.mem_completeSetToLower s r).mpr ⟨u, hu, forall₂_le_trans r t u hr htu⟩
  · intro t ht
    exact (SpecModel.mem_completeSetToLower s t).mpr ⟨t, ht, forall₂_le_refl t⟩
  · intro l hl hsl t ht
    obtain ⟨u, hu, htu⟩ := (SpecModel.mem_completeSetToLower s t).mp ht
    exact hl u (hsl u hu) t htu

end LowerHull

section SurplusRefinement

variable {R : Type} [LinearOrderedCommRing R] [Div R]

/-- `setSurplusRefinement` in terms of the flags and the selected children. -/
theorem GridGlobal.setSurplusRefinement_eq (E : Externals R) (g : GridGlobal R) (tolerance : R)
    (output : Nat) (level_limits : List Int) :
    g.setSurplusRefinement E tolerance output level_limits
      = if (g.flaggedChildren E tolerance output level_limits).getNumIndexes > 0 then
          GridGlobal.proposeUpdatedTensors E { g.clearRefinement with
            updated_tensors := E.completeSetToLower
              ((g.flaggedChildren E tolerance output level_limits).addMultiIndexSet g.points) }
        else g.clearRefinement := by
  rfl

/-- C17. `GridGlobal::setSurplusRefinement`: point `i` is flagged iff
`|surplus_i| > tolerance` (the normalised surpluses of the output); when
`selectFlaggedChildren` returns at least one child and `completeSetToLower` returns the
lower hull of its argument, `updated_tensors` is the smallest downward-closed set that
contains the selected children and every index of `points` (it is downward-closed, contains
both, and lies in every downward-closed set containing both), and the refinement is proposed
from it; when no child is selected no refinement is pending: `updated_tensors` and `needed`
are empty. -/
theorem GridGlobal.setSurplusRefinement_spec (E : Externals R) (g : GridGlobal R) (tolerance : R)
    (output : Nat) (level_limits : List Int)
    (hhull : ∀ s, (E.completeSetToLower s).IsLowerHullOf s) :
    ((g.surplusFlags E tolerance output).length = g.points.getNumIndexes
      ∧ ∀ i, i < g.points.getNumIndexes →
          ((g.surplusFlags E tolerance output).getD i false = true
            ↔ |(g.clearRefinement.computeSurpluses E output true).getD i 0| > tolerance))
    ∧ (0 < (g.flaggedChildren E tolerance output level_limits).getNumIndexes →
        (g.setSurplusRefinement E tolerance output level_limits).updated_tensors.IsLower
        ∧ (∀ t ∈ (g.flaggedChildren E tolerance output level_limits).indexes,
            t ∈ (g.setSurplusRefinement E tolerance output level_limits).updated_tensors.indexes)
        ∧ (∀ t ∈ g.points.indexes,
            t ∈ (g.setSurplusRefinement E tolerance output level_limits).updated_tensors.indexes)
        ∧ (∀ l : MultiIndexSet, l.IsLower →
            (∀ t ∈ (g.flaggedChildren E tolerance output level_limits).indexes, t ∈ l.indexes) →
            (∀ t ∈ g.points.indexes, t ∈ l.indexes) →
            ∀ t ∈ (g.setSurplusRefinement E tolerance output level_limits).updated_tensors.indexes,
              t ∈ l.indexes)
        ∧ g.setSurplusRefinement E tolerance output level_limits
            = GridGlobal.proposeUpdatedTensors E { g.clearRefinement with
                updated_tensors := (g.setSurplusRefinement E tolerance output
                  level_limits).updated_tensors })
    ∧ ((g.flaggedChildren E tolerance output level_limits).getNumIndexes = 0 →
        (g.setSurplusRefinement E tolerance output level_limits).updated_tensors.empty = true
        ∧ (g.setSurplusRefinement E tolerance output level_limits).needed.empty = true) := by
  refine ⟨⟨?_, ?_⟩, ?_, ?_⟩
  · unfold GridGlobal.surplusFlags
    simp
  · intro i hi
    unfold GridGlobal.surplusFlags
    rw [List.getD_eq_getElem _ _ (by simpa using hi)]
    simp
  · intro hk
    have hut : (g.setSurplusRefinement E tolerance output level_limits).updated_tensors
        = E.completeSetToLower
            ((g.flaggedChildren E tolerance output level_limits).addMultiIndexSet g.points) := by
      rw [GridGlobal.setSurplusRefinement_eq, if_pos hk]
      rfl
    obtain ⟨h1, h2, h3⟩ := hhull
      ((g.flaggedChildren E tolerance output level_limits).addMultiIndexSet g.points)
    refine ⟨?_, ?_, ?_, ?_, ?_⟩
    · rw [hut]; exact h1
    · intro t ht
      rw [hut]
      exact h2 t ((MultiIndexSet.mem_addMultiIndexSet t _ _).mpr (Or.inl ht))
    · intro t ht
      rw [hut]
      exact h2 t ((MultiIndexSet.mem_addMultiIndexSet t _ _).mpr (Or.inr ht))
    · intro l hl hkl hpl t ht
      rw [hut] at ht
      refine h3 l hl ?_ t ht
      intro u hu
      rcases (MultiIndexSet.mem_addMultiIndexSet u _ _).mp hu with h | h
      · exact hkl u h
      · exact hpl u h
    · rw [hut]
      rw [GridGlobal.setSurplusRefinement_eq, if_pos hk]
  · intro hk
    have hnot : ¬ ((g.flaggedChildren E tolerance output level_limits).getNumIndexes > 0) := by
      omega
    rw [GridGlobal.setSurplusRefinement_eq, if_neg hnot]
    exact ⟨rfl, rfl⟩

end SurplusRefinement
theorem GridGlobal.setSurplusRefinement_spec_witness :
    exampleSequenceGrid.surplusFlags exampleRefinementExternals 1 0 = [false, true]
    ∧ (exampleSequenceGrid.flaggedChildren exampleRefinementExternals 1 0 []).indexes = [[2]]
    ∧ (exampleSequenceGrid.setSurplusRefinement exampleRefinementExternals 1 0 []).updated_tensors.indexes
        = [[0], [1], [2]]
    ∧ (exampleSequenceGrid.setSurplusRefinement exampleRefinementExternals 1 0 []).needed.indexes
        = [[2]]
    ∧ (exampleSequenceGrid.setSurplusRefinement exampleRefinementExternals 1 0 []).updated_tensors.IsLower :=
  ⟨by decide, by decide, by decide, by decide,
    ((GridGlobal.setSurplusRefinement_spec exampleRefinementExternals exampleSequenceGrid 1 0 []
      (fun s => SpecModel.completeSetToLower_isLowerHullOf s)).2.1 (by decide)).1⟩

/-! ## C20: dynamic construction -/

section OrderedSets

theorem MultiIndexSet.lexLt_irrefl (a : List Nat) : MultiIndexSet.lexLt a a = false := by
  induction a with
  | nil => rfl
  | cons x a ih =>
    unfold MultiIndexSet.lexLt
    simp [ih]

theorem MultiIndexSet.lexLt_trans (a b c : List Nat) (h1 : MultiIndexSet.lexLt a b = true)
    (h2 : MultiIndexSet.lexLt b c = true) : MultiIndexSet.lexLt a c = true := by
  induction a generalizing b c with
  | nil =>
    cases b with
    | nil => simp [MultiIndexSet.lexLt] at h1
    | cons y b =>
      cases c with
      | nil => simp [MultiIndexSet.lexLt] at h2
      | cons z c => rfl
  | cons x a ih =>
    cases b with
    | nil => simp [MultiIndexSet.lexLt] at h1
    | cons y b =>
      cases c with
      | nil => simp [MultiIndexSet.lexLt] at h2
      | cons z c =>
        unfold MultiIndexSet.lexLt at h1 h2 ⊢
        by_cases hxy : x < y
        · by_cases hyz : y < z
          · have : x < z := by omega
            simp [this]
          · by_cases hzy : z < y
            · simp [hyz, hzy] at h2
            · have : x < z := by omega
              simp [this]
        · by_cases hyx : y < x
          · simp [hxy, hyx] at h1
          · simp only [hxy, hyx, if_false] at h1
            have hxe : x = y := by omega
            subst hxe
            by_cases hxz : x < z
            · simp [hxz]
            · by_cases hzx : z < x
              · simp [hxz, hzx] at h2
              · simp only [hxz, hzx, if_false] at h2 ⊢
                exact ih b c h1 h2

theorem MultiIndexSet.pairwise_insertIndex (p : List Nat) (xs : List (List Nat))
    (h : xs.Pairwise (fun a b => MultiIndexSet.lexLt a b = true)) :
    (MultiIndexSet.insertIndex p xs).Pairwise (fun a b => MultiIndexSet.lexLt a b = true) := by
  induction xs with
  | nil => simp [MultiIndexSet.insertIndex]
  | cons x xs ih =>
    rw [List.pairwise_cons] at h
    unfold MultiIndexSet.insertIndex
    by_cases h1 : MultiIndexSet.lexLt p x = true
    · rw [if_pos h1]
      refine List.pairwise_cons.mpr ⟨?_, List.pairwise_cons.mpr h⟩
      intro q hq
      rcases List.mem_cons.mp hq with rfl | hq
      · exact h1
      · exact MultiIndexSet.lexLt_trans p x q h1 (h.1 q hq)
    · rw [if_neg h1]
      by_cases h2 : MultiIndexSet.lexLt x p = true
      · rw [if_pos h2]
        refine List.pairwise_cons.mpr ⟨?_, ih h.2⟩
        intro q hq
        rcases (MultiIndexSet.mem_insertIndex p q xs).mp hq with rfl | hq
        · exact h2
        · exact h.1 q hq
      · rw [if_neg h2]
        exact List.pairwise_cons.mpr h

theorem MultiIndexSet.pairwise_mergeIndexes (a b : List (List Nat))
    (h : a.Pairwise (fun a b => MultiIndexSet.lexLt a b = true)) :
    (MultiIndexSet.mergeIndexes a b).Pairwise (fun a b => MultiIndexSet.lexLt a b = true) := by
  unfold MultiIndexSet.mergeIndexes
  induction b generalizing a with
  | nil => exact h
  | cons p b ih => exact ih _ (MultiIndexSet.pairwise_insertIndex p a h)

end OrderedSets

section AlignedValues

variable {R : Type}

theorem flatMap_congr_of_mem {α β : Type} (f g : α → List β) (L : List α)
    (h : ∀ a ∈ L, f a = g a) : L.flatMap f = L.flatMap g := by
  induction L with
  | nil => rfl
  | cons a L ih =>
    rw [List.flatMap_cons, List.flatMap_cons, h a (List.mem_cons_self _ _),
      ih (fun b hb => h b (List.mem_cons_of_mem _ hb))]

/-- Row `i` of a table that lists the rows `y q` of the tuples of a list. -/
theorem row_of_flatMap (y : List Nat → List R) (m : Nat) (hy : ∀ q, (y q).length = m)
    (L : List (List Nat)) (i : Nat) (hi : i < L.length) :
    ((L.flatMap y).drop (i * m)).take m = y (L.getD i []) := by
  induction L generalizing i with
  | nil => simp at hi
  | cons a L ih =>
    rw [List.flatMap_cons]
    cases i with
    | zero =>
      simp only [Nat.zero_mul, List.drop_zero, List.getD_cons_zero]
      rw [List.take_left' (hy a)]
    | succ i =>
      have hdrop : (y a ++ L.flatMap y).drop ((i + 1) * m) = (L.flatMap y).drop (i * m) := by
        rw [Nat.succ_mul, Nat.add_comm, ← List.drop_drop, List.drop_left' (hy a)]
      rw [hdrop, List.getD_cons_succ]
      exact ih i (by simpa using hi)

theorem find?_none_filter {α : Type} (p : α → Bool) (Q : List α) (h : Q.find? p = none) :
    Q.filter p = [] ∧ Q.filter (fun e => !p e) = Q := by
  induction Q with
  | nil => exact ⟨rfl, rfl⟩
  | cons a Q ih =>
    rw [List.find?_cons] at h
    cases hpa : p a with
    | true => rw [hpa] at h; cases h
    | false =>
      rw [hpa] at h
      obtain ⟨h1, h2⟩ := ih h
      simp [List.filter_cons, hpa, h1, h2]

theorem find?_some_filter {α : Type} (p : α → Bool) (Q : List α) (e : α)
    (h : Q.find? p = some e) :
    Q.filter p = e :: (Q.eraseP p).filter p
      ∧ (Q.eraseP p).filter (fun e => !p e) = Q.filter (fun e => !p e) := by
  induction Q with
  | nil => simp at h
  | cons a Q ih =>
    rw [List.find?_cons] at h
    cases hpa : p a with
    | true =>
      rw [hpa] at h
      have hae : a = e := Option.some.inj h
      subst hae
      simp [List.filter_cons, hpa, List.eraseP_cons]
    | false =>
      rw [hpa] at h
      obtain ⟨h1, h2⟩ := ih h
      simp [List.filter_cons, hpa, List.eraseP_cons, h1, h2]

end AlignedValues

section EjectLoop

variable {R : Type}

/-- The grid after the tensors of a list have been taken in, one after the other, as the loop
of `loadConstructedTensors` does with the tensors that the journal ejects. -/
theorem GridGlobal.ejectLoop_eq (fuel : Nat) (g : GridGlobal R)
    (dv : DynamicConstructorDataGlobal R) (b : Bool)
    (hfuel : (dv.tensors.filter (fun e => DynamicConstructorDataGlobal.isComplete dv.data e)).length
      ≤ fuel) :
    GridGlobal.ejectLoop fuel (g, dv, b)
      = ((dv.tensors.filter (fun e => DynamicConstructorDataGlobal.isComplete dv.data e)).foldl
          (fun (g : GridGlobal R) e =>
            g.absorbTensor e.1 ⟨dv.num_dimensions, e.2.2⟩
              (e.2.2.flatMap (DynamicConstructorDataGlobal.nodeValue dv.data))) g,
        { dv with tensors :=
            dv.tensors.filter (fun e => !DynamicConstructorDataGlobal.isComplete dv.data e) },
        b || !(dv.tensors.filter
          (fun e => DynamicConstructorDataGlobal.isComplete dv.data e)).isEmpty) := by
  induction fuel generalizing g dv b with
  | zero =>
    have hnil : dv.tensors.filter (fun e => DynamicConstructorDataGlobal.isComplete dv.data e) = [] :=
      List.length_eq_zero.mp (Nat.le_zero.mp hfuel)
    have hall : dv.tensors.filter (fun e => !DynamicConstructorDataGlobal.isComplete dv.data e)
        = dv.tensors := by
      rw [List.filter_eq_self]
      intro e he
      have : e ∉ dv.tensors.filter (fun e => DynamicConstructorDataGlobal.isComplete dv.data e) := by
        rw [hnil]; simp
      rw [List.mem_filter] at this
      simpa [he] using this
    unfold GridGlobal.ejectLoop
    rw [hnil, hall]
    simp
  | succ fuel ih =>
    unfold GridGlobal.ejectLoop
    simp only
    unfold DynamicConstructorDataGlobal.ejectCompleteTensor
    cases hfind : dv.tensors.find? (fun e => DynamicConstructorDataGlobal.isComplete dv.data e) with
    | none =>
      obtain ⟨h1, h2⟩ := find?_none_filter _ _ hfind
      simp only [h1, h2, List.foldl_nil, List.isEmpty_nil, Bool.not_true, Bool.or_false]
    | some e =>
      obtain ⟨h1, h2⟩ := find?_some_filter _ _ e hfind
      simp only
      rw [ih]
      · simp only [h1, h2, List.foldl_cons, List.isEmpty_cons, Bool.not_false, Bool.or_true,
          Bool.true_or]
      · simp only
        rw [h1] at hfuel
        simpa using hfuel

end EjectLoop

section AbsorbTensor

variable {R : Type}

end AbsorbTensor

section BuildingStep

variable {R : Type} [LinearOrderedCommRing R] [Div R]

end BuildingStep

section BuildingLoad

variable {R : Type} [LinearOrderedCommRing R] [Div R]

end BuildingLoad

section BuildingStep2

variable {R : Type} [LinearOrderedCommRing R] [Div R]

end BuildingStep2

section BuildingStep3

variable {R : Type}

end BuildingStep3

section BuildingRun

variable {R : Type} [LinearOrderedCommRing R] [Div R]

end BuildingRun

section BuildingStart

variable {R : Type} [LinearOrderedCommRing R] [Div R]

theorem SpecModel.generateNestedPoints_fold (n : Nat → Nat) (T : List (List Nat))
    (acc : List (List Nat)) (hacc : acc.Pairwise (fun a b => MultiIndexSet.lexLt a b = true)) :
    (T.foldl (fun acc t => MultiIndexSet.mergeIndexes acc (SpecModel.tensorPoints n t)) acc).Pairwise
        (fun a b => MultiIndexSet.lexLt a b = true)
    ∧ ∀ q, q ∈ T.foldl (fun acc t => MultiIndexSet.mergeIndexes acc (SpecModel.tensorPoints n t)) acc
        ↔ q ∈ acc ∨ ∃ t ∈ T, q ∈ SpecModel.tensorPoints n t := by
  induction T generalizing acc with
  | nil => simp [hacc]
  | cons t T ih =>
    obtain ⟨h1, h2⟩ := ih _ (MultiIndexSet.pairwise_mergeIndexes acc (SpecModel.tensorPoints n t) hacc)
    refine ⟨h1, ?_⟩
    intro q
    rw [List.foldl_cons, h2 q, MultiIndexSet.mem_mergeIndexes]
    simp only [List.mem_cons, exists_eq_or_imp]
    tauto

/-- The point set of `generateNestedPoints` is ordered and holds the points of the tensors. -/
theorem SpecModel.generateNestedPoints_spec (T : MultiIndexSet) (n : Nat → Nat) :
    (SpecModel.generateNestedPoints T n).Ordered
    ∧ (SpecModel.generateNestedPoints T n).num_dimensions = T.num_dimensions
    ∧ ∀ q, q ∈ (SpecModel.generateNestedPoints T n).indexes
        ↔ ∃ t ∈ T.indexes, q ∈ SpecModel.tensorPoints n t := by
  obtain ⟨h1, h2⟩ := SpecModel.generateNestedPoints_fold n T.indexes [] List.Pairwise.nil
  refine ⟨h1, rfl, ?_⟩
  intro q
  have := h2 q
  simpa [SpecModel.generateNestedPoints] using this

end BuildingStart

section BuildingEnd

variable {R : Type} [LinearOrderedCommRing R] [Div R]

end BuildingEnd

section DynamicEqualsStatic

variable {R : Type} [LinearOrderedCommRing R] [Div R]

end DynamicEqualsStatic

section DynamicEqualsStaticClaim

variable {R : Type} [LinearOrderedCommRing R] [Div R]

end DynamicEqualsStaticClaim

section LegendreRecurrence

variable {F : Type} [LinearOrderedField F]

/-- The pair `(lm, l)` of `legendre` after the passes `i = 2 .. k + 1` of its loop. -/
theorem GridGlobal.legendre_succ_eq (x : F) (k : Nat) :
    GridGlobal.legendre (k + 1) x
      = ((List.range' 2 k).foldl
          (fun (lml : F × F) (i : Nat) =>
            (lml.2, (((2 * (i : F) - 1) * x * lml.2) / (i : F)) - ((((i : F) - 1) * lml.1) / (i : F))))
          ((1 : F), x)).2 := by
  unfold GridGlobal.legendre
  cases k with
  | zero => simp
  | succ k =>
    have h0 : ¬ (k + 1 + 1 = 0) := by omega
    have h1 : ¬ (k + 1 + 1 = 1) := by omega
    rw [if_neg h0, if_neg h1]
    rfl

theorem GridGlobal.legendre_eq_fst (x : F) (k : Nat) :
    GridGlobal.legendre k x
      = ((List.range' 2 k).foldl
          (fun (lml : F × F) (i : Nat) =>
            (lml.2, (((2 * (i : F) - 1) * x * lml.2) / (i : F)) - ((((i : F) - 1) * lml.1) / (i : F))))
          ((1 : F), x)).1 := by
  cases k with
  | zero => simp [GridGlobal.legendre]
  | succ k =>
    rw [GridGlobal.legendre_succ_eq, List.range'_1_concat, List.foldl_append]
    rfl

/-- C26. Legendre recurrence: in exact arithmetic `legendre(0, x) = 1`, `legendre(1, x) = x`,
and for every `n >= 2`,
`n * legendre(n, x) = (2n - 1) * x * legendre(n-1, x) - (n - 1) * legendre(n-2, x)`. -/
theorem GridGlobal.legendre_recurrence (x : F) :
    GridGlobal.legendre 0 x = 1 ∧ GridGlobal.legendre 1 x = x
    ∧ ∀ n : Nat, 2 ≤ n →
        (n : F) * GridGlobal.legendre n x
          = (2 * (n : F) - 1) * x * GridGlobal.legendre (n - 1) x
            - ((n : F) - 1) * GridGlobal.legendre (n - 2) x := by
  refine ⟨by simp [GridGlobal.legendre], by simp [GridGlobal.legendre], ?_⟩
  intro n hn
  obtain ⟨k, rfl⟩ : ∃ k, n = k + 2 := ⟨n - 2, by omega⟩
  have hk1 : k + 2 - 1 = k + 1 := by omega
  have hk2 : k + 2 - 2 = k := by omega
  rw [hk1, hk2]
  have hstep : GridGlobal.legendre (k + 2) x
      = (((2 * ((2 + k : Nat) : F) - 1) * x * GridGlobal.legendre (k + 1) x) / ((2 + k : Nat) : F))
        - (((((2 + k : Nat) : F) - 1) * GridGlobal.legendre k x) / ((2 + k : Nat) : F)) := by
    rw [GridGlobal.legendre_succ_eq x (k + 1), List.range'_1_concat, List.foldl_append,
      GridGlobal.legendre_succ_eq x k, GridGlobal.legendre_eq_fst x k]
    rfl
  have hne : ((2 + k : Nat) : F) ≠ 0 := by
    exact_mod_cast (by omega : 2 + k ≠ 0)
  have hcast : ((k + 2 : Nat) : F) = ((2 + k : Nat) : F) := by
    rw [Nat.add_comm]
  rw [hstep, hcast]
  field_simp

theorem GridGlobal.legendre_recurrence_witness :
    (2 : ℚ) * GridGlobal.legendre 2 (3 : ℚ)
      = (2 * ((2 : Nat) : ℚ) - 1) * 3 * GridGlobal.legendre (2 - 1) (3 : ℚ)
        - (((2 : Nat) : ℚ) - 1) * GridGlobal.legendre (2 - 2) (3 : ℚ) := by
  have h := (GridGlobal.legendre_recurrence (3 : ℚ)).2.2 2 (le_refl 2)
  simpa using h

end LegendreRecurrence

/-! ## C28: the update map for tolerance zero -/

section WaveletToleranceZero

variable {R : Type} [LinearOrderedCommRing R] [Div R]

theorem Data2D.index_lt (stride num_strips i j : Nat) (hi : i < num_strips)
    (hj : j < stride) : i * stride + j < stride * num_strips := by
  calc i * stride + j < i * stride + stride := by omega
    _ = (i + 1) * stride := by ring
    _ ≤ num_strips * stride := Nat.mul_le_mul_right _ hi
    _ = stride * num_strips := Nat.mul_comm _ _

/-- C28. Wavelet tolerance zero: with `tolerance = 0`, for every grid, criteria and output,
`buildUpdateMap` returns the map of `num_dimensions` by `points.getNumIndexes()` entries all
equal to one: every direction `j` of every point `i` is flagged, whatever the coefficients and
the values are. -/
theorem GridWavelet.buildUpdateMap_tolerance_zero (E : WaveletExternals R) (g : GridWavelet R)
    (criteria : TypeRefinement) (output : Int) :
    (g.buildUpdateMap E 0 criteria output).stride = g.num_dimensions
    ∧ (g.buildUpdateMap E 0 criteria output).num_strips = g.points.getNumIndexes
    ∧ (g.buildUpdateMap E 0 criteria output).vec
        = List.replicate (g.num_dimensions * g.points.getNumIndexes) 1
    ∧ ∀ i j, i < g.points.getNumIndexes → j < g.num_dimensions →
        (g.buildUpdateMap E 0 criteria output).get i j = 1 := by
  have hmap : g.buildUpdateMap E 0 criteria output
      = ⟨g.num_dimensions, g.points.getNumIndexes,
          List.replicate (g.num_dimensions * g.points.getNumIndexes) 1⟩ := by
    unfold GridWavelet.buildUpdateMap
    simp [Data2D.resize, Data2D.mk0]
  rw [hmap]
  refine ⟨rfl, rfl, rfl, ?_⟩
  intro i j hi hj
  unfold Data2D.get
  simp only
  have hlt := Data2D.index_lt g.num_dimensions g.points.getNumIndexes i j hi hj
  rw [List.getD_eq_getElem _ _ (by simpa using hlt)]
  simp

end WaveletToleranceZero

theorem GridWavelet.buildUpdateMap_tolerance_zero_witness :
    ((exampleWaveletGrid.loadNeededPoints exampleWaveletExternals [5, 7, 9]).buildUpdateMap
        exampleWaveletExternals 0 TypeRefinement.refine_classic (-1)).get 2 0 = 1 :=
  (GridWavelet.buildUpdateMap_tolerance_zero exampleWaveletExternals
    (exampleWaveletGrid.loadNeededPoints exampleWaveletExternals [5, 7, 9])
    TypeRefinement.refine_classic (-1)).2.2.2 2 0 (by decide) (by decide)

/-! ## C27: exactly one of `points`, `needed` holds the generated points -/

section PointsNeededExclusive

variable {R : Type} [Zero R]

/-- The grid that `setTensors` leaves, field by field around the generated point set. -/
theorem GridGlobal.setTensors_points_needed (E : Externals R) (g : GridGlobal R) (tset : MultiIndexSet)
    (m : Nat) (crule : TypeOneDRule) (a b : R) :
    (m = 0 →
      (g.setTensors E tset m crule a b).points
          = (if E.isNonNested crule then
              E.generateNonNestedPoints (g.setTensors E tset m crule a b).active_tensors
                (g.setTensors E tset m crule a b).wrapper
            else E.generateNestedPoints tset (g.setTensors E tset m crule a b).wrapper.getNumPoints)
        ∧ (g.setTensors E tset m crule a b).needed = MultiIndexSet.mk0)
    ∧ (m ≠ 0 →
      (g.setTensors E tset m crule a b).points = MultiIndexSet.mk0
        ∧ (g.setTensors E tset m crule a b).needed
          = (if E.isNonNested crule then
              E.generateNonNestedPoints (g.setTensors E tset m crule a b).active_tensors
                (g.setTensors E tset m crule a b).wrapper
            else E.generateNestedPoints tset (g.setTensors E tset m crule a b).wrapper.getNumPoints)
        ∧ (g.setTensors E tset m crule a b).values
          = ⟨m, (g.setTensors E tset m crule a b).needed.getNumIndexes, []⟩) := by
  unfold GridGlobal.setTensors
  constructor
  · intro hm
    by_cases hn : E.isNonNested crule = true <;>
      simp [hm, hn, GridGlobal.recomputeTensorRefs, GridGlobal.reset]
  · intro hm
    by_cases hn : E.isNonNested crule = true <;>
      simp [hm, hn, GridGlobal.recomputeTensorRefs, GridGlobal.reset, StorageSet.resize]

theorem GridGlobal.makeGrid_eq_setTensors (E : Externals R) (g : GridGlobal R)
    (cnum_dimensions m : Nat) (depth : Int) (type : TypeDepth) (crule : TypeOneDRule)
    (anisotropic_weights : List Int) (a b : R) (custom_file : CustomTabulated)
    (level_limits : List Int) :
    ∃ (g2 : GridGlobal R) (tset : MultiIndexSet),
      g.makeGrid E cnum_dimensions m depth type crule anisotropic_weights a b custom_file level_limits
        = g2.setTensors E tset m crule a b :=
  ⟨_, _, rfl⟩

/-- C27. Points/needed exclusivity.  Let `g0` be the grid after `setTensors` (the call that
`makeGrid` ends with) and `G` the point set generated for it.  If `num_outputs = 0` then
`points = G` and `needed` is empty; if `num_outputs > 0` then `points` is empty, `needed = G`
and `values` is sized for `|needed|` rows of `num_outputs` entries.  After the following
`loadNeededPoints`, `needed` is empty and `points = G`.  Hence, `G` being non-empty, exactly one
of `points`, `needed` is non-empty after `setTensors`, and after the load it is `points`. -/
theorem GridGlobal.points_needed_exclusive (E : Externals R) (g g0 : GridGlobal R)
    (tset G : MultiIndexSet) (m : Nat) (crule : TypeOneDRule) (a b : R) (vals : List R)
    (hg0 : g0 = g.setTensors E tset m crule a b)
    (hG : G = if E.isNonNested crule then E.generateNonNestedPoints g0.active_tensors g0.wrapper
      else E.generateNestedPoints g0.tensors g0.wrapper.getNumPoints)
    (hne : G.indexes ≠ []) :
    (m = 0 → g0.points = G ∧ g0.needed = MultiIndexSet.mk0)
    ∧ (m ≠ 0 → g0.points = MultiIndexSet.mk0 ∧ g0.needed = G
        ∧ g0.values.num_outputs = m ∧ g0.values.num_values = g0.needed.getNumIndexes)
    ∧ (g0.loadNeededPoints E vals).needed = MultiIndexSet.mk0
    ∧ (g0.loadNeededPoints E vals).points = G
    ∧ g0.points.empty = !g0.needed.empty
    ∧ (g0.loadNeededPoints E vals).points.empty = false
    ∧ (g0.loadNeededPoints E vals).needed.empty = true := by
  have htens : g0.tensors = tset := by
    rw [hg0]
    unfold GridGlobal.setTensors
    by_cases hm : m = 0 <;> simp [hm, GridGlobal.recomputeTensorRefs, GridGlobal.reset]
  rw [htens] at hG
  obtain ⟨h0, h1⟩ := GridGlobal.setTensors_points_needed E g tset m crule a b
  rw [← hg0, ← hG] at h0 h1
  have hGe : G.empty = false := by
    cases hi : G.indexes with
    | nil => exact absurd hi hne
    | cons x xs => simp [MultiIndexSet.empty, hi]
  have hmk : (MultiIndexSet.mk0).empty = true := rfl
  by_cases hm : m = 0
  · obtain ⟨hp, hn⟩ := h0 hm
    have hpe : g0.points.empty = false := by rw [hp]; exact hGe
    have hnn : g0.needed.empty = true := by rw [hn]; rfl
    have hload : (g0.loadNeededPoints E vals).needed = MultiIndexSet.mk0
        ∧ (g0.loadNeededPoints E vals).points = G := by
      unfold GridGlobal.loadNeededPoints GridGlobal.acceptUpdatedTensors
      simp [hp, hn, hGe, hmk]
    refine ⟨h0, fun h => absurd hm h, hload.1, hload.2, ?_, ?_, ?_⟩
    · rw [hpe, hnn]
      rfl
    · rw [hload.2]
      exact hGe
    · rw [hload.1]
      rfl
  · obtain ⟨hp, hn, hv⟩ := h1 hm
    have hpe : g0.points.empty = true := by rw [hp]; rfl
    have hnn : g0.needed.empty = false := by rw [hn]; exact hGe
    have hload : (g0.loadNeededPoints E vals).needed = MultiIndexSet.mk0
        ∧ (g0.loadNeededPoints E vals).points = G := by
      unfold GridGlobal.loadNeededPoints GridGlobal.acceptUpdatedTensors
      simp [hp, hn, hGe, hmk]
    refine ⟨fun h => absurd h hm, fun _ => ⟨hp, hn, ?_, ?_⟩, hload.1, hload.2, ?_, ?_, ?_⟩
    · rw [hv]
    · rw [hv]
    · rw [hpe, hnn]
      rfl
    · rw [hload.2]
      exact hGe
    · rw [hload.1]
      rfl

end PointsNeededExclusive

theorem GridGlobal.points_needed_exclusive_witness :
    exampleUnloadedGrid2.points = MultiIndexSet.mk0
    ∧ exampleUnloadedGrid2.needed.indexes = [[0, 0], [0, 1], [0, 2], [1, 0], [2, 0]]
    ∧ (exampleUnloadedGrid2.loadNeededPoints exampleExternals [7, 8, 9, 17, 27]).needed
        = MultiIndexSet.mk0
    ∧ (exampleUnloadedGrid2.loadNeededPoints exampleExternals [7, 8, 9, 17, 27]).points.empty
        = false :=
  have h := GridGlobal.points_needed_exclusive exampleExternals GridGlobal.mk0 exampleUnloadedGrid2
    ⟨2, [[0, 0], [0, 1], [1, 0]]⟩ exampleUnloadedGrid2.needed 1 TypeOneDRule.rule_clenshawcurtis
    0 0 [7, 8, 9, 17, 27] rfl rfl (by decide)
  ⟨(h.2.1 (by decide)).1, by decide, h.2.2.1, h.2.2.2.2.2.1⟩

/-! ## C30: the active weights are aligned with the active tensors -/

section ActiveAlignment

theorem filterMap_zip_map_ne_zero {α : Type} (f : α → Int) (L : List α) :
    (L.zip (L.map f)).filterMap (fun tw => if tw.2 ≠ 0 then some tw.1 else none)
      = L.filter (fun t => f t ≠ 0) := by
  induction L with
  | nil => rfl
  | cons t L ih =>
    rw [List.map_cons, List.zip_cons_cons]
    by_cases h : f t = 0
    · rw [List.filterMap_cons, List.filter_cons_of_neg (by simp [h])]
      simp only [h, ne_eq, not_true_eq_false, if_false]
      exact ih
    · rw [List.filterMap_cons, List.filter_cons_of_pos (by simp [h])]
      simp only [h, ne_eq, not_false_eq_true, if_true]
      rw [ih]

theorem filter_map_ne_zero {α : Type} (f : α → Int) (L : List α) :
    (L.map f).filter (fun w => w ≠ 0) = (L.filter (fun t => f t ≠ 0)).map f := by
  induction L with
  | nil => rfl
  | cons t L ih =>
    rw [List.map_cons]
    by_cases h : f t = 0
    · rw [List.filter_cons_of_neg, List.filter_cons_of_neg, ih]
      · simp [h]
      · simp [h]
    · rw [List.filter_cons_of_pos, List.filter_cons_of_pos, List.map_cons, ih]
      · simp [h]
      · simp [h]

/-- The active tensors and weights that `createActiveTensors` and the loop over the non-zero
weights give for the weights of `computeTensorWeights` are aligned with the tensors. -/
theorem MultiIndexManipulations.activeAligned_computed (T : MultiIndexSet) :
    MultiIndexManipulations.ActiveAligned T
      (MultiIndexManipulations.createActiveTensors T (MultiIndexManipulations.computeTensorWeights T))
      ((MultiIndexManipulations.computeTensorWeights T).filter (fun w => w ≠ 0)) := by
  have hA : (MultiIndexManipulations.createActiveTensors T
        (MultiIndexManipulations.computeTensorWeights T)).indexes
      = T.indexes.filter (fun t => MultiIndexManipulations.tensorWeight T t ≠ 0) := by
    unfold MultiIndexManipulations.createActiveTensors MultiIndexManipulations.computeTensorWeights
    exact filterMap_zip_map_ne_zero _ _
  have hw : (MultiIndexManipulations.computeTensorWeights T).filter (fun w => w ≠ 0)
      = (T.indexes.filter (fun t => MultiIndexManipulations.tensorWeight T t ≠ 0)).map
          (MultiIndexManipulations.tensorWeight T) := by
    unfold MultiIndexManipulations.computeTensorWeights
    exact filter_map_ne_zero _ _
  refine ⟨hA, ?_, ?_⟩
  · rw [hw, List.length_map]
    unfold MultiIndexSet.getNumIndexes
    rw [hA]
  · intro i hi
    rw [hw] at hi ⊢
    rw [List.length_map] at hi
    have hi2 : i < ((T.indexes.filter (fun t => MultiIndexManipulations.tensorWeight T t ≠ 0)).map
        (MultiIndexManipulations.tensorWeight T)).length := by
      rw [List.length_map]
      exact hi
    have hget : (MultiIndexManipulations.createActiveTensors T
          (MultiIndexManipulations.computeTensorWeights T)).getIndex i
        = (T.indexes.filter (fun t => MultiIndexManipulations.tensorWeight T t ≠ 0))[i] := by
      unfold MultiIndexSet.getIndex
      rw [hA, List.getD_eq_getElem _ _ hi]
    rw [List.getD_eq_getElem _ _ hi2, List.getElem_map, hget]
    refine ⟨rfl, ?_⟩
    have hmem := List.getElem_mem hi
    have := (List.mem_filter.mp hmem).2
    simpa using this

end ActiveAlignment

section ActiveAlignmentClaim

variable {R : Type} [LinearOrderedCommRing R] [Div R]

omit [LinearOrderedCommRing R] [Div R] in
theorem GridGlobal.setTensors_active (E : Externals R) [Zero R] (g : GridGlobal R)
    (tset : MultiIndexSet) (m : Nat) (crule : TypeOneDRule) (a b : R) :
    (g.setTensors E tset m crule a b).tensors = tset
    ∧ (g.setTensors E tset m crule a b).active_tensors
        = MultiIndexManipulations.createActiveTensors tset
            (MultiIndexManipulations.computeTensorWeights tset)
    ∧ (g.setTensors E tset m crule a b).active_w
        = (MultiIndexManipulations.computeTensorWeights tset).filter (fun w => w ≠ 0) := by
  unfold GridGlobal.setTensors
  by_cases h : m = 0 <;>
    simp [h, GridGlobal.recomputeTensorRefs, GridGlobal.reset]

omit [LinearOrderedCommRing R] [Div R] in
theorem GridGlobal.proposeUpdatedTensors_active (E : Externals R) (g : GridGlobal R)
    (hw : g.updated_active_w = []) :
    (g.proposeUpdatedTensors E).updated_tensors = g.updated_tensors
    ∧ (g.proposeUpdatedTensors E).updated_active_tensors
        = MultiIndexManipulations.createActiveTensors g.updated_tensors
            (MultiIndexManipulations.computeTensorWeights g.updated_tensors)
    ∧ (g.proposeUpdatedTensors E).updated_active_w
        = (MultiIndexManipulations.computeTensorWeights g.updated_tensors).filter (fun w => w ≠ 0) := by
  unfold GridGlobal.proposeUpdatedTensors
  simp [hw]

omit [Div R] in
/-- The grid that `loadConstructedTensors` returns: the grid it was given when the journal
ejects no tensor, and otherwise a grid whose active tensors and weights are computed from its
tensors. -/
theorem GridGlobal.loadConstructedTensors_active (E : Externals R) (g : GridGlobal R)
    (dv : DynamicConstructorDataGlobal R) :
    (dv.tensors.filter (fun e => DynamicConstructorDataGlobal.isComplete dv.data e) = []
      ∧ (g.loadConstructedTensors E dv).1 = g)
    ∨ (dv.tensors.filter (fun e => DynamicConstructorDataGlobal.isComplete dv.data e) ≠ []
      ∧ (g.loadConstructedTensors E dv).1.active_tensors
          = MultiIndexManipulations.createActiveTensors (g.loadConstructedTensors E dv).1.tensors
              (MultiIndexManipulations.computeTensorWeights (g.loadConstructedTensors E dv).1.tensors)
      ∧ (g.loadConstructedTensors E dv).1.active_w
          = (MultiIndexManipulations.computeTensorWeights
              (g.loadConstructedTensors E dv).1.tensors).filter (fun w => w ≠ 0)) := by
  have hEL := GridGlobal.ejectLoop_eq dv.tensors.length g dv false (List.length_filter_le _ _)
  unfold GridGlobal.loadConstructedTensors
  simp only [hEL, Bool.false_or]
  by_cases hF : dv.tensors.filter (fun e => DynamicConstructorDataGlobal.isComplete dv.data e) = []
  · left
    refine ⟨hF, ?_⟩
    rw [hF]
    simp
  · right
    refine ⟨hF, ?_⟩
    have hne : (!(dv.tensors.filter
        (fun e => DynamicConstructorDataGlobal.isComplete dv.data e)).isEmpty) = true := by
      simpa [List.isEmpty_iff] using hF
    rw [if_pos hne]
    exact ⟨rfl, rfl⟩

omit [Div R] in
/-- C30. Active weights alignment.  After `setTensors`, after `proposeUpdatedTensors` (for the
`updated_*` fields; the weights `updated_active_w` being empty at the call, as `clearRefinement`
leaves them at every call in the file) and after `loadConstructedTensors` (when the journal
ejects a tensor, or when the grid was aligned before), the active tensors are the
order-preserving subsequence of the tensors with a non-zero Smolyak weight, the active weights
have the length of the active tensors, and the weight at position `i` is the non-zero weight of
the active tensor at position `i`. -/
theorem GridGlobal.active_weights_aligned (E : Externals R) (g : GridGlobal R)
    (tset : MultiIndexSet) (m : Nat) (crule : TypeOneDRule) (a b : R)
    (dv : DynamicConstructorDataGlobal R) :
    MultiIndexManipulations.ActiveAligned (g.setTensors E tset m crule a b).tensors
      (g.setTensors E tset m crule a b).active_tensors (g.setTensors E tset m crule a b).active_w
    ∧ (g.updated_active_w = [] →
        MultiIndexManipulations.ActiveAligned (g.proposeUpdatedTensors E).updated_tensors
          (g.proposeUpdatedTensors E).updated_active_tensors
          (g.proposeUpdatedTensors E).updated_active_w)
    ∧ ((dv.tensors.filter (fun e => DynamicConstructorDataGlobal.isComplete dv.data e) ≠ []
          ∨ MultiIndexManipulations.ActiveAligned g.tensors g.active_tensors g.active_w) →
        MultiIndexManipulations.ActiveAligned (g.loadConstructedTensors E dv).1.tensors
          (g.loadConstructedTensors E dv).1.active_tensors
          (g.loadConstructedTensors E dv).1.active_w) := by
  refine ⟨?_, ?_, ?_⟩
  · obtain ⟨h1, h2, h3⟩ := GridGlobal.setTensors_active E g tset m crule a b
    rw [h1, h2, h3]
    exact MultiIndexManipulations.activeAligned_computed tset
  · intro hw
    obtain ⟨h1, h2, h3⟩ := GridGlobal.proposeUpdatedTensors_active E g hw
    rw [h1, h2, h3]
    exact MultiIndexManipulations.activeAligned_computed g.updated_tensors
  · intro h
    rcases GridGlobal.loadConstructedTensors_active E g dv with ⟨hF, hg⟩ | ⟨_, h2, h3⟩
    · rw [hg]
      rcases h with h | h
      · exact absurd hF h
      · exact h
    · rw [h2, h3]
      exact MultiIndexManipulations.activeAligned_computed _

end ActiveAlignmentClaim

theorem GridGlobal.active_weights_aligned_witness :
    MultiIndexManipulations.ActiveAligned
      (GridGlobal.proposeUpdatedTensors exampleExternals
        { exampleLoadedGrid with updated_tensors := ⟨1, [[0], [1], [2]]⟩ }).updated_tensors
      (GridGlobal.proposeUpdatedTensors exampleExternals
        { exampleLoadedGrid with updated_tensors := ⟨1, [[0], [1], [2]]⟩ }).updated_active_tensors
      (GridGlobal.proposeUpdatedTensors exampleExternals
        { exampleLoadedGrid with updated_tensors := ⟨1, [[0], [1], [2]]⟩ }).updated_active_w
    ∧ (GridGlobal.proposeUpdatedTensors exampleExternals
        { exampleLoadedGrid with updated_tensors := ⟨1, [[0], [1], [2]]⟩ }).updated_active_tensors.indexes
        = [[2]]
    ∧ (GridGlobal.proposeUpdatedTensors exampleExternals
        { exampleLoadedGrid with updated_tensors := ⟨1, [[0], [1], [2]]⟩ }).updated_active_w = [1] :=
  ⟨(GridGlobal.active_weights_aligned exampleExternals
      { exampleLoadedGrid with updated_tensors := ⟨1, [[0], [1], [2]]⟩ } MultiIndexSet.mk0 0
      TypeOneDRule.rule_clenshawcurtis 0 0 (DynamicConstructorDataGlobal.mk1 1 1)).2.1 (by decide),
    by decide, by decide⟩

/-! ## C21: `loadConstructedTensors` -/

section LoadConstructedTensors

variable {R : Type} [LinearOrderedCommRing R] [Div R]

omit [LinearOrderedCommRing R] [Div R] in
/-- One pass of the loop of `loadConstructedTensors`, by membership. -/
theorem GridGlobal.mem_absorbTensor (g : GridGlobal R) (t : List Nat) (new_points : MultiIndexSet)
    (new_values : List R) :
    (∀ s, s ∈ (g.absorbTensor t new_points new_values).tensors.indexes
      ↔ s = t ∨ s ∈ g.tensors.indexes)
    ∧ (∀ q, q ∈ (g.absorbTensor t new_points new_values).points.indexes
      ↔ q ∈ g.points.indexes ∨ q ∈ new_points.indexes) := by
  constructor
  · intro s
    have ht : (g.absorbTensor t new_points new_values).tensors.indexes
        = MultiIndexSet.insertIndex t g.tensors.indexes := by
      unfold GridGlobal.absorbTensor
      by_cases he : g.points.empty = true
      · rw [if_pos he]
        rfl
      · rw [if_neg he]
        rfl
    rw [ht, MultiIndexSet.mem_insertIndex]
  · intro q
    by_cases he : g.points.empty = true
    · have hp : (g.absorbTensor t new_points new_values).points = new_points := by
        unfold GridGlobal.absorbTensor
        rw [if_pos he]
      have hnil : g.points.indexes = [] := by
        simpa [MultiIndexSet.empty] using he
      rw [hp, hnil]
      simp
    · have hp : (g.absorbTensor t new_points new_values).points
          = g.points.addMultiIndexSet new_points := by
        unfold GridGlobal.absorbTensor
        rw [if_neg he]
      rw [hp, MultiIndexSet.mem_addMultiIndexSet]

omit [LinearOrderedCommRing R] [Div R] in
/-- The loop of `loadConstructedTensors` over the ejected tensors, by membership. -/
theorem GridGlobal.mem_foldl_absorbTensor (d : Nat) (v : List Nat × R × List (List Nat) → List R)
    (es : List (List Nat × R × List (List Nat))) (g : GridGlobal R) :
    (∀ s, s ∈ (es.foldl (fun (g : GridGlobal R) e => g.absorbTensor e.1 ⟨d, e.2.2⟩ (v e)) g).tensors.indexes
      ↔ s ∈ g.tensors.indexes ∨ ∃ e ∈ es, e.1 = s)
    ∧ (∀ q, q ∈ (es.foldl (fun (g : GridGlobal R) e => g.absorbTensor e.1 ⟨d, e.2.2⟩ (v e)) g).points.indexes
      ↔ q ∈ g.points.indexes ∨ ∃ e ∈ es, q ∈ e.2.2) := by
  induction es generalizing g with
  | nil => simp
  | cons e es ih =>
    obtain ⟨h1, h2⟩ := GridGlobal.mem_absorbTensor g e.1 ⟨d, e.2.2⟩ (v e)
    obtain ⟨k1, k2⟩ := ih (g.absorbTensor e.1 ⟨d, e.2.2⟩ (v e))
    rw [List.foldl_cons]
    constructor
    · intro s
      rw [k1 s, h1 s]
      simp only [List.mem_cons, exists_eq_or_imp]
      constructor
      · rintro ((h | h) | h)
        · exact Or.inr (Or.inl h.symm)
        · exact Or.inl h
        · exact Or.inr (Or.inr h)
      · rintro (h | h | h)
        · exact Or.inl (Or.inr h)
        · exact Or.inl (Or.inl h.symm)
        · exact Or.inr h
    · intro q
      rw [k2 q, h2 q]
      simp only [List.mem_cons, exists_eq_or_imp]
      tauto

omit [LinearOrderedCommRing R] [Div R] in
/-- The journal has a tensor to eject exactly when a queued tensor is complete. -/
theorem DynamicConstructorDataGlobal.ejectCompleteTensor_eq_none (dv : DynamicConstructorDataGlobal R)
    (T : MultiIndexSet) :
    dv.ejectCompleteTensor T = none
      ↔ dv.tensors.filter (fun e => DynamicConstructorDataGlobal.isComplete dv.data e) = [] := by
  unfold DynamicConstructorDataGlobal.ejectCompleteTensor
  cases hf : dv.tensors.find? (fun e => DynamicConstructorDataGlobal.isComplete dv.data e) with
  | none =>
    simp only [true_iff]
    exact (find?_none_filter _ _ hf).1
  | some e =>
    simp only [false_iff]
    rw [(find?_some_filter _ _ e hf).1]
    simp

omit [LinearOrderedCommRing R] [Div R] in
/-- C21. `loadConstructedTensors`, with the tensors that the journal ejects being the queued
tensors that are complete.  When the journal ejects at least one tensor, afterwards a tuple is
in `tensors` iff it was there or is an ejected tensor, a point is in `points` iff it was there
or is a point of an ejected tensor, `active_tensors` and `active_w` are the tensors of the new
set with a non-zero Smolyak weight and their weights, position by position, and `tensor_refs`
holds the reference points of every active tensor against the new `points`.  When nothing is
ejected the grid is returned as it was. -/
theorem GridGlobal.loadConstructedTensors_spec (E : Externals R) (g : GridGlobal R)
    (dv : DynamicConstructorDataGlobal R) :
    (dv.ejectCompleteTensor g.tensors ≠ none →
      (∀ t, t ∈ (g.loadConstructedTensors E dv).1.tensors.indexes
        ↔ t ∈ g.tensors.indexes
          ∨ ∃ e ∈ dv.tensors, DynamicConstructorDataGlobal.isComplete dv.data e = true ∧ e.1 = t)
      ∧ (∀ q, q ∈ (g.loadConstructedTensors E dv).1.points.indexes
        ↔ q ∈ g.points.indexes
          ∨ ∃ e ∈ dv.tensors, DynamicConstructorDataGlobal.isComplete dv.data e = true ∧ q ∈ e.2.2)
      ∧ MultiIndexManipulations.ActiveAligned (g.loadConstructedTensors E dv).1.tensors
          (g.loadConstructedTensors E dv).1.active_tensors (g.loadConstructedTensors E dv).1.active_w
      ∧ (g.loadConstructedTensors E dv).1.tensor_refs
        = (List.range (g.loadConstructedTensors E dv).1.active_tensors.getNumIndexes).map (fun i =>
            E.referencePoints (!E.isNonNested (g.loadConstructedTensors E dv).1.rule)
              ((g.loadConstructedTensors E dv).1.active_tensors.getIndex i)
              (g.loadConstructedTensors E dv).1.wrapper (g.loadConstructedTensors E dv).1.points))
    ∧ (dv.ejectCompleteTensor g.tensors = none → (g.loadConstructedTensors E dv).1 = g) := by
  have hiff := DynamicConstructorDataGlobal.ejectCompleteTensor_eq_none dv g.tensors
  have hEL := GridGlobal.ejectLoop_eq dv.tensors.length g dv false (List.length_filter_le _ _)
  obtain ⟨m1, m2⟩ := GridGlobal.mem_foldl_absorbTensor dv.num_dimensions
    (fun e => e.2.2.flatMap (DynamicConstructorDataGlobal.nodeValue dv.data))
    (dv.tensors.filter (fun e => DynamicConstructorDataGlobal.isComplete dv.data e)) g
  have hmem : ∀ (P : (List Nat × R × List (List Nat)) → Prop),
      (∃ e ∈ dv.tensors.filter (fun e => DynamicConstructorDataGlobal.isComplete dv.data e), P e)
        ↔ ∃ e ∈ dv.tensors, DynamicConstructorDataGlobal.isComplete dv.data e = true ∧ P e := by
    intro P
    simp only [List.mem_filter, and_assoc]
  constructor
  · intro hnone
    have hF : dv.tensors.filter (fun e => DynamicConstructorDataGlobal.isComplete dv.data e) ≠ [] :=
      fun h => hnone (hiff.mpr h)
    have hne : (!(dv.tensors.filter
        (fun e => DynamicConstructorDataGlobal.isComplete dv.data e)).isEmpty) = true := by
      simpa [List.isEmpty_iff] using hF
    unfold GridGlobal.loadConstructedTensors
    simp only [hEL, Bool.false_or]
    rw [if_pos hne]
    refine ⟨?_, ?_, ?_, rfl⟩
    · intro t
      exact (m1 t).trans (or_congr_right (hmem (fun e => e.1 = t)))
    · intro q
      exact (m2 q).trans (or_congr_right (hmem (fun e => q ∈ e.2.2)))
    · exact MultiIndexManipulations.activeAligned_computed _
  · intro hnone
    have hF := hiff.mp hnone
    unfold GridGlobal.loadConstructedTensors
    simp only [hEL, Bool.false_or]
    rw [hF]
    simp

end LoadConstructedTensors

theorem GridGlobal.loadConstructedTensors_spec_witness :
    MultiIndexManipulations.ActiveAligned
      (exampleUnloadedGrid2.beginConstruction.1.loadConstructedTensors exampleExternals
        (exampleUnloadedGrid2.beginConstruction.2.addNewNode [0, 0] [7]).1).1.tensors
      (exampleUnloadedGrid2.beginConstruction.1.loadConstructedTensors exampleExternals
        (exampleUnloadedGrid2.beginConstruction.2.addNewNode [0, 0] [7]).1).1.active_tensors
      (exampleUnloadedGrid2.beginConstruction.1.loadConstructedTensors exampleExternals
        (exampleUnloadedGrid2.beginConstruction.2.addNewNode [0, 0] [7]).1).1.active_w
    ∧ (exampleUnloadedGrid2.beginConstruction.1.loadConstructedTensors exampleExternals
        (exampleUnloadedGrid2.beginConstruction.2.addNewNode [0, 0] [7]).1).1.tensors.indexes
        = [[0, 0]]
    ∧ (exampleUnloadedGrid2.beginConstruction.1.loadConstructedTensors exampleExternals
        (exampleUnloadedGrid2.beginConstruction.2.addNewNode [0, 0] [7]).1).1.points.indexes
        = [[0, 0]]
    ∧ (exampleUnloadedGrid2.beginConstruction.1.loadConstructedTensors exampleExternals
        (exampleUnloadedGrid2.beginConstruction.2.addNewNode [0, 0] [7]).1).1.active_w = [1]
    ∧ (exampleUnloadedGrid2.beginConstruction.1.loadConstructedTensors exampleExternals
        (exampleUnloadedGrid2.beginConstruction.2.addNewNode [0, 0] [7]).1).1.values.values = [7] :=
  ⟨((GridGlobal.loadConstructedTensors_spec exampleExternals exampleUnloadedGrid2.beginConstruction.1
      (exampleUnloadedGrid2.beginConstruction.2.addNewNode [0, 0] [7]).1).1
      (fun h => absurd ((DynamicConstructorDataGlobal.ejectCompleteTensor_eq_none _ _).mp h)
        (by decide))).2.2.1,
    by decide, by decide, by decide, by decide⟩

/-! ## C22: the translation of a node to its index in `loadConstructedPoint` -/

section NodeIndex

variable {R : Type} [LinearOrderedCommRing R] [Div R]

omit [Div R] in
/-- The search `while (fabs(getNode(i) - x) > TSG_NUM_TOL) i++` from index `i`: when a node of
index `k >= i` is within the tolerance of `x` and the fuel reaches `k`, the search returns the
smallest index from `i` on whose node is within the tolerance. -/
theorem GridGlobal.findNode_smallest (getNode : Nat → R) (numTol x : R) (k : Nat)
    (hk : |getNode k - x| ≤ numTol) (fuel i : Nat) (hi : i ≤ k) (hfuel : k < i + fuel) :
    ∃ r, GridGlobal.findNode getNode numTol x fuel i = some r ∧ i ≤ r ∧ r ≤ k
      ∧ |getNode r - x| ≤ numTol ∧ ∀ a, i ≤ a → a < r → numTol < |getNode a - x| := by
  induction fuel generalizing i with
  | zero => omega
  | succ fuel ih =>
    unfold GridGlobal.findNode
    by_cases hc : |getNode i - x| > numTol
    · rw [if_pos hc]
      have hik : i ≠ k := by
        intro h
        rw [h] at hc
        exact absurd hk (not_le.mpr hc)
      obtain ⟨r, hr, h1, h2, h3, h4⟩ := ih (i + 1) (by omega) (by omega)
      refine ⟨r, hr, by omega, h2, h3, ?_⟩
      intro a ha har
      by_cases hai : a = i
      · rw [hai]
        exact hc
      · exact h4 a (by omega) har
    · rw [if_neg hc]
      exact ⟨i, rfl, le_refl i, hi, not_lt.mp hc, fun a ha har => by omega⟩

omit [Div R] in
/-- A node within the tolerance of `x` is the nearest node when the nodes are pairwise more
than twice the tolerance apart. -/
theorem GridGlobal.nearest_of_separated (getNode : Nat → R) (numTol x : R)
    (hsep : ∀ a b : Nat, a ≠ b → 2 * numTol < |getNode a - getNode b|) (r : Nat)
    (hr : |getNode r - x| ≤ numTol) (k : Nat) : |getNode r - x| ≤ |getNode k - x| := by
  by_cases hkr : k = r
  · rw [hkr]
  · have h1 := hsep k r hkr
    have h2 : |getNode k - getNode r| ≤ |getNode k - x| + |getNode r - x| := by
      have h3 : getNode k - getNode r = (getNode k - x) - (getNode r - x) := by ring
      rw [h3]
      exact abs_sub _ _
    linarith

end NodeIndex

section NodeIndexClaim

variable {R : Type} [LinearOrderedCommRing R] [Div R]

omit [Div R] in
/-- C22. `loadConstructedPoint` index translation, with `numTol` the macro `TSG_NUM_TOL`: for
every `x` whose coordinates `x_j` all lie within `numTol` of a cached node (of an index that
the search reaches), the search returns, and there is the multi-index `p` such that `p_j` is
the smallest index `i` with `|node(i) - x_j| <= numTol`, the call hands `p` with the values to
the journal (`addNewNode(p, y)`, followed by `loadConstructedTensors` when the journal reports
a complete tensor), and `node(p_j)` is a nearest cached node to `x_j` when the cached nodes
are pairwise more than `2 * numTol` apart. -/
theorem GridGlobal.loadConstructedPoint_index (E : Externals R) (numTol : R) (fuel : Nat)
    (g : GridGlobal R) (dv : DynamicConstructorDataGlobal R) (x y : List R)
    (hx : ∀ j, j < g.num_dimensions →
      ∃ k, k < fuel ∧ |g.wrapper.getNode k - x.getD j 0| ≤ numTol) :
    ∃ p : List Nat, p.length = g.num_dimensions
      ∧ (∀ j, j < g.num_dimensions →
          |g.wrapper.getNode (p.getD j 0) - x.getD j 0| ≤ numTol
          ∧ ∀ a, a < p.getD j 0 → numTol < |g.wrapper.getNode a - x.getD j 0|)
      ∧ ((∀ a b : Nat, a ≠ b → 2 * numTol < |g.wrapper.getNode a - g.wrapper.getNode b|) →
          ∀ j, j < g.num_dimensions → ∀ k,
            |g.wrapper.getNode (p.getD j 0) - x.getD j 0| ≤ |g.wrapper.getNode k - x.getD j 0|)
      ∧ g.loadConstructedPoint E numTol fuel dv x y
          = some (if (dv.addNewNode p y).2 = true then
              g.loadConstructedTensors E (dv.addNewNode p y).1
            else (g, (dv.addNewNode p y).1)) := by
  have hfind : ∀ j, j < g.num_dimensions →
      ∃ r, GridGlobal.findNode g.wrapper.getNode numTol (x.getD j 0) fuel 0 = some r
        ∧ |g.wrapper.getNode r - x.getD j 0| ≤ numTol
        ∧ ∀ a, a < r → numTol < |g.wrapper.getNode a - x.getD j 0| := by
    intro j hj
    obtain ⟨k, hk, hkx⟩ := hx j hj
    obtain ⟨r, hr, _, _, h3, h4⟩ := GridGlobal.findNode_smallest g.wrapper.getNode numTol
      (x.getD j 0) k hkx fuel 0 (Nat.zero_le _) (by omega)
    exact ⟨r, hr, h3, fun a ha => h4 a (Nat.zero_le _) ha⟩
  have hp : ∀ j, j < g.num_dimensions →
      (((List.range g.num_dimensions).map (fun j =>
        (GridGlobal.findNode g.wrapper.getNode numTol (x.getD j 0) fuel 0).getD 0)).getD j 0)
      = (GridGlobal.findNode g.wrapper.getNode numTol (x.getD j 0) fuel 0).getD 0 := by
    intro j hj
    rw [List.getD_eq_getElem _ _ (by simpa using hj)]
    simp
  have hsmall : ∀ j, j < g.num_dimensions →
      |g.wrapper.getNode (((List.range g.num_dimensions).map (fun j =>
          (GridGlobal.findNode g.wrapper.getNode numTol (x.getD j 0) fuel 0).getD 0)).getD j 0)
        - x.getD j 0| ≤ numTol
      ∧ ∀ a, a < ((List.range g.num_dimensions).map (fun j =>
          (GridGlobal.findNode g.wrapper.getNode numTol (x.getD j 0) fuel 0).getD 0)).getD j 0 →
        numTol < |g.wrapper.getNode a - x.getD j 0| := by
    intro j hj
    obtain ⟨r, hr, h3, h4⟩ := hfind j hj
    rw [hp j hj, hr]
    exact ⟨h3, h4⟩
  refine ⟨(List.range g.num_dimensions).map (fun j =>
      (GridGlobal.findNode g.wrapper.getNode numTol (x.getD j 0) fuel 0).getD 0), by simp,
    hsmall, ?_, ?_⟩
  · intro hsep j hj k
    exact GridGlobal.nearest_of_separated g.wrapper.getNode numTol (x.getD j 0) hsep _
      (hsmall j hj).1 k
  · unfold GridGlobal.loadConstructedPoint
    have hall : ((List.range g.num_dimensions).map (fun j =>
        GridGlobal.findNode g.wrapper.getNode numTol (x.getD j 0) fuel 0)).all
          (fun i => i.isSome) = true := by
      rw [List.all_eq_true]
      intro o ho
      obtain ⟨j, hj, rfl⟩ := List.mem_map.mp ho
      obtain ⟨r, hr, _, _⟩ := hfind j (List.mem_range.mp hj)
      rw [hr]
      rfl
    simp only
    rw [if_pos hall, List.map_map]
    have hcomp : ((fun (i : Option Nat) => i.getD 0) ∘ fun j =>
        GridGlobal.findNode g.wrapper.getNode numTol (x.getD j 0) fuel 0)
        = fun j => (GridGlobal.findNode g.wrapper.getNode numTol (x.getD j 0) fuel 0).getD 0 := rfl
    rw [hcomp]
    by_cases hb : (dv.addNewNode ((List.range g.num_dimensions).map (fun j =>
        (GridGlobal.findNode g.wrapper.getNode numTol (x.getD j 0) fuel 0).getD 0)) y).2 = true
    · rw [if_pos hb, if_pos hb]
    · rw [if_neg hb, if_neg hb]

end NodeIndexClaim

theorem GridGlobal.loadConstructedPoint_index_witness :
    ∃ p : List Nat, p.length = exampleUnloadedGrid.beginConstruction.1.num_dimensions
      ∧ (∀ j, j < exampleUnloadedGrid.beginConstruction.1.num_dimensions →
          |exampleUnloadedGrid.beginConstruction.1.wrapper.getNode (p.getD j 0)
            - ([2] : List Int).getD j 0| ≤ 0
          ∧ ∀ a, a < p.getD j 0 →
            0 < |exampleUnloadedGrid.beginConstruction.1.wrapper.getNode a - ([2] : List Int).getD j 0|)
      ∧ ((∀ a b : Nat, a ≠ b → 2 * (0 : Int)
            < |exampleUnloadedGrid.beginConstruction.1.wrapper.getNode a
                - exampleUnloadedGrid.beginConstruction.1.wrapper.getNode b|) →
          ∀ j, j < exampleUnloadedGrid.beginConstruction.1.num_dimensions → ∀ k,
            |exampleUnloadedGrid.beginConstruction.1.wrapper.getNode (p.getD j 0)
                - ([2] : List Int).getD j 0|
              ≤ |exampleUnloadedGrid.beginConstruction.1.wrapper.getNode k - ([2] : List Int).getD j 0|)
      ∧ exampleUnloadedGrid.beginConstruction.1.loadConstructedPoint exampleExternals 0 3
          exampleUnloadedGrid.beginConstruction.2 [2] [30]
          = some (if (exampleUnloadedGrid.beginConstruction.2.addNewNode p [30]).2 = true then
              exampleUnloadedGrid.beginConstruction.1.loadConstructedTensors exampleExternals
                (exampleUnloadedGrid.beginConstruction.2.addNewNode p [30]).1
            else (exampleUnloadedGrid.beginConstruction.1,
              (exampleUnloadedGrid.beginConstruction.2.addNewNode p [30]).1)) :=
  GridGlobal.loadConstructedPoint_index exampleExternals 0 3
    exampleUnloadedGrid.beginConstruction.1 exampleUnloadedGrid.beginConstruction.2 [2] [30]
    (fun j hj => ⟨2, by decide, by
      have hj0 : j = 0 := Nat.lt_one_iff.mp hj
      subst hj0
      decide⟩)

/-- The first index within the tolerance need not be the index of the nearest node: with the
nodes `0, 1, 2` and the tolerance `1` (in units of `TSG_NUM_TOL`), the coordinate `1` is the
node of index 1, yet the node of index 0 is within the tolerance and the point handed to the
journal is `(0)`. -/
theorem GridGlobal.loadConstructedPoint_not_nearest :
    (exampleUnloadedGrid.beginConstruction.1.loadConstructedPoint exampleExternals 1 3
        exampleUnloadedGrid.beginConstruction.2 [1] [30]).map (fun s => s.2.data)
      = some [([0], [30])]
    ∧ |exampleUnloadedGrid.beginConstruction.1.wrapper.getNode 1 - 1|
        < |exampleUnloadedGrid.beginConstruction.1.wrapper.getNode 0 - 1| := by
  decide

/-! ## C29: the classic criterion of `buildUpdateMap` -/

section WaveletClassic

variable {R : Type} [LinearOrderedCommRing R] [Div R]

omit [LinearOrderedCommRing R] [Div R] in
theorem getD_set_eq {α : Type} (l : List α) (k i : Nat) (v c : α) :
    (l.set k v).getD i c = if k = i ∧ k < l.length then v else l.getD i c := by
  rw [List.getD_eq_getElem?_getD, List.getD_eq_getElem?_getD, List.getElem?_set]
  by_cases h : k = i
  · subst h
    by_cases h2 : k < l.length
    · simp [h2]
    · have h3 : l.length ≤ k := by omega
      simp [h2, List.getElem?_eq_none h3]
  · simp [h]

omit [Div R] in
/-- The inner loop of `getNormalization` for one point: every entry `k < m` of `norm` becomes
the larger of itself and `v k`. -/
theorem GridWavelet.normalization_row (v : Nat → R) (m : Nat) (norm : List R)
    (hlen : norm.length = m) :
    ((List.range m).foldl
        (fun (norm : List R) j => if norm.getD j 0 < v j then norm.set j (v j) else norm) norm).length = m
    ∧ ∀ k, k < m →
      ((List.range m).foldl
        (fun (norm : List R) j => if norm.getD j 0 < v j then norm.set j (v j) else norm) norm).getD k 0
        = max (norm.getD k 0) (v k) := by
  have key : ∀ K, K ≤ m →
      ((List.range K).foldl
        (fun (norm : List R) j => if norm.getD j 0 < v j then norm.set j (v j) else norm) norm).length = m
      ∧ ∀ k, k < m →
        ((List.range K).foldl
          (fun (norm : List R) j => if norm.getD j 0 < v j then norm.set j (v j) else norm) norm).getD k 0
          = if k < K then max (norm.getD k 0) (v k) else norm.getD k 0 := by
    intro K
    induction K with
    | zero =>
      intro _
      exact ⟨hlen, fun k _ => by simp⟩
    | succ K ih =>
      intro hK
      obtain ⟨h1, h2⟩ := ih (by omega)
      rw [List.range_succ, List.foldl_append, List.foldl_cons, List.foldl_nil]
      have hK2 := h2 K (by omega)
      rw [if_neg (lt_irrefl K)] at hK2
      by_cases hc : norm.getD K 0 < v K
      · have hc2 : ((List.range K).foldl
            (fun (norm : List R) j => if norm.getD j 0 < v j then norm.set j (v j) else norm)
            norm).getD K 0 < v K := by
          rw [hK2]
          exact hc
        rw [if_pos hc2]
        refine ⟨by rw [List.length_set]; exact h1, ?_⟩
        intro k hk
        rw [getD_set_eq, h2 k hk]
        by_cases hkK : K = k
        · subst hkK
          have hlt : K < ((List.range K).foldl
              (fun (norm : List R) j => if norm.getD j 0 < v j then norm.set j (v j) else norm)
              norm).length := by omega
          rw [if_pos ⟨rfl, hlt⟩, if_pos (Nat.lt_succ_self K), max_eq_right (le_of_lt hc)]
        · have hn : ¬ (K = k ∧ K < ((List.range K).foldl
              (fun (norm : List R) j => if norm.getD j 0 < v j then norm.set j (v j) else norm)
              norm).length) := fun h => hkK h.1
          rw [if_neg hn]
          by_cases hkl : k < K
          · rw [if_pos hkl, if_pos (by omega : k < K + 1)]
          · rw [if_neg hkl, if_neg (by omega : ¬ k < K + 1)]
      · have hc2 : ¬ (((List.range K).foldl
            (fun (norm : List R) j => if norm.getD j 0 < v j then norm.set j (v j) else norm)
            norm).getD K 0 < v K) := by
          rw [hK2]
          exact hc
        rw [if_neg hc2]
        refine ⟨h1, ?_⟩
        intro k hk
        rw [h2 k hk]
        by_cases hkK : K = k
        · subst hkK
          rw [if_neg (lt_irrefl K), if_pos (Nat.lt_succ_self K), max_eq_left (not_lt.mp hc)]
        · by_cases hkl : k < K
          · rw [if_pos hkl, if_pos (by omega : k < K + 1)]
          · rw [if_neg hkl, if_neg (by omega : ¬ k < K + 1)]
  obtain ⟨h1, h2⟩ := key m (le_refl m)
  refine ⟨h1, ?_⟩
  intro k hk
  rw [h2 k hk, if_pos hk]

omit [Div R] in
/-- `getNormalization`: entry `k` of the vector is the largest absolute value of output `k`
over the loaded points. -/
theorem GridWavelet.getNormalization_spec (g : GridWavelet R) :
    g.getNormalization.length = g.num_outputs
    ∧ ∀ k, k < g.num_outputs → g.getNormalization.getD k 0 = g.maxAbsValue k := by
  unfold GridWavelet.getNormalization GridWavelet.maxAbsValue
  generalize g.points.getNumIndexes = n
  induction n with
  | zero =>
    refine ⟨by simp, ?_⟩
    intro k hk
    simp [List.getD_eq_getElem?_getD, List.getElem?_replicate, hk]
  | succ n ih =>
    obtain ⟨h1, h2⟩ := ih
    rw [List.range_succ, List.foldl_append, List.foldl_cons, List.foldl_nil]
    obtain ⟨r1, r2⟩ := GridWavelet.normalization_row
      (fun j => |(g.values.getValues n).getD j 0|) g.num_outputs _ h1
    refine ⟨r1, ?_⟩
    intro k hk
    rw [r2 k hk, h2 k hk, List.map_append, List.foldl_append]
    rfl

end WaveletClassic

section WaveletClassic2

variable {R : Type} [LinearOrderedCommRing R] [Div R]

omit [LinearOrderedCommRing R] [Div R] in
/-- The loop `if (small && c(k)) small = false` leaves `small` false exactly when some `c(k)`
holds. -/
theorem foldl_small_eq_false (c : Nat → Bool) (m : Nat) :
    (List.range m).foldl (fun (small : Bool) k => if small && c k then false else small) true = false
      ↔ ∃ k, k < m ∧ c k = true := by
  induction m with
  | zero => simp
  | succ m ih =>
    rw [List.range_succ, List.foldl_append, List.foldl_cons, List.foldl_nil]
    cases hs : (List.range m).foldl (fun (small : Bool) k => if small && c k then false else small) true with
    | false =>
      obtain ⟨k, hk, hck⟩ := ih.mp hs
      simp only [Bool.false_and, Bool.false_eq_true, if_false, true_iff]
      exact ⟨k, by omega, hck⟩
    | true =>
      have hnone : ¬ ∃ k, k < m ∧ c k = true := by
        intro h
        have := ih.mpr h
        rw [hs] at this
        cases this
      cases hcm : c m with
      | true =>
        have hstep : (if (true && true) = true then false else true) = false := rfl
        rw [hstep]
        exact ⟨fun _ => ⟨m, by omega, hcm⟩, fun _ => rfl⟩
      | false =>
        have hstep : (if (true && false) = true then false else true) = true := rfl
        rw [hstep]
        constructor
        · intro h
          cases h
        · rintro ⟨k, hk, hck⟩
          exfalso
          by_cases hkm : k = m
          · rw [hkm, hcm] at hck
            cases hck
          · exact hnone ⟨k, by omega, hck⟩

/-- The test of the classic criterion fails for point `i` exactly when the ratio of the
coefficient to the entry of `norm` exceeds the tolerance for some active output. -/
theorem GridWavelet.classicSmall_eq_false (g : GridWavelet R) (tolerance : R) (output : Int)
    (norm : List R) (i : Nat) :
    g.classicSmall tolerance output norm i = false
      ↔ ∃ k, g.isActiveOutput output k ∧ |g.coefficients.get i k| / norm.getD k 0 > tolerance := by
  unfold GridWavelet.classicSmall GridWavelet.isActiveOutput
  by_cases ho : output = -1
  · rw [if_pos ho, foldl_small_eq_false]
    constructor
    · rintro ⟨k, hk, hc⟩
      exact ⟨k, by rw [if_pos ho]; exact hk, by simpa using hc⟩
    · rintro ⟨k, hk, hc⟩
      rw [if_pos ho] at hk
      exact ⟨k, hk, by simpa using hc⟩
  · rw [if_neg ho]
    constructor
    · intro h
      refine ⟨output.toNat, by rw [if_neg ho], ?_⟩
      simpa using h
    · rintro ⟨k, hk, hc⟩
      rw [if_neg ho] at hk
      rw [hk] at hc
      simpa using hc

end WaveletClassic2

section UpdateMapRows

theorem Data2D.index_eq_iff (d i j i2 j2 : Nat) (hj : j < d) (hj2 : j2 < d) :
    i * d + j = i2 * d + j2 ↔ i = i2 ∧ j = j2 := by
  constructor
  · intro h
    have hd : 0 < d := by omega
    have h1 : (i * d + j) / d = i := by
      rw [Nat.add_comm, Nat.add_mul_div_right _ _ hd, Nat.div_eq_of_lt hj, Nat.zero_add]
    have h2 : (i2 * d + j2) / d = i2 := by
      rw [Nat.add_comm, Nat.add_mul_div_right _ _ hd, Nat.div_eq_of_lt hj2, Nat.zero_add]
    have hi : i = i2 := by rw [← h1, ← h2, h]
    subst hi
    exact ⟨rfl, by omega⟩
  · rintro ⟨rfl, rfl⟩
    rfl

/-- The loop `std::fill(p, p + num_dimensions, 1)` on strip `i` of the map. -/
theorem Data2D.fill_strip (pmap : Data2D Nat) (i : Nat) :
    ((List.range pmap.stride).foldl (fun (pmap : Data2D Nat) j => pmap.set i j 1) pmap).stride
        = pmap.stride
    ∧ ((List.range pmap.stride).foldl (fun (pmap : Data2D Nat) j => pmap.set i j 1) pmap).vec.length
        = pmap.vec.length
    ∧ ∀ i2 j2, j2 < pmap.stride → i2 * pmap.stride + j2 < pmap.vec.length →
        ((List.range pmap.stride).foldl (fun (pmap : Data2D Nat) j => pmap.set i j 1) pmap).get i2 j2
          = if i2 = i then 1 else pmap.get i2 j2 := by
  have key : ∀ K, K ≤ pmap.stride →
      ((List.range K).foldl (fun (pmap : Data2D Nat) j => pmap.set i j 1) pmap).stride = pmap.stride
      ∧ ((List.range K).foldl (fun (pmap : Data2D Nat) j => pmap.set i j 1) pmap).vec.length
          = pmap.vec.length
      ∧ ∀ i2 j2, j2 < pmap.stride → i2 * pmap.stride + j2 < pmap.vec.length →
          ((List.range K).foldl (fun (pmap : Data2D Nat) j => pmap.set i j 1) pmap).get i2 j2
            = if i2 = i ∧ j2 < K then 1 else pmap.get i2 j2 := by
    intro K
    induction K with
    | zero =>
      intro _
      exact ⟨rfl, rfl, fun i2 j2 _ _ => by simp⟩
    | succ K ih =>
      intro hK
      obtain ⟨h1, h2, h3⟩ := ih (by omega)
      rw [List.range_succ, List.foldl_append, List.foldl_cons, List.foldl_nil]
      refine ⟨h1, ?_, ?_⟩
      · have hsl : ∀ (a : Data2D Nat), (a.set i K 1).vec.length = a.vec.length := by
          intro a
          unfold Data2D.set
          simp
        rw [hsl]
        exact h2
      · intro i2 j2 hj2 hlen
        have hprev := h3 i2 j2 hj2 hlen
        unfold Data2D.get at hprev
        rw [h1] at hprev
        have hset : ∀ (a : Data2D Nat), (a.set i K 1).get i2 j2
            = (a.vec.set (i * a.stride + K) 1).getD (i2 * a.stride + j2) 0 := fun _ => rfl
        have hget : pmap.get i2 j2 = pmap.vec.getD (i2 * pmap.stride + j2) 0 := rfl
        rw [hset, h1, getD_set_eq, hprev, hget]
        by_cases hpos : i * pmap.stride + K = i2 * pmap.stride + j2
        · obtain ⟨hi, hj⟩ := (Data2D.index_eq_iff pmap.stride i K i2 j2 (by omega) hj2).mp hpos
          have hlt : i * pmap.stride + K
              < ((List.range K).foldl (fun (pmap : Data2D Nat) j => pmap.set i j 1) pmap).vec.length := by
            rw [h2, hpos]
            exact hlen
          rw [if_pos ⟨hpos, hlt⟩, if_pos ⟨hi.symm, by omega⟩]
        · have hn : ¬ (i * pmap.stride + K = i2 * pmap.stride + j2
              ∧ i * pmap.stride + K
                < ((List.range K).foldl (fun (pmap : Data2D Nat) j => pmap.set i j 1) pmap).vec.length) :=
            fun h => hpos h.1
          rw [if_neg hn]
          by_cases hc : i2 = i ∧ j2 < K
          · rw [if_pos hc, if_pos ⟨hc.1, by omega⟩]
          · rw [if_neg hc]
            have hc2 : ¬ (i2 = i ∧ j2 < K + 1) := by
              rintro ⟨hi, hj⟩
              by_cases hjK : j2 = K
              · apply hpos
                rw [hi, hjK]
              · exact hc ⟨hi, by omega⟩
            rw [if_neg hc2]
  obtain ⟨h1, h2, h3⟩ := key pmap.stride (le_refl _)
  refine ⟨h1, h2, ?_⟩
  intro i2 j2 hj2 hlen
  rw [h3 i2 j2 hj2 hlen]
  by_cases hi : i2 = i
  · rw [if_pos ⟨hi, hj2⟩, if_pos hi]
  · rw [if_neg (fun h => hi h.1), if_neg hi]

/-- The loop of the classic criterion over the points: strip `i` is filled with ones when the
test `flag i` holds and is left as it was otherwise. -/
theorem Data2D.fill_flagged_strips (flag : Nat → Bool) (d : Nat) (pmap : Data2D Nat)
    (hs : pmap.stride = d) (K : Nat) :
    ((List.range K).foldl
        (fun (pmap : Data2D Nat) i =>
          if flag i then (List.range d).foldl (fun (pmap : Data2D Nat) j => pmap.set i j 1) pmap
          else pmap) pmap).stride = d
    ∧ ((List.range K).foldl
        (fun (pmap : Data2D Nat) i =>
          if flag i then (List.range d).foldl (fun (pmap : Data2D Nat) j => pmap.set i j 1) pmap
          else pmap) pmap).vec.length = pmap.vec.length
    ∧ ∀ i2 j2, j2 < d → i2 * d + j2 < pmap.vec.length →
        ((List.range K).foldl
          (fun (pmap : Data2D Nat) i =>
            if flag i then (List.range d).foldl (fun (pmap : Data2D Nat) j => pmap.set i j 1) pmap
            else pmap) pmap).get i2 j2
          = if i2 < K ∧ flag i2 = true then 1 else pmap.get i2 j2 := by
  induction K with
  | zero => exact ⟨hs, rfl, fun i2 j2 _ _ => by simp⟩
  | succ K ih =>
    obtain ⟨h1, h2, h3⟩ := ih
    rw [List.range_succ, List.foldl_append, List.foldl_cons, List.foldl_nil]
    by_cases hf : flag K = true
    · rw [if_pos hf]
      obtain ⟨f1, f2, f3⟩ := Data2D.fill_strip ((List.range K).foldl
        (fun (pmap : Data2D Nat) i =>
          if flag i then (List.range d).foldl (fun (pmap : Data2D Nat) j => pmap.set i j 1) pmap
          else pmap) pmap) K
      rw [h1] at f1 f2 f3
      rw [h2] at f2 f3
      refine ⟨f1, f2, ?_⟩
      intro i2 j2 hj2 hlen
      rw [f3 i2 j2 hj2 hlen, h3 i2 j2 hj2 hlen]
      by_cases hi : i2 = K
      · rw [if_pos hi, if_pos ⟨by omega, by rw [hi]; exact hf⟩]
      · rw [if_neg hi]
        by_cases hc : i2 < K ∧ flag i2 = true
        · rw [if_pos hc, if_pos ⟨by omega, hc.2⟩]
        · rw [if_neg hc, if_neg (fun h => hc ⟨by omega, h.2⟩)]
    · rw [if_neg hf]
      refine ⟨h1, h2, ?_⟩
      intro i2 j2 hj2 hlen
      rw [h3 i2 j2 hj2 hlen]
      by_cases hc : i2 < K ∧ flag i2 = true
      · rw [if_pos hc, if_pos ⟨by omega, hc.2⟩]
      · rw [if_neg hc]
        have hc2 : ¬ (i2 < K + 1 ∧ flag i2 = true) := by
          rintro ⟨hi, hfl⟩
          by_cases hiK : i2 = K
          · rw [hiK] at hfl
            exact hf hfl
          · exact hc ⟨by omega, hfl⟩
        rw [if_neg hc2]

end UpdateMapRows

section WaveletClassicClaim

variable {R : Type} [LinearOrderedCommRing R] [Div R]

/-- C29. Wavelet classic criterion: for a tolerance other than zero, criteria classic or
parents_first and a valid `output` (`-1`, or the index of an output), `buildUpdateMap` flags
direction `j` of point `i` iff `|coefficients[i][k]| / max_p |values[p][k]| > tolerance` for
some active output `k` (`k = output`, or any `k` when `output = -1`), it leaves the entry zero
otherwise, and the flag is the same for every direction of the point. -/
theorem GridWavelet.buildUpdateMap_classic (E : WaveletExternals R) (g : GridWavelet R)
    (tolerance : R) (criteria : TypeRefinement) (output : Int) (htol : tolerance ≠ 0)
    (hcrit : criteria = TypeRefinement.refine_classic
      ∨ criteria = TypeRefinement.refine_parents_first)
    (hout : output = -1 ∨ (0 ≤ output ∧ output.toNat < g.num_outputs))
    (i j : Nat) (hi : i < g.points.getNumIndexes) (hj : j < g.num_dimensions) :
    ((g.buildUpdateMap E tolerance criteria output).get i j = 1
      ↔ ∃ k, g.isActiveOutput output k
          ∧ |g.coefficients.get i k| / g.maxAbsValue k > tolerance)
    ∧ ((g.buildUpdateMap E tolerance criteria output).get i j = 0
      ↔ ¬ ∃ k, g.isActiveOutput output k
          ∧ |g.coefficients.get i k| / g.maxAbsValue k > tolerance)
    ∧ ∀ j2, j2 < g.num_dimensions →
        (g.buildUpdateMap E tolerance criteria output).get i j2
          = (g.buildUpdateMap E tolerance criteria output).get i j := by
  obtain ⟨_, hnorm⟩ := GridWavelet.getNormalization_spec g
  have hact : ∀ k, g.isActiveOutput output k → k < g.num_outputs := by
    intro k hk
    unfold GridWavelet.isActiveOutput at hk
    rcases hout with ho | ⟨_, ho⟩
    · rw [if_pos ho] at hk
      exact hk
    · by_cases h1 : output = -1
      · rw [if_pos h1] at hk
        exact hk
      · rw [if_neg h1] at hk
        rw [hk]
        exact ho
  have hflag : (!g.classicSmall tolerance output g.getNormalization i) = true
      ↔ ∃ k, g.isActiveOutput output k
          ∧ |g.coefficients.get i k| / g.maxAbsValue k > tolerance := by
    have h1 := GridWavelet.classicSmall_eq_false g tolerance output g.getNormalization i
    rw [Bool.not_eq_true', h1]
    constructor
    · rintro ⟨k, hk, hc⟩
      rw [hnorm k (hact k hk)] at hc
      exact ⟨k, hk, hc⟩
    · rintro ⟨k, hk, hc⟩
      rw [← hnorm k (hact k hk)] at hc
      exact ⟨k, hk, hc⟩
  have hcrit2 : (decide (criteria = TypeRefinement.refine_classic)
      || decide (criteria = TypeRefinement.refine_parents_first)) = true := by
    rcases hcrit with h | h <;> simp [h]
  have hmap : g.buildUpdateMap E tolerance criteria output
      = (List.range g.points.getNumIndexes).foldl
        (fun (pmap : Data2D Nat) i =>
          if (!g.classicSmall tolerance output g.getNormalization i) = true then
            (List.range g.num_dimensions).foldl (fun (pmap : Data2D Nat) j => pmap.set i j 1) pmap
          else pmap)
        ⟨g.num_dimensions, g.points.getNumIndexes,
          List.replicate (g.num_dimensions * g.points.getNumIndexes) 0⟩ := by
    unfold GridWavelet.buildUpdateMap
    simp only [if_neg htol, hcrit2, if_true]
    congr 1
    simp [Data2D.resize, Data2D.mk0]
  obtain ⟨_, _, h3⟩ := Data2D.fill_flagged_strips
    (fun i => !g.classicSmall tolerance output g.getNormalization i) g.num_dimensions
    ⟨g.num_dimensions, g.points.getNumIndexes,
      List.replicate (g.num_dimensions * g.points.getNumIndexes) 0⟩ rfl g.points.getNumIndexes
  have hget : ∀ j2, j2 < g.num_dimensions →
      (g.buildUpdateMap E tolerance criteria output).get i j2
        = if (!g.classicSmall tolerance output g.getNormalization i) = true then 1 else 0 := by
    intro j2 hj2
    have hlt := Data2D.index_lt g.num_dimensions g.points.getNumIndexes i j2 hi hj2
    have hlen : i * g.num_dimensions + j2
        < (⟨g.num_dimensions, g.points.getNumIndexes,
          List.replicate (g.num_dimensions * g.points.getNumIndexes) 0⟩ : Data2D Nat).vec.length := by
      simpa using hlt
    rw [hmap, h3 i j2 hj2 hlen]
    have hzero : (⟨g.num_dimensions, g.points.getNumIndexes,
        List.replicate (g.num_dimensions * g.points.getNumIndexes) 0⟩ : Data2D Nat).get i j2 = 0 := by
      unfold Data2D.get
      simp only
      rw [List.getD_eq_getElem _ _ (by simpa using hlt)]
      simp
    rw [hzero]
    by_cases hf : (!g.classicSmall tolerance output g.getNormalization i) = true
    · rw [if_pos ⟨hi, hf⟩, if_pos hf]
    · rw [if_neg (fun h => hf h.2), if_neg hf]
  refine ⟨?_, ?_, ?_⟩
  · rw [hget j hj, ← hflag]
    by_cases hf : (!g.classicSmall tolerance output g.getNormalization i) = true
    · rw [if_pos hf]
      exact ⟨fun _ => hf, fun _ => rfl⟩
    · rw [if_neg hf]
      exact ⟨fun h => absurd h (by decide), fun h => absurd h hf⟩
  · rw [hget j hj, ← hflag]
    by_cases hf : (!g.classicSmall tolerance output g.getNormalization i) = true
    · rw [if_pos hf]
      exact ⟨fun h => absurd h (by decide), fun h => absurd hf h⟩
    · rw [if_neg hf]
      exact ⟨fun _ => hf, fun _ => rfl⟩
  · intro j2 hj2
    rw [hget j2 hj2, hget j hj]

end WaveletClassicClaim

theorem GridWavelet.buildUpdateMap_classic_witness :
    ((exampleWaveletGrid.loadNeededPoints exampleWaveletExternals [5, 7, 9]).buildUpdateMap
        exampleWaveletExternals (-1) TypeRefinement.refine_classic 0).get 2 0 = 1
      ↔ ∃ k, (exampleWaveletGrid.loadNeededPoints exampleWaveletExternals [5, 7, 9]).isActiveOutput 0 k
          ∧ |(exampleWaveletGrid.loadNeededPoints exampleWaveletExternals [5, 7, 9]).coefficients.get 2 k|
              / (exampleWaveletGrid.loadNeededPoints exampleWaveletExternals [5, 7, 9]).maxAbsValue k
            > -1 :=
  (GridWavelet.buildUpdateMap_classic exampleWaveletExternals
    (exampleWaveletGrid.loadNeededPoints exampleWaveletExternals [5, 7, 9]) (-1)
    TypeRefinement.refine_classic 0 (by decide) (Or.inl rfl) (Or.inr (by decide)) 2 0
    (by decide) (by decide)).1

/-! ## C23, C24: parents and children in the wavelet refinement -/

section WaveletParentsChildren

variable {R : Type} [LinearOrderedCommRing R] [Div R]

omit [LinearOrderedCommRing R] [Div R] in
theorem GridWavelet.addParent_fold (P : List Nat → Bool) (point : List Nat) (direction : Nat)
    (N : Nat) (dest : List (List Nat)) :
    (List.range N).foldl
        (fun (acc : Bool × List (List Nat)) c =>
          if P (point.set direction c) then (true, acc.2 ++ [point.set direction c]) else acc)
        (false, dest)
      = (!(((List.range N).map (fun c => point.set direction c)).filter P).isEmpty,
          dest ++ ((List.range N).map (fun c => point.set direction c)).filter P) := by
  induction N with
  | zero => simp
  | succ N ih =>
    rw [List.range_succ, List.foldl_append, ih, List.foldl_cons, List.foldl_nil, List.map_append,
      List.filter_append, List.map_singleton]
    by_cases hP : P (point.set direction N) = true
    · rw [if_pos hP, List.filter_cons_of_pos hP]
      simp [List.append_assoc]
    · rw [if_neg hP, List.filter_cons_of_neg hP]
      simp

omit [LinearOrderedCommRing R] [Div R] in
/-- `addParent` appends the missing parents and tells whether there was one. -/
theorem GridWavelet.addParent_eq (E : WaveletExternals R) (g : GridWavelet R) (point : List Nat)
    (direction : Nat) (dest : List (List Nat)) :
    g.addParent E point direction dest
      = (!(g.missingParents E point direction).isEmpty, dest ++ g.missingParents E point direction) := by
  unfold GridWavelet.addParent GridWavelet.missingParents
  simp only
  by_cases h2 : E.rule1D.getParent g.rule1D_order (point.getD direction 0) = -2
  · rw [if_pos h2, if_pos h2]
    exact GridWavelet.addParent_fold (fun q => g.points.missing q) point direction _ dest
  · rw [if_neg h2, if_neg h2]
    by_cases h0 : 0 ≤ E.rule1D.getParent g.rule1D_order (point.getD direction 0)
    · rw [if_pos h0, if_pos h0]
      by_cases hm : g.points.missing (point.set direction
          (E.rule1D.getParent g.rule1D_order (point.getD direction 0)).toNat) = true
      · rw [if_pos hm, List.filter_cons_of_pos hm]
        simp
      · rw [if_neg hm, List.filter_cons_of_neg hm]
        simp
    · rw [if_neg h0, if_neg h0]
      simp

omit [LinearOrderedCommRing R] [Div R] in
theorem append_two_filtered {α : Type} (dest : List α) (c1 c2 : Int) (f : Int → α) (P : Int → Bool) :
    (if P c2 = true then (if P c1 = true then dest ++ [f c1] else dest) ++ [f c2]
      else (if P c1 = true then dest ++ [f c1] else dest))
      = dest ++ ([c1, c2].filter P).map f := by
  cases h1 : P c1 <;> cases h2 : P c2 <;> simp [List.filter_cons, h1, h2]

omit [LinearOrderedCommRing R] [Div R] in
/-- `addChild` appends the children that are not `-1` and are missing from `points`. -/
theorem GridWavelet.addChild_eq (E : WaveletExternals R) (g : GridWavelet R) (point : List Nat)
    (direction : Nat) (dest : List (List Nat)) :
    g.addChild E point direction dest = dest ++ g.newChildren E point direction [] := by
  have hP : (fun (c : Int) => c ≠ -1 && g.childAllowed E direction [] c
        && g.points.missing (point.set direction c.toNat))
      = fun (c : Int) => c ≠ -1 && g.points.missing (point.set direction c.toNat) := by
    funext c
    simp [GridWavelet.childAllowed]
  unfold GridWavelet.newChildren
  rw [hP]
  exact append_two_filtered dest _ _ (fun c => point.set direction c.toNat)
    (fun c => c ≠ -1 && g.points.missing (point.set direction c.toNat))

omit [LinearOrderedCommRing R] [Div R] in
/-- `addChildLimited` appends the children that are not `-1`, are within the limit of the
direction and are missing from `points`. -/
theorem GridWavelet.addChildLimited_eq (E : WaveletExternals R) (g : GridWavelet R)
    (point : List Nat) (direction : Nat) (level_limits : List Int) (hne : level_limits ≠ [])
    (dest : List (List Nat)) :
    g.addChildLimited E point direction level_limits dest
      = dest ++ g.newChildren E point direction level_limits := by
  have hemp : level_limits.isEmpty = false := by
    cases level_limits with
    | nil => exact absurd rfl hne
    | cons a l => rfl
  have hP : (fun (c : Int) => c ≠ -1 && g.childAllowed E direction level_limits c
        && g.points.missing (point.set direction c.toNat))
      = fun (c : Int) => c ≠ -1
        && (decide (level_limits.getD direction 0 = -1)
          || decide ((E.rule1D.getLevel g.rule1D_order c.toNat : Int) ≤ level_limits.getD direction 0))
        && g.points.missing (point.set direction c.toNat) := by
    funext c
    unfold GridWavelet.childAllowed
    rw [hemp, Bool.false_or]
  unfold GridWavelet.newChildren
  rw [hP]
  exact append_two_filtered dest _ _ (fun c => point.set direction c.toNat)
    (fun c => c ≠ -1
        && (decide (level_limits.getD direction 0 = -1)
          || decide ((E.rule1D.getLevel g.rule1D_order c.toNat : Int) ≤ level_limits.getD direction 0))
        && g.points.missing (point.set direction c.toNat))

end WaveletParentsChildren

section WaveletRefinementLoop

variable {R : Type} [LinearOrderedCommRing R] [Div R]

omit [LinearOrderedCommRing R] [Div R] in
theorem foldl_append_flatMap {α β : Type} (f : α → List β) (L : List α) (init : List β) :
    L.foldl (fun acc a => acc ++ f a) init = init ++ L.flatMap f := by
  induction L generalizing init with
  | nil => simp
  | cons a L ih =>
    rw [List.foldl_cons, ih, List.flatMap_cons, List.append_assoc]

omit [LinearOrderedCommRing R] [Div R] in
/-- The body of the loops of `setSurplusRefinement` for one pair of a point and a direction:
`if (!(useParents && addParent(...))) addChild(...)` (or `addChildLimited` when limits are
given) appends what the pair adds. -/
theorem GridWavelet.pair_step (E : WaveletExternals R) (g : GridWavelet R) (useParents : Bool)
    (level_limits : List Int) (point : List Nat) (direction : Nat) (refined : List (List Nat)) :
    (if (useParents && (g.addParent E point direction refined).1) = true then
        (g.addParent E point direction refined).2
      else if level_limits.isEmpty = true then
        g.addChild E point direction
          (if useParents = true then (g.addParent E point direction refined).2 else refined)
      else
        g.addChildLimited E point direction level_limits
          (if useParents = true then (g.addParent E point direction refined).2 else refined))
      = refined ++ g.pairRefinement E useParents level_limits point direction := by
  rw [GridWavelet.addParent_eq]
  unfold GridWavelet.pairRefinement
  simp only
  by_cases hc : (useParents && !(g.missingParents E point direction).isEmpty) = true
  · rw [if_pos hc, if_pos hc]
  · rw [if_neg hc, if_neg hc]
    have hdest : (if useParents = true then refined ++ g.missingParents E point direction else refined)
        = refined := by
      cases hu : useParents with
      | false => simp
      | true =>
        rw [hu] at hc
        have hnil : g.missingParents E point direction = [] := by
          cases hm : g.missingParents E point direction with
          | nil => rfl
          | cons a l =>
            rw [hm] at hc
            simp at hc
        simp [hnil]
    rw [hdest]
    by_cases hl : level_limits.isEmpty = true
    · rw [if_pos hl]
      have hnil : level_limits = [] := List.isEmpty_iff.mp hl
      rw [hnil]
      exact GridWavelet.addChild_eq E g point direction refined
    · rw [if_neg hl]
      have hne : level_limits ≠ [] := fun h => hl (by rw [h]; rfl)
      exact GridWavelet.addChildLimited_eq E g point direction level_limits hne refined

/-- `setSurplusRefinement` adds to `needed` the strips that the flagged pairs add. -/
theorem GridWavelet.setSurplusRefinement_eq_refinementList (E : WaveletExternals R)
    (g : GridWavelet R) (tolerance : R) (criteria : TypeRefinement) (output : Int)
    (level_limits : List Int) :
    g.setSurplusRefinement E tolerance criteria output level_limits
      = if (g.refinementList E (g.clearRefinement.buildUpdateMap E tolerance criteria output)
            (decide (criteria = TypeRefinement.refine_fds)
              || decide (criteria = TypeRefinement.refine_parents_first)) level_limits).length > 0 then
          { g.clearRefinement with needed :=
              (MultiIndexSet.addMultiIndexSet
                (g.clearRefinement.needed.setNumDimensions g.num_dimensions)
                (MultiIndexSet.mk g.num_dimensions
                  (g.refinementList E (g.clearRefinement.buildUpdateMap E tolerance criteria output)
                    (decide (criteria = TypeRefinement.refine_fds)
                      || decide (criteria = TypeRefinement.refine_parents_first)) level_limits))) }
        else g.clearRefinement := by
  have hloop : (List.range g.points.getNumIndexes).foldl
      (fun refined i =>
        (List.range g.num_dimensions).foldl
          (fun refined j =>
            if (g.clearRefinement.buildUpdateMap E tolerance criteria output).get i j = 1 then
              if ((decide (criteria = TypeRefinement.refine_fds)
                  || decide (criteria = TypeRefinement.refine_parents_first))
                  && (g.clearRefinement.addParent E (g.points.getIndex i) j refined).1) = true then
                (g.clearRefinement.addParent E (g.points.getIndex i) j refined).2
              else if level_limits.isEmpty = true then
                g.clearRefinement.addChild E (g.points.getIndex i) j
                  (if (decide (criteria = TypeRefinement.refine_fds)
                      || decide (criteria = TypeRefinement.refine_parents_first)) = true then
                    (g.clearRefinement.addParent E (g.points.getIndex i) j refined).2 else refined)
              else
                g.clearRefinement.addChildLimited E (g.points.getIndex i) j level_limits
                  (if (decide (criteria = TypeRefinement.refine_fds)
                      || decide (criteria = TypeRefinement.refine_parents_first)) = true then
                    (g.clearRefinement.addParent E (g.points.getIndex i) j refined).2 else refined)
            else refined)
          refined)
      []
      = g.refinementList E (g.clearRefinement.buildUpdateMap E tolerance criteria output)
          (decide (criteria = TypeRefinement.refine_fds)
            || decide (criteria = TypeRefinement.refine_parents_first)) level_limits := by
    have hstep : ∀ (i j : Nat) (refined : List (List Nat)),
        (if (g.clearRefinement.buildUpdateMap E tolerance criteria output).get i j = 1 then
              if ((decide (criteria = TypeRefinement.refine_fds)
                  || decide (criteria = TypeRefinement.refine_parents_first))
                  && (g.clearRefinement.addParent E (g.points.getIndex i) j refined).1) = true then
                (g.clearRefinement.addParent E (g.points.getIndex i) j refined).2
              else if level_limits.isEmpty = true then
                g.clearRefinement.addChild E (g.points.getIndex i) j
                  (if (decide (criteria = TypeRefinement.refine_fds)
                      || decide (criteria = TypeRefinement.refine_parents_first)) = true then
                    (g.clearRefinement.addParent E (g.points.getIndex i) j refined).2 else refined)
              else
                g.clearRefinement.addChildLimited E (g.points.getIndex i) j level_limits
                  (if (decide (criteria = TypeRefinement.refine_fds)
                      || decide (criteria = TypeRefinement.refine_parents_first)) = true then
                    (g.clearRefinement.addParent E (g.points.getIndex i) j refined).2 else refined)
            else refined)
          = refined ++ (if (g.clearRefinement.buildUpdateMap E tolerance criteria output).get i j = 1
              then g.pairRefinement E (decide (criteria = TypeRefinement.refine_fds)
                || decide (criteria = TypeRefinement.refine_parents_first)) level_limits
                  (g.points.getIndex i) j
              else []) := by
      intro i j refined
      by_cases hf : (g.clearRefinement.buildUpdateMap E tolerance criteria output).get i j = 1
      · rw [if_pos hf, if_pos hf]
        exact GridWavelet.pair_step E g.clearRefinement _ level_limits (g.points.getIndex i) j refined
      · rw [if_neg hf, if_neg hf, List.append_nil]
    simp only [hstep]
    simp only [foldl_append_flatMap, List.nil_append]
    rfl
  unfold GridWavelet.setSurplusRefinement
  simp only
  have hpts : g.clearRefinement.points = g.points := rfl
  have hdim : g.clearRefinement.num_dimensions = g.num_dimensions := rfl
  rw [hpts, hdim, hloop]

end WaveletRefinementLoop

section WaveletParentsClaim

variable {R : Type} [LinearOrderedCommRing R] [Div R]

omit [LinearOrderedCommRing R] [Div R] in
/-- The missing parents of a point in a direction: the parent of `getParent`, or for the code
`-2` the nodes of level 0, put at the entry of the direction, when missing from `points`. -/
theorem GridWavelet.mem_missingParents (E : WaveletExternals R) (g : GridWavelet R)
    (point : List Nat) (direction : Nat) (q : List Nat) :
    q ∈ g.missingParents E point direction
      ↔ g.points.missing q = true
        ∧ ((E.rule1D.getParent g.rule1D_order (point.getD direction 0) = -2
            ∧ ∃ c, c < E.rule1D.getNumPoints g.rule1D_order 0 ∧ q = point.set direction c)
          ∨ (0 ≤ E.rule1D.getParent g.rule1D_order (point.getD direction 0)
            ∧ q = point.set direction
                (E.rule1D.getParent g.rule1D_order (point.getD direction 0)).toNat)) := by
  unfold GridWavelet.missingParents
  by_cases h2 : E.rule1D.getParent g.rule1D_order (point.getD direction 0) = -2
  · rw [if_pos h2]
    simp only [List.mem_filter, List.mem_map, List.mem_range]
    constructor
    · rintro ⟨⟨c, hc, rfl⟩, hm⟩
      exact ⟨hm, Or.inl ⟨h2, c, hc, rfl⟩⟩
    · rintro ⟨hm, ⟨_, c, hc, rfl⟩ | ⟨h0, _⟩⟩
      · exact ⟨⟨c, hc, rfl⟩, hm⟩
      · rw [h2] at h0
        exact absurd h0 (by decide)
  · rw [if_neg h2]
    by_cases h0 : 0 ≤ E.rule1D.getParent g.rule1D_order (point.getD direction 0)
    · rw [if_pos h0]
      simp only [List.mem_filter, List.mem_singleton]
      constructor
      · rintro ⟨rfl, hm⟩
        exact ⟨hm, Or.inr ⟨h0, rfl⟩⟩
      · rintro ⟨hm, ⟨h, _⟩ | ⟨_, rfl⟩⟩
        · exact absurd h h2
        · exact ⟨rfl, hm⟩
    · rw [if_neg h0]
      constructor
      · intro h
        cases h
      · rintro ⟨_, ⟨h, _⟩ | ⟨h, _⟩⟩
        · exact absurd h h2
        · exact absurd h h0

/-- C23. Wavelet parents-first rule.  `setSurplusRefinement` adds to `needed` what the flagged
pairs (point `p`, direction `j`) add, pair after pair.  A parent of `p` in direction `j` is
the point with entry `j` replaced by the parent of `getParent`, or for the parent code `-2` by
any node of level 0.  With criteria fds or parents_first a flagged pair with a parent missing
from `points` adds exactly the missing parents and no child; a flagged pair without a missing
parent adds the children of `p` in direction `j`; with criteria classic every flagged pair adds
the children and parents are never added. -/
theorem GridWavelet.setSurplusRefinement_parents (E : WaveletExternals R) (g : GridWavelet R)
    (tolerance : R) (criteria : TypeRefinement) (output : Int) (level_limits : List Int) :
    g.setSurplusRefinement E tolerance criteria output level_limits
      = (if (g.refinementList E (g.clearRefinement.buildUpdateMap E tolerance criteria output)
            (decide (criteria = TypeRefinement.refine_fds)
              || decide (criteria = TypeRefinement.refine_parents_first)) level_limits).length > 0 then
          { g.clearRefinement with needed :=
              (MultiIndexSet.addMultiIndexSet
                (g.clearRefinement.needed.setNumDimensions g.num_dimensions)
                (MultiIndexSet.mk g.num_dimensions
                  (g.refinementList E (g.clearRefinement.buildUpdateMap E tolerance criteria output)
                    (decide (criteria = TypeRefinement.refine_fds)
                      || decide (criteria = TypeRefinement.refine_parents_first)) level_limits))) }
        else g.clearRefinement)
    ∧ (∀ point direction q, q ∈ g.missingParents E point direction
        ↔ g.points.missing q = true
          ∧ ((E.rule1D.getParent g.rule1D_order (point.getD direction 0) = -2
              ∧ ∃ c, c < E.rule1D.getNumPoints g.rule1D_order 0 ∧ q = point.set direction c)
            ∨ (0 ≤ E.rule1D.getParent g.rule1D_order (point.getD direction 0)
              ∧ q = point.set direction
                  (E.rule1D.getParent g.rule1D_order (point.getD direction 0)).toNat)))
    ∧ ((criteria = TypeRefinement.refine_fds ∨ criteria = TypeRefinement.refine_parents_first) →
        ∀ point direction,
          (g.missingParents E point direction ≠ [] →
            g.pairRefinement E (decide (criteria = TypeRefinement.refine_fds)
                || decide (criteria = TypeRefinement.refine_parents_first)) level_limits point direction
              = g.missingParents E point direction)
          ∧ (g.missingParents E point direction = [] →
            g.pairRefinement E (decide (criteria = TypeRefinement.refine_fds)
                || decide (criteria = TypeRefinement.refine_parents_first)) level_limits point direction
              = g.newChildren E point direction level_limits))
    ∧ (criteria = TypeRefinement.refine_classic →
        ∀ point direction,
          g.pairRefinement E (decide (criteria = TypeRefinement.refine_fds)
              || decide (criteria = TypeRefinement.refine_parents_first)) level_limits point direction
            = g.newChildren E point direction level_limits) := by
  refine ⟨GridWavelet.setSurplusRefinement_eq_refinementList E g tolerance criteria output level_limits,
    GridWavelet.mem_missingParents E g, ?_, ?_⟩
  · intro hcrit point direction
    have hu : (decide (criteria = TypeRefinement.refine_fds)
        || decide (criteria = TypeRefinement.refine_parents_first)) = true := by
      rcases hcrit with h | h <;> simp [h]
    rw [hu]
    unfold GridWavelet.pairRefinement
    constructor
    · intro hne
      have hc : (true && !(g.missingParents E point direction).isEmpty) = true := by
        cases hm : g.missingParents E point direction with
        | nil => exact absurd hm hne
        | cons a l => rfl
      rw [if_pos hc]
    · intro hnil
      have hc : ¬ ((true && !(g.missingParents E point direction).isEmpty) = true) := by
        rw [hnil]
        decide
      rw [if_neg hc]
  · intro hcrit point direction
    have hu : (decide (criteria = TypeRefinement.refine_fds)
        || decide (criteria = TypeRefinement.refine_parents_first)) = false := by
      rw [hcrit]
      rfl
    rw [hu]
    unfold GridWavelet.pairRefinement
    have hc : ¬ ((false && !(g.missingParents E point direction).isEmpty) = true) := by
      simp
    rw [if_neg hc]

end WaveletParentsClaim

theorem GridWavelet.setSurplusRefinement_parents_witness :
    GridWavelet.pairRefinement exampleWaveletExternals
        ((GridWavelet.mk0.setNodes exampleWaveletExternals ⟨1, [[0], [2]]⟩ 1 1).loadNeededPoints
          exampleWaveletExternals [5, 9])
        (decide (TypeRefinement.refine_parents_first = TypeRefinement.refine_fds)
          || decide (TypeRefinement.refine_parents_first = TypeRefinement.refine_parents_first))
        [] [2] 0
      = GridWavelet.missingParents exampleWaveletExternals
        ((GridWavelet.mk0.setNodes exampleWaveletExternals ⟨1, [[0], [2]]⟩ 1 1).loadNeededPoints
          exampleWaveletExternals [5, 9]) [2] 0
    ∧ GridWavelet.missingParents exampleWaveletExternals
        ((GridWavelet.mk0.setNodes exampleWaveletExternals ⟨1, [[0], [2]]⟩ 1 1).loadNeededPoints
          exampleWaveletExternals [5, 9]) [2] 0 = [[1]]
    ∧ (((GridWavelet.mk0.setNodes exampleWaveletExternals ⟨1, [[0], [2]]⟩ 1 1).loadNeededPoints
          exampleWaveletExternals [5, 9]).setSurplusRefinement exampleWaveletExternals 0
          TypeRefinement.refine_parents_first (-1) []).needed.indexes = [[1]]
    ∧ (((GridWavelet.mk0.setNodes exampleWaveletExternals ⟨1, [[0], [2]]⟩ 1 1).loadNeededPoints
          exampleWaveletExternals [5, 9]).setSurplusRefinement exampleWaveletExternals 0
          TypeRefinement.refine_classic (-1) []).needed.indexes = [[1], [3]] :=
  ⟨(((GridWavelet.setSurplusRefinement_parents exampleWaveletExternals
      ((GridWavelet.mk0.setNodes exampleWaveletExternals ⟨1, [[0], [2]]⟩ 1 1).loadNeededPoints
        exampleWaveletExternals [5, 9]) 0 TypeRefinement.refine_parents_first (-1) []).2.2.1
      (Or.inr rfl)) [2] 0).1 (by decide),
    by decide, by decide, by decide⟩

section WaveletChildrenClaim

variable {R : Type} [LinearOrderedCommRing R] [Div R]

omit [LinearOrderedCommRing R] [Div R] in
/-- The children that a pair adds: the left and the right child of `getChildren`, except a
child `-1`, a child in `points` and a child above the limit of the direction. -/
theorem GridWavelet.mem_newChildren (E : WaveletExternals R) (g : GridWavelet R)
    (point : List Nat) (direction : Nat) (level_limits : List Int) (q : List Nat) :
    q ∈ g.newChildren E point direction level_limits
      ↔ ∃ c : Int,
          (c = (E.rule1D.getChildren g.rule1D_order (point.getD direction 0)).1
            ∨ c = (E.rule1D.getChildren g.rule1D_order (point.getD direction 0)).2)
          ∧ c ≠ -1
          ∧ g.points.missing (point.set direction c.toNat) = true
          ∧ (level_limits = [] ∨ level_limits.getD direction 0 = -1
            ∨ (E.rule1D.getLevel g.rule1D_order c.toNat : Int) ≤ level_limits.getD direction 0)
          ∧ q = point.set direction c.toNat := by
  unfold GridWavelet.newChildren GridWavelet.childAllowed
  simp only [List.mem_map, List.mem_filter, List.mem_cons, List.mem_singleton, List.not_mem_nil,
    or_false, Bool.and_eq_true, Bool.or_eq_true, decide_eq_true_eq, List.isEmpty_iff, ne_eq]
  constructor
  · rintro ⟨c, ⟨hc, ⟨hne, hal⟩, hm⟩, rfl⟩
    exact ⟨c, hc, hne, hm, by tauto, rfl⟩
  · rintro ⟨c, hc, hne, hm, hal, rfl⟩
    exact ⟨c, ⟨hc, ⟨hne, by tauto⟩, hm⟩, rfl⟩

omit [LinearOrderedCommRing R] [Div R] in
theorem GridWavelet.newChildren_unlimited (E : WaveletExternals R) (g : GridWavelet R)
    (point : List Nat) (direction : Nat) (level_limits : List Int)
    (h : level_limits.getD direction 0 = -1) :
    g.newChildren E point direction level_limits = g.newChildren E point direction [] := by
  have h1 : ∀ c, g.childAllowed E direction level_limits c = true := by
    intro c
    unfold GridWavelet.childAllowed
    rw [h]
    simp
  have h2 : ∀ c, g.childAllowed E direction [] c = true := by
    intro c
    rfl
  have hP : (fun (c : Int) => c ≠ -1 && g.childAllowed E direction level_limits c
        && g.points.missing (point.set direction c.toNat))
      = fun (c : Int) => c ≠ -1 && g.childAllowed E direction [] c
        && g.points.missing (point.set direction c.toNat) := by
    funext c
    rw [h1 c, h2 c]
  unfold GridWavelet.newChildren
  rw [hP]

omit [LinearOrderedCommRing R] [Div R] in
theorem GridWavelet.refinementList_unlimited (E : WaveletExternals R) (g : GridWavelet R)
    (pmap : Data2D Nat) (useParents : Bool) (level_limits : List Int)
    (h : ∀ j, j < g.num_dimensions → level_limits.getD j 0 = -1) :
    g.refinementList E pmap useParents level_limits = g.refinementList E pmap useParents [] := by
  unfold GridWavelet.refinementList
  apply flatMap_congr_of_mem
  intro i _
  apply flatMap_congr_of_mem
  intro j hj
  have hjd : j < g.num_dimensions := List.mem_range.mp hj
  unfold GridWavelet.pairRefinement
  rw [GridWavelet.newChildren_unlimited E g (g.points.getIndex i) j level_limits (h j hjd)]

/-- C24. Wavelet children and level limits.  `setSurplusRefinement` adds to `needed` what the
flagged pairs add; a pair (point `p`, direction `j`) that is refined by children (no parents
are used, or no parent is missing) adds both children `L` and `R` of `p_j` from `getChildren`
put at entry `j`, except a child equal to `-1` and a child in `points`, as `addChild` appends
them; when `level_limits` is given, `addChildLimited` appends only the children whose level is
at most `level_limits[j]` unless `level_limits[j] = -1`; and with `level_limits[j] = -1` in every
direction the refinement is the one computed with empty `level_limits`. -/
theorem GridWavelet.setSurplusRefinement_children (E : WaveletExternals R) (g : GridWavelet R)
    (tolerance : R) (criteria : TypeRefinement) (output : Int) (level_limits : List Int) :
    g.setSurplusRefinement E tolerance criteria output level_limits
      = (if (g.refinementList E (g.clearRefinement.buildUpdateMap E tolerance criteria output)
            (decide (criteria = TypeRefinement.refine_fds)
              || decide (criteria = TypeRefinement.refine_parents_first)) level_limits).length > 0 then
          { g.clearRefinement with needed :=
              (MultiIndexSet.addMultiIndexSet
                (g.clearRefinement.needed.setNumDimensions g.num_dimensions)
                (MultiIndexSet.mk g.num_dimensions
                  (g.refinementList E (g.clearRefinement.buildUpdateMap E tolerance criteria output)
                    (decide (criteria = TypeRefinement.refine_fds)
                      || decide (criteria = TypeRefinement.refine_parents_first)) level_limits))) }
        else g.clearRefinement)
    ∧ (∀ (useParents : Bool) point direction,
        (useParents = false ∨ g.missingParents E point direction = []) →
          g.pairRefinement E useParents level_limits point direction
            = g.newChildren E point direction level_limits)
    ∧ (∀ point direction dest,
        g.addChild E point direction dest = dest ++ g.newChildren E point direction [])
    ∧ (level_limits ≠ [] → ∀ point direction dest,
        g.addChildLimited E point direction level_limits dest
          = dest ++ g.newChildren E point direction level_limits)
    ∧ (∀ point direction q, q ∈ g.newChildren E point direction level_limits
        ↔ ∃ c : Int,
            (c = (E.rule1D.getChildren g.rule1D_order (point.getD direction 0)).1
              ∨ c = (E.rule1D.getChildren g.rule1D_order (point.getD direction 0)).2)
            ∧ c ≠ -1
            ∧ g.points.missing (point.set direction c.toNat) = true
            ∧ (level_limits = [] ∨ level_limits.getD direction 0 = -1
              ∨ (E.rule1D.getLevel g.rule1D_order c.toNat : Int) ≤ level_limits.getD direction 0)
            ∧ q = point.set direction c.toNat)
    ∧ ((∀ j, j < g.num_dimensions → level_limits.getD j 0 = -1) →
        g.setSurplusRefinement E tolerance criteria output level_limits
          = g.setSurplusRefinement E tolerance criteria output []) := by
  refine ⟨GridWavelet.setSurplusRefinement_eq_refinementList E g tolerance criteria output level_limits,
    ?_, GridWavelet.addChild_eq E g, ?_, ?_, ?_⟩
  · intro useParents point direction h
    unfold GridWavelet.pairRefinement
    have hc : ¬ ((useParents && !(g.missingParents E point direction).isEmpty) = true) := by
      rcases h with h | h
      · rw [h]
        simp
      · rw [h]
        simp
    rw [if_neg hc]
  · intro hne point direction dest
    exact GridWavelet.addChildLimited_eq E g point direction level_limits hne dest
  · intro point direction q
    exact GridWavelet.mem_newChildren E g point direction level_limits q
  · intro h
    rw [GridWavelet.setSurplusRefinement_eq_refinementList E g tolerance criteria output level_limits,
      GridWavelet.setSurplusRefinement_eq_refinementList E g tolerance criteria output [],
      GridWavelet.refinementList_unlimited E g _ _ level_limits h]

end WaveletChildrenClaim

theorem GridWavelet.setSurplusRefinement_children_witness :
    ((GridWavelet.mk0.setNodes exampleWaveletExternals ⟨1, [[0], [2]]⟩ 1 1).loadNeededPoints
        exampleWaveletExternals [5, 9]).setSurplusRefinement exampleWaveletExternals 0
        TypeRefinement.refine_classic (-1) [-1]
      = ((GridWavelet.mk0.setNodes exampleWaveletExternals ⟨1, [[0], [2]]⟩ 1 1).loadNeededPoints
        exampleWaveletExternals [5, 9]).setSurplusRefinement exampleWaveletExternals 0
        TypeRefinement.refine_classic (-1) []
    ∧ (((GridWavelet.mk0.setNodes exampleWaveletExternals ⟨1, [[0], [2]]⟩ 1 1).loadNeededPoints
        exampleWaveletExternals [5, 9]).setSurplusRefinement exampleWaveletExternals 0
        TypeRefinement.refine_classic (-1) [-1]).needed.indexes = [[1], [3]]
    ∧ (((GridWavelet.mk0.setNodes exampleWaveletExternals ⟨1, [[0], [2]]⟩ 1 1).loadNeededPoints
        exampleWaveletExternals [5, 9]).setSurplusRefinement exampleWaveletExternals 0
        TypeRefinement.refine_classic (-1) [2]).needed.indexes = [[1]] :=
  ⟨(GridWavelet.setSurplusRefinement_children exampleWaveletExternals
      ((GridWavelet.mk0.setNodes exampleWaveletExternals ⟨1, [[0], [2]]⟩ 1 1).loadNeededPoints
        exampleWaveletExternals [5, 9]) 0 TypeRefinement.refine_classic (-1) [-1]).2.2.2.2.2
      (by decide),
    by decide, by decide⟩

/-! ## C25: `setHierarchicalCoefficients` -/

section WaveletSetCoefficients

variable {R : Type} [CommRing R] [DecidableEq R]

omit [CommRing R] [DecidableEq R] in
theorem getStrip_flatMap_rows (F : List Nat → List R) (d : Nat) (hF : ∀ p, (F p).length = d)
    (L : List (List Nat)) (i : Nat) (hi : i < L.length) :
    ((((List.range L.length).flatMap (fun i => F (L.getD i []))).drop (i * d)).take d)
      = F (L.getD i []) := by
  have h1 : (List.range L.length).flatMap (fun i => F (L.getD i [])) = L.flatMap F := by
    have h2 : (List.range L.length).flatMap (fun i => F (L.getD i []))
        = ((List.range L.length).map (fun i => L.getD i [])).flatMap F := by
      rw [List.flatMap_map]
    rw [h2, map_getD_range]
  rw [h1]
  exact row_of_flatMap F d hF L i hi

omit [DecidableEq R] in
theorem getD_drop_add (V : List R) (a k : Nat) : (V.drop a).getD k 0 = V.getD (a + k) 0 := by
  rw [List.getD_eq_getElem?_getD, List.getD_eq_getElem?_getD, List.getElem?_drop]

/-- The grid that `setHierarchicalCoefficients` returns for a coefficient array with one entry
for every point and output. -/
theorem GridWavelet.setHierarchicalCoefficients_eq (E : WaveletExternals R) (g : GridWavelet R)
    (c : List R) (hc : c.length = g.num_outputs * g.getNumPoints) :
    g.setHierarchicalCoefficients E c
      = { g with
          points := g.work
          needed := MultiIndexSet.mk0
          coefficients := ⟨g.num_outputs, g.getNumPoints, c⟩
          values := ⟨g.num_outputs, g.getNumPoints,
            GridWavelet.evaluateBatch E
              { g with
                points := g.work
                needed := MultiIndexSet.mk0
                coefficients := ⟨g.num_outputs, g.getNumPoints, c⟩
                values := ⟨g.num_outputs, g.getNumPoints, []⟩ }
              (GridWavelet.getPoints E
                { g with
                  points := g.work
                  needed := MultiIndexSet.mk0
                  coefficients := ⟨g.num_outputs, g.getNumPoints, c⟩
                  values := ⟨g.num_outputs, g.getNumPoints, []⟩ })
              g.getNumPoints⟩ } := by
  have hcopy : ∀ (C : Data2D R),
      (List.range (g.getNumPoints * g.num_outputs)).foldl (fun (v : List R) t => v.set t (c.getD t 0))
        (C.resize g.num_outputs g.getNumPoints).vec = c := by
    intro C
    have hlen : (C.resize g.num_outputs g.getNumPoints).vec.length
        = g.getNumPoints * g.num_outputs := by
      rw [Data2D.length_resize, Nat.mul_comm]
    rw [foldl_set_range (fun t => c.getD t 0) _ _ hlen]
    have hcl : g.getNumPoints * g.num_outputs = c.length := by
      rw [hc, Nat.mul_comm]
    rw [hcl]
    exact map_getD_range c 0
  have hs : ∀ (C : Data2D R), (C.resize g.num_outputs g.getNumPoints).stride = g.num_outputs :=
    fun _ => rfl
  have hns : ∀ (C : Data2D R), (C.resize g.num_outputs g.getNumPoints).num_strips = g.getNumPoints :=
    fun _ => rfl
  unfold GridWavelet.setHierarchicalCoefficients
  by_cases he : g.points.empty = true
  · have hw : g.work = g.needed := by
      unfold GridWavelet.work
      rw [if_pos he]
    have hn : g.needed.getNumIndexes = g.getNumPoints := by
      unfold GridWavelet.getNumPoints
      rw [if_pos he]
    simp only [he, Bool.not_true, Bool.false_eq_true, if_false, hw, hcopy, hs, hns,
      StorageSet.resize, hn]
  · have hw : g.work = g.points := by
      unfold GridWavelet.work
      rw [if_neg he]
    have hn : g.points.getNumIndexes = g.getNumPoints := by
      unfold GridWavelet.getNumPoints
      rw [if_neg he]
    have he2 : g.points.empty = false := by
      cases h : g.points.empty with
      | true => exact absurd h he
      | false => rfl
    simp only [he2, Bool.not_false, if_true, hw, hcopy, hs, hns, StorageSet.resize, hn,
      GridWavelet.clearRefinement]

end WaveletSetCoefficients

section WaveletSetCoefficientsClaim

variable {R : Type} [CommRing R] [DecidableEq R]

omit [CommRing R] [DecidableEq R] in
theorem GridWavelet.getNumPoints_eq_work (g : GridWavelet R) :
    g.getNumPoints = g.work.getNumIndexes := by
  unfold GridWavelet.getNumPoints GridWavelet.work
  by_cases he : g.points.empty = true
  · rw [if_pos he, if_pos he]
  · rw [if_neg he, if_neg he]

/-- C25. `setHierarchicalCoefficients`: for every grid and coefficient array `c` of
`num_outputs * getNumPoints()` entries, afterwards `coefficients = c` (strips of `num_outputs`
entries, one for every point), `needed` is empty, `points` is the former current point set
(`points` if it was non-empty, else `needed`), and for every point `i` and output `k`,
`values[i][k] = evaluate(node of point i)[k] = sum_p evalBasis(p, node_i) * c[p][k]`. -/
theorem GridWavelet.setHierarchicalCoefficients_spec (E : WaveletExternals R) (g : GridWavelet R)
    (c : List R) (hc : c.length = g.num_outputs * g.getNumPoints) :
    (g.setHierarchicalCoefficients E c).coefficients = ⟨g.num_outputs, g.getNumPoints, c⟩
    ∧ (g.setHierarchicalCoefficients E c).needed = MultiIndexSet.mk0
    ∧ (g.setHierarchicalCoefficients E c).points = (if g.points.empty then g.needed else g.points)
    ∧ ∀ i k, i < g.getNumPoints → k < g.num_outputs →
        ((g.setHierarchicalCoefficients E c).values.getValues i).getD k 0
          = ((g.setHierarchicalCoefficients E c).evaluate E
              ((g.setHierarchicalCoefficients E c).pointNode E i)).getD k 0
        ∧ ((g.setHierarchicalCoefficients E c).values.getValues i).getD k 0
          = ∑ p in Finset.range g.getNumPoints,
              (g.setHierarchicalCoefficients E c).evalBasis E
                  ((g.setHierarchicalCoefficients E c).points.getIndex p)
                  ((g.setHierarchicalCoefficients E c).pointNode E i)
                * c.getD (p * g.num_outputs + k) 0 := by
  have hres := GridWavelet.setHierarchicalCoefficients_eq E g c hc
  have hn := GridWavelet.getNumPoints_eq_work g
  refine ⟨by rw [hres], by rw [hres], by rw [hres]; rfl, ?_⟩
  intro i k hi hk
  have hpts : (g.setHierarchicalCoefficients E c).points = g.work := by rw [hres]
  have hm : (g.setHierarchicalCoefficients E c).num_outputs = g.num_outputs := by rw [hres]
  have hcoef : (g.setHierarchicalCoefficients E c).coefficients
      = ⟨g.num_outputs, g.getNumPoints, c⟩ := by rw [hres]
  have hne : g.work.empty = false := by
    unfold MultiIndexSet.empty
    cases hidx : g.work.indexes with
    | nil =>
      rw [hn] at hi
      unfold MultiIndexSet.getNumIndexes at hi
      rw [hidx] at hi
      cases hi
    | cons a l => rfl
  have hval : ((g.setHierarchicalCoefficients E c).values.getValues i).getD k 0
      = ((g.setHierarchicalCoefficients E c).evaluate E
          ((g.setHierarchicalCoefficients E c).pointNode E i)).getD k 0 := by
    have hnode : getStrip g.num_dimensions
        (GridWavelet.getPoints E
          { g with
            points := g.work
            needed := MultiIndexSet.mk0
            coefficients := ⟨g.num_outputs, g.getNumPoints, c⟩
            values := ⟨g.num_outputs, g.getNumPoints, []⟩ }) i
        = (g.setHierarchicalCoefficients E c).pointNode E i := by
      unfold GridWavelet.getPoints
      simp only [hne, Bool.false_eq_true, if_false]
      unfold GridWavelet.getLoadedPoints getStrip GridWavelet.pointNode
      simp only [hpts]
      have hrow := getStrip_flatMap_rows
        (fun p => (List.range g.num_dimensions).map (fun j =>
          E.rule1D.getNode g.rule1D_order (p.getD j 0))) g.num_dimensions (fun p => by simp)
        g.work.indexes i (by rw [hn] at hi; exact hi)
      rw [hres]
      exact hrow
    have hV : (g.setHierarchicalCoefficients E c).values.getValues i
        = ((GridWavelet.evaluateBatch E
            { g with
              points := g.work
              needed := MultiIndexSet.mk0
              coefficients := ⟨g.num_outputs, g.getNumPoints, c⟩
              values := ⟨g.num_outputs, g.getNumPoints, []⟩ }
            (GridWavelet.getPoints E
              { g with
                points := g.work
                needed := MultiIndexSet.mk0
                coefficients := ⟨g.num_outputs, g.getNumPoints, c⟩
                values := ⟨g.num_outputs, g.getNumPoints, []⟩ })
            g.getNumPoints).drop (i * g.num_outputs)) := by
      rw [hres]
      rfl
    rw [hV, getD_drop_add]
    unfold GridWavelet.evaluateBatch
    rw [getD_flatMap_range _ g.num_outputs (fun t => by simp [GridWavelet.evaluate]) 0
      g.getNumPoints i k hi hk]
    simp only
    rw [hnode, hres]
    rfl
  refine ⟨hval, ?_⟩
  rw [hval, GridWavelet.wavelet_evaluate_eq_sum E _ _ k (by rw [hm]; exact hk), hpts, ← hn]
  apply Finset.sum_congr rfl
  intro p _
  rw [hcoef]
  rfl

end WaveletSetCoefficientsClaim

theorem GridWavelet.setHierarchicalCoefficients_spec_witness :
    (exampleWaveletGrid.setHierarchicalCoefficients exampleWaveletExternals [5, 7, 9]).coefficients
        = ⟨1, 3, [5, 7, 9]⟩
    ∧ (exampleWaveletGrid.setHierarchicalCoefficients exampleWaveletExternals [5, 7, 9]).needed
        = MultiIndexSet.mk0
    ∧ (exampleWaveletGrid.setHierarchicalCoefficients exampleWaveletExternals [5, 7, 9]).points.indexes
        = [[0], [1], [2]]
    ∧ (exampleWaveletGrid.setHierarchicalCoefficients exampleWaveletExternals [5, 7, 9]).values.values
        = [5, 7, 9] :=
  have h := GridWavelet.setHierarchicalCoefficients_spec exampleWaveletExternals exampleWaveletGrid
    [5, 7, 9] (by decide)
  ⟨h.1, h.2.1, by decide, by decide⟩

/-! ## C31: the point counts of the wavelet grid -/

section WaveletPointCounts

variable {R : Type} [CommRing R] [DecidableEq R]

theorem wrapInt32_of_range (n : Int) (h1 : -2147483648 ≤ n) (h2 : n < 2147483648) :
    wrapInt32 n = n := by
  unfold wrapInt32
  omega

/-- The `int` expression `(1 << s) + 1` is `2^s + 1` for a shift of at most 30 bits. -/
theorem GridWavelet.shiftPlusOne_eq (s : Nat) (hs : s ≤ 30) :
    GridWavelet.shiftPlusOne s = 2 ^ s + 1 := by
  have hp : (2 : Nat) ^ s ≤ 2 ^ 30 := Nat.pow_le_pow_right (by decide) hs
  have hp2 : ((2 : Int) ^ s) ≤ 1073741824 := by
    have : (((2 : Nat) ^ s : Nat) : Int) ≤ ((2 ^ 30 : Nat) : Int) := by exact_mod_cast hp
    simpa using this
  have hp0 : (0 : Int) ≤ (2 : Int) ^ s := by positivity
  unfold GridWavelet.shiftPlusOne
  rw [Nat.one_shiftLeft]
  push_cast
  have e1 : wrapInt32 ((2 : Int) ^ s) = (2 : Int) ^ s := wrapInt32_of_range _ (by omega) (by omega)
  rw [e1]
  exact wrapInt32_of_range _ (by omega) (by omega)

/-- At a shift of 31 bits the `int` expression `(1 << s) + 1` wraps to a negative value. -/
theorem GridWavelet.shiftPlusOne_31 : GridWavelet.shiftPlusOne 31 = -2147483647 := by
  decide

/-- The set that `GridWavelet::makeGrid` generates: `generateNestedPoints` of the selected
tensors with the point-count callable of the order, stored in `needed` when the grid has
outputs and in `points` when it has none. -/
theorem GridWavelet.makeGrid_generated (E : WaveletExternals R) (g : GridWavelet R)
    (cnum_dimensions cnum_outputs : Nat) (depth : Int) (corder : Nat) (level_limits : List Int) :
    (if cnum_outputs = 0 then
        (g.makeGrid E cnum_dimensions cnum_outputs depth corder level_limits).points
      else (g.makeGrid E cnum_dimensions cnum_outputs depth corder level_limits).needed)
      = E.generateNestedPoints
          (if level_limits = [] then
            E.selectTensors depth TypeDepth.type_level (fun i => (i : Int)) []
              (MultiIndexSet.ofDim cnum_dimensions)
          else MultiIndexManipulations.removeIndexesByLimit level_limits
            (E.selectTensors depth TypeDepth.type_level (fun i => (i : Int)) []
              (MultiIndexSet.ofDim cnum_dimensions)))
          (fun l => GridWavelet.shiftPlusOne (l + (if corder = 1 then 1 else 2)))
    ∧ (if cnum_outputs = 0 then
        (g.makeGrid E cnum_dimensions cnum_outputs depth corder level_limits).needed
      else (g.makeGrid E cnum_dimensions cnum_outputs depth corder level_limits).points)
      = MultiIndexSet.mk0 := by
  unfold GridWavelet.makeGrid
  by_cases hl : level_limits = [] <;> by_cases ho : corder = 1 <;> by_cases hn : cnum_outputs = 0 <;>
    simp [hl, ho, hn, GridWavelet.buildInterpolationMatrix, GridWavelet.reset]

/-- C31 (amended). Wavelet point counts: `GridWavelet::makeGrid` generates the nested point
set of the level tensor set selected at `depth` (identity exactness, no weights; after the
removal by `level_limits` when limits are given) using `numPoints(l) = 2^(l+1) + 1` for
order 1 and `numPoints(l) = 2^(l+2) + 1` otherwise (order 3), for every level `l` at which
the count is computed without overflow of the 32-bit `int`: `l <= 29` for order 1 and
`l <= 28` for order 3.  When every level of the selected tensors is in that range (and
`generateNestedPoints` reads the count only at the levels of the tensors), the generated
set is `generateNestedPoints` of the tensors with these counts; it is `needed` when the
grid has outputs and `points` when it has none, and the other of the two sets is empty. -/
theorem GridWavelet.makeGrid_point_counts (E : WaveletExternals R) (g : GridWavelet R)
    (cnum_dimensions cnum_outputs : Nat) (depth : Int) (corder : Nat) (level_limits : List Int)
    (hlocal : ∀ (T : MultiIndexSet) (N M : Nat → Int),
      (∀ t ∈ T.indexes, ∀ l ∈ t, N l = M l) → E.generateNestedPoints T N = E.generateNestedPoints T M)
    (hbound : ∀ t ∈ (if level_limits = [] then
            E.selectTensors depth TypeDepth.type_level (fun i => (i : Int)) []
              (MultiIndexSet.ofDim cnum_dimensions)
          else MultiIndexManipulations.removeIndexesByLimit level_limits
            (E.selectTensors depth TypeDepth.type_level (fun i => (i : Int)) []
              (MultiIndexSet.ofDim cnum_dimensions))).indexes,
        ∀ l ∈ t, l + (if corder = 1 then 1 else 2) ≤ 30) :
    (if cnum_outputs = 0 then
        (g.makeGrid E cnum_dimensions cnum_outputs depth corder level_limits).points
      else (g.makeGrid E cnum_dimensions cnum_outputs depth corder level_limits).needed)
      = E.generateNestedPoints
          (if level_limits = [] then
            E.selectTensors depth TypeDepth.type_level (fun i => (i : Int)) []
              (MultiIndexSet.ofDim cnum_dimensions)
          else MultiIndexManipulations.removeIndexesByLimit level_limits
            (E.selectTensors depth TypeDepth.type_level (fun i => (i : Int)) []
              (MultiIndexSet.ofDim cnum_dimensions)))
          (fun l => if corder = 1 then 2 ^ (l + 1) + 1 else 2 ^ (l + 2) + 1)
    ∧ (if cnum_outputs = 0 then
        (g.makeGrid E cnum_dimensions cnum_outputs depth corder level_limits).needed
      else (g.makeGrid E cnum_dimensions cnum_outputs depth corder level_limits).points)
      = MultiIndexSet.mk0
    ∧ (∀ l, l ≤ 29 → GridWavelet.shiftPlusOne (l + 1) = 2 ^ (l + 1) + 1)
    ∧ (∀ l, l ≤ 28 → GridWavelet.shiftPlusOne (l + 2) = 2 ^ (l + 2) + 1) := by
  obtain ⟨h1, h2⟩ := GridWavelet.makeGrid_generated E g cnum_dimensions cnum_outputs depth corder
    level_limits
  refine ⟨?_, h2, fun l hl => GridWavelet.shiftPlusOne_eq (l + 1) (by omega),
    fun l hl => GridWavelet.shiftPlusOne_eq (l + 2) (by omega)⟩
  rw [h1]
  apply hlocal
  intro t ht l hlt
  have hb := hbound t ht l hlt
  by_cases ho : corder = 1
  · rw [if_pos ho] at hb ⊢
    rw [if_pos ho]
    exact GridWavelet.shiftPlusOne_eq (l + 1) hb
  · rw [if_neg ho] at hb ⊢
    rw [if_neg ho]
    exact GridWavelet.shiftPlusOne_eq (l + 2) hb

omit [CommRing R] [DecidableEq R] in
theorem SpecModel.tensorPoints_congr (n m : Nat → Nat) (t : List Nat) (h : ∀ l ∈ t, n l = m l) :
    SpecModel.tensorPoints n t = SpecModel.tensorPoints m t := by
  induction t with
  | nil => rfl
  | cons l ls ih =>
    unfold SpecModel.tensorPoints
    rw [h l (List.mem_cons_self _ _), ih (fun k hk => h k (List.mem_cons_of_mem _ hk))]

omit [CommRing R] [DecidableEq R] in
/-- The nested point set of the specification reads the counts only at the levels of the
tensors. -/
theorem SpecModel.generateNestedPoints_congr (T : MultiIndexSet) (n m : Nat → Nat)
    (h : ∀ t ∈ T.indexes, ∀ l ∈ t, n l = m l) :
    SpecModel.generateNestedPoints T n = SpecModel.generateNestedPoints T m := by
  unfold SpecModel.generateNestedPoints
  congr 1
  apply List.foldl_ext
  intro acc t ht
  rw [SpecModel.tensorPoints_congr n m t (h t ht)]

/-- The generator of the example collaborators reads the counts only at the levels of the
tensors. -/
theorem exampleWaveletExternals_local (T : MultiIndexSet) (N M : Nat → Int)
    (h : ∀ t ∈ T.indexes, ∀ l ∈ t, N l = M l) :
    exampleWaveletExternals.generateNestedPoints T N
      = exampleWaveletExternals.generateNestedPoints T M :=
  SpecModel.generateNestedPoints_congr T _ _ (fun t ht l hl => by rw [h t ht l hl])

/-- The statement of C31 (amended) at `makeGrid(1, 1, depth = 0, order = 1)` of the example
collaborators: the only tensor is the level 0 and the grid has the `2^1 + 1 = 3` points of
that level. -/
theorem GridWavelet.makeGrid_point_counts_witness :
    (exampleWaveletExternals.selectTensors 0 TypeDepth.type_level (fun i => (i : Int)) []
        (MultiIndexSet.ofDim 1)).indexes = [[0]]
    ∧ (GridWavelet.mk0.makeGrid exampleWaveletExternals 1 1 0 1 []).needed
      = exampleWaveletExternals.generateNestedPoints
          (exampleWaveletExternals.selectTensors 0 TypeDepth.type_level (fun i => (i : Int)) []
            (MultiIndexSet.ofDim 1))
          (fun l => 2 ^ (l + 1) + 1)
    ∧ (GridWavelet.mk0.makeGrid exampleWaveletExternals 1 1 0 1 []).needed.indexes
      = [[0], [1], [2]] :=
  ⟨by decide,
    (GridWavelet.makeGrid_point_counts exampleWaveletExternals GridWavelet.mk0 1 1 0 1 []
      exampleWaveletExternals_local (by decide)).1,
    by decide⟩

/-- C31 as stated fails at level 30. `makeGrid(1, 1, depth = 30, order = 1)` selects the
tensor of level 30 and generates the points with the count `(1 << (l + 1)) + 1`, which for
`l = 30` is the `int` value `-2147483647`, not `2^31 + 1 = 2147483649`. -/
theorem GridWavelet.makeGrid_count_overflows :
    [30] ∈ (exampleWaveletExternals.selectTensors 30 TypeDepth.type_level (fun i => (i : Int)) []
        (MultiIndexSet.ofDim 1)).indexes
    ∧ (GridWavelet.mk0.makeGrid exampleWaveletExternals 1 1 30 1 []).needed
      = exampleWaveletExternals.generateNestedPoints
          (exampleWaveletExternals.selectTensors 30 TypeDepth.type_level (fun i => (i : Int)) []
            (MultiIndexSet.ofDim 1))
          (fun l => GridWavelet.shiftPlusOne (l + 1))
    ∧ GridWavelet.shiftPlusOne (30 + 1) = -2147483647
    ∧ GridWavelet.shiftPlusOne (30 + 1) ≠ 2 ^ (30 + 1) + 1 := by
  refine ⟨by decide, ?_, by decide, by decide⟩
  exact (GridWavelet.makeGrid_generated exampleWaveletExternals GridWavelet.mk0 1 1 30 1 []).1

/-- The grid `makeGrid(1, 1, depth = 0, order = 1)` has the `2^1 + 1 = 3` points of level 0. -/
theorem GridWavelet.makeGrid_point_counts_example :
    exampleWaveletGrid.needed.indexes = [[0], [1], [2]] ∧ exampleWaveletGrid.points.indexes = [] := by
  decide

end WaveletPointCounts

/-! ## C32: the rounding of the anisotropic coefficients -/

section RoundingClaims

variable {F : Type} [LinearOrderedField F]

/-- The weights returned by `estimateAnisotropicCoefficients` are the post-processing of
`roundedWeights`, which has one entry per coefficient of the solution but the last (the
intercept): `d` entries, or `2 d` for the curved types. -/
theorem GridGlobal.estimateAnisotropicCoefficients_rounded (E : Externals F)
    (N : NumericExternals F) (g : GridGlobal F) (type : TypeDepth) (output : Nat) :
    (g.roundedWeights E N type output).length
        = (if GridGlobal.isCurvedType type then 2 * g.num_dimensions else g.num_dimensions)
    ∧ g.estimateAnisotropicCoefficients E N type output
        = GridGlobal.postProcessWeights g.num_dimensions
            (if GridGlobal.isCurvedType type then 2 * g.num_dimensions else g.num_dimensions)
            (g.roundedWeights E N type output) := by
  unfold GridGlobal.estimateAnisotropicCoefficients GridGlobal.roundedWeights
    GridGlobal.leastSquaresSolution
  by_cases h : GridGlobal.isCurvedType type = true
  · simp only [h, if_true, Nat.add_sub_cancel]
    refine ⟨by simp, ?_⟩
    trivial
  · simp only [h, if_false, Nat.add_sub_cancel]
    refine ⟨by simp, ?_⟩
    trivial

/-- Adding one half and truncating toward zero: for `v >= -1/2` the result is a nearest
integer of `v`; for `v < -1/2` the result `n` lies in `[v + 1/2, v + 3/2)` and is not a
nearest integer of `v` unless `v + 1/2` is itself an integer. -/
theorem NumericExternals.toInt_add_half (N : NumericExternals F) (hT : N.TruncatesTowardZero)
    (v : F) :
    (-(1 / 2) ≤ v → IsNearestInteger v (N.toInt (v + 1 / 2)))
    ∧ (v < -(1 / 2) →
        v + 1 / 2 ≤ ((N.toInt (v + 1 / 2) : Int) : F)
        ∧ ((N.toInt (v + 1 / 2) : Int) : F) < v + 3 / 2
        ∧ (v + 1 / 2 < ((N.toInt (v + 1 / 2) : Int) : F) → ¬ IsNearestInteger v (N.toInt (v + 1 / 2)))) := by
  constructor
  · intro hv k
    obtain ⟨h1, h2⟩ := (hT (v + 1 / 2)).1 (by linarith)
    have hn : |((N.toInt (v + 1 / 2) : Int) : F) - v| ≤ 1 / 2 := by
      rw [abs_le]; constructor <;> linarith
    rcases lt_trichotomy k (N.toInt (v + 1 / 2)) with hk | hk | hk
    · have hk1 : k + 1 ≤ N.toInt (v + 1 / 2) := hk
      have hk2 : ((k : Int) : F) + 1 ≤ ((N.toInt (v + 1 / 2) : Int) : F) := by exact_mod_cast hk1
      have : (1 : F) / 2 ≤ |((k : Int) : F) - v| := by
        rw [le_abs]; right; linarith
      linarith
    · rw [hk]
    · have hk1 : N.toInt (v + 1 / 2) + 1 ≤ k := hk
      have hk2 : ((N.toInt (v + 1 / 2) : Int) : F) + 1 ≤ ((k : Int) : F) := by exact_mod_cast hk1
      have : (1 : F) / 2 ≤ |((k : Int) : F) - v| := by
        rw [le_abs]; left; linarith
      linarith
  · intro hv
    obtain ⟨h1, h2⟩ := (hT (v + 1 / 2)).2 (by linarith)
    refine ⟨h1, by linarith, ?_⟩
    intro h3 hnear
    have hk := hnear (N.toInt (v + 1 / 2) - 1)
    have e1 : |((N.toInt (v + 1 / 2) : Int) : F) - v| = ((N.toInt (v + 1 / 2) : Int) : F) - v :=
      abs_of_nonneg (by linarith)
    have e2 : |(((N.toInt (v + 1 / 2) - 1 : Int) : Int) : F) - v| < 1 / 2 := by
      push_cast
      rw [abs_lt]; constructor <;> linarith
    rw [e1] at hk
    linarith

/-- The weights before the post-processing, entry by entry: entry `j` is `(int)` of
`1000 x_j + 1/2`; with a truncating `(int)` it is a nearest integer of `1000 x_j` when
`1000 x_j >= -1/2`, and for `1000 x_j < -1/2` it lies in `[1000 x_j + 1/2, 1000 x_j + 3/2)`,
which is not a nearest integer unless `1000 x_j + 1/2` is an integer. -/
theorem GridGlobal.roundedWeights_entry (E : Externals F) (N : NumericExternals F)
    (g : GridGlobal F) (type : TypeDepth) (output : Nat) (hT : N.TruncatesTowardZero) (j : Nat)
    (hj : j < (if GridGlobal.isCurvedType type then 2 * g.num_dimensions else g.num_dimensions)) :
    (-(1 / 2) ≤ (g.leastSquaresSolution E N type output).getD j 0 * 1000 →
      IsNearestInteger ((g.leastSquaresSolution E N type output).getD j 0 * 1000)
        ((g.roundedWeights E N type output).getD j 0))
    ∧ ((g.leastSquaresSolution E N type output).getD j 0 * 1000 < -(1 / 2) →
      (g.leastSquaresSolution E N type output).getD j 0 * 1000 + 1 / 2
          < (((g.roundedWeights E N type output).getD j 0 : Int) : F) →
      ¬ IsNearestInteger ((g.leastSquaresSolution E N type output).getD j 0 * 1000)
        ((g.roundedWeights E N type output).getD j 0)) := by
  have hw : (g.roundedWeights E N type output).getD j 0
      = N.toInt ((g.leastSquaresSolution E N type output).getD j 0 * 1000 + 1 / 2) := by
    unfold GridGlobal.roundedWeights
    have hm : j < (if GridGlobal.isCurvedType type then 2 * g.num_dimensions + 1
        else g.num_dimensions + 1) - 1 := by
      split at hj <;> simp_all
    simp only []
    rw [List.getD_eq_getElem?_getD, List.getElem?_map, List.getElem?_range hm]
    rfl
  rw [hw]
  have h := NumericExternals.toInt_add_half N hT ((g.leastSquaresSolution E N type output).getD j 0 * 1000)
  exact ⟨h.1, fun h1 h2 => (h.2 h1).2.2 h2⟩

/-- The conversion of `exampleRationalNumerics` truncates toward zero. -/
theorem exampleRationalNumerics_truncates : exampleRationalNumerics.TruncatesTowardZero := by
  intro y
  constructor
  · intro hy
    have : exampleRationalNumerics.toInt y = ⌊y⌋ := by
      simp [exampleRationalNumerics, hy]
    rw [this]
    exact ⟨Int.floor_le y, Int.lt_floor_add_one y⟩
  · intro hy
    have : exampleRationalNumerics.toInt y = ⌈y⌉ := by
      simp [exampleRationalNumerics, not_le.mpr hy]
    rw [this]
    refine ⟨Int.le_ceil y, ?_⟩
    have := Int.ceil_lt_add_one y
    linarith

/-- C32 fails for a negative coefficient. With the least-squares solution
`x = (-0.003, 0.0028, c)` on a two-dimensional grid, `1000 x = (-3, 2.8)`: the weights before
the post-processing are `(int)(-2.5) = -2` and `(int)(3.3) = 3`. The second is the nearest
integer of `2.8`; the first is not the nearest integer of `-3`, which is `-3` itself. -/
theorem GridGlobal.roundedWeights_negative_fails :
    exampleRationalNumerics.TruncatesTowardZero
    ∧ exampleRationalGrid.leastSquaresSolution exampleRationalExternals exampleRationalNumerics
        TypeDepth.type_iptotal 0 = [-3 / 1000, 28 / 10000, 0]
    ∧ exampleRationalGrid.roundedWeights exampleRationalExternals exampleRationalNumerics
        TypeDepth.type_iptotal 0 = [-2, 3]
    ∧ IsNearestInteger ((-3 / 1000 : ℚ) * 1000) (-3)
    ∧ ¬ IsNearestInteger ((-3 / 1000 : ℚ) * 1000) (-2)
    ∧ IsNearestInteger ((28 / 10000 : ℚ) * 1000) 3 := by
  have hx : exampleRationalGrid.leastSquaresSolution exampleRationalExternals exampleRationalNumerics
        TypeDepth.type_iptotal 0 = [-3 / 1000, 28 / 10000, 0] := rfl
  have hd : exampleRationalGrid.num_dimensions = 2 := rfl
  have hw : exampleRationalGrid.roundedWeights exampleRationalExternals exampleRationalNumerics
        TypeDepth.type_iptotal 0 = [-2, 3] := by
    unfold GridGlobal.roundedWeights
    rw [hx, hd]
    have h0 : exampleRationalNumerics.toInt ((-3 / 1000 : ℚ) * 1000 + 1 / 2) = -2 := by
      have e : ((-3 / 1000 : ℚ) * 1000 + 1 / 2) = -5 / 2 := by norm_num
      rw [e]
      have : ¬ (0 : ℚ) ≤ -5 / 2 := by norm_num
      simp only [exampleRationalNumerics, this, if_false]
      rw [Int.ceil_eq_iff]; norm_num
    have h1 : exampleRationalNumerics.toInt ((28 / 10000 : ℚ) * 1000 + 1 / 2) = 3 := by
      have e : ((28 / 10000 : ℚ) * 1000 + 1 / 2) = 33 / 10 := by norm_num
      rw [e]
      have : (0 : ℚ) ≤ 33 / 10 := by norm_num
      simp only [exampleRationalNumerics, this, if_true]
      rw [Int.floor_eq_iff]; norm_num
    change [exampleRationalNumerics.toInt ((-3 / 1000 : ℚ) * 1000 + 1 / 2),
      exampleRationalNumerics.toInt ((28 / 10000 : ℚ) * 1000 + 1 / 2)] = [-2, 3]
    rw [h0, h1]
  refine ⟨exampleRationalNumerics_truncates, hx, hw, ?_, ?_, ?_⟩
  · intro k
    norm_num
  · intro h
    have := h (-3)
    norm_num at this
  · intro k
    have e : ((28 / 10000 : ℚ) * 1000) = 14 / 5 := by norm_num
    rw [e]
    rcases le_or_lt k 2 with hk | hk
    · have : ((k : Int) : ℚ) ≤ 2 := by exact_mod_cast hk
      rw [abs_of_nonneg (by norm_num), abs_of_nonpos (by linarith)]
      norm_num; linarith
    · have hk3 : (3 : Int) ≤ k := hk
      have : (3 : ℚ) ≤ ((k : Int) : ℚ) := by exact_mod_cast hk3
      rw [abs_of_nonneg (by norm_num), abs_of_nonneg (by linarith)]
      linarith

end RoundingClaims

/-! ## C33: the order of the blocks of a wavelet file -/

section WaveletBlockOrder

variable {R : Type}

/-- C33 (amended). Wavelet file block order: for a wavelet grid with `num_dimensions > 0`,
after the header `num_dimensions num_outputs order`, `GridWavelet::writeBinary` emits the
flagged blocks in the order points, needed, coefficients and then the values, while
`GridWavelet::write` (text) emits them in the order points, coefficients, needed and then
the values. -/
theorem GridWavelet.write_block_order (io : IOModel R) (g : GridWavelet R)
    (hd : g.num_dimensions > 0) :
    g.write io =
        [Token.int g.num_dimensions, Token.int g.num_outputs, Token.int g.order]
        ++ Stream.writeFlaggedText io.indexText g.points
        ++ (if g.coefficients.getTotalEntries = 0 then [Token.int 0]
            else Token.int 1 :: g.coefficients.vec.map Token.real)
        ++ Stream.writeFlaggedText io.indexText g.needed
        ++ (if g.num_outputs > 0 then io.valuesText.write g.values else [])
    ∧ g.writeBinary io =
        [Token.int g.num_dimensions, Token.int g.num_outputs, Token.int g.order]
        ++ Stream.writeFlaggedBinary io.indexBinary g.points
        ++ Stream.writeFlaggedBinary io.indexBinary g.needed
        ++ (if g.coefficients.getTotalEntries = 0 then [Token.chr 'n']
            else Token.chr 'y' :: g.coefficients.vec.map Token.real)
        ++ (if g.num_outputs > 0 then io.valuesBinary.write g.values else []) := by
  unfold GridWavelet.write GridWavelet.writeBinary
  rw [if_pos hd, if_pos hd]
  simp only [List.append_assoc]
  exact ⟨trivial, trivial⟩

/-- The statement of C33 (amended) at `exampleWaveletGrid`. -/
theorem GridWavelet.write_block_order_witness :
    exampleWaveletGrid.num_dimensions > 0
    ∧ exampleWaveletGrid.write exampleIOModel =
        [Token.int exampleWaveletGrid.num_dimensions, Token.int exampleWaveletGrid.num_outputs,
          Token.int exampleWaveletGrid.order]
        ++ Stream.writeFlaggedText exampleIOModel.indexText exampleWaveletGrid.points
        ++ (if exampleWaveletGrid.coefficients.getTotalEntries = 0 then [Token.int 0]
            else Token.int 1 :: exampleWaveletGrid.coefficients.vec.map Token.real)
        ++ Stream.writeFlaggedText exampleIOModel.indexText exampleWaveletGrid.needed
        ++ (if exampleWaveletGrid.num_outputs > 0 then
              exampleIOModel.valuesText.write exampleWaveletGrid.values else []) :=
  ⟨by decide, (GridWavelet.write_block_order exampleIOModel exampleWaveletGrid (by decide)).1⟩

/-- C33 as stated fails for the text format: the grid `exampleWaveletGrid` (no loaded points,
no coefficients, three needed points, one output) is written as the header `1 1 1`, the
flag `0` of the points, the flag `0` of the coefficients, the flag `1` and the block of the
needed points, and the values; in the order points, needed, coefficients, values the fifth
item would be the flag `1` of the needed points. -/
theorem GridWavelet.write_order_counterexample :
    exampleWaveletGrid.num_dimensions > 0
    ∧ exampleWaveletGrid.write exampleIOModel =
        [Token.int 1, Token.int 1, Token.int 1, Token.int 0, Token.int 0, Token.int 1,
          Token.indexBlock exampleWaveletGrid.needed, Token.valueBlock exampleWaveletGrid.values]
    ∧ exampleWaveletGrid.write exampleIOModel ≠
        [Token.int exampleWaveletGrid.num_dimensions, Token.int exampleWaveletGrid.num_outputs,
          Token.int exampleWaveletGrid.order]
        ++ Stream.writeFlaggedText exampleIOModel.indexText exampleWaveletGrid.points
        ++ Stream.writeFlaggedText exampleIOModel.indexText exampleWaveletGrid.needed
        ++ (if exampleWaveletGrid.coefficients.getTotalEntries = 0 then [Token.int 0]
            else Token.int 1 :: exampleWaveletGrid.coefficients.vec.map Token.real)
        ++ (if exampleWaveletGrid.num_outputs > 0 then
              exampleIOModel.valuesText.write exampleWaveletGrid.values else []) := by
  have hw : exampleWaveletGrid.write exampleIOModel =
      [Token.int 1, Token.int 1, Token.int 1, Token.int 0, Token.int 0, Token.int 1,
        Token.indexBlock exampleWaveletGrid.needed, Token.valueBlock exampleWaveletGrid.values] := by
    rfl
  have hc : ([Token.int exampleWaveletGrid.num_dimensions, Token.int exampleWaveletGrid.num_outputs,
          Token.int exampleWaveletGrid.order]
        ++ Stream.writeFlaggedText exampleIOModel.indexText exampleWaveletGrid.points
        ++ Stream.writeFlaggedText exampleIOModel.indexText exampleWaveletGrid.needed
        ++ (if exampleWaveletGrid.coefficients.getTotalEntries = 0 then [Token.int 0]
            else Token.int 1 :: exampleWaveletGrid.coefficients.vec.map Token.real)
        ++ (if exampleWaveletGrid.num_outputs > 0 then
              exampleIOModel.valuesText.write exampleWaveletGrid.values else []))
      = [Token.int 1, Token.int 1, Token.int 1, Token.int 0, Token.int 1,
        Token.indexBlock exampleWaveletGrid.needed, Token.int 0,
        Token.valueBlock exampleWaveletGrid.values] := by
    rfl
  refine ⟨by decide, hw, ?_⟩
  rw [hw, hc]
  intro h
  have h5 := congrArg (fun l => l.drop 4 |>.head?) h
  simp at h5

end WaveletBlockOrder

/-! ## C34, C35: the scores of the candidate tensors -/

section CandidateScores

variable {R : Type} [LinearOrderedCommRing R] [Div R]

omit [LinearOrderedCommRing R] [Div R] in
/-- The overload for a plain callable is the overload for a capturing callable that ignores
the grid. -/
theorem GridGlobal.getCandidateConstructionPointsBy_const {J : Type} (E : Externals R)
    (ops : JournalOps R J) (g : GridGlobal R) (dv : J) (f : List Nat → R) (limits : List Int) :
    g.getCandidateConstructionPointsBy E ops dv (fun _ => f) limits
      = g.getCandidateConstructionPoints E ops dv f limits := rfl

omit [LinearOrderedCommRing R] [Div R] in
/-- The grid that the callable sees does not depend on the callable. -/
theorem GridGlobal.getCandidateConstructionPointsBy_grid {J : Type} (E : Externals R)
    (ops : JournalOps R J) (g : GridGlobal R) (dv : J) (f1 f2 : GridGlobal R → List Nat → R)
    (limits : List Int) :
    (g.getCandidateConstructionPointsBy E ops dv f1 limits).1
      = (g.getCandidateConstructionPointsBy E ops dv f2 limits).1 := rfl

end CandidateScores

section HyperbolicScores

variable {R : Type} [LinearOrderedCommRing R] [Div R]

end HyperbolicScores

/-! ## C40: a proposed refinement leaves the loaded interpolant alone -/

section RefinementFrame

variable {R : Type} [LinearOrderedCommRing R] [Div R]

/-- The frame of `setSurplusRefinement`. -/
theorem GridGlobal.setSurplusRefinement_frame (E : Externals R) (g : GridGlobal R) (tolerance : R)
    (output : Nat) (level_limits : List Int) :
    g.setSurplusRefinement E tolerance output level_limits = { g with
      needed := (g.setSurplusRefinement E tolerance output level_limits).needed
      updated_tensors := (g.setSurplusRefinement E tolerance output level_limits).updated_tensors
      updated_active_tensors :=
        (g.setSurplusRefinement E tolerance output level_limits).updated_active_tensors
      updated_active_w := (g.setSurplusRefinement E tolerance output level_limits).updated_active_w
      wrapper := (g.setSurplusRefinement E tolerance output level_limits).wrapper } := by
  unfold GridGlobal.setSurplusRefinement
  simp only []
  split
  · simp [GridGlobal.proposeUpdatedTensors, GridGlobal.clearRefinement]
  · simp [GridGlobal.clearRefinement]

omit [Div R] in
/-- The frame of `updateGrid` on a loaded grid. -/
theorem GridGlobal.updateGrid_frame (E : Externals R) (g : GridGlobal R) (depth : Int)
    (type : TypeDepth) (w limits : List Int) (hout : g.num_outputs ≠ 0)
    (hpts : g.points.empty = false) :
    g.updateGrid E depth type w limits = { g with
      needed := (g.updateGrid E depth type w limits).needed
      updated_tensors := (g.updateGrid E depth type w limits).updated_tensors
      updated_active_tensors := (g.updateGrid E depth type w limits).updated_active_tensors
      updated_active_w := (g.updateGrid E depth type w limits).updated_active_w
      wrapper := (g.updateGrid E depth type w limits).wrapper } := by
  rw [GridGlobal.updateGrid_eq E g depth type w limits hout hpts]
  split
  · simp [GridGlobal.proposeUpdatedTensors, GridGlobal.clearRefinement]
  · simp [GridGlobal.clearRefinement]

/-- C40. A proposed refinement does not touch the loaded interpolant: for a `GridGlobal` with
loaded values (`num_outputs > 0`, `points` non-empty), the grid `g1` returned by
`setSurplusRefinement` or by `updateGrid` is `g` with only `needed`, `updated_tensors`,
`updated_active_tensors`, `updated_active_w` and the 1-D cache `wrapper` replaced; in
particular `tensors`, `active_tensors`, `active_w`, `points`, `values`, `max_levels` and
`tensor_refs` are those of `g`, and `clearRefinement` afterwards leaves `needed` and the
three `updated_*` fields empty and the loaded fields still those of `g`. -/
theorem GridGlobal.refinement_leaves_interpolant (E : Externals R) (g g1 : GridGlobal R)
    (tolerance : R) (output : Nat) (level_limits : List Int) (depth : Int) (type : TypeDepth)
    (w limits : List Int) (hout : g.num_outputs ≠ 0) (hpts : g.points.empty = false)
    (hg1 : g1 = g.setSurplusRefinement E tolerance output level_limits
      ∨ g1 = g.updateGrid E depth type w limits) :
    g1 = { g with
        needed := g1.needed
        updated_tensors := g1.updated_tensors
        updated_active_tensors := g1.updated_active_tensors
        updated_active_w := g1.updated_active_w
        wrapper := g1.wrapper }
    ∧ (g1.tensors = g.tensors ∧ g1.active_tensors = g.active_tensors ∧ g1.active_w = g.active_w
        ∧ g1.points = g.points ∧ g1.values = g.values ∧ g1.max_levels = g.max_levels
        ∧ g1.tensor_refs = g.tensor_refs)
    ∧ (g1.clearRefinement.needed = MultiIndexSet.mk0
        ∧ g1.clearRefinement.updated_tensors = MultiIndexSet.mk0
        ∧ g1.clearRefinement.updated_active_tensors = MultiIndexSet.mk0
        ∧ g1.clearRefinement.updated_active_w = [])
    ∧ g1.clearRefinement = { g.clearRefinement with wrapper := g1.wrapper } := by
  have key : g1 = { g with
        needed := g1.needed
        updated_tensors := g1.updated_tensors
        updated_active_tensors := g1.updated_active_tensors
        updated_active_w := g1.updated_active_w
        wrapper := g1.wrapper } := by
    rcases hg1 with h | h
    · rw [h]; exact GridGlobal.setSurplusRefinement_frame E g tolerance output level_limits
    · rw [h]; exact GridGlobal.updateGrid_frame E g depth type w limits hout hpts
  refine ⟨key, ?_, ⟨rfl, rfl, rfl, rfl⟩, ?_⟩
  · refine ⟨?_, ?_, ?_, ?_, ?_, ?_, ?_⟩ <;> rw [key]
  · rw [key]; rfl

/-- The statement of C40 at `exampleLoadedGrid`, for `updateGrid` at depth 2. -/
theorem GridGlobal.refinement_leaves_interpolant_witness :
    exampleLoadedGrid.num_outputs ≠ 0 ∧ exampleLoadedGrid.points.empty = false
    ∧ ((exampleLoadedGrid.updateGrid exampleExternals 2 TypeDepth.type_level [] []).tensors
          = exampleLoadedGrid.tensors
        ∧ (exampleLoadedGrid.updateGrid exampleExternals 2 TypeDepth.type_level [] []).active_tensors
          = exampleLoadedGrid.active_tensors
        ∧ (exampleLoadedGrid.updateGrid exampleExternals 2 TypeDepth.type_level [] []).active_w
          = exampleLoadedGrid.active_w
        ∧ (exampleLoadedGrid.updateGrid exampleExternals 2 TypeDepth.type_level [] []).points
          = exampleLoadedGrid.points
        ∧ (exampleLoadedGrid.updateGrid exampleExternals 2 TypeDepth.type_level [] []).values
          = exampleLoadedGrid.values
        ∧ (exampleLoadedGrid.updateGrid exampleExternals 2 TypeDepth.type_level [] []).max_levels
          = exampleLoadedGrid.max_levels
        ∧ (exampleLoadedGrid.updateGrid exampleExternals 2 TypeDepth.type_level [] []).tensor_refs
          = exampleLoadedGrid.tensor_refs)
    ∧ (exampleLoadedGrid.updateGrid exampleExternals 2 TypeDepth.type_level [] []).needed.indexes
        = [[3], [4]] :=
  ⟨by decide, by decide,
    (GridGlobal.refinement_leaves_interpolant exampleExternals exampleLoadedGrid
      (exampleLoadedGrid.updateGrid exampleExternals 2 TypeDepth.type_level [] []) 0 0 [] 2
      TypeDepth.type_level [] [] (by decide) (by decide) (Or.inr rfl)).2.1, by decide⟩

end RefinementFrame

/-! ## C36: the assembly of the collocation matrix -/

section CollocationAssembly

variable {R : Type} [CommRing R] [DecidableEq R]

/-- The matrix that is loaded is `load(pntr, indx, vals)` of the assembled vectors. -/
theorem GridWavelet.collocationMatrix_load (E : WaveletExternals R) (order d : Nat)
    (work : MultiIndexSet) :
    GridWavelet.collocationMatrix E order d work
      = SparseMatrix.load (GridWavelet.assembledBlocks E order d work).2.2
          (GridWavelet.assembledBlocks E order d work).1
          (GridWavelet.assembledBlocks E order d work).2.1 := rfl

/-- The number of blocks is `ceil(n / 32)`, and every block but the last has 32 rows, the
last between 1 and 32. -/
theorem GridWavelet.blockRows_length (n b : Nat)
    (hb : b < n / 32 + (if n % 32 = 0 then 0 else 1)) :
    n / 32 + (if n % 32 = 0 then 0 else 1) = (n + 31) / 32
    ∧ 1 ≤ (GridWavelet.blockRows n (n / 32 + (if n % 32 = 0 then 0 else 1)) b).length
    ∧ (GridWavelet.blockRows n (n / 32 + (if n % 32 = 0 then 0 else 1)) b).length ≤ 32
    ∧ (b + 1 < n / 32 + (if n % 32 = 0 then 0 else 1) →
        (GridWavelet.blockRows n (n / 32 + (if n % 32 = 0 then 0 else 1)) b).length = 32) := by
  unfold GridWavelet.blockRows
  rw [List.length_range']
  by_cases h0 : n % 32 = 0
  · rw [if_pos h0] at hb ⊢
    refine ⟨by omega, ?_, ?_, ?_⟩
    · split <;> omega
    · split <;> omega
    · intro h; rw [if_pos h]; omega
  · rw [if_neg h0] at hb ⊢
    refine ⟨by omega, ?_, ?_, ?_⟩
    · split <;> omega
    · split <;> omega
    · intro h; rw [if_pos h]; omega

theorem filterMap_nonzero_eq (v : Nat → R) (L : List Nat) :
    L.filterMap (fun w => if v w ≠ 0 then some (w, v w) else none)
      = (L.filter (fun w => decide (v w ≠ 0))).map (fun w => (w, v w)) := by
  induction L with
  | nil => rfl
  | cons w L ih =>
    by_cases h : v w = 0
    · rw [List.filterMap_cons, List.filter_cons_of_neg (by simp [h])]
      simp only [h, ne_eq, not_true_eq_false, if_false]
      simpa using ih
    · rw [List.filterMap_cons, List.filter_cons_of_pos (by simp [h])]
      simp only [h, ne_eq, not_false_eq_true, if_true, List.map_cons]
      rw [← ih]

/-- The entries pushed for row `i`: the pairs `(k, value)` of the basis functions `k` whose
value at the node of point `i` is not zero, in increasing `k`. -/
theorem GridWavelet.matrixRow_eq (E : WaveletExternals R) (order d : Nat) (work : MultiIndexSet)
    (i : Nat) :
    GridWavelet.matrixRow E order d work i
      = ((List.range work.getNumIndexes).filter
          (fun k => decide (GridWavelet.workBasis E order d work i k ≠ 0))).map
          (fun k => (k, GridWavelet.workBasis E order d work i k)) := by
  unfold GridWavelet.matrixRow
  simp only [GridWavelet.basis_product_eq]
  exact filterMap_nonzero_eq (fun k => GridWavelet.workBasis E order d work i k) _

/-- The assembled vectors: block `b` of `indx` and `vals` holds the entries of its rows, row
after row, and `pntr[i]` is the number of entries of row `i`. -/
theorem GridWavelet.assembledBlocks_eq (E : WaveletExternals R) (order d : Nat)
    (work : MultiIndexSet) :
    GridWavelet.assembledBlocks E order d work
      = ((List.range (work.getNumIndexes / 32 + (if work.getNumIndexes % 32 = 0 then 0 else 1))).map
          (fun b => ((GridWavelet.blockRows work.getNumIndexes
            (work.getNumIndexes / 32 + (if work.getNumIndexes % 32 = 0 then 0 else 1)) b).flatMap
              (GridWavelet.matrixRow E order d work)).map (fun e => e.1)),
        (List.range (work.getNumIndexes / 32 + (if work.getNumIndexes % 32 = 0 then 0 else 1))).map
          (fun b => ((GridWavelet.blockRows work.getNumIndexes
            (work.getNumIndexes / 32 + (if work.getNumIndexes % 32 = 0 then 0 else 1)) b).flatMap
              (GridWavelet.matrixRow E order d work)).map (fun e => e.2)),
        (List.range work.getNumIndexes).map
          (fun i => (GridWavelet.matrixRow E order d work i).length)) := by
  unfold GridWavelet.assembledBlocks GridWavelet.blockRows
  simp only [GridWavelet.matrixBlock, foldl_block_rows, List.nil_append]
  rw [foldl_blocks
    (fun b => ((List.range' (b * 32)
      ((if b + 1 < work.getNumIndexes / 32 + (if work.getNumIndexes % 32 = 0 then 0 else 1)
        then (b + 1) * 32 else work.getNumIndexes) - b * 32)).flatMap
        (GridWavelet.matrixRow E order d work)).map (fun e => e.1))
    (fun b => ((List.range' (b * 32)
      ((if b + 1 < work.getNumIndexes / 32 + (if work.getNumIndexes % 32 = 0 then 0 else 1)
        then (b + 1) * 32 else work.getNumIndexes) - b * 32)).flatMap
        (GridWavelet.matrixRow E order d work)).map (fun e => e.2))
    (fun b pn => (List.range' (b * 32)
      ((if b + 1 < work.getNumIndexes / 32 + (if work.getNumIndexes % 32 = 0 then 0 else 1)
        then (b + 1) * 32 else work.getNumIndexes) - b * 32)).foldl
        (fun pn i => pn.set i (GridWavelet.matrixRow E order d work i).length) pn)]
  simp only
  have hp := foldl_flatMap_eq (fun (pn : List Nat) i => pn.set i (GridWavelet.matrixRow E order d work i).length)
      (fun b => List.range' (b * 32)
        ((if b + 1 < work.getNumIndexes / 32 + (if work.getNumIndexes % 32 = 0 then 0 else 1)
          then (b + 1) * 32 else work.getNumIndexes) - b * 32))
      (List.range (work.getNumIndexes / 32 + (if work.getNumIndexes % 32 = 0 then 0 else 1)))
      (List.replicate work.getNumIndexes 0)
  rw [blocks_cover, foldl_set_range _ _ _ (by simp)] at hp
  rw [foldl_set_range _ _ _ (by simp), foldl_set_range _ _ _ (by simp), ← hp]


/-- C36. Collocation matrix assembly: for a work set of `n` points,
`GridWavelet::buildInterpolationMatrix` uses `ceil(n / 32)` blocks whose row ranges, each of
at most 32 rows (exactly 32 but for the last), concatenate to `0, 1, ..., n - 1`, so every
row is processed once; after the loop `pntr[i]` is the number of basis functions `k` with
`prod_j psi_{p_k,j}(node_i,j) != 0`, the lists `indx[b]` and `vals[b]` of block `b` hold the
indexes `k` and the values of exactly those basis functions, in increasing `k`, for the
rows of the block in increasing `i`; and the matrix loaded from them has, as its row `i`,
these pairs `(k, value)`. -/
theorem GridWavelet.buildInterpolationMatrix_assembly (E : WaveletExternals R)
    (g : GridWavelet R) :
    g.work.getNumIndexes / 32 + (if g.work.getNumIndexes % 32 = 0 then 0 else 1)
      = (g.work.getNumIndexes + 31) / 32
    ∧ (List.range ((g.work.getNumIndexes + 31) / 32)).flatMap
        (GridWavelet.blockRows g.work.getNumIndexes ((g.work.getNumIndexes + 31) / 32))
      = List.range g.work.getNumIndexes
    ∧ (∀ b, b < (g.work.getNumIndexes + 31) / 32 →
        (GridWavelet.blockRows g.work.getNumIndexes ((g.work.getNumIndexes + 31) / 32) b).length ≤ 32
        ∧ (b + 1 < (g.work.getNumIndexes + 31) / 32 →
          (GridWavelet.blockRows g.work.getNumIndexes ((g.work.getNumIndexes + 31) / 32) b).length
            = 32))
    ∧ (GridWavelet.assembledBlocks E g.rule1D_order g.num_dimensions g.work).2.2
      = (List.range g.work.getNumIndexes).map (fun i =>
          ((List.range g.work.getNumIndexes).filter (fun k =>
            decide (GridWavelet.workBasis E g.rule1D_order g.num_dimensions g.work i k ≠ 0))).length)
    ∧ (GridWavelet.assembledBlocks E g.rule1D_order g.num_dimensions g.work).1
      = (List.range ((g.work.getNumIndexes + 31) / 32)).map (fun b =>
          (GridWavelet.blockRows g.work.getNumIndexes ((g.work.getNumIndexes + 31) / 32) b).flatMap
            (fun i => (List.range g.work.getNumIndexes).filter (fun k =>
              decide (GridWavelet.workBasis E g.rule1D_order g.num_dimensions g.work i k ≠ 0))))
    ∧ (GridWavelet.assembledBlocks E g.rule1D_order g.num_dimensions g.work).2.1
      = (List.range ((g.work.getNumIndexes + 31) / 32)).map (fun b =>
          (GridWavelet.blockRows g.work.getNumIndexes ((g.work.getNumIndexes + 31) / 32) b).flatMap
            (fun i => ((List.range g.work.getNumIndexes).filter (fun k =>
              decide (GridWavelet.workBasis E g.rule1D_order g.num_dimensions g.work i k ≠ 0))).map
              (fun k => GridWavelet.workBasis E g.rule1D_order g.num_dimensions g.work i k)))
    ∧ (g.buildInterpolationMatrix E).inter_matrix
      = SparseMatrix.load (GridWavelet.assembledBlocks E g.rule1D_order g.num_dimensions g.work).2.2
          (GridWavelet.assembledBlocks E g.rule1D_order g.num_dimensions g.work).1
          (GridWavelet.assembledBlocks E g.rule1D_order g.num_dimensions g.work).2.1
    ∧ (∀ i, i < g.work.getNumIndexes →
        (g.buildInterpolationMatrix E).inter_matrix.row i
          = ((List.range g.work.getNumIndexes).filter (fun k =>
              decide (GridWavelet.workBasis E g.rule1D_order g.num_dimensions g.work i k ≠ 0))).map
              (fun k => (k, GridWavelet.workBasis E g.rule1D_order g.num_dimensions g.work i k))) := by
  have hnb : g.work.getNumIndexes / 32 + (if g.work.getNumIndexes % 32 = 0 then 0 else 1)
      = (g.work.getNumIndexes + 31) / 32 := by
    split <;> omega
  have hab := GridWavelet.assembledBlocks_eq E g.rule1D_order g.num_dimensions g.work
  rw [hnb] at hab
  refine ⟨hnb, ?_, ?_, ?_, ?_, ?_, rfl, ?_⟩
  · have h := blocks_cover g.work.getNumIndexes
    rw [hnb] at h
    exact h
  · intro b hb
    have h := GridWavelet.blockRows_length g.work.getNumIndexes b (by rw [hnb]; exact hb)
    rw [hnb] at h
    exact ⟨h.2.2.1, h.2.2.2⟩
  · rw [hab]
    apply List.map_congr_left
    intro i _
    rw [GridWavelet.matrixRow_eq, List.length_map]
  · rw [hab]
    apply List.map_congr_left
    intro b _
    rw [List.map_flatMap]
    apply List.flatMap_congr
    intro i _
    rw [GridWavelet.matrixRow_eq, List.map_map]
    exact List.map_id _
  · rw [hab]
    apply List.map_congr_left
    intro b _
    rw [List.map_flatMap]
    apply List.flatMap_congr
    intro i _
    rw [GridWavelet.matrixRow_eq, List.map_map]
    rfl
  · intro i hi
    have h : (g.buildInterpolationMatrix E).inter_matrix
        = GridWavelet.collocationMatrix E g.rule1D_order g.num_dimensions g.work := rfl
    rw [h, GridWavelet.collocationMatrix_row E _ _ _ i hi, GridWavelet.matrixRow_eq]

/-- The statement of C36 at the example wavelet grid: its three points make one block with
the rows 0, 1, 2, every row has one entry (`pntr = [1, 1, 1]`) and the block lists are
`indx = [0, 1, 2]`, `vals = [1, 1, 1]`. -/
theorem GridWavelet.buildInterpolationMatrix_assembly_witness :
    (exampleWaveletGrid.work.getNumIndexes + 31) / 32 = 1
    ∧ GridWavelet.blockRows exampleWaveletGrid.work.getNumIndexes 1 0 = [0, 1, 2]
    ∧ GridWavelet.assembledBlocks exampleWaveletExternals exampleWaveletGrid.rule1D_order
        exampleWaveletGrid.num_dimensions exampleWaveletGrid.work = ([[0, 1, 2]], [[1, 1, 1]], [1, 1, 1])
    ∧ (exampleWaveletGrid.buildInterpolationMatrix exampleWaveletExternals).inter_matrix
      = SparseMatrix.load
          (GridWavelet.assembledBlocks exampleWaveletExternals exampleWaveletGrid.rule1D_order
            exampleWaveletGrid.num_dimensions exampleWaveletGrid.work).2.2
          (GridWavelet.assembledBlocks exampleWaveletExternals exampleWaveletGrid.rule1D_order
            exampleWaveletGrid.num_dimensions exampleWaveletGrid.work).1
          (GridWavelet.assembledBlocks exampleWaveletExternals exampleWaveletGrid.rule1D_order
            exampleWaveletGrid.num_dimensions exampleWaveletGrid.work).2.1 :=
  ⟨by decide, by decide, by decide,
    (GridWavelet.buildInterpolationMatrix_assembly exampleWaveletExternals
      exampleWaveletGrid).2.2.2.2.2.2.1⟩

end CollocationAssembly

/-! ## C37: wavelet quadrature duality -/

section WaveletDuality

variable {R : Type} [CommRing R] [DecidableEq R]

/-- `integrate` without a conformal correction, output by output. -/
theorem GridWavelet.integrate_none (E : WaveletExternals R) (g : GridWavelet R) (k : Nat)
    (hk : k < g.num_outputs) :
    (g.integrate E none).getD k 0
      = ∑ p in Finset.range g.points.getNumIndexes,
          g.evalIntegral E (g.points.getIndex p) * g.coefficients.get p k := by
  unfold GridWavelet.integrate
  simp only
  rw [List.getD_eq_getElem?_getD, List.getElem?_map, List.getElem?_range hk]
  simp only [Option.map_some', Option.getD_some]
  rw [foldl_add_eq_sum, zero_add, sum_map_range_eq]
  apply Finset.sum_congr rfl
  intro p hp
  have hpn : p < g.points.getNumIndexes := Finset.mem_range.mp hp
  rw [List.getD_eq_getElem?_getD, List.getElem?_map, List.getElem?_range hpn]
  rfl

/-- `integrate` with a conformal correction, output by output. -/
theorem GridWavelet.integrate_some (E : WaveletExternals R) (g : GridWavelet R) (cc : List R)
    (k : Nat) (hk : k < g.num_outputs) :
    (g.integrate E (some cc)).getD k 0
      = ∑ i in Finset.range g.points.getNumIndexes,
          (g.getQuadratureWeights E).getD i 0 * cc.getD i 0 * (g.values.getValues i).getD k 0 := by
  unfold GridWavelet.integrate
  simp only
  rw [(getD_foldl_rows
    (fun i k => (g.getQuadratureWeights E).getD i 0 * cc.getD i 0 * (g.values.getValues i).getD k 0)
    g.num_outputs (List.range g.points.getNumIndexes) (List.replicate g.num_outputs 0) k
    (by simpa using hk) hk).1, sum_map_range_eq]
  have : (List.replicate g.num_outputs (0 : R)).getD k 0 = 0 := by
    rw [List.getD_eq_getElem?_getD, List.getElem?_replicate]
    simp [hk]
  rw [this, zero_add]

/-- The quadrature weights of a grid with loaded points and a current matrix are the
solver's answer for the transposed system with the basis integrals on the right. -/
theorem GridWavelet.getQuadratureWeights_getD (E : WaveletExternals R) (g : GridWavelet R)
    (hpts : g.points.empty = false)
    (hM : g.inter_matrix = GridWavelet.collocationMatrix E g.rule1D_order g.num_dimensions g.points)
    (i : Nat) (hi : i < g.points.getNumIndexes) :
    (g.getQuadratureWeights E).getD i 0
      = (E.solve g.inter_matrix
          ((List.range g.points.getNumIndexes).map (fun i => g.evalIntegral E (g.points.getIndex i)))
          true).getD i 0 := by
  have hw : g.work = g.points := by
    unfold GridWavelet.work
    rw [hpts]; rfl
  have hrows : g.inter_matrix.getNumRows = g.points.getNumIndexes := by
    rw [hM]; exact GridWavelet.collocationMatrix_num_rows E _ _ _
  unfold GridWavelet.getQuadratureWeights GridWavelet.solveTransposed
  simp only [hw, hrows, List.length_map, List.length_range]
  rw [List.getD_eq_getElem?_getD, List.getElem?_map, List.getElem?_range hi]
  simp only [Option.map_some', Option.getD_some, if_pos hi]
  rw [List.take_of_length_le (by simp)]

/-- The duality of the two quadrature formulas: when the stored matrix is the collocation
matrix of the loaded points, `M * coefficients = values` and the transposed solve is exact,
the sum of weight times value is the sum of basis integral times coefficient. -/
theorem GridWavelet.integrate_duality_of_collocation (E : WaveletExternals R) (g : GridWavelet R)
    (hpts : g.points.empty = false)
    (hM : g.inter_matrix = GridWavelet.collocationMatrix E g.rule1D_order g.num_dimensions g.points)
    (hT : TransposedSolverExact E g.inter_matrix g.points.getNumIndexes)
    (k : Nat) (hk : k < g.num_outputs)
    (hv : ∀ i, i < g.points.getNumIndexes →
      ∑ p in Finset.range g.points.getNumIndexes, g.basisAtNode E i p * g.coefficients.get p k
        = (g.values.getValues i).getD k 0) :
    (g.integrate E (some (List.replicate g.points.getNumIndexes 1))).getD k 0
      = (g.integrate E none).getD k 0 := by
  rw [GridWavelet.integrate_some E g _ k hk, GridWavelet.integrate_none E g k hk]
  have h1 : ∀ i ∈ Finset.range g.points.getNumIndexes,
      (g.getQuadratureWeights E).getD i 0 * (List.replicate g.points.getNumIndexes (1 : R)).getD i 0
          * (g.values.getValues i).getD k 0
        = ∑ p in Finset.range g.points.getNumIndexes,
            (g.inter_matrix.entry i p * (E.solve g.inter_matrix
              ((List.range g.points.getNumIndexes).map
                (fun i => g.evalIntegral E (g.points.getIndex i))) true).getD i 0)
              * g.coefficients.get p k := by
    intro i hi
    have hin : i < g.points.getNumIndexes := Finset.mem_range.mp hi
    have hone : (List.replicate g.points.getNumIndexes (1 : R)).getD i 0 = 1 := by
      rw [List.getD_eq_getElem?_getD, List.getElem?_replicate]
      simp [hin]
    rw [hone, mul_one, GridWavelet.getQuadratureWeights_getD E g hpts hM i hin, ← hv i hin,
      Finset.mul_sum]
    apply Finset.sum_congr rfl
    intro p hp
    have hpn : p < g.points.getNumIndexes := Finset.mem_range.mp hp
    have he : g.inter_matrix.entry i p = g.basisAtNode E i p := by
      conv_lhs => rw [hM]
      rw [GridWavelet.collocationMatrix_entry E _ _ _ i p hin hpn]
      rfl
    rw [he]
    ring
  rw [Finset.sum_congr rfl h1, Finset.sum_comm]
  apply Finset.sum_congr rfl
  intro p hp
  have hpn : p < g.points.getNumIndexes := Finset.mem_range.mp hp
  rw [← Finset.sum_mul, hT _ p hpn]
  rw [List.getD_eq_getElem?_getD, List.getElem?_map, List.getElem?_range hpn]
  rfl

/-- C37. Wavelet quadrature duality: for a loaded `GridWavelet` (the grid after
`loadNeededPoints`, with points) whose solves are exact, both for `M c = values` and for the
transposed system `M^T w = q`, `integrate` with a conformal correction of all ones returns
for every output `k` the same `q[k]` as `integrate` with no conformal correction; the first
is `sum_i w_i * values[i][k]` with `w = getQuadratureWeights`, the solution of `M^T w = q`
for the basis integrals `q_i = evalIntegral(p_i)`, and the second is
`sum_i q_i * coefficients[i][k]`. -/
theorem GridWavelet.integrate_duality (E : WaveletExternals R) (g : GridWavelet R) (vals : List R)
    (hinv : g.MatrixCurrent E)
    (hpts : (g.loadNeededPoints E vals).points.empty = false)
    (hS : SolverExact E (g.loadNeededPoints E vals).inter_matrix
      (g.loadNeededPoints E vals).points.getNumIndexes)
    (hT : TransposedSolverExact E (g.loadNeededPoints E vals).inter_matrix
      (g.loadNeededPoints E vals).points.getNumIndexes)
    (k : Nat) (hk : k < (g.loadNeededPoints E vals).num_outputs) :
    ((g.loadNeededPoints E vals).integrate E
        (some (List.replicate (g.loadNeededPoints E vals).points.getNumIndexes 1))).getD k 0
      = ((g.loadNeededPoints E vals).integrate E none).getD k 0
    ∧ ((g.loadNeededPoints E vals).integrate E
        (some (List.replicate (g.loadNeededPoints E vals).points.getNumIndexes 1))).getD k 0
      = ∑ i in Finset.range (g.loadNeededPoints E vals).points.getNumIndexes,
          ((g.loadNeededPoints E vals).getQuadratureWeights E).getD i 0
            * ((g.loadNeededPoints E vals).values.getValues i).getD k 0
    ∧ ((g.loadNeededPoints E vals).integrate E none).getD k 0
      = ∑ i in Finset.range (g.loadNeededPoints E vals).points.getNumIndexes,
          (g.loadNeededPoints E vals).evalIntegral E ((g.loadNeededPoints E vals).points.getIndex i)
            * (g.loadNeededPoints E vals).coefficients.get i k
    ∧ (∀ p, p < (g.loadNeededPoints E vals).points.getNumIndexes →
        ∑ i in Finset.range (g.loadNeededPoints E vals).points.getNumIndexes,
          (g.loadNeededPoints E vals).inter_matrix.entry i p
            * ((g.loadNeededPoints E vals).getQuadratureWeights E).getD i 0
        = (g.loadNeededPoints E vals).evalIntegral E
            ((g.loadNeededPoints E vals).points.getIndex p)) := by
  obtain ⟨hM, hc, _, _, _⟩ := GridWavelet.loadNeededPoints_solved E g vals hinv
  refine ⟨?_, ?_, GridWavelet.integrate_none E _ k hk, ?_⟩
  · exact GridWavelet.integrate_duality_of_collocation E _ hpts hM hT k hk
      (fun i hi => GridWavelet.collocation_times_coefficients E _ hM hc hS i k hi hk)
  · rw [GridWavelet.integrate_some E _ _ k hk]
    apply Finset.sum_congr rfl
    intro i hi
    have hin := Finset.mem_range.mp hi
    have hone : (List.replicate (g.loadNeededPoints E vals).points.getNumIndexes (1 : R)).getD i 0
        = 1 := by
      rw [List.getD_eq_getElem?_getD, List.getElem?_replicate]
      simp [hin]
    rw [hone, mul_one]
  · intro p hp
    have h := hT ((List.range (g.loadNeededPoints E vals).points.getNumIndexes).map
      (fun i => (g.loadNeededPoints E vals).evalIntegral E
        ((g.loadNeededPoints E vals).points.getIndex i))) p hp
    rw [List.getD_eq_getElem?_getD, List.getElem?_map, List.getElem?_range hp] at h
    simp only [Option.map_some', Option.getD_some] at h
    rw [← h]
    apply Finset.sum_congr rfl
    intro i hi
    rw [GridWavelet.getQuadratureWeights_getD E _ hpts hM i (Finset.mem_range.mp hi)]

/-- The transposed solve of the example collaborators is exact on the matrix of the loaded
example grid, which is the identity. -/
theorem exampleWaveletGrid_transposedExact :
    TransposedSolverExact exampleWaveletExternals
      (exampleWaveletGrid.loadNeededPoints exampleWaveletExternals [7, 8, 9]).inter_matrix
      (exampleWaveletGrid.loadNeededPoints exampleWaveletExternals [7, 8, 9]).points.getNumIndexes := by
  intro b p hp
  have h3 : (exampleWaveletGrid.loadNeededPoints exampleWaveletExternals [7, 8, 9]).points.getNumIndexes
      = 3 := by decide
  rw [h3] at hp ⊢
  have hs : exampleWaveletExternals.solve
      (exampleWaveletGrid.loadNeededPoints exampleWaveletExternals [7, 8, 9]).inter_matrix b true
      = b := rfl
  have he : ∀ i : Fin 3, ∀ q : Fin 3,
      (exampleWaveletGrid.loadNeededPoints exampleWaveletExternals [7, 8, 9]).inter_matrix.entry
        i.val q.val = if i.val = q.val then 1 else 0 := by decide
  rw [hs]
  simp only [Finset.sum_range_succ, Finset.sum_range_zero, zero_add]
  rw [he ⟨0, by omega⟩ ⟨p, hp⟩, he ⟨1, by omega⟩ ⟨p, hp⟩, he ⟨2, by omega⟩ ⟨p, hp⟩]
  interval_cases p <;> simp

/-- The statement of C37 at the example wavelet grid loaded with the values 7, 8, 9: both
quadrature formulas give `7 + 8 + 9 = 24`. -/
theorem GridWavelet.integrate_duality_witness :
    exampleWaveletGrid.MatrixCurrent exampleWaveletExternals
    ∧ (exampleWaveletGrid.loadNeededPoints exampleWaveletExternals [7, 8, 9]).points.empty = false
    ∧ 0 < (exampleWaveletGrid.loadNeededPoints exampleWaveletExternals [7, 8, 9]).num_outputs
    ∧ ((exampleWaveletGrid.loadNeededPoints exampleWaveletExternals [7, 8, 9]).integrate
        exampleWaveletExternals
        (some (List.replicate (exampleWaveletGrid.loadNeededPoints exampleWaveletExternals
          [7, 8, 9]).points.getNumIndexes 1))).getD 0 0
      = ((exampleWaveletGrid.loadNeededPoints exampleWaveletExternals [7, 8, 9]).integrate
          exampleWaveletExternals none).getD 0 0
    ∧ ((exampleWaveletGrid.loadNeededPoints exampleWaveletExternals [7, 8, 9]).integrate
          exampleWaveletExternals none).getD 0 0 = 24 :=
  ⟨exampleWaveletGrid_matrixCurrent, by decide, by decide,
    (GridWavelet.integrate_duality exampleWaveletExternals exampleWaveletGrid [7, 8, 9]
      exampleWaveletGrid_matrixCurrent (by decide) exampleWaveletGrid_solverExact
      exampleWaveletGrid_transposedExact 0 (by decide)).1, by decide⟩

end WaveletDuality

/-! ## C38: the proposed points are new -/

section ProposedPointsNew

theorem MultiIndexSet.length_insertIndex_of_not_mem (p : List Nat) (xs : List (List Nat))
    (h : p ∉ xs) : (MultiIndexSet.insertIndex p xs).length = xs.length + 1 := by
  induction xs with
  | nil => rfl
  | cons x xs ih =>
    unfold MultiIndexSet.insertIndex
    by_cases h1 : MultiIndexSet.lexLt p x = true
    · rw [if_pos h1]; rfl
    · rw [if_neg h1]
      by_cases h2 : MultiIndexSet.lexLt x p = true
      · rw [if_pos h2, List.length_cons, ih (fun hm => h (List.mem_cons_of_mem _ hm))]
        rfl
      · have hpx : p = x :=
          MultiIndexSet.lexLt_total p x (by simpa using h1) (by simpa using h2)
        exact absurd (hpx ▸ List.mem_cons_self _ _) h

/-- The union with a list of distinct tuples, none of which is in the set, has as many
tuples as the two together. -/
theorem MultiIndexSet.length_mergeIndexes_disjoint (a b : List (List Nat)) (hb : b.Nodup)
    (hd : ∀ p ∈ b, p ∉ a) : (MultiIndexSet.mergeIndexes a b).length = a.length + b.length := by
  unfold MultiIndexSet.mergeIndexes
  induction b generalizing a with
  | nil => rfl
  | cons p b ih =>
    rw [List.foldl_cons, ih _ (List.nodup_cons.mp hb).2, 
      MultiIndexSet.length_insertIndex_of_not_mem p a (hd p (List.mem_cons_self _ _)),
      List.length_cons]
    · omega
    · intro q hq hmem
      rw [MultiIndexSet.mem_insertIndex] at hmem
      rcases hmem with h | h
      · subst h
        exact (List.nodup_cons.mp hb).1 hq
      · exact hd q (List.mem_cons_of_mem _ hq) h

theorem MultiIndexSet.nodup_of_ordered (s : MultiIndexSet) (h : s.Ordered) : s.indexes.Nodup := by
  refine List.Pairwise.imp ?_ h
  intro x y hxy hne
  rw [hne, MultiIndexSet.lexLt_irrefl] at hxy
  cases hxy

/-- The set difference is ordered, and none of its tuples is in the subtracted set. -/
theorem MultiIndexSet.diffSets_spec (s t : MultiIndexSet) (h : s.Ordered) :
    (s.diffSets t).Ordered ∧ ∀ p ∈ (s.diffSets t).indexes, p ∉ t.indexes := by
  unfold MultiIndexSet.diffSets MultiIndexSet.Ordered
  refine ⟨List.Pairwise.filter _ h, ?_⟩
  intro p hp
  simp only [List.mem_filter, MultiIndexSet.missing, Bool.not_eq_true', List.contains_eq_any_beq,
    List.any_eq_false, beq_iff_eq] at hp
  intro hm
  exact hp.2 p hm rfl


section GlobalCount

variable {R : Type} [LinearOrderedCommRing R] [Div R]

omit [LinearOrderedCommRing R] [Div R] in
/-- The pending points of `proposeUpdatedTensors` are a generated point set minus `points`. -/
theorem GridGlobal.proposeUpdatedTensors_new (E : Externals R) (g : GridGlobal R)
    (hnested : ∀ T N, (E.generateNestedPoints T N).Ordered)
    (hnon : ∀ T w, (E.generateNonNestedPoints T w).Ordered) :
    (g.proposeUpdatedTensors E).needed.Ordered
    ∧ (∀ p ∈ (g.proposeUpdatedTensors E).needed.indexes, p ∉ g.points.indexes)
    ∧ (g.proposeUpdatedTensors E).points = g.points
    ∧ (g.proposeUpdatedTensors E).num_outputs = g.num_outputs := by
  refine ⟨?_, ?_, rfl, rfl⟩
  · unfold GridGlobal.proposeUpdatedTensors
    simp only
    split
    · exact (MultiIndexSet.diffSets_spec _ g.points (hnon _ _)).1
    · exact (MultiIndexSet.diffSets_spec _ g.points (hnested _ _)).1
  · unfold GridGlobal.proposeUpdatedTensors
    simp only
    split
    · exact (MultiIndexSet.diffSets_spec _ g.points (hnon _ _)).2
    · exact (MultiIndexSet.diffSets_spec _ g.points (hnested _ _)).2

omit [LinearOrderedCommRing R] [Div R] in
/-- The number of points after the load or the merge of a proposal whose points are new. -/
theorem GridGlobal.count_after_accept [Zero R] (E : Externals R) (s : GridGlobal R) (vals : List R)
    (hout : s.num_outputs ≠ 0) (hpts : s.points.empty = false) (hord : s.needed.Ordered)
    (hnew : ∀ p ∈ s.needed.indexes, p ∉ s.points.indexes) :
    (s.loadNeededPoints E vals).getNumPoints = s.getNumLoaded + s.getNumNeeded
    ∧ (s.mergeRefinement E).getNumPoints = s.getNumLoaded + s.getNumNeeded := by
  have hloaded : s.getNumLoaded = s.points.getNumIndexes := by
    unfold GridGlobal.getNumLoaded
    rw [if_neg hout]
  have hlen : (s.points.addMultiIndexSet s.needed).getNumIndexes
      = s.points.getNumIndexes + s.needed.getNumIndexes :=
    MultiIndexSet.length_mergeIndexes_disjoint _ _ (MultiIndexSet.nodup_of_ordered _ hord) hnew
  rw [hloaded]
  by_cases hn : s.needed.empty = true
  · have h0 : s.getNumNeeded = 0 := by
      unfold GridGlobal.getNumNeeded MultiIndexSet.getNumIndexes
      rw [(MultiIndexSet.empty_iff _).mp hn]; rfl
    rw [h0]
    constructor
    · unfold GridGlobal.loadNeededPoints GridGlobal.acceptUpdatedTensors GridGlobal.getNumPoints
      simp [hpts, hn]
    · unfold GridGlobal.mergeRefinement GridGlobal.getNumPoints
      simp [hpts, hn]
  · have hn2 : s.needed.empty = false := by simpa using hn
    have hne : (s.points.addMultiIndexSet s.needed).empty = false :=
      MultiIndexSet.addMultiIndexSet_not_empty _ _ hpts
    constructor
    · unfold GridGlobal.loadNeededPoints GridGlobal.acceptUpdatedTensors GridGlobal.getNumPoints
      simp [hpts, hn2, GridGlobal.recomputeTensorRefs, hne]
      exact hlen
    · unfold GridGlobal.mergeRefinement GridGlobal.acceptUpdatedTensors GridGlobal.getNumPoints
      simp [hpts, hn2, GridGlobal.recomputeTensorRefs, hne]
      exact hlen

omit [Div R] in
/-- After `updateGrid` on a loaded grid the pending points are new. -/
theorem GridGlobal.updateGrid_new (E : Externals R) (g : GridGlobal R) (depth : Int)
    (type : TypeDepth) (w limits : List Int) (hout : g.num_outputs ≠ 0)
    (hpts : g.points.empty = false)
    (hnested : ∀ T N, (E.generateNestedPoints T N).Ordered)
    (hnon : ∀ T w, (E.generateNonNestedPoints T w).Ordered) :
    (g.updateGrid E depth type w limits).needed.Ordered
    ∧ (∀ p ∈ (g.updateGrid E depth type w limits).needed.indexes, p ∉ g.points.indexes)
    ∧ (g.updateGrid E depth type w limits).points = g.points
    ∧ (g.updateGrid E depth type w limits).num_outputs = g.num_outputs := by
  rw [GridGlobal.updateGrid_eq E g depth type w limits hout hpts]
  split
  · exact GridGlobal.proposeUpdatedTensors_new E _ hnested hnon
  · exact ⟨List.Pairwise.nil, fun p hp => absurd hp (List.not_mem_nil p), rfl, rfl⟩

/-- After `setSurplusRefinement` the pending points are new. -/
theorem GridGlobal.setSurplusRefinement_new (E : Externals R) (g : GridGlobal R) (tolerance : R)
    (output : Nat) (level_limits : List Int)
    (hnested : ∀ T N, (E.generateNestedPoints T N).Ordered)
    (hnon : ∀ T w, (E.generateNonNestedPoints T w).Ordered) :
    (g.setSurplusRefinement E tolerance output level_limits).needed.Ordered
    ∧ (∀ p ∈ (g.setSurplusRefinement E tolerance output level_limits).needed.indexes,
        p ∉ g.points.indexes)
    ∧ (g.setSurplusRefinement E tolerance output level_limits).points = g.points
    ∧ (g.setSurplusRefinement E tolerance output level_limits).num_outputs = g.num_outputs := by
  unfold GridGlobal.setSurplusRefinement
  simp only
  split
  · exact GridGlobal.proposeUpdatedTensors_new E _ hnested hnon
  · exact ⟨List.Pairwise.nil, fun p hp => absurd hp (List.not_mem_nil p), rfl, rfl⟩

end GlobalCount

section WaveletCount

variable {R : Type} [LinearOrderedCommRing R] [Div R]

omit [LinearOrderedCommRing R] [Div R] in
/-- Every tuple of the refinement list is missing from `points`. -/
theorem GridWavelet.refinementList_missing (E : WaveletExternals R) (g : GridWavelet R)
    (pmap : Data2D Nat) (useParents : Bool) (level_limits : List Int) (q : List Nat)
    (hq : q ∈ g.refinementList E pmap useParents level_limits) : q ∉ g.points.indexes := by
  have hmiss : g.points.missing q = true := by
    unfold GridWavelet.refinementList at hq
    simp only [List.mem_flatMap, List.mem_range] at hq
    obtain ⟨i, _, j, _, hq⟩ := hq
    split at hq
    · unfold GridWavelet.pairRefinement at hq
      split at hq
      · exact ((GridWavelet.mem_missingParents E g _ _ q).mp hq).1
      · obtain ⟨c, _, _, hm, _, rfl⟩ := (GridWavelet.mem_newChildren E g _ _ _ q).mp hq
        exact hm
    · exact absurd hq (List.not_mem_nil q)
  intro hmem
  unfold MultiIndexSet.missing at hmiss
  simp only [Bool.not_eq_true', List.contains_eq_any_beq, List.any_eq_false, beq_iff_eq] at hmiss
  exact hmiss q hmem rfl

/-- After the wavelet `setSurplusRefinement` the pending points are new. -/
theorem GridWavelet.wavelet_setSurplusRefinement_new (E : WaveletExternals R) (g : GridWavelet R)
    (tolerance : R) (criteria : TypeRefinement) (output : Int) (level_limits : List Int) :
    (g.setSurplusRefinement E tolerance criteria output level_limits).needed.Ordered
    ∧ (∀ p ∈ (g.setSurplusRefinement E tolerance criteria output level_limits).needed.indexes,
        p ∉ g.points.indexes)
    ∧ (g.setSurplusRefinement E tolerance criteria output level_limits).points = g.points
    ∧ (g.setSurplusRefinement E tolerance criteria output level_limits).num_outputs
        = g.num_outputs := by
  rw [GridWavelet.setSurplusRefinement_eq_refinementList]
  split
  · refine ⟨?_, ?_, rfl, rfl⟩
    · exact MultiIndexSet.pairwise_mergeIndexes _ _ List.Pairwise.nil
    · intro p hp
      have hp2 := (MultiIndexSet.mem_addMultiIndexSet p _ _).mp hp
      rcases hp2 with h | h
      · exact absurd h (List.not_mem_nil p)
      · exact GridWavelet.refinementList_missing E g _ _ _ p h
  · exact ⟨List.Pairwise.nil, fun p hp => absurd hp (List.not_mem_nil p), rfl, rfl⟩

omit [Div R] in
/-- The number of points after the wavelet load or merge of a proposal whose points are
new. -/
theorem GridWavelet.wavelet_count_after_accept (E : WaveletExternals R) (s : GridWavelet R)
    (vals : List R) (hout : s.num_outputs ≠ 0) (hpts : s.points.empty = false)
    (hord : s.needed.Ordered) (hnew : ∀ p ∈ s.needed.indexes, p ∉ s.points.indexes) :
    (s.loadNeededPoints E vals).getNumPoints = s.getNumLoaded + s.getNumNeeded
    ∧ (s.mergeRefinement E).getNumPoints = s.getNumLoaded + s.getNumNeeded := by
  have hloaded : s.getNumLoaded = s.points.getNumIndexes := by
    unfold GridWavelet.getNumLoaded
    rw [if_neg hout]
  have hlen : (s.points.addMultiIndexSet s.needed).getNumIndexes
      = s.points.getNumIndexes + s.needed.getNumIndexes :=
    MultiIndexSet.length_mergeIndexes_disjoint _ _ (MultiIndexSet.nodup_of_ordered _ hord) hnew
  have hne : (s.points.addMultiIndexSet s.needed).empty = false :=
    MultiIndexSet.addMultiIndexSet_not_empty _ _ hpts
  rw [hloaded]
  by_cases hn : s.needed.empty = true
  · have h0 : s.getNumNeeded = 0 := by
      unfold GridWavelet.getNumNeeded MultiIndexSet.getNumIndexes
      rw [(MultiIndexSet.empty_iff _).mp hn]; rfl
    rw [h0]
    constructor
    · unfold GridWavelet.loadNeededPoints GridWavelet.getNumPoints
      rw [(GridWavelet.recomputeCoefficients_spec E _).2.2.1,
        (GridWavelet.recomputeCoefficients_spec E _).2.2.2.1]
      simp [hpts, hn]
    · unfold GridWavelet.mergeRefinement GridWavelet.getNumPoints
      simp [hpts, hn]
  · have hn2 : s.needed.empty = false := by simpa using hn
    constructor
    · unfold GridWavelet.loadNeededPoints GridWavelet.getNumPoints
      rw [(GridWavelet.recomputeCoefficients_spec E _).2.2.1,
        (GridWavelet.recomputeCoefficients_spec E _).2.2.2.1]
      simp [hpts, hn2, GridWavelet.buildInterpolationMatrix, hne]
      exact hlen
    · unfold GridWavelet.mergeRefinement GridWavelet.getNumPoints
      simp [hpts, hn2, GridWavelet.buildInterpolationMatrix, hne]
      exact hlen

/-- C38. Proposed points are new: on a loaded grid (`num_outputs > 0`, `points` non-empty),
after `GridGlobal::updateGrid`, `GridGlobal::setSurplusRefinement` or
`GridGlobal::proposeUpdatedTensors` (the generators returning point sets without repeats),
and after `GridWavelet::setSurplusRefinement` with any criteria and level limits, no tuple
of `needed` is in `points`, and `getNumLoaded() + getNumNeeded()` is the number of points
of the grid after the next `loadNeededPoints` and after `mergeRefinement`. -/
theorem proposed_points_new (E : Externals R) (EW : WaveletExternals R) (g g1 : GridGlobal R)
    (gw : GridWavelet R) (tolerance : R) (output : Nat) (level_limits : List Int) (depth : Int)
    (type : TypeDepth) (w limits : List Int) (criteria : TypeRefinement) (woutput : Int)
    (wlimits : List Int) (vals wvals : List R)
    (hout : g.num_outputs ≠ 0) (hpts : g.points.empty = false)
    (hwout : gw.num_outputs ≠ 0) (hwpts : gw.points.empty = false)
    (hnested : ∀ T N, (E.generateNestedPoints T N).Ordered)
    (hnon : ∀ T w, (E.generateNonNestedPoints T w).Ordered)
    (hg1 : g1 = g.updateGrid E depth type w limits
      ∨ g1 = g.setSurplusRefinement E tolerance output level_limits
      ∨ g1 = g.proposeUpdatedTensors E) :
    ((∀ p ∈ g1.needed.indexes, p ∉ g1.points.indexes)
      ∧ (g1.loadNeededPoints E vals).getNumPoints = g1.getNumLoaded + g1.getNumNeeded
      ∧ (g1.mergeRefinement E).getNumPoints = g1.getNumLoaded + g1.getNumNeeded)
    ∧ ((∀ p ∈ (gw.setSurplusRefinement EW tolerance criteria woutput wlimits).needed.indexes,
          p ∉ (gw.setSurplusRefinement EW tolerance criteria woutput wlimits).points.indexes)
      ∧ ((gw.setSurplusRefinement EW tolerance criteria woutput wlimits).loadNeededPoints EW
            wvals).getNumPoints
          = (gw.setSurplusRefinement EW tolerance criteria woutput wlimits).getNumLoaded
            + (gw.setSurplusRefinement EW tolerance criteria woutput wlimits).getNumNeeded
      ∧ ((gw.setSurplusRefinement EW tolerance criteria woutput wlimits).mergeRefinement
            EW).getNumPoints
          = (gw.setSurplusRefinement EW tolerance criteria woutput wlimits).getNumLoaded
            + (gw.setSurplusRefinement EW tolerance criteria woutput wlimits).getNumNeeded) := by
  constructor
  · have key : g1.needed.Ordered ∧ (∀ p ∈ g1.needed.indexes, p ∉ g.points.indexes)
        ∧ g1.points = g.points ∧ g1.num_outputs = g.num_outputs := by
      rcases hg1 with h | h | h
      · rw [h]; exact GridGlobal.updateGrid_new E g depth type w limits hout hpts hnested hnon
      · rw [h]; exact GridGlobal.setSurplusRefinement_new E g tolerance output level_limits hnested hnon
      · rw [h]; exact GridGlobal.proposeUpdatedTensors_new E g hnested hnon
    obtain ⟨k1, k2, k3, k4⟩ := key
    have hnew : ∀ p ∈ g1.needed.indexes, p ∉ g1.points.indexes := by
      rw [k3]; exact k2
    exact ⟨hnew, GridGlobal.count_after_accept E g1 vals (by rw [k4]; exact hout)
      (by rw [k3]; exact hpts) k1 hnew⟩
  · obtain ⟨k1, k2, k3, k4⟩ :=
      GridWavelet.wavelet_setSurplusRefinement_new EW gw tolerance criteria woutput wlimits
    have hnew : ∀ p ∈ (gw.setSurplusRefinement EW tolerance criteria woutput wlimits).needed.indexes,
        p ∉ (gw.setSurplusRefinement EW tolerance criteria woutput wlimits).points.indexes := by
      rw [k3]; exact k2
    exact ⟨hnew, GridWavelet.wavelet_count_after_accept EW _ wvals (by rw [k4]; exact hwout)
      (by rw [k3]; exact hwpts) k1 hnew⟩

/-- The statement of C38 at `exampleLoadedGrid`, for `updateGrid` at depth 2, and at the
loaded example wavelet grid: the two proposed points 3 and 4 are new and the grid has
`3 + 2 = 5` points after the load. -/
theorem proposed_points_new_witness :
    exampleLoadedGrid.num_outputs ≠ 0 ∧ exampleLoadedGrid.points.empty = false
    ∧ (exampleWaveletGrid.loadNeededPoints exampleWaveletExternals [7, 8, 9]).num_outputs ≠ 0
    ∧ (exampleWaveletGrid.loadNeededPoints exampleWaveletExternals [7, 8, 9]).points.empty = false
    ∧ (exampleLoadedGrid.updateGrid exampleExternals 2 TypeDepth.type_level [] []).needed.indexes
        = [[3], [4]]
    ∧ ((∀ p ∈ (exampleLoadedGrid.updateGrid exampleExternals 2 TypeDepth.type_level []
            []).needed.indexes,
          p ∉ (exampleLoadedGrid.updateGrid exampleExternals 2 TypeDepth.type_level []
            []).points.indexes)
      ∧ ((exampleLoadedGrid.updateGrid exampleExternals 2 TypeDepth.type_level []
            []).loadNeededPoints exampleExternals [40, 50]).getNumPoints
          = (exampleLoadedGrid.updateGrid exampleExternals 2 TypeDepth.type_level []
              []).getNumLoaded
            + (exampleLoadedGrid.updateGrid exampleExternals 2 TypeDepth.type_level []
              []).getNumNeeded
      ∧ ((exampleLoadedGrid.updateGrid exampleExternals 2 TypeDepth.type_level []
            []).mergeRefinement exampleExternals).getNumPoints
          = (exampleLoadedGrid.updateGrid exampleExternals 2 TypeDepth.type_level []
              []).getNumLoaded
            + (exampleLoadedGrid.updateGrid exampleExternals 2 TypeDepth.type_level []
              []).getNumNeeded) :=
  ⟨by decide, by decide, by decide, by decide, by decide,
    (proposed_points_new exampleExternals exampleWaveletExternals exampleLoadedGrid
      (exampleLoadedGrid.updateGrid exampleExternals 2 TypeDepth.type_level [] [])
      (exampleWaveletGrid.loadNeededPoints exampleWaveletExternals [7, 8, 9]) 0 0 [] 2
      TypeDepth.type_level [] [] TypeRefinement.refine_classic 0 [] [40, 50] [1]
      (by decide) (by decide) (by decide) (by decide)
      (fun T N => (SpecModel.generateNestedPoints_spec T N).1)
      (fun T w => (SpecModel.generateNestedPoints_spec T w.getNumPoints).1)
      (Or.inl rfl)).1⟩

end WaveletCount

end ProposedPointsNew

/-! ## C39: the loop of the anisotropic refinement under level limits -/

section AnisotropicStuck

variable {R : Type} [LinearOrderedCommRing R] [Div R]

omit [LinearOrderedCommRing R] [Div R] in
/-- The reselected tensor set reads only the dimension, the rule and the custom tables of the
grid. -/
theorem GridGlobal.reselectTensors_congr (E : Externals R) (g s : GridGlobal R) (depth : Int)
    (type : TypeDepth) (w limits : List Int) (hd : s.num_dimensions = g.num_dimensions)
    (hr : s.rule = g.rule) (hc : s.custom = g.custom) :
    s.reselectTensors E depth type w limits = g.reselectTensors E depth type w limits := by
  unfold GridGlobal.reselectTensors GridGlobal.selectTensors
  rw [hd, hr, hc]

omit [Div R] in
/-- When no level selects a tensor outside `tensors`, every pass of the loop of
`setAnisotropicRefinement` leaves `needed` empty, and for `min_growth >= 1` no number of
passes ends the loop. -/
theorem GridGlobal.anisotropicRefinementLoop_stuck (E : Externals R) (type : TypeDepth)
    (min_growth : Int) (weights limits : List Int) (g : GridGlobal R) (hmin : 0 < min_growth)
    (hout : g.num_outputs ≠ 0) (hpts : g.points.empty = false)
    (hstuck : ∀ level : Nat,
      ((g.reselectTensors E ((level : Nat) : Int) type weights limits).diffSets g.tensors).empty = true) :
    ∀ (fuel : Nat) (s : GridGlobal R) (level : Nat),
      s.num_dimensions = g.num_dimensions → s.num_outputs = g.num_outputs → s.rule = g.rule →
      s.custom = g.custom → s.points = g.points → s.tensors = g.tensors →
      GridGlobal.anisotropicRefinementLoop E type min_growth weights limits fuel s level = none := by
  intro fuel
  induction fuel with
  | zero =>
    intro s level _ _ _ _ _ _
    rfl
  | succ fuel ih =>
    intro s level hd ho hr hc hp ht
    unfold GridGlobal.anisotropicRefinementLoop
    simp only
    have hs : ((s.reselectTensors E (((level + 1 : Nat)) : Int) type weights limits).diffSets
        s.tensors).empty = true := by
      rw [GridGlobal.reselectTensors_congr E g s _ type weights limits hd hr hc, ht]
      exact hstuck (level + 1)
    have hu : s.updateGrid E (((level + 1 : Nat)) : Int) type weights limits
        = { s.clearRefinement with
            updated_tensors := s.reselectTensors E (((level + 1 : Nat)) : Int) type weights limits } := by
      rw [GridGlobal.updateGrid_eq E s _ type weights limits (by rw [ho]; exact hout)
        (by rw [hp]; exact hpts), hs]
      rfl
    rw [hu]
    have hn : (({ s.clearRefinement with
        updated_tensors := s.reselectTensors E (((level + 1 : Nat)) : Int) type weights limits } :
          GridGlobal R).getNumNeeded : Int) < min_growth := by
      have : ({ s.clearRefinement with
        updated_tensors := s.reselectTensors E (((level + 1 : Nat)) : Int) type weights limits } :
          GridGlobal R).getNumNeeded = 0 := rfl
      rw [this]
      exact_mod_cast hmin
    rw [if_pos hn]
    exact ih _ (level + 1) hd ho hr hc hp ht

theorem SpecModel.mem_boxIndexes_one (b : Nat) (p : List Nat) (h : p ∈ SpecModel.boxIndexes b 1) :
    ∃ k, p = [k] := by
  simp only [SpecModel.boxIndexes, List.mem_flatMap, List.mem_range, List.map_cons, List.map_nil,
    List.mem_singleton] at h
  obtain ⟨k, _, hk⟩ := h
  exact ⟨k, hk⟩

/-- On the loaded one-dimensional grid with the tensors `0, 1`, under the limit `1` no level
selects a new tensor. -/
theorem exampleLoadedGrid_limited (level : Nat) (w : List Int) :
    ((exampleLoadedGrid.reselectTensors exampleExternals ((level : Nat) : Int) TypeDepth.type_level
      w [1]).diffSets exampleLoadedGrid.tensors).empty = true := by
  rw [MultiIndexSet.empty_iff]
  unfold MultiIndexSet.diffSets
  simp only
  rw [List.filter_eq_nil_iff]
  intro p hp
  have hp2 : p ∈ (MultiIndexManipulations.removeIndexesByLimit [1]
      (SpecModel.selectTensors ((level : Nat) : Int) (fun l => (l : Int)) w
        (MultiIndexSet.ofDim 1))).indexes := hp
  unfold MultiIndexManipulations.removeIndexesByLimit SpecModel.selectTensors at hp2
  simp only [MultiIndexSet.ofDim, List.mem_filter] at hp2
  obtain ⟨⟨hbox, _⟩, hlim⟩ := hp2
  obtain ⟨k, rfl⟩ := SpecModel.mem_boxIndexes_one _ _ hbox
  have hk : k ≤ 1 := by
    simp at hlim
    omega
  have ht : exampleLoadedGrid.tensors.indexes = [[0], [1]] := by decide
  unfold MultiIndexSet.missing
  rw [ht]
  interval_cases k <;> decide

/-- C39 fails when the limits cap every dimension. On the loaded one-dimensional grid with
the tensors `0, 1` (`exampleLoadedGrid`), `setAnisotropicRefinement` with
`level_limits = (1)` and `min_growth = 1` never leaves its loop: at every level `updateGrid`
reselects tensors within the limit, finds none that is new and leaves `needed` empty, so
`getNumNeeded() < min_growth` holds after every pass and no number of passes returns. -/
theorem GridGlobal.setAnisotropicRefinement_never_returns (fuel : Nat) :
    exampleLoadedGrid.num_outputs ≠ 0 ∧ exampleLoadedGrid.points.empty = false
    ∧ exampleLoadedGrid.setAnisotropicRefinement exampleExternals exampleNumericExternals fuel
        TypeDepth.type_level 1 0 [1] = none := by
  refine ⟨by decide, by decide, ?_⟩
  unfold GridGlobal.setAnisotropicRefinement
  simp only
  exact GridGlobal.anisotropicRefinementLoop_stuck exampleExternals TypeDepth.type_level 1 _ [1]
    exampleLoadedGrid (by decide) (by decide) (by decide)
    (fun level => exampleLoadedGrid_limited level _) fuel _ 0 rfl rfl rfl rfl rfl rfl

end AnisotropicStuck

end TasGrid
